import Mathlib

/-!
ImageSearchDLL: pixel-comparison kernels and bitmap search.

A shallow embedding of `ImageSearchDLL.cpp` (main build) and `_XP_/ImageSearchDLL_XP.cpp`
(XP build), followed by theorems about it.

Conventions of the embedding
* a `COLORREF` is a natural number; its bytes are taken with `%` and `/`, so only the low
  32 bits are ever looked at;
* C++ `int` values are `Int`; signed overflow is undefined behaviour in C++ and lies outside
  the model, casts and shifts that wrap are written with an explicit `%`;
* the C++ parameter names are kept: in the matchers `screen` is the buffer that is searched
  (the haystack) and `source` is the template that is looked for (the needle);
* a loop `for (; x < n; ++x)` is a recursion on the number of remaining iterations, a loop
  with a stride is a recursion on a fuel that is at least the number of iterations and
  re-tests the loop condition at every step.
-/

namespace ImageSearchDLL

/-! ## Definitions -/

/-- Windows SDK macro `GetRValue`: the low byte of a `COLORREF`. -/
def GetRValue (rgb : Nat) : Nat := rgb % 256

/-- Windows SDK macro `GetGValue`: the second byte of a `COLORREF`. -/
def GetGValue (rgb : Nat) : Nat := rgb / 256 % 256

/-- Windows SDK macro `GetBValue`: the third byte of a `COLORREF`. -/
def GetBValue (rgb : Nat) : Nat := rgb / 65536 % 256

/-- The expression `(pixel >> 24) & 0xFF`: the alpha byte of a pixel. -/
def AlphaByte (pixel : Nat) : Nat := pixel / 16777216 % 256

/-- The function `std::clamp(v, lo, hi)`. -/
def clamp (v lo hi : Int) : Int := if v < lo then lo else if hi < v then hi else v

/-- Main build, `ComputeAlphaThreshold` (ImageSearchDLL.cpp 90-95). -/
def ComputeAlphaThreshold (transparent_enabled : Bool) (tolerance : Int) : Int :=
  if !transparent_enabled then 0
  else if tolerance ≤ 0 then 255
  else
    let thresh := 255 - Int.tdiv (tolerance * 255) 255
    clamp thresh 0 255

/-- The struct `PixelBuffer`: a row-major array of `COLORREF` with its dimensions. -/
structure PixelBuffer where
  pixels : List Nat
  width : Int
  height : Int
  has_alpha : Bool
  owns_memory : Bool
deriving DecidableEq, Repr

/-- The method `PixelBuffer::IsValid`. -/
def PixelBuffer.IsValid (b : PixelBuffer) : Bool :=
  decide (b.width > 0) && decide (b.height > 0) &&
    decide ((b.pixels.length : Int) = b.width * b.height)

/-- The array access `pixels[i]`. An access outside the array has no defined value in C++;
the model returns 0 there (the theorems on the read log show that none happens). -/
def PixelBuffer.at (b : PixelBuffer) (i : Int) : Nat :=
  if 0 ≤ i then b.pixels.getD i.toNat 0 else 0

/-- The struct `MatchResult`. The `float` scale is only stored and copied by the code
modelled here; it is carried as a rational number. -/
structure MatchResult where
  x : Int
  y : Int
  w : Int
  h : Int
  scale : Rat
  source_file : String
deriving DecidableEq, Repr

/-- One pixel read of the scalar matcher: which array, and at which index. -/
inductive PixelRead where
  | source (index : Int)
  | screen (index : Int)
deriving DecidableEq, Repr

namespace PixelComparison

/-- Main build, `PixelComparison::IsValidSearchRegion` (1196-1201). -/
def IsValidSearchRegion (start_x start_y source_width source_height
    screen_width screen_height : Int) : Bool :=
  decide (start_x ≥ 0) && decide (start_y ≥ 0) &&
    decide (start_x + source_width ≤ screen_width) &&
    decide (start_y + source_height ≤ screen_height)

/-- The colour test of the scalar loop body (1226-1228): some channel differs by more than
the tolerance. -/
def RgbExceeds (tolerance : Int) (source_pixel screen_pixel : Nat) : Bool :=
  decide ((((GetRValue source_pixel : Int) - (GetRValue screen_pixel : Int)).natAbs : Int)
      > tolerance) ||
  decide ((((GetGValue source_pixel : Int) - (GetGValue screen_pixel : Int)).natAbs : Int)
      > tolerance) ||
  decide ((((GetBValue source_pixel : Int) - (GetBValue screen_pixel : Int)).natAbs : Int)
      > tolerance)

/-- One iteration of the body of the scalar inner loop (1218-1230) at column `x` of template
row `y`: `true` when the iteration ends in `continue` or falls through to the next pixel,
`false` when it executes `return false`. -/
def CheckApproxMatch_Scalar_pixel (screen source : PixelBuffer) (start_x start_y : Int)
    (transparent_enabled : Bool) (tolerance alpha_threshold : Int) (y x : Int) : Bool :=
  let source_pixel := source.at (y * source.width + x)
  if transparent_enabled && decide ((AlphaByte source_pixel : Int) < alpha_threshold) then true
  else
    let screen_pixel := screen.at ((start_y + y) * screen.width + start_x + x)
    !RgbExceeds tolerance source_pixel screen_pixel

/-- The inner loop `for (; x < source.width; ++x)` of the scalar matcher (1217-1231), run for
`n` more pixels from column `x` of template row `y`. The result is `false` when the loop
executes `return false`, and `true` when it runs to its end; the second component lists the
pixel reads in the order in which they are made. -/
def CheckApproxMatch_Scalar_row (screen source : PixelBuffer) (start_x start_y : Int)
    (transparent_enabled : Bool) (tolerance alpha_threshold : Int) (y : Int) :
    Nat → Int → Bool × List PixelRead
  | 0, _ => (true, [])
  | n + 1, x =>
    let si := y * source.width + x
    let source_pixel := source.at si
    if transparent_enabled && decide ((AlphaByte source_pixel : Int) < alpha_threshold) then
      let r := CheckApproxMatch_Scalar_row screen source start_x start_y transparent_enabled
        tolerance alpha_threshold y n (x + 1)
      (r.1, PixelRead.source si :: r.2)
    else
      let ci := (start_y + y) * screen.width + start_x + x
      let screen_pixel := screen.at ci
      if RgbExceeds tolerance source_pixel screen_pixel then
        (false, [PixelRead.source si, PixelRead.screen ci])
      else
        let r := CheckApproxMatch_Scalar_row screen source start_x start_y transparent_enabled
          tolerance alpha_threshold y n (x + 1)
        (r.1, PixelRead.source si :: PixelRead.screen ci :: r.2)

/-- The outer loop `for (int y = 0; y < source.height; ++y)` of the scalar matcher
(1213-1232), run for `n` more rows from row `y`. -/
def CheckApproxMatch_Scalar_rows (screen source : PixelBuffer) (start_x start_y : Int)
    (transparent_enabled : Bool) (tolerance alpha_threshold : Int) :
    Nat → Int → Bool × List PixelRead
  | 0, _ => (true, [])
  | n + 1, y =>
    let r := CheckApproxMatch_Scalar_row screen source start_x start_y transparent_enabled
      tolerance alpha_threshold y source.width.toNat 0
    if r.1 then
      let r2 := CheckApproxMatch_Scalar_rows screen source start_x start_y transparent_enabled
        tolerance alpha_threshold n (y + 1)
      (r2.1, r.2 ++ r2.2)
    else (false, r.2)

/-- Main build, `PixelComparison::CheckApproxMatch_Scalar` (1203-1234), together with the
log of its pixel reads. -/
def CheckApproxMatch_Scalar_traced (screen source : PixelBuffer) (start_x start_y : Int)
    (transparent_enabled : Bool) (tolerance : Int) : Bool × List PixelRead :=
  if !IsValidSearchRegion start_x start_y source.width source.height
      screen.width screen.height then (false, [])
  else
    let alpha_threshold := ComputeAlphaThreshold transparent_enabled tolerance
    CheckApproxMatch_Scalar_rows screen source start_x start_y transparent_enabled
      tolerance alpha_threshold source.height.toNat 0

/-- Main build, `PixelComparison::CheckApproxMatch_Scalar` (1203-1234): the decision. -/
def CheckApproxMatch_Scalar (screen source : PixelBuffer) (start_x start_y : Int)
    (transparent_enabled : Bool) (tolerance : Int) : Bool :=
  (CheckApproxMatch_Scalar_traced screen source start_x start_y transparent_enabled
    tolerance).1

end PixelComparison

/-! ### Vector registers

The intrinsics are compiler built-ins; they are modelled after their documented meaning. A
register is a sequence of 32-bit lanes (4 in an `__m128i`, 8 in an `__m256i`, 16 in an
`__m512i`), each lane being four bytes, least significant first. Lanes beyond the width of
a register are never inspected. -/

/-- One 32-bit lane of a vector register, as its four bytes, least significant first. -/
structure Lane32 where
  b0 : Nat
  b1 : Nat
  b2 : Nat
  b3 : Nat
deriving DecidableEq, Repr

namespace Lane32

/-- The lane that holds the low 32 bits of `v`. -/
def ofNat (v : Nat) : Lane32 := ⟨v % 256, v / 256 % 256, v / 65536 % 256, v / 16777216 % 256⟩

/-- The unsigned value of a lane. -/
def toNat (l : Lane32) : Nat := l.b0 + 256 * l.b1 + 65536 * l.b2 + 16777216 * l.b3

/-- The lane that holds the 32-bit two's complement pattern of `v`. -/
def ofInt (v : Int) : Lane32 := ofNat (v % 4294967296).toNat

/-- The signed (two's complement) value of a lane. -/
def toInt (l : Lane32) : Int :=
  if l.toNat < 2147483648 then (l.toNat : Int) else (l.toNat : Int) - 4294967296

/-- The lane with all bits clear. -/
def zero : Lane32 := ⟨0, 0, 0, 0⟩

/-- The lane with all bits set. -/
def ones : Lane32 := ⟨255, 255, 255, 255⟩

/-- Whether all bits of the lane are clear. -/
def isZero (l : Lane32) : Bool := l.b0 == 0 && l.b1 == 0 && l.b2 == 0 && l.b3 == 0

/-- Byte `j` of the lane (`j < 4`). -/
def byte (l : Lane32) (j : Nat) : Nat :=
  match j with
  | 0 => l.b0
  | 1 => l.b1
  | 2 => l.b2
  | _ => l.b3

/-- The 16-bit word `j` of the lane (`j < 2`), unsigned. -/
def word (l : Lane32) (j : Nat) : Nat :=
  match j with
  | 0 => l.b0 + 256 * l.b1
  | _ => l.b2 + 256 * l.b3

/-- The lane made of the low 16 bits of `w0` and of `w1`. -/
def ofWords (w0 w1 : Nat) : Lane32 := ⟨w0 % 256, w0 / 256 % 256, w1 % 256, w1 / 256 % 256⟩

/-- Bitwise and. -/
def and (a b : Lane32) : Lane32 := ⟨a.b0 &&& b.b0, a.b1 &&& b.b1, a.b2 &&& b.b2, a.b3 &&& b.b3⟩

/-- Bitwise or. -/
def or (a b : Lane32) : Lane32 := ⟨a.b0 ||| b.b0, a.b1 ||| b.b1, a.b2 ||| b.b2, a.b3 ||| b.b3⟩

/-- Bitwise `(NOT a) AND b`. -/
def andnot (a b : Lane32) : Lane32 :=
  ⟨(a.b0 ^^^ 255) &&& b.b0, (a.b1 ^^^ 255) &&& b.b1, (a.b2 ^^^ 255) &&& b.b2,
    (a.b3 ^^^ 255) &&& b.b3⟩

end Lane32

/-- A vector register: lane index to lane. -/
abbrev Vec := Nat → Lane32

/-- Byte `k` of a register. -/
def Vec.byte (a : Vec) (k : Nat) : Nat := (a (k / 4)).byte (k % 4)

/-- The 16-bit word `j` of a register, unsigned. -/
def Vec.word (a : Vec) (j : Nat) : Nat := (a (j / 2)).word (j % 2)

/-- The signed value of a 16-bit word. -/
def toInt16 (w : Nat) : Int := if w % 65536 < 32768 then ((w % 65536 : Nat) : Int)
  else ((w % 65536 : Nat) : Int) - 65536

/-- The integer made of the bits `f 0, ..., f (n - 1)`, bit 0 first. -/
def maskOfBits : Nat → (Nat → Bool) → Nat
  | 0, _ => 0
  | n + 1, f => maskOfBits n f + (if f n then 2 ^ n else 0)

/-- Intrinsics `_mm_set1_epi32`, `_mm256_set1_epi32`, `_mm512_set1_epi32`. -/
def set1_epi32 (a : Int) : Vec := fun _ => Lane32.ofInt a

/-- Intrinsics `_mm256_set1_epi8`, `_mm512_set1_epi8`, applied to `static_cast<char>(a)`:
every byte is `a` modulo 256. -/
def set1_epi8 (a : Int) : Vec :=
  fun _ => ⟨(a % 256).toNat, (a % 256).toNat, (a % 256).toNat, (a % 256).toNat⟩

/-- Intrinsic `_mm_set1_epi16`: every 16-bit word is `a` modulo 65536. -/
def set1_epi16 (a : Int) : Vec :=
  fun _ => Lane32.ofWords (a % 65536).toNat (a % 65536).toNat

/-- Intrinsics `_mm_setzero_si128`, `_mm256_setzero_si256`. -/
def setzero : Vec := fun _ => Lane32.zero

/-- Intrinsics `_mm_loadu_si128`, `_mm256_loadu_si256`, `_mm512_loadu_si512` applied to a
pointer into a pixel row: lane `k` is the pixel `k` places after the pointer. -/
def loadu (row : Nat → Nat) : Vec := fun k => Lane32.ofNat (row k)

/-- Intrinsics `_mm_srli_epi32`, `_mm256_srli_epi32`, `_mm512_srli_epi32`. -/
def srli_epi32 (a : Vec) (imm : Nat) : Vec := fun k => Lane32.ofNat ((a k).toNat / 2 ^ imm)

/-- Intrinsics `_mm_and_si128`, `_mm256_and_si256`, `_mm512_and_si512`. -/
def and_si (a b : Vec) : Vec := fun k => Lane32.and (a k) (b k)

/-- Intrinsics `_mm256_or_si256`, `_mm512_or_si512`. -/
def or_si (a b : Vec) : Vec := fun k => Lane32.or (a k) (b k)

/-- Intrinsics `_mm_andnot_si128`, `_mm256_andnot_si256`: `(NOT a) AND b`. -/
def andnot_si (a b : Vec) : Vec := fun k => Lane32.andnot (a k) (b k)

/-- Intrinsics `_mm256_subs_epu8`, `_mm512_subs_epu8`: unsigned saturating subtraction of
bytes. -/
def subs_epu8 (a b : Vec) : Vec :=
  fun k => ⟨(a k).b0 - (b k).b0, (a k).b1 - (b k).b1, (a k).b2 - (b k).b2,
    (a k).b3 - (b k).b3⟩

/-- Intrinsic `_mm256_cmpgt_epi32`: signed comparison of the lanes, all ones where
`a > b`. -/
def cmpgt_epi32 (a b : Vec) : Vec :=
  fun k => if (a k).toInt > (b k).toInt then Lane32.ones else Lane32.zero

/-- Intrinsic `_mm_cmplt_epi32`: signed comparison of the lanes, all ones where `a < b`. -/
def cmplt_epi32 (a b : Vec) : Vec :=
  fun k => if (a k).toInt < (b k).toInt then Lane32.ones else Lane32.zero

/-- Intrinsic `_mm256_testc_si256` on a register of `n` lanes: 1 when `(NOT a) AND b` is
all zero. -/
def testc (n : Nat) (a b : Vec) : Bool :=
  (List.range n).all fun k => (Lane32.andnot (a k) (b k)).isZero

/-- Intrinsic `_mm256_testz_si256` on a register of `n` lanes: 1 when `a AND b` is all
zero. -/
def testz (n : Nat) (a b : Vec) : Bool :=
  (List.range n).all fun k => (Lane32.and (a k) (b k)).isZero

/-- Intrinsic `_mm512_cmp_epi32_mask` with `_MM_CMPINT_LT`: bit `k` of the 16-bit mask is
set when lane `k` of `a` is below lane `k` of `b` as signed integers. -/
def cmp_epi32_mask_lt (a b : Vec) : Nat :=
  maskOfBits 16 fun k => decide ((a k).toInt < (b k).toInt)

/-- Intrinsic `_mm512_cmp_epu8_mask` with `_MM_CMPINT_GT`: bit `k` of the 64-bit mask is
set when byte `k` of `a` is above byte `k` of `b` as unsigned integers. -/
def cmp_epu8_mask_gt (a b : Vec) : Nat :=
  maskOfBits 64 fun k => decide (Vec.byte a k > Vec.byte b k)

/-- Intrinsic `_mm_movemask_epi8`: bit `k` of the result is the top bit of byte `k`. -/
def movemask_epi8 (a : Vec) : Nat :=
  maskOfBits 16 fun k => decide (Vec.byte a k ≥ 128)

/-- Intrinsic `_mm_unpacklo_epi8`: the low 8 bytes of `a` and of `b`, interleaved. -/
def unpacklo_epi8 (a b : Vec) : Vec :=
  fun i => ⟨Vec.byte a (2 * i), Vec.byte b (2 * i), Vec.byte a (2 * i + 1),
    Vec.byte b (2 * i + 1)⟩

/-- Intrinsic `_mm_unpackhi_epi8`: the high 8 bytes of `a` and of `b`, interleaved. -/
def unpackhi_epi8 (a b : Vec) : Vec :=
  fun i => ⟨Vec.byte a (8 + 2 * i), Vec.byte b (8 + 2 * i), Vec.byte a (8 + 2 * i + 1),
    Vec.byte b (8 + 2 * i + 1)⟩

/-- Intrinsic `_mm_sub_epi16`: subtraction of 16-bit words, wrapping. -/
def sub_epi16 (a b : Vec) : Vec :=
  fun i => Lane32.ofWords (((a i).word 0 + 65536 - (b i).word 0) % 65536)
    (((a i).word 1 + 65536 - (b i).word 1) % 65536)

/-- Intrinsic `_mm_max_epi16`: the larger of two 16-bit words, compared as signed. -/
def max_epi16 (a b : Vec) : Vec :=
  fun i => Lane32.ofWords
    (if toInt16 ((a i).word 0) ≥ toInt16 ((b i).word 0) then (a i).word 0 else (b i).word 0)
    (if toInt16 ((a i).word 1) ≥ toInt16 ((b i).word 1) then (a i).word 1 else (b i).word 1)

/-- Intrinsic `_mm_cmpgt_epi16`: signed comparison of 16-bit words, all ones where
`a > b`. -/
def cmpgt_epi16 (a b : Vec) : Vec :=
  fun i => Lane32.ofWords
    (if toInt16 ((a i).word 0) > toInt16 ((b i).word 0) then 65535 else 0)
    (if toInt16 ((a i).word 1) > toInt16 ((b i).word 1) then 65535 else 0)

/-- Signed saturation of a 16-bit word to a byte, as done by `_mm_packs_epi16`. -/
def packs_byte (w : Nat) : Nat :=
  if toInt16 w > 127 then 127
  else if toInt16 w < -128 then 128
  else (toInt16 w % 256).toNat

/-- Intrinsic `_mm_packs_epi16`: the eight words of `a`, then the eight words of `b`, each
saturated to a signed byte. -/
def packs_epi16 (a b : Vec) : Vec :=
  fun i =>
    if i < 2 then
      ⟨packs_byte (Vec.word a (4 * i)), packs_byte (Vec.word a (4 * i + 1)),
        packs_byte (Vec.word a (4 * i + 2)), packs_byte (Vec.word a (4 * i + 3))⟩
    else
      ⟨packs_byte (Vec.word b (4 * (i - 2))), packs_byte (Vec.word b (4 * (i - 2) + 1)),
        packs_byte (Vec.word b (4 * (i - 2) + 2)), packs_byte (Vec.word b (4 * (i - 2) + 3))⟩

namespace PixelComparison

/-- One iteration of the 8-pixel loop of `CheckApproxMatch_AVX2` (1256-1286) at column `x`
of template row `y`: `true` when the iteration ends in `continue` or reaches its end,
`false` when it executes `return false`. -/
def CheckApproxMatch_AVX2_step (screen source : PixelBuffer) (start_x start_y : Int)
    (transparent_enabled : Bool) (tolerance alpha_threshold : Int) (y x : Int) : Bool :=
  let v_alpha_threshold := set1_epi32 alpha_threshold
  let v_rgb_mask := set1_epi32 0x00FFFFFF
  let v_tolerance8 := set1_epi8 tolerance
  let v_source := loadu fun k => source.at (y * source.width + (x + k))
  let v_transparent_mask :=
    if transparent_enabled then
      let v_alpha := srli_epi32 v_source 24
      cmpgt_epi32 v_alpha_threshold v_alpha
    else setzero
  if transparent_enabled && testc 8 v_transparent_mask (set1_epi32 (-1)) then true
  else
    let v_screen := loadu fun k =>
      screen.at ((start_y + y) * screen.width + start_x + (x + k))
    let v_source_rgb := and_si v_source v_rgb_mask
    let v_screen_rgb := and_si v_screen v_rgb_mask
    let v_diff1 := subs_epu8 v_source_rgb v_screen_rgb
    let v_diff2 := subs_epu8 v_screen_rgb v_source_rgb
    let v_abs_diff := or_si v_diff1 v_diff2
    let v_check := subs_epu8 v_abs_diff v_tolerance8
    let v_mismatch := andnot_si v_transparent_mask v_check
    testz 8 v_mismatch v_mismatch

/-- The loops over one template row of `CheckApproxMatch_AVX2` (1255-1302): the loop
`for (; x + 7 < source.width; x += 8)` from column `x`, followed by the scalar loop over
the remaining pixels, which is the text of the scalar matcher's inner loop. When the fuel
is used up the vector loop is left as when its condition fails. -/
def CheckApproxMatch_AVX2_row (screen source : PixelBuffer) (start_x start_y : Int)
    (transparent_enabled : Bool) (tolerance alpha_threshold : Int) (y : Int) :
    Nat → Int → Bool
  | 0, x =>
    (CheckApproxMatch_Scalar_row screen source start_x start_y transparent_enabled tolerance
      alpha_threshold y (source.width - x).toNat x).1
  | fuel + 1, x =>
    if x + 7 < source.width then
      if CheckApproxMatch_AVX2_step screen source start_x start_y transparent_enabled
          tolerance alpha_threshold y x then
        CheckApproxMatch_AVX2_row screen source start_x start_y transparent_enabled
          tolerance alpha_threshold y fuel (x + 8)
      else false
    else
      (CheckApproxMatch_Scalar_row screen source start_x start_y transparent_enabled
        tolerance alpha_threshold y (source.width - x).toNat x).1

/-- The loop over the template rows of `CheckApproxMatch_AVX2` (1251-1303), run for `n`
more rows from row `y`. -/
def CheckApproxMatch_AVX2_rows (screen source : PixelBuffer) (start_x start_y : Int)
    (transparent_enabled : Bool) (tolerance alpha_threshold : Int) : Nat → Int → Bool
  | 0, _ => true
  | n + 1, y =>
    if CheckApproxMatch_AVX2_row screen source start_x start_y transparent_enabled tolerance
        alpha_threshold y source.width.toNat 0 then
      CheckApproxMatch_AVX2_rows screen source start_x start_y transparent_enabled tolerance
        alpha_threshold n (y + 1)
    else false

/-- Main build, `PixelComparison::CheckApproxMatch_AVX2` (1237-1305). -/
def CheckApproxMatch_AVX2 (screen source : PixelBuffer) (start_x start_y : Int)
    (transparent_enabled : Bool) (tolerance : Int) : Bool :=
  if !IsValidSearchRegion start_x start_y source.width source.height
      screen.width screen.height then false
  else
    let alpha_threshold := ComputeAlphaThreshold transparent_enabled tolerance
    CheckApproxMatch_AVX2_rows screen source start_x start_y transparent_enabled tolerance
      alpha_threshold source.height.toNat 0

/-- The loop `for (int p = 0; p < 16; ++p)` of `CheckApproxMatch_AVX512` (1350-1354), which
widens the 16-bit pixel mask to a 64-bit byte mask. -/
def expand_transparent_mask (transparent_mask : Nat) : Nat :=
  (List.range 16).foldl
    (fun expanded p =>
      if transparent_mask &&& (1 <<< p) != 0 then expanded ||| (0xF <<< (p * 4))
      else expanded) 0

/-- One iteration of the 16-pixel loop of `CheckApproxMatch_AVX512` (1325-1364) at column
`x` of template row `y`: `false` when it executes `return false`. The constant
`v_alpha_threshold` (1318), which the function never uses, is left out. -/
def CheckApproxMatch_AVX512_step (screen source : PixelBuffer) (start_x start_y : Int)
    (transparent_enabled : Bool) (tolerance alpha_threshold : Int) (y x : Int) : Bool :=
  let v_rgb_mask := set1_epi32 0x00FFFFFF
  let v_tolerance8 := set1_epi8 tolerance
  let v_source := loadu fun k => source.at (y * source.width + (x + k))
  let transparent_mask :=
    if transparent_enabled then
      let v_alpha := srli_epi32 v_source 24
      cmp_epi32_mask_lt v_alpha (set1_epi32 alpha_threshold)
    else 0
  if transparent_enabled && transparent_mask == 0xFFFF then true
  else
    let v_screen := loadu fun k =>
      screen.at ((start_y + y) * screen.width + start_x + (x + k))
    let v_source_rgb := and_si v_source v_rgb_mask
    let v_screen_rgb := and_si v_screen v_rgb_mask
    let v_diff1 := subs_epu8 v_source_rgb v_screen_rgb
    let v_diff2 := subs_epu8 v_screen_rgb v_source_rgb
    let v_abs_diff := or_si v_diff1 v_diff2
    let v_exceed := cmp_epu8_mask_gt v_abs_diff v_tolerance8
    let transparent_byte_mask :=
      if transparent_enabled && transparent_mask != 0 then
        expand_transparent_mask transparent_mask
      else 0
    let v_mismatch := v_exceed &&& (transparent_byte_mask ^^^ 0xFFFFFFFFFFFFFFFF)
    v_mismatch == 0

/-- One iteration of the 8-pixel loop embedded in `CheckApproxMatch_AVX512` (1369-1395) at
column `x` of template row `y`: `false` when it executes `return false`. Here the alpha
byte is left in the top byte of its lane and compared, as a signed 32-bit integer, with
`alpha_threshold << 24`. -/
def CheckApproxMatch_AVX512_step8 (screen source : PixelBuffer) (start_x start_y : Int)
    (transparent_enabled : Bool) (tolerance alpha_threshold : Int) (y x : Int) : Bool :=
  let v_source := loadu fun k => source.at (y * source.width + (x + k))
  let v_transparent_mask :=
    if transparent_enabled then
      let v_alpha := and_si v_source (set1_epi32 0xFF000000)
      cmpgt_epi32 (set1_epi32 (alpha_threshold * 16777216)) v_alpha
    else setzero
  if transparent_enabled && testc 8 v_transparent_mask (set1_epi32 (-1)) then true
  else
    let v_screen := loadu fun k =>
      screen.at ((start_y + y) * screen.width + start_x + (x + k))
    let v_source_rgb := and_si v_source (set1_epi32 0x00FFFFFF)
    let v_screen_rgb := and_si v_screen (set1_epi32 0x00FFFFFF)
    let v_diff1 := subs_epu8 v_source_rgb v_screen_rgb
    let v_diff2 := subs_epu8 v_screen_rgb v_source_rgb
    let v_abs_diff := or_si v_diff1 v_diff2
    let v_check := subs_epu8 v_abs_diff (set1_epi8 tolerance)
    let v_mismatch := andnot_si v_transparent_mask v_check
    testz 8 v_mismatch v_mismatch

/-- The embedded loop `for (; x + 7 < source.width; x += 8)` of `CheckApproxMatch_AVX512`
(1369-1395) from column `x`, followed by the scalar loop over the remaining pixels
(1398-1411). -/
def CheckApproxMatch_AVX512_tail8 (screen source : PixelBuffer) (start_x start_y : Int)
    (transparent_enabled : Bool) (tolerance alpha_threshold : Int) (y : Int) :
    Nat → Int → Bool
  | 0, x =>
    (CheckApproxMatch_Scalar_row screen source start_x start_y transparent_enabled tolerance
      alpha_threshold y (source.width - x).toNat x).1
  | fuel + 1, x =>
    if x + 7 < source.width then
      if CheckApproxMatch_AVX512_step8 screen source start_x start_y transparent_enabled
          tolerance alpha_threshold y x then
        CheckApproxMatch_AVX512_tail8 screen source start_x start_y transparent_enabled
          tolerance alpha_threshold y fuel (x + 8)
      else false
    else
      (CheckApproxMatch_Scalar_row screen source start_x start_y transparent_enabled
        tolerance alpha_threshold y (source.width - x).toNat x).1

/-- What follows the 16-pixel loop in a row of `CheckApproxMatch_AVX512` (1368-1411): the
embedded 8-pixel loop when `g_is_avx2_supported` is set, then the scalar loop. -/
def CheckApproxMatch_AVX512_after (g_is_avx2_supported : Bool) (screen source : PixelBuffer)
    (start_x start_y : Int) (transparent_enabled : Bool) (tolerance alpha_threshold : Int)
    (y x : Int) : Bool :=
  if g_is_avx2_supported then
    CheckApproxMatch_AVX512_tail8 screen source start_x start_y transparent_enabled
      tolerance alpha_threshold y source.width.toNat x
  else
    (CheckApproxMatch_Scalar_row screen source start_x start_y transparent_enabled tolerance
      alpha_threshold y (source.width - x).toNat x).1

/-- The loops over one template row of `CheckApproxMatch_AVX512` (1324-1411): the loop
`for (; x + 15 < source.width; x += 16)` from column `x`, then the rest of the row. -/
def CheckApproxMatch_AVX512_row (g_is_avx2_supported : Bool) (screen source : PixelBuffer)
    (start_x start_y : Int) (transparent_enabled : Bool) (tolerance alpha_threshold : Int)
    (y : Int) : Nat → Int → Bool
  | 0, x =>
    CheckApproxMatch_AVX512_after g_is_avx2_supported screen source start_x start_y
      transparent_enabled tolerance alpha_threshold y x
  | fuel + 1, x =>
    if x + 15 < source.width then
      if CheckApproxMatch_AVX512_step screen source start_x start_y transparent_enabled
          tolerance alpha_threshold y x then
        CheckApproxMatch_AVX512_row g_is_avx2_supported screen source start_x start_y
          transparent_enabled tolerance alpha_threshold y fuel (x + 16)
      else false
    else
      CheckApproxMatch_AVX512_after g_is_avx2_supported screen source start_x start_y
        transparent_enabled tolerance alpha_threshold y x

/-- The loop over the template rows of `CheckApproxMatch_AVX512` (1320-1412), run for `n`
more rows from row `y`. -/
def CheckApproxMatch_AVX512_rows (g_is_avx2_supported : Bool) (screen source : PixelBuffer)
    (start_x start_y : Int) (transparent_enabled : Bool) (tolerance alpha_threshold : Int) :
    Nat → Int → Bool
  | 0, _ => true
  | n + 1, y =>
    if CheckApproxMatch_AVX512_row g_is_avx2_supported screen source start_x start_y
        transparent_enabled tolerance alpha_threshold y source.width.toNat 0 then
      CheckApproxMatch_AVX512_rows g_is_avx2_supported screen source start_x start_y
        transparent_enabled tolerance alpha_threshold n (y + 1)
    else false

/-- Main build, `PixelComparison::CheckApproxMatch_AVX512` (1307-1417). The global
`g_is_avx2_supported`, which the function reads, is its first argument. -/
def CheckApproxMatch_AVX512 (g_is_avx2_supported : Bool) (screen source : PixelBuffer)
    (start_x start_y : Int) (transparent_enabled : Bool) (tolerance : Int) : Bool :=
  if !IsValidSearchRegion start_x start_y source.width source.height
      screen.width screen.height then false
  else
    let alpha_threshold := ComputeAlphaThreshold transparent_enabled tolerance
    CheckApproxMatch_AVX512_rows g_is_avx2_supported screen source start_x start_y
      transparent_enabled tolerance alpha_threshold source.height.toNat 0

/-- One iteration of the 4-pixel loop of `CheckApproxMatch_SSE2` (main build 1439-1476, XP
build 1354-1395, the same text) at column `x` of template row `y`: `false` when it executes
`return false`. The constant `v_alpha_threshold`, which the function never uses, is left
out. -/
def CheckApproxMatch_SSE2_step (screen source : PixelBuffer) (start_x start_y : Int)
    (transparent_enabled : Bool) (tolerance alpha_threshold : Int) (y x : Int) : Bool :=
  let v_rgb_mask := set1_epi32 0x00FFFFFF
  let v_tolerance := set1_epi16 tolerance
  let v_zero := setzero
  let v_source := loadu fun k => source.at (y * source.width + (x + k))
  let v_transparent_mask :=
    if transparent_enabled then
      let v_alpha := srli_epi32 v_source 24
      let v_alpha_compare := cmplt_epi32 v_alpha (set1_epi32 alpha_threshold)
      v_alpha_compare
    else setzero
  let mask := movemask_epi8 v_transparent_mask
  if transparent_enabled && mask == 0xFFFF then true
  else
    let v_screen := loadu fun k =>
      screen.at ((start_y + y) * screen.width + start_x + (x + k))
    let v_source_rgb := and_si v_source v_rgb_mask
    let v_screen_rgb := and_si v_screen v_rgb_mask
    let v_source_lo := unpacklo_epi8 v_source_rgb v_zero
    let v_source_hi := unpackhi_epi8 v_source_rgb v_zero
    let v_screen_lo := unpacklo_epi8 v_screen_rgb v_zero
    let v_screen_hi := unpackhi_epi8 v_screen_rgb v_zero
    let v_diff_lo := sub_epi16 v_source_lo v_screen_lo
    let v_diff_hi := sub_epi16 v_source_hi v_screen_hi
    let v_abs_diff_lo := max_epi16 v_diff_lo (sub_epi16 v_zero v_diff_lo)
    let v_abs_diff_hi := max_epi16 v_diff_hi (sub_epi16 v_zero v_diff_hi)
    let v_check_lo := cmpgt_epi16 v_abs_diff_lo v_tolerance
    let v_check_hi := cmpgt_epi16 v_abs_diff_hi v_tolerance
    let v_check := packs_epi16 v_check_lo v_check_hi
    let v_mismatch := andnot_si v_transparent_mask v_check
    !(movemask_epi8 v_mismatch != 0)

/-- The loops over one template row of `CheckApproxMatch_SSE2` (1438-1493): the loop
`for (; x + 3 < source.width; x += 4)` from column `x`, followed by the scalar loop over
the remaining pixels. -/
def CheckApproxMatch_SSE2_row (screen source : PixelBuffer) (start_x start_y : Int)
    (transparent_enabled : Bool) (tolerance alpha_threshold : Int) (y : Int) :
    Nat → Int → Bool
  | 0, x =>
    (CheckApproxMatch_Scalar_row screen source start_x start_y transparent_enabled tolerance
      alpha_threshold y (source.width - x).toNat x).1
  | fuel + 1, x =>
    if x + 3 < source.width then
      if CheckApproxMatch_SSE2_step screen source start_x start_y transparent_enabled
          tolerance alpha_threshold y x then
        CheckApproxMatch_SSE2_row screen source start_x start_y transparent_enabled
          tolerance alpha_threshold y fuel (x + 4)
      else false
    else
      (CheckApproxMatch_Scalar_row screen source start_x start_y transparent_enabled
        tolerance alpha_threshold y (source.width - x).toNat x).1

/-- The loop over the template rows of `CheckApproxMatch_SSE2` (1434-1494), run for `n`
more rows from row `y`. -/
def CheckApproxMatch_SSE2_rows (screen source : PixelBuffer) (start_x start_y : Int)
    (transparent_enabled : Bool) (tolerance alpha_threshold : Int) : Nat → Int → Bool
  | 0, _ => true
  | n + 1, y =>
    if CheckApproxMatch_SSE2_row screen source start_x start_y transparent_enabled tolerance
        alpha_threshold y source.width.toNat 0 then
      CheckApproxMatch_SSE2_rows screen source start_x start_y transparent_enabled tolerance
        alpha_threshold n (y + 1)
    else false

/-- Main build, `PixelComparison::CheckApproxMatch_SSE2` (1419-1498). -/
def CheckApproxMatch_SSE2 (screen source : PixelBuffer) (start_x start_y : Int)
    (transparent_enabled : Bool) (tolerance : Int) : Bool :=
  if !IsValidSearchRegion start_x start_y source.width source.height
      screen.width screen.height then false
  else
    let alpha_threshold := ComputeAlphaThreshold transparent_enabled tolerance
    CheckApproxMatch_SSE2_rows screen source start_x start_y transparent_enabled tolerance
      alpha_threshold source.height.toNat 0

end PixelComparison

namespace XP

/-- XP build, `ComputeAlphaThreshold` (ImageSearchDLL_XP.cpp 165-172). -/
def ComputeAlphaThreshold (transparent_enabled : Bool) (tolerance : Int) : Int :=
  if !transparent_enabled then 0
  else if tolerance ≤ 0 then 255
  else
    let thresh := 255 - Int.tdiv (tolerance * 255) 255
    if thresh < 0 then 0
    else if thresh > 255 then 255
    else thresh

namespace PixelComparison

/-- XP build, `PixelComparison::IsValidSearchRegion` (1286-1291). -/
def IsValidSearchRegion (start_x start_y source_width source_height
    screen_width screen_height : Int) : Bool :=
  decide (start_x ≥ 0) && decide (start_y ≥ 0) &&
    decide (start_x + source_width ≤ screen_width) &&
    decide (start_y + source_height ≤ screen_height)

/-- The colour test of the XP scalar loop body (1315-1325): the three differences are
negated when negative and then compared with the tolerance. -/
def RgbExceeds (tolerance : Int) (source_pixel screen_pixel : Nat) : Bool :=
  let r_diff := (GetRValue source_pixel : Int) - (GetRValue screen_pixel : Int)
  let g_diff := (GetGValue source_pixel : Int) - (GetGValue screen_pixel : Int)
  let b_diff := (GetBValue source_pixel : Int) - (GetBValue screen_pixel : Int)
  let r_diff := if r_diff < 0 then -r_diff else r_diff
  let g_diff := if g_diff < 0 then -g_diff else g_diff
  let b_diff := if b_diff < 0 then -b_diff else b_diff
  decide (r_diff > tolerance) || decide (g_diff > tolerance) || decide (b_diff > tolerance)

/-- The inner loop of the XP scalar matcher (1306-1328), run for `n` more pixels from column
`x` of template row `y`: `false` when it executes `return false`. -/
def CheckApproxMatch_Scalar_row (screen source : PixelBuffer) (start_x start_y : Int)
    (transparent_enabled : Bool) (tolerance alpha_threshold : Int) (y : Int) :
    Nat → Int → Bool
  | 0, _ => true
  | n + 1, x =>
    let source_pixel := source.at (y * source.width + x)
    if transparent_enabled && decide ((AlphaByte source_pixel : Int) < alpha_threshold) then
      CheckApproxMatch_Scalar_row screen source start_x start_y transparent_enabled
        tolerance alpha_threshold y n (x + 1)
    else
      let screen_pixel := screen.at ((start_y + y) * screen.width + start_x + x)
      if RgbExceeds tolerance source_pixel screen_pixel then false
      else
        CheckApproxMatch_Scalar_row screen source start_x start_y transparent_enabled
          tolerance alpha_threshold y n (x + 1)

/-- The outer loop of the XP scalar matcher (1302-1329), run for `n` more rows from row
`y`. -/
def CheckApproxMatch_Scalar_rows (screen source : PixelBuffer) (start_x start_y : Int)
    (transparent_enabled : Bool) (tolerance alpha_threshold : Int) : Nat → Int → Bool
  | 0, _ => true
  | n + 1, y =>
    if CheckApproxMatch_Scalar_row screen source start_x start_y transparent_enabled
        tolerance alpha_threshold y source.width.toNat 0 then
      CheckApproxMatch_Scalar_rows screen source start_x start_y transparent_enabled
        tolerance alpha_threshold n (y + 1)
    else false

/-- XP build, `PixelComparison::CheckApproxMatch_Scalar` (1293-1331). -/
def CheckApproxMatch_Scalar (screen source : PixelBuffer) (start_x start_y : Int)
    (transparent_enabled : Bool) (tolerance : Int) : Bool :=
  if !IsValidSearchRegion start_x start_y source.width source.height
      screen.width screen.height then false
  else
    let alpha_threshold := ComputeAlphaThreshold transparent_enabled tolerance
    CheckApproxMatch_Scalar_rows screen source start_x start_y transparent_enabled
      tolerance alpha_threshold source.height.toNat 0

/-- The loops over one template row of the XP `CheckApproxMatch_SSE2` (1353-1416): the
4-pixel loop, whose body is the text of the main build's, followed by the XP scalar loop
over the remaining pixels. -/
def CheckApproxMatch_SSE2_row (screen source : PixelBuffer) (start_x start_y : Int)
    (transparent_enabled : Bool) (tolerance alpha_threshold : Int) (y : Int) :
    Nat → Int → Bool
  | 0, x =>
    CheckApproxMatch_Scalar_row screen source start_x start_y transparent_enabled tolerance
      alpha_threshold y (source.width - x).toNat x
  | fuel + 1, x =>
    if x + 3 < source.width then
      if ImageSearchDLL.PixelComparison.CheckApproxMatch_SSE2_step screen source start_x
          start_y transparent_enabled tolerance alpha_threshold y x then
        CheckApproxMatch_SSE2_row screen source start_x start_y transparent_enabled
          tolerance alpha_threshold y fuel (x + 4)
      else false
    else
      CheckApproxMatch_Scalar_row screen source start_x start_y transparent_enabled
        tolerance alpha_threshold y (source.width - x).toNat x

/-- The loop over the template rows of the XP `CheckApproxMatch_SSE2` (1349-1417), run for
`n` more rows from row `y`. -/
def CheckApproxMatch_SSE2_rows (screen source : PixelBuffer) (start_x start_y : Int)
    (transparent_enabled : Bool) (tolerance alpha_threshold : Int) : Nat → Int → Bool
  | 0, _ => true
  | n + 1, y =>
    if CheckApproxMatch_SSE2_row screen source start_x start_y transparent_enabled tolerance
        alpha_threshold y source.width.toNat 0 then
      CheckApproxMatch_SSE2_rows screen source start_x start_y transparent_enabled tolerance
        alpha_threshold n (y + 1)
    else false

/-- XP build, `PixelComparison::CheckApproxMatch_SSE2` (1333-1420). -/
def CheckApproxMatch_SSE2 (screen source : PixelBuffer) (start_x start_y : Int)
    (transparent_enabled : Bool) (tolerance : Int) : Bool :=
  if !IsValidSearchRegion start_x start_y source.width source.height
      screen.width screen.height then false
  else
    let alpha_threshold := ComputeAlphaThreshold transparent_enabled tolerance
    CheckApproxMatch_SSE2_rows screen source start_x start_y transparent_enabled tolerance
      alpha_threshold source.height.toNat 0

end PixelComparison

end XP

/-! ### Bitmap search -/

/-- Main build, `CompareMatchResults` (1509-1512). -/
def CompareMatchResults (a b : MatchResult) : Bool :=
  if a.y != b.y then decide (a.y < b.y) else decide (a.x < b.x)

/-- What `SearchForBitmap` takes from its surroundings: whether `_WIN64` is defined at
compile time, the CPU flags set by `DetectCpuFeatures`, the value of
`std::thread::hardware_concurrency()`, and the library routine
`std::sort(first, last, CompareMatchResults)`. -/
structure SearchEnv where
  win64 : Bool
  g_is_avx2_supported : Bool
  g_is_avx512_supported : Bool
  g_is_sse2_supported : Bool
  hardware_concurrency : Nat
  std_sort : List MatchResult → List MatchResult

/-- The lambda `CheckMatch` of `SearchForBitmap` (1559-1578). -/
def CheckMatch (env : SearchEnv) (Source Target : PixelBuffer) (transparent_enabled : Bool)
    (tolerance : Int) (x y : Int) : Bool :=
  if env.win64 then
    if env.g_is_avx512_supported then
      PixelComparison.CheckApproxMatch_AVX512 env.g_is_avx2_supported Source Target x y
        transparent_enabled tolerance
    else if env.g_is_avx2_supported then
      PixelComparison.CheckApproxMatch_AVX2 Source Target x y transparent_enabled tolerance
    else
      PixelComparison.CheckApproxMatch_Scalar Source Target x y transparent_enabled tolerance
  else
    if env.g_is_sse2_supported then
      PixelComparison.CheckApproxMatch_SSE2 Source Target x y transparent_enabled tolerance
    else
      PixelComparison.CheckApproxMatch_Scalar Source Target x y transparent_enabled tolerance

/-- The inner loop `for (int x = 0; x <= Source.width - Target.width; ++x)` of the
single-threaded scan (1651-1662; XP build 1447-1463), run for `n` more columns from column
`x` of row `y`. `check` is the matcher call and `mk x y` the `MatchResult` that is pushed
for offset `(x, y)`. The result lists the matches pushed and the offsets at which the
matcher was invoked, both in order, and tells whether `return matches` was executed. -/
def scan_row (check : Int → Int → Bool) (mk : Int → Int → MatchResult) (find_all : Bool)
    (y : Int) : Nat → Int → List MatchResult × List (Int × Int) × Bool
  | 0, _ => ([], [], false)
  | n + 1, x =>
    let found := check x y
    if found then
      if !find_all then ([mk x y], [(x, y)], true)
      else
        let r := scan_row check mk find_all y n (x + 1)
        (mk x y :: r.1, (x, y) :: r.2.1, r.2.2)
    else
      let r := scan_row check mk find_all y n (x + 1)
      (r.1, (x, y) :: r.2.1, r.2.2)

/-- The outer loop `for (int y = 0; y <= Source.height - Target.height; ++y)` of the
single-threaded scan (1650-1665; XP build 1446-1464), run for `n` more rows from row `y`,
each row having `cols` columns. -/
def scan_rows (check : Int → Int → Bool) (mk : Int → Int → MatchResult) (find_all : Bool)
    (cols : Nat) : Nat → Int → List MatchResult × List (Int × Int)
  | 0, _ => ([], [])
  | n + 1, y =>
    let r := scan_row check mk find_all y cols 0
    if r.2.2 then (r.1, r.2.1)
    else
      let r2 := scan_rows check mk find_all cols n (y + 1)
      (r.1 ++ r2.1, r.2.1 ++ r2.2)

/-- The inner loop of a worker thread (1625-1630), run for `n` more columns from column `x`
of row `y`: the matches pushed to `local_matches` and the offsets at which the matcher was
invoked. -/
def thread_row (check : Int → Int → Bool) (mk : Int → Int → MatchResult) (y : Int) :
    Nat → Int → List MatchResult × List (Int × Int)
  | 0, _ => ([], [])
  | n + 1, x =>
    let r := thread_row check mk y n (x + 1)
    if check x y then (mk x y :: r.1, (x, y) :: r.2) else (r.1, (x, y) :: r.2)

/-- The loop `for (int y = start_y; y < end_y; ++y)` of a worker thread (1624-1631), run
for `n` more rows from row `y`. -/
def thread_rows (check : Int → Int → Bool) (mk : Int → Int → MatchResult) (cols : Nat) :
    Nat → Int → List MatchResult × List (Int × Int)
  | 0, _ => ([], [])
  | n + 1, y =>
    let r := thread_row check mk y cols 0
    let r2 := thread_rows check mk cols n (y + 1)
    (r.1 ++ r2.1, r.2 ++ r2.2)

/-- The first row of worker thread `t` (1618). -/
def thread_start_y (chunk_height : Int) (t : Nat) : Int := t * chunk_height

/-- One past the last row of worker thread `t` (1619). -/
def thread_end_y (Source Target : PixelBuffer) (num_threads : Nat) (chunk_height : Int)
    (t : Nat) : Int :=
  if t = num_threads - 1 then Source.height - Target.height + 1
  else ((t : Int) + 1) * chunk_height

/-- The number of worker threads that `SearchForBitmap` settles on (1606-1612). -/
def search_num_threads (env : SearchEnv) (Source Target : PixelBuffer) : Nat :=
  let num_threads := max 1 env.hardware_concurrency
  let chunk_height := (Source.height - Target.height + 1) / (num_threads : Int)
  if chunk_height < 50 then 1 else num_threads

/-- Main build, `SearchForBitmap` (1548-1666), with the log of the offsets at which the
matcher is invoked. The worker threads are run one after the other, in the order in which
their results are collected (1636-1645); an exception in a worker is outside the model.
The output parameter `backend_used`, a label that has no effect on the matches, is left
out. -/
def SearchForBitmap_traced (env : SearchEnv) (Source Target : PixelBuffer)
    (search_left search_top tolerance : Int) (transparent_enabled find_all : Bool)
    (scale_factor : Rat) (source_file : String) : List MatchResult × List (Int × Int) :=
  if decide (Target.width > Source.width) || decide (Target.height > Source.height) then
    ([], [])
  else
    let check := CheckMatch env Source Target transparent_enabled tolerance
    let mk := fun x y : Int =>
      MatchResult.mk (x + search_left) (y + search_top) Target.width Target.height
        scale_factor source_file
    let cols := (Source.width - Target.width + 1).toNat
    if (find_all && decide (Source.height > 500)) &&
        decide (search_num_threads env Source Target > 1) then
      let num_threads := max 1 env.hardware_concurrency
      let chunk_height := (Source.height - Target.height + 1) / (num_threads : Int)
      let futures := (List.range num_threads).map fun t =>
        let start_y := thread_start_y chunk_height t
        let end_y := thread_end_y Source Target num_threads chunk_height t
        thread_rows check mk cols (end_y - start_y).toNat start_y
      (env.std_sort (futures.map Prod.fst).flatten, (futures.map Prod.snd).flatten)
    else
      scan_rows check mk find_all cols (Source.height - Target.height + 1).toNat 0

/-- Main build, `SearchForBitmap` (1548-1666): the matches returned. -/
def SearchForBitmap (env : SearchEnv) (Source Target : PixelBuffer)
    (search_left search_top tolerance : Int) (transparent_enabled find_all : Bool)
    (scale_factor : Rat) (source_file : String) : List MatchResult :=
  (SearchForBitmap_traced env Source Target search_left search_top tolerance
    transparent_enabled find_all scale_factor source_file).1

namespace XP

/-- The matcher call in the loop body of the XP `SearchForBitmap` (1449-1455). -/
def CheckMatch (g_is_sse2_supported : Bool) (Source Target : PixelBuffer)
    (transparent_enabled : Bool) (tolerance : Int) (x y : Int) : Bool :=
  if g_is_sse2_supported then
    PixelComparison.CheckApproxMatch_SSE2 Source Target x y transparent_enabled tolerance
  else
    PixelComparison.CheckApproxMatch_Scalar Source Target x y transparent_enabled tolerance

/-- XP build, `SearchForBitmap` (1432-1467), with the log of the offsets at which the
matcher is invoked; the flag `g_is_sse2_supported` is its first argument. The two loops
are the text of the single-threaded scan of the main build. -/
def SearchForBitmap_traced (g_is_sse2_supported : Bool) (Source Target : PixelBuffer)
    (search_left search_top tolerance : Int) (transparent_enabled find_all : Bool)
    (scale_factor : Rat) (source_file : String) : List MatchResult × List (Int × Int) :=
  if decide (Target.width > Source.width) || decide (Target.height > Source.height) then
    ([], [])
  else
    scan_rows (CheckMatch g_is_sse2_supported Source Target transparent_enabled tolerance)
      (fun x y : Int =>
        MatchResult.mk (x + search_left) (y + search_top) Target.width Target.height
          scale_factor source_file)
      find_all (Source.width - Target.width + 1).toNat
      (Source.height - Target.height + 1).toNat 0

/-- XP build, `SearchForBitmap` (1432-1467): the matches returned. -/
def SearchForBitmap (g_is_sse2_supported : Bool) (Source Target : PixelBuffer)
    (search_left search_top tolerance : Int) (transparent_enabled find_all : Bool)
    (scale_factor : Rat) (source_file : String) : List MatchResult :=
  (SearchForBitmap_traced g_is_sse2_supported Source Target search_left search_top tolerance
    transparent_enabled find_all scale_factor source_file).1

end XP

/-- A routine that meets the contract of `std::sort(first, last, CompareMatchResults)`:
merge sort with the order `not (b before a)`. -/
def merge_sort_matches (l : List MatchResult) : List MatchResult :=
  l.mergeSort fun a b => !CompareMatchResults b a

/-! ### Wide strings and error strings -/

/-- A `std::wstring`, as the list of its characters. -/
abbrev WString := List Char

/-- Decimal output of an integer, as done by `std::to_wstring` and by `operator<<` on a
stream in its default state: a minus sign for a negative value, then the digits. -/
def to_wstring (v : Int) : WString :=
  if v < 0 then '-' :: Nat.toDigits 10 v.natAbs else Nat.toDigits 10 v.natAbs

/-- The macro `MAX_CACHED_BITMAPS` (56). -/
def MAX_CACHED_BITMAPS : Nat := 100

/-- The macro `MAX_CACHED_LOCATIONS` (57). -/
def MAX_CACHED_LOCATIONS : Nat := 100

/-- The macro `CACHE_MISS_THRESHOLD` (58). -/
def CACHE_MISS_THRESHOLD : Int := 3

/-- The macro `MAX_RESULT_STRING_LENGTH` (61). -/
def MAX_RESULT_STRING_LENGTH : Nat := 262144

/-- The enumeration `ErrorCode` (279-290). -/
inductive ErrorCode where
  | Success
  | InvalidPath
  | FailedToLoadImage
  | FailedToGetScreenDC
  | InvalidSearchRegion
  | InvalidParameters
  | InvalidSourceBitmap
  | InvalidTargetBitmap
  | ResultTooLarge
  | InvalidMonitor
deriving DecidableEq, Repr

/-- The integer value of an `ErrorCode` (279-290). -/
def ErrorCode.toInt : ErrorCode → Int
  | .Success => 0
  | .InvalidPath => -1
  | .FailedToLoadImage => -2
  | .FailedToGetScreenDC => -3
  | .InvalidSearchRegion => -4
  | .InvalidParameters => -5
  | .InvalidSourceBitmap => -6
  | .InvalidTargetBitmap => -7
  | .ResultTooLarge => -9
  | .InvalidMonitor => -10

/-- The function `GetErrorMessage` (293-306). -/
def GetErrorMessage : ErrorCode → WString
  | .InvalidPath => "Invalid path or image format".toList
  | .FailedToLoadImage => "Failed to load image from file".toList
  | .FailedToGetScreenDC =>
    "Failed to get screen device context or get valid Source pixels".toList
  | .InvalidSearchRegion => "Invalid search region specified".toList
  | .InvalidParameters => "Invalid parameters provided".toList
  | .InvalidSourceBitmap => "Invalid Source (source) bitmap".toList
  | .InvalidTargetBitmap => "Invalid Target (target) bitmap".toList
  | .ResultTooLarge => "Result String Too Large".toList
  | .InvalidMonitor => "Invalid monitor index".toList
  | .Success => "Unknown error".toList

/-- The function `FormatError` (308-310). -/
def FormatError (code : ErrorCode) : WString :=
  "\x7b".toList ++ to_wstring code.toInt ++ "\x7d[]<".toList ++ GetErrorMessage code ++
    ">".toList

/-- The enumeration `SearchMode` (1668-1672). -/
inductive SearchMode where
  | ScreenSearch
  | SearchImageInImage
  | HBitmapSearch
deriving DecidableEq, Repr

/-- The cast `(int)params.mode`. -/
def SearchMode.toInt : SearchMode → Int
  | .ScreenSearch => 0
  | .SearchImageInImage => 1
  | .HBitmapSearch => 2

/-- The struct `SearchParams` (1684-1701). A `const wchar_t*` is `none` when null, a
bitmap handle is a number that is 0 when null, a `float` is carried as a rational
number. -/
structure SearchParams where
  mode : SearchMode
  image_files : Option WString
  left : Int
  top : Int
  right : Int
  bottom : Int
  screen : Int
  source_image : Option WString
  target_images : Option WString
  Source_hbitmap : Nat
  Target_hbitmap : Nat
  tolerance : Int
  max_results : Int
  center_pos : Int
  min_scale : Rat
  max_scale : Rat
  scale_step : Rat
  return_debug : Int
  use_cache : Int

/-- The loop of `FormatFloat` behind `result.erase(result.find_last_not_of(L"0") + 1)`
(72), on the reversed string: the trailing zeros are dropped. -/
def erase_trailing_zeros (result : WString) : WString :=
  (result.reverse.dropWhile fun c => c == '0').reverse

/-- The function `FormatFloat` (67-77), with precision 2 as at all its call sites.
`stream_fixed p v` stands for the stream output `std::fixed << std::setprecision(p) << v`
of the C++ library. -/
def FormatFloat (stream_fixed : Nat → Rat → WString) (value : Rat) : WString :=
  let result := erase_trailing_zeros (stream_fixed 2 value)
  if result.getLast? = some '.' then result.dropLast else result

/-- Main build, `CheckResultBufferSize` (2174-2189): the new content of `result_buffer`. -/
def CheckResultBufferSize (stream_fixed : Nat → Rat → WString) (result_buffer : WString)
    (params : SearchParams) : WString :=
  if result_buffer.length ≥ MAX_RESULT_STRING_LENGTH then
    let result_buffer := FormatError ErrorCode.ResultTooLarge
    if params.return_debug > 0 then
      result_buffer ++ ("(buffer_size=".toList ++ to_wstring result_buffer.length
        ++ ",params=left:".toList ++ to_wstring params.left
        ++ ",top:".toList ++ to_wstring params.top
        ++ ",right:".toList ++ to_wstring params.right
        ++ ",bottom:".toList ++ to_wstring params.bottom
        ++ ",screen:".toList ++ to_wstring params.screen
        ++ ",tolerance:".toList ++ to_wstring params.tolerance
        ++ ",max_results:".toList ++ to_wstring params.max_results
        ++ ",center_pos:".toList ++ to_wstring params.center_pos
        ++ ",min_scale:".toList ++ FormatFloat stream_fixed params.min_scale
        ++ ",max_scale:".toList ++ FormatFloat stream_fixed params.max_scale
        ++ ",scale_step:".toList ++ FormatFloat stream_fixed params.scale_step
        ++ ",mode:".toList ++ to_wstring params.mode.toInt ++ ")".toList)
    else result_buffer
  else result_buffer

namespace XP

/-- XP build, `CheckResultBufferSize` (1992-2002): the new content of `result_buffer`. -/
def CheckResultBufferSize (result_buffer : WString) (params : SearchParams) : WString :=
  if result_buffer.length ≥ MAX_RESULT_STRING_LENGTH then
    let result_buffer := FormatError ErrorCode.ResultTooLarge
    if params.return_debug > 0 then
      result_buffer ++ ("(buffer_size=".toList ++ to_wstring result_buffer.length
        ++ ")".toList)
    else result_buffer
  else result_buffer

end XP

/-! ### The result payload -/

/-- The number of records that `UnifiedImageSearch` emits (2115-2118). -/
def match_count (all_matches : List MatchResult) (max_results : Int) : Nat :=
  if max_results > 0 ∧ (all_matches.length : Int) > max_results then max_results.toNat
  else all_matches.length

/-- The four numbers written for one match (2124-2130): its position, or its centre when
`center_pos` is 1, and its size. The division is the C++ integer division, which
truncates. -/
def match_values (center_pos : Int) (m : MatchResult) : Int × Int × Int × Int :=
  let x := if center_pos = 1 then m.x + Int.tdiv m.w 2 else m.x
  let y := if center_pos = 1 then m.y + Int.tdiv m.h 2 else m.y
  (x, y, m.w, m.h)

/-- The text written for one match (2130): `x|y|w|h`. -/
def match_record (center_pos : Int) (m : MatchResult) : WString :=
  let v := match_values center_pos m
  to_wstring v.1 ++ "|".toList ++ to_wstring v.2.1 ++ "|".toList ++ to_wstring v.2.2.1
    ++ "|".toList ++ to_wstring v.2.2.2

/-- The loop `for (size_t i = 0; i < match_count; ++i)` (2122-2131), run for `n` more
rounds from index `i`: the text appended to `matches_stream`. -/
def matches_stream (center_pos : Int) (all_matches : List MatchResult) :
    Nat → Nat → WString
  | 0, _ => []
  | n + 1, i =>
    (if i > 0 then ",".toList else []) ++
      match_record center_pos (all_matches.getD i ⟨0, 0, 0, 0, 1, ""⟩) ++
      matches_stream center_pos all_matches n (i + 1)

/-- The payload that `UnifiedImageSearch` writes to `result_stream` once the matches are
assembled (2115-2135). -/
def result_payload (all_matches : List MatchResult) (max_results center_pos : Int) :
    WString :=
  let match_count := match_count all_matches max_results
  if match_count > 0 then
    "\x7b".toList ++ to_wstring match_count ++ "\x7d[".toList ++
      matches_stream center_pos all_matches match_count 0 ++ "]".toList
  else "\x7b0\x7d[]".toList


/-! ### The location cache -/

/-- The Windows struct `POINT`. -/
structure POINT where
  x : Int
  y : Int
deriving DecidableEq, Repr, Inhabited

/-- Main build, the struct `CacheEntry` (345-349). The time stamp is the reading of the
clock, a number. -/
structure CacheEntry where
  position : POINT
  miss_count : Int
  last_used : Nat
deriving DecidableEq, Repr, Inhabited

/-- A map from strings to numbers (`std::unordered_map<std::wstring, size_t>`, and in the
XP build `std::map` from strings to list iterators), as the function that `find`
computes: `none` stands for `end()`. -/
abbrev IndexMap := WString → Option Nat

/-- The empty map, the state after `clear()`. -/
def IndexMap.clear : IndexMap := fun _ => none

/-- The assignment `index[key] = v`. -/
def IndexMap.assign (index : IndexMap) (key : WString) (v : Nat) : IndexMap :=
  fun k => if k = key then some v else index k

/-- The call `index.erase(key)`. -/
def IndexMap.erase (index : IndexMap) (key : WString) : IndexMap :=
  fun k => if k = key then none else index k

/-- Main build, the globals `g_location_cache_lru` (a deque, most recent entry first) and
`g_location_cache_index` (368-369). -/
structure LocationCache where
  g_location_cache_lru : List (WString × CacheEntry)
  g_location_cache_index : IndexMap

/-- The loop of `_RebuildCacheIndex` (383-385) over the entries from position `i` on. -/
def _RebuildCacheIndex_loop : List (WString × CacheEntry) → Nat → IndexMap → IndexMap
  | [], _, index => index
  | item :: rest, i, index => _RebuildCacheIndex_loop rest (i + 1) (index.assign item.1 i)

/-- Main build, `_RebuildCacheIndex` (381-386). -/
def _RebuildCacheIndex (c : LocationCache) : LocationCache :=
  ⟨c.g_location_cache_lru,
    _RebuildCacheIndex_loop c.g_location_cache_lru 0 IndexMap.clear⟩

/-- The loop `while (lru.size() > limit) lru.pop_back()` (507-509, 612-614, 665-667), run
for at most `fuel` rounds. -/
def pop_back_while {α : Type} (limit : Nat) : Nat → List α → List α
  | 0, lru => lru
  | fuel + 1, lru =>
    if lru.length > limit then pop_back_while limit fuel lru.dropLast else lru

/-- Main build, `GetCachedLocation` (567-593): the value returned (`none` for
`std::nullopt`) and the cache afterwards. `now` is the reading of the clock. An element
access `lru[idx]` outside the deque has no defined value in C++; the model yields a
default element there. -/
def GetCachedLocation (c : LocationCache) (cache_key : WString) (now : Nat) :
    Option CacheEntry × LocationCache :=
  match c.g_location_cache_index cache_key with
  | some idx0 =>
    let c1 := if idx0 ≥ c.g_location_cache_lru.length then _RebuildCacheIndex c else c
    let it :=
      if idx0 ≥ c.g_location_cache_lru.length then c1.g_location_cache_index cache_key
      else some idx0
    match it with
    | none => (none, c1)
    | some idx =>
      let stored := (c1.g_location_cache_lru.getD idx default).2
      let entry : CacheEntry := ⟨stored.position, stored.miss_count, now⟩
      if idx > 0 then
        let item := c1.g_location_cache_lru.getD idx default
        (some entry,
          _RebuildCacheIndex
            ⟨item :: c1.g_location_cache_lru.eraseIdx idx, c1.g_location_cache_index⟩)
      else (some entry, c1)
  | none => (none, c)

/-- Main build, `UpdateCachedLocation` (595-618): the cache afterwards. -/
def UpdateCachedLocation (c : LocationCache) (cache_key : WString) (entry : CacheEntry) :
    LocationCache :=
  match c.g_location_cache_index cache_key with
  | some idx =>
    let lru := c.g_location_cache_lru.set idx
      ((c.g_location_cache_lru.getD idx default).1, entry)
    if idx > 0 then
      let item := lru.getD idx default
      _RebuildCacheIndex ⟨item :: lru.eraseIdx idx, c.g_location_cache_index⟩
    else ⟨lru, c.g_location_cache_index⟩
  | none =>
    let lru := (cache_key, entry) :: c.g_location_cache_lru
    _RebuildCacheIndex
      ⟨pop_back_while MAX_CACHED_LOCATIONS lru.length lru, c.g_location_cache_index⟩

/-- Main build, the block of `RemoveFromCache` that runs under the cache lock
(548-558). -/
def RemoveFromCache_locked (c : LocationCache) (cache_key : WString) : LocationCache :=
  match c.g_location_cache_index cache_key with
  | some idx =>
    if idx < c.g_location_cache_lru.length then
      _RebuildCacheIndex ⟨c.g_location_cache_lru.eraseIdx idx, c.g_location_cache_index⟩
    else c
  | none => c

/-- Main build, the block of `LoadCacheForImage` that runs under the cache lock
(504-511), for the entry read from disk. -/
def LoadCacheForImage_locked (c : LocationCache) (cache_key : WString)
    (entry : CacheEntry) : LocationCache :=
  let lru := (cache_key, entry) :: c.g_location_cache_lru
  _RebuildCacheIndex
    ⟨pop_back_while MAX_CACHED_LOCATIONS lru.length lru, c.g_location_cache_index⟩

/-- Main build, the block of `ImageSearch_ClearCache` that runs under the cache lock
(3157-3161). -/
def ClearCache_locked (_c : LocationCache) : LocationCache := ⟨[], IndexMap.clear⟩

namespace XP

/-- XP build, the struct `CacheEntry`. -/
structure CacheEntry where
  position : POINT
  miss_count : Int
  last_used_tick : Nat
deriving DecidableEq, Repr, Inhabited

/-- XP build, the globals `g_location_cache_lru` (a `std::list`, most recent entry first)
and `g_location_cache_index` (a `std::map` from keys to iterators of the list). A list
node is written with its address, an iterator is the address of its node, and
`next_node` is the address that the next allocation of a node returns. -/
structure LocationCache where
  g_location_cache_lru : List (Nat × (WString × CacheEntry))
  g_location_cache_index : IndexMap
  next_node : Nat

/-- The element `*it` of the list node at address `it`. -/
def node_at (lru : List (Nat × (WString × CacheEntry))) (it : Nat) :
    WString × CacheEntry :=
  match lru.find? fun n => n.1 == it with
  | some n => n.2
  | none => default

/-- The call `lru.erase(it)`. -/
def erase_node (lru : List (Nat × (WString × CacheEntry))) (it : Nat) :
    List (Nat × (WString × CacheEntry)) :=
  lru.eraseP fun n => n.1 == it

/-- The iterator `lru.begin()`; for an empty list it is `end()`, written as `none`. -/
def list_begin (lru : List (Nat × (WString × CacheEntry))) : Option Nat :=
  lru.head?.map Prod.fst

/-- The eviction loop (643-647, 532-536): while the list is longer than `limit`, erase the
key of the last node from the index and pop the node; run for at most `fuel` rounds. -/
def evict_while (limit : Nat) :
    Nat → List (Nat × (WString × CacheEntry)) → IndexMap →
      List (Nat × (WString × CacheEntry)) × IndexMap
  | 0, lru, index => (lru, index)
  | fuel + 1, lru, index =>
    if lru.length > limit then
      let back_key := (lru.getLast?.map fun n => n.2.1).getD []
      evict_while limit fuel lru.dropLast (index.erase back_key)
    else (lru, index)

/-- XP build, `GetCachedLocation` (596-619): the entry written to `out_entry` when the
function returns true (`none` when it returns false) and the cache afterwards. -/
def GetCachedLocation (c : LocationCache) (cache_key : WString) (now : Nat) :
    Option CacheEntry × LocationCache :=
  match c.g_location_cache_index cache_key with
  | some it =>
    let stored := (node_at c.g_location_cache_lru it).2
    let out_entry : CacheEntry := ⟨stored.position, stored.miss_count, now⟩
    if some it ≠ list_begin c.g_location_cache_lru then
      let item := node_at c.g_location_cache_lru it
      let lru := (c.next_node, item) :: erase_node c.g_location_cache_lru it
      (some out_entry,
        ⟨lru, c.g_location_cache_index.assign cache_key c.next_node, c.next_node + 1⟩)
    else (some out_entry, c)
  | none => (none, c)

/-- XP build, `UpdateCachedLocation` (621-653): the cache afterwards. -/
def UpdateCachedLocation (c : LocationCache) (cache_key : WString) (entry : CacheEntry) :
    LocationCache :=
  match c.g_location_cache_index cache_key with
  | some it =>
    let lru := c.g_location_cache_lru.map fun n =>
      if n.1 = it then (n.1, (n.2.1, entry)) else n
    if some it ≠ list_begin lru then
      let item := node_at lru it
      ⟨(c.next_node, item) :: erase_node lru it,
        c.g_location_cache_index.assign cache_key c.next_node, c.next_node + 1⟩
    else ⟨lru, c.g_location_cache_index, c.next_node⟩
  | none =>
    let lru := (c.next_node, (cache_key, entry)) :: c.g_location_cache_lru
    let r := evict_while MAX_CACHED_LOCATIONS lru.length lru c.g_location_cache_index
    ⟨r.1, r.2.assign cache_key c.next_node, c.next_node + 1⟩

/-- XP build, the block of `RemoveFromCache` that runs inside the critical section
(576-586). -/
def RemoveFromCache_locked (c : LocationCache) (cache_key : WString) : LocationCache :=
  match c.g_location_cache_index cache_key with
  | some it =>
    ⟨erase_node c.g_location_cache_lru it, c.g_location_cache_index.erase cache_key,
      c.next_node⟩
  | none => c

/-- XP build, the block of `LoadCacheForImage` that runs inside the critical section
(525-538), for the entry read from disk. -/
def LoadCacheForImage_locked (c : LocationCache) (cache_key : WString)
    (entry : CacheEntry) : LocationCache :=
  let lru := (c.next_node, (cache_key, entry)) :: c.g_location_cache_lru
  let index := c.g_location_cache_index.assign cache_key c.next_node
  let r := evict_while MAX_CACHED_LOCATIONS lru.length lru index
  ⟨r.1, r.2, c.next_node + 1⟩

end XP

/-! ### The bitmap cache -/

/-- Main build, the struct `BitmapCacheEntry` (620-623). The shared pointer is written as
the buffer it points to. -/
structure BitmapCacheEntry where
  buffer : PixelBuffer
  key : WString
deriving DecidableEq, Repr

/-- Main build, the globals `g_bitmap_cache` and `g_bitmap_cache_index` (625-627). -/
structure BitmapCache where
  g_bitmap_cache : List BitmapCacheEntry
  g_bitmap_cache_index : IndexMap

/-- The loop of `_RebuildBitmapCacheIndex` (631-633) over the entries from position `i`
on. -/
def _RebuildBitmapCacheIndex_loop : List BitmapCacheEntry → Nat → IndexMap → IndexMap
  | [], _, index => index
  | e :: rest, i, index => _RebuildBitmapCacheIndex_loop rest (i + 1) (index.assign e.key i)

/-- Main build, `_RebuildBitmapCacheIndex` (629-634). -/
def _RebuildBitmapCacheIndex (c : BitmapCache) : BitmapCache :=
  ⟨c.g_bitmap_cache, _RebuildBitmapCacheIndex_loop c.g_bitmap_cache 0 IndexMap.clear⟩

/-- Main build, `GetCachedBitmap` (636-652): the pointer returned (`none` for `nullptr`)
and the cache afterwards. -/
def GetCachedBitmap (c : BitmapCache) (key : WString) : Option PixelBuffer × BitmapCache :=
  match c.g_bitmap_cache_index key with
  | some idx =>
    match c.g_bitmap_cache.get? idx with
    | some entry =>
      if idx > 0 then
        (some entry.buffer,
          _RebuildBitmapCacheIndex
            ⟨entry :: c.g_bitmap_cache.eraseIdx idx, c.g_bitmap_cache_index⟩)
      else (some entry.buffer, c)
    | none => (none, c)
  | none => (none, c)

/-- The loop of `CacheBitmap` that erases the first entry stored under `key`
(657-662). -/
def erase_first_key (key : WString) : List BitmapCacheEntry → List BitmapCacheEntry
  | [] => []
  | e :: rest => if e.key = key then rest else e :: erase_first_key key rest

/-- Main build, `CacheBitmap` (654-669): the cache afterwards. The index is not
touched. -/
def CacheBitmap (c : BitmapCache) (key : WString) (buffer : PixelBuffer) : BitmapCache :=
  let cache := (⟨buffer, key⟩ : BitmapCacheEntry) :: erase_first_key key c.g_bitmap_cache
  ⟨pop_back_while MAX_CACHED_BITMAPS cache.length cache, c.g_bitmap_cache_index⟩

/-- Main build, the bitmap cache at program start and after `ImageSearch_ClearCache`
(3177-3180, which clears the deque). -/
def BitmapCache.empty : BitmapCache := ⟨[], IndexMap.clear⟩


/-! ### The surroundings of a search -/

/-- The Windows struct `RECT`. -/
structure RECT where
  left : Int
  top : Int
  right : Int
  bottom : Int
deriving DecidableEq, Repr

/-- What `UnifiedImageSearch` takes from the operating system and from the C++ library:
the stream output `std::fixed << std::setprecision(p) << v`, the monitors reported by
`EnumDisplayMonitors`, `GetSystemMetrics`, the GDI routines of this program that capture
the screen, decode a file, read a bitmap handle and rescale a buffer (a buffer that is
null or absent is `none`), the lower-cased canonical path computed by
`GetNormalizedPathKey`, the name of the cache file of a key, whether the cache-file mutex
exists and whether locking it succeeds, the reading of the clock and the elapsed time in
milliseconds. -/
structure Host where
  stream_fixed : Nat → Rat → WString
  monitors : List RECT
  GetSystemMetrics : Nat → Int
  CaptureScreen_GDI : Int → Int → Int → Int → Int → Option PixelBuffer
  LoadImageFromFile_GDI : WString → Option PixelBuffer
  GetBitmapPixels_GDI : Nat → Option PixelBuffer
  ScaleBitmap_GDI : PixelBuffer → Int → Int → Option PixelBuffer
  GetNormalizedPathKey : WString → WString
  GetCacheFileForImage : WString → WString
  g_hCacheFileMutex : Bool
  file_lock_IsLocked : Bool
  now : Nat
  duration : Int

/-- The Windows constant `SM_CXSCREEN`. -/
def SM_CXSCREEN : Nat := 0

/-- The Windows constant `SM_CYSCREEN`. -/
def SM_CYSCREEN : Nat := 1

/-- The Windows constant `SM_XVIRTUALSCREEN`. -/
def SM_XVIRTUALSCREEN : Nat := 76

/-- The Windows constant `SM_YVIRTUALSCREEN`. -/
def SM_YVIRTUALSCREEN : Nat := 77

/-- The Windows constant `SM_CXVIRTUALSCREEN`. -/
def SM_CXVIRTUALSCREEN : Nat := 78

/-- The Windows constant `SM_CYVIRTUALSCREEN`. -/
def SM_CYVIRTUALSCREEN : Nat := 79

/-- The function `GetMonitorBounds` (1080-1094): `none` when it returns false. -/
def GetMonitorBounds (host : Host) (screen_index : Int) : Option RECT :=
  if screen_index ≤ 0 ∨ screen_index > (host.monitors.length : Int) ∨ host.monitors = [] then
    none
  else host.monitors.get? (screen_index - 1).toNat

/-- The function `GetScreenBounds` (1097-1123): left, top, width and height. -/
def GetScreenBounds (host : Host) (iScreen : Int) : Int × Int × Int × Int :=
  if iScreen > 0 then
    match GetMonitorBounds host iScreen with
    | some monitorBounds =>
      (monitorBounds.left, monitorBounds.top, monitorBounds.right - monitorBounds.left,
        monitorBounds.bottom - monitorBounds.top)
    | none => (0, 0, host.GetSystemMetrics SM_CXSCREEN, host.GetSystemMetrics SM_CYSCREEN)
  else if iScreen = 0 then (0, 0, 0, 0)
  else
    (host.GetSystemMetrics SM_XVIRTUALSCREEN, host.GetSystemMetrics SM_YVIRTUALSCREEN,
      host.GetSystemMetrics SM_CXVIRTUALSCREEN, host.GetSystemMetrics SM_CYVIRTUALSCREEN)

/-- The function `CaptureScreenInternal` up to its test of the size (1126-1151): left, top,
width and height of the rectangle that it then copies from the screen with `BitBlt`, or
`none` when it returns null at that test. For `iScreen` = 0 the bounds are all 0 and the
calls of `std::clamp` have a lower bound above the upper one; they are evaluated as the
usual implementation does. -/
def CaptureScreenInternal (host : Host) (iLeft iTop iRight iBottom iScreen : Int) :
    Option (Int × Int × Int × Int) :=
  let b := GetScreenBounds host iScreen
  let screenLeft := b.1
  let screenTop := b.2.1
  let screenWidth := b.2.2.1
  let screenHeight := b.2.2.2
  let r : Int × Int × Int × Int :=
    if iScreen > 0 ∧ iLeft = 0 ∧ iTop = 0 ∧ iRight = 0 ∧ iBottom = 0 then
      (screenLeft, screenTop, screenLeft + screenWidth, screenTop + screenHeight)
    else
      let iRight := if iRight = -1 ∨ iRight = 0 then screenLeft + screenWidth else iRight
      let iBottom := if iBottom = -1 ∨ iBottom = 0 then screenTop + screenHeight else iBottom
      let iLeft := clamp iLeft screenLeft (screenLeft + screenWidth - 1)
      let iTop := clamp iTop screenTop (screenTop + screenHeight - 1)
      (iLeft, iTop, clamp iRight (iLeft + 1) (screenLeft + screenWidth),
        clamp iBottom (iTop + 1) (screenTop + screenHeight))
  let width := r.2.2.1 - r.1
  let height := r.2.2.2 - r.2.1
  if width ≤ 0 ∨ height ≤ 0 ∨ width > 32000 ∨ height > 32000 then none
  else some (r.1, r.2.1, width, height)

/-- What the code of `CaptureScreen_GDI` (1126-1192) fixes of its result, whatever the GDI
routines deliver: a buffer is returned only when `CaptureScreenInternal` gets past its test
of the size, and the buffer has the width and height of the rectangle copied. -/
def Host.CaptureAsCoded (host : Host) : Prop :=
  ∀ (iLeft iTop iRight iBottom iScreen : Int) (buffer : PixelBuffer),
    host.CaptureScreen_GDI iLeft iTop iRight iBottom iScreen = some buffer →
    ∃ rect : Int × Int × Int × Int,
      CaptureScreenInternal host iLeft iTop iRight iBottom iScreen = some rect ∧
      buffer.width = rect.2.2.1 ∧ buffer.height = rect.2.2.2

/-- The buffer that `CaptureScreen_GDI` returns when no GDI routine fails, for the
rectangle `rect` (left, top, width, height) that `CaptureScreenInternal` copies, on a
desktop that shows the opaque pixel `desktop x y` at the point (x, y): the rows of the
rectangle one after the other; no pixel has an alpha byte below 255, so no alpha channel
is detected. -/
def captured_buffer (desktop : Int → Int → Nat) (rect : Int × Int × Int × Int) :
    PixelBuffer :=
  ⟨(List.range (rect.2.2.1 * rect.2.2.2).toNat).map fun i : Nat =>
      desktop (rect.1 + (i : Int) % rect.2.2.1) (rect.2.1 + (i : Int) / rect.2.2.1),
    rect.2.2.1, rect.2.2.2, false, true⟩

/-- A call of one of the three functions that touch the cache files. -/
inductive DiskCall where
  | LoadCacheForImage (cache_key : WString)
  | SaveCacheForImage (cache_key : WString) (pos : POINT)
  | RemoveFromCache (cache_key : WString)
deriving DecidableEq, Repr

/-- The state that the cache functions act on: the in-memory location cache, the content
of the cache files by path (`none` for a file that does not exist), and the log of the
calls of the functions that touch the files. -/
structure World where
  cache : LocationCache
  files : WString → Option WString
  disk_log : List DiskCall

/-- The C function `iswspace` on the characters that it accepts in the C locale. -/
def iswspace (c : Char) : Bool :=
  c == ' ' || c == '\t' || c == '\n' || c == '\x0b' || c == '\x0c' || c == '\r'

/-- The value of a string of decimal digits read after the value `acc`. -/
def digits_value (acc : Nat) (ds : WString) : Nat :=
  ds.foldl (fun a c => 10 * a + (c.toNat - 48)) acc

/-- The library function `std::stoi` on a wide string: leading white space is skipped, a
sign is optional, the longest run of digits is converted and what follows is ignored.
`none` stands for the two exceptions, `std::invalid_argument` when there is no digit and
`std::out_of_range` when the value does not fit an `int`. -/
def stoi (str : WString) : Option Int :=
  let s := str.dropWhile iswspace
  let negative := s.head? = some '-'
  let s := if s.head? = some '-' ∨ s.head? = some '+' then s.tail else s
  let ds := s.takeWhile Char.isDigit
  if ds = [] then none
  else
    let v : Int := if negative then -(digits_value 0 ds : Int) else (digits_value 0 ds : Int)
    if v < -2147483648 ∨ v > 2147483647 then none else some v

/-- Main build, `GenerateCacheKey` (457-468). -/
def GenerateCacheKey (host : Host) (primary_path secondary_path : WString) (tolerance : Int)
    (transparent : Bool) (scale : Rat) : WString :=
  host.GetNormalizedPathKey primary_path ++
    (if secondary_path ≠ [] then "|".toList ++ host.GetNormalizedPathKey secondary_path
      else []) ++
    "|".toList ++ to_wstring tolerance ++ "|".toList ++
    (if transparent then "1".toList else "0".toList) ++ "|".toList ++ host.stream_fixed 1 scale

/-- Main build, `LoadCacheForImage` (478-523). The line read by `std::getline` is the
content of the file up to its first line feed. -/
def LoadCacheForImage (host : Host) (w : World) (cache_key : WString) : World :=
  let w : World := ⟨w.cache, w.files, w.disk_log ++ [DiskCall.LoadCacheForImage cache_key]⟩
  if cache_key = [] then w
  else if !host.g_hCacheFileMutex then w
  else if !host.file_lock_IsLocked then w
  else
    match w.files (host.GetCacheFileForImage cache_key) with
    | none => w
    | some content =>
      let line := content.takeWhile fun c => c != '\n'
      if '|' ∈ line then
        let x_str := line.takeWhile fun c => c != '|'
        let y_str := (line.dropWhile fun c => c != '|').tail
        match stoi x_str with
        | none => w
        | some x =>
          match stoi y_str with
          | none => w
          | some y =>
            if x ≥ -10000 ∧ x ≤ 50000 ∧ y ≥ -10000 ∧ y ≤ 50000 then
              ⟨LoadCacheForImage_locked w.cache cache_key ⟨⟨x, y⟩, 0, host.now⟩, w.files,
                w.disk_log⟩
            else w
      else w

/-- Main build, `SaveCacheForImage` (526-543). Opening the file for writing is taken to
succeed. -/
def SaveCacheForImage (host : Host) (w : World) (cache_key : WString) (pos : POINT) :
    World :=
  let w : World :=
    ⟨w.cache, w.files, w.disk_log ++ [DiskCall.SaveCacheForImage cache_key pos]⟩
  if cache_key = [] then w
  else if !host.g_hCacheFileMutex then w
  else if !host.file_lock_IsLocked then w
  else
    let cache_file_path := host.GetCacheFileForImage cache_key
    ⟨w.cache,
      fun path =>
        if path = cache_file_path then some (to_wstring pos.x ++ "|".toList ++ to_wstring pos.y)
        else w.files path,
      w.disk_log⟩

/-- Main build, `RemoveFromCache` (545-565). -/
def RemoveFromCache (host : Host) (w : World) (cache_key : WString) : World :=
  if cache_key = [] then w
  else
    let cache_file_path := host.GetCacheFileForImage cache_key
    ⟨RemoveFromCache_locked w.cache cache_key,
      fun path => if path = cache_file_path then none else w.files path,
      w.disk_log ++ [DiskCall.RemoveFromCache cache_key]⟩

/-! ### The unified search -/

/-- The function `std::clamp` on `float` values. -/
def clampf (v lo hi : Rat) : Rat := if v < lo then lo else if hi < v then hi else v

/-- The function `std::round`: the nearest integer, halves away from zero. -/
def std_round (v : Rat) : Int := if v ≥ 0 then ⌊v + 1 / 2⌋ else ⌈v - 1 / 2⌉

/-- The locals of `UnifiedImageSearch` that are fixed when its loop over the targets
starts (1711-1725, 1876, 1952-1956). -/
structure SearchContext where
  Source : PixelBuffer
  Source_source : WString
  search_offset_x : Int
  search_offset_y : Int
  capture_left : Int
  capture_top : Int
  capture_right : Int
  capture_bottom : Int
  capture_width : Int
  capture_height : Int
  tolerance : Int
  min_scale : Rat
  max_scale : Rat
  scale_step : Rat
  find_all : Bool
  skip_scaling : Bool

/-- One call of `SearchForBitmap` made by `UnifiedImageSearch`: the target file and the
scale. -/
structure ScanCall where
  source_file : WString
  scale : Rat
deriving DecidableEq, Repr

/-- The locals of `UnifiedImageSearch` that change in its loop over the targets, the state
of the caches, and the log of the calls of `SearchForBitmap`. -/
structure SearchState where
  world : World
  cache_hits : Int
  cache_misses : Int
  backend_used : WString
  full_scans : List ScanCall

/-- The value that `SearchForBitmap` leaves in its output parameter `backend_used`
(1555-1597), which holds `previous` at the call. -/
def SearchForBitmap_backend (env : SearchEnv) (Source Target : PixelBuffer)
    (previous : WString) : WString :=
  if decide (Target.width > Source.width) || decide (Target.height > Source.height) then
    previous
  else if env.win64 then
    if env.g_is_avx512_supported then "AVX512".toList
    else if env.g_is_avx2_supported then "AVX2".toList
    else "Scalar".toList
  else
    if env.g_is_sse2_supported then "SSE2".toList else "Scalar".toList

/-- The block of `UnifiedImageSearch` that computes the cache key of a target and loads
its cache file when the key is not in memory (1969-1976): the key and the state of the
caches afterwards. -/
def cache_preload (host : Host) (params : SearchParams) (ctx : SearchContext)
    (Target : PixelBuffer) (source_file : WString) (w : World) : WString × World :=
  if source_file ≠ [] ∧ params.use_cache ≠ 0 then
    let cache_key :=
      GenerateCacheKey host ctx.Source_source source_file ctx.tolerance Target.has_alpha 1
    let r := GetCachedLocation w.cache cache_key host.now
    let w1 : World := ⟨r.2, w.files, w.disk_log⟩
    if r.1.isSome then (cache_key, w1) else (cache_key, LoadCacheForImage host w1 cache_key)
  else ([], w)

/-- The block of `UnifiedImageSearch` that confirms a cached position (1978-2028): the
content of `current_file_matches`, the flag `found_in_cache` and the state afterwards. -/
def cache_confirm (host : Host) (params : SearchParams) (ctx : SearchContext)
    (Target : PixelBuffer) (source_file cache_key : WString) (st : SearchState) :
    List MatchResult × Bool × SearchState :=
  if cache_key ≠ [] ∧ params.use_cache ≠ 0 then
    let r := GetCachedLocation st.world.cache cache_key host.now
    let w : World := ⟨r.2, st.world.files, st.world.disk_log⟩
    let st1 : SearchState :=
      ⟨w, st.cache_hits, st.cache_misses, st.backend_used, st.full_scans⟩
    match r.1 with
    | some cached_entry =>
      let cached_abs_x := cached_entry.position.x
      let cached_abs_y := cached_entry.position.y
      if cached_abs_x ≥ ctx.capture_left ∧ cached_abs_y ≥ ctx.capture_top ∧
          cached_abs_x + Target.width ≤ ctx.capture_right ∧
          cached_abs_y + Target.height ≤ ctx.capture_bottom then
        let check_x := cached_abs_x - ctx.search_offset_x
        let check_y := cached_abs_y - ctx.search_offset_y
        if check_x ≥ 0 ∧ check_y ≥ 0 ∧ check_x + Target.width ≤ ctx.Source.width ∧
            check_y + Target.height ≤ ctx.Source.height then
          let found_at_cache := PixelComparison.CheckApproxMatch_Scalar ctx.Source Target
            check_x check_y Target.has_alpha ctx.tolerance
          if found_at_cache then
            let updated : CacheEntry := ⟨cached_entry.position, 0, cached_entry.last_used⟩
            ([MatchResult.mk cached_entry.position.x cached_entry.position.y Target.width
                Target.height 1 (String.mk source_file)],
              true,
              ⟨⟨UpdateCachedLocation w.cache cache_key updated, w.files, w.disk_log⟩,
                st.cache_hits + 1, st.cache_misses, st.backend_used, st.full_scans⟩)
          else
            let updated : CacheEntry :=
              ⟨cached_entry.position, cached_entry.miss_count + 1, cached_entry.last_used⟩
            let w2 : World :=
              if updated.miss_count ≥ CACHE_MISS_THRESHOLD then
                RemoveFromCache host w cache_key
              else ⟨UpdateCachedLocation w.cache cache_key updated, w.files, w.disk_log⟩
            ([], false,
              ⟨w2, st.cache_hits, st.cache_misses + 1, st.backend_used, st.full_scans⟩)
        else ([], false, st1)
      else ([], false, st1)
    | none => ([], false, st1)
  else ([], false, st)

/-- The block of `UnifiedImageSearch` that runs the full scan at scale 1 and stores its
first match in the cache (2033-2052): the content of `current_file_matches` and the state
afterwards. -/
def full_search (host : Host) (env : SearchEnv) (params : SearchParams)
    (ctx : SearchContext) (Target : PixelBuffer) (source_file cache_key : WString)
    (current_file_matches : List MatchResult) (found_in_cache : Bool) (st : SearchState) :
    List MatchResult × SearchState :=
  if !found_in_cache || ctx.find_all then
    let scan_matches := SearchForBitmap env ctx.Source Target ctx.search_offset_x
      ctx.search_offset_y ctx.tolerance Target.has_alpha ctx.find_all 1
      (String.mk source_file)
    let backend_used := SearchForBitmap_backend env ctx.Source Target st.backend_used
    let full_scans := st.full_scans ++ [ScanCall.mk source_file 1]
    match scan_matches with
    | [] => (current_file_matches,
        ⟨st.world, st.cache_hits, st.cache_misses, backend_used, full_scans⟩)
    | m0 :: _ =>
      if params.use_cache ≠ 0 ∧ cache_key ≠ [] then
        let new_pos : POINT := ⟨m0.x, m0.y⟩
        let entry : CacheEntry := ⟨new_pos, 0, host.now⟩
        let w : World :=
          ⟨UpdateCachedLocation st.world.cache cache_key entry, st.world.files,
            st.world.disk_log⟩
        (current_file_matches ++ scan_matches,
          ⟨SaveCacheForImage host w cache_key new_pos, st.cache_hits, st.cache_misses,
            backend_used, full_scans⟩)
      else
        (current_file_matches ++ scan_matches,
          ⟨st.world, st.cache_hits, st.cache_misses, backend_used, full_scans⟩)
  else (current_file_matches, st)

/-- The branch `if (skip_scaling)` of the loop body of `UnifiedImageSearch` (1968-2053):
the content of `current_file_matches` and the state afterwards. -/
def search_unscaled (host : Host) (env : SearchEnv) (params : SearchParams)
    (ctx : SearchContext) (Target : PixelBuffer) (source_file : WString)
    (st : SearchState) : List MatchResult × SearchState :=
  let p := cache_preload host params ctx Target source_file st.world
  let st1 : SearchState :=
    ⟨p.2, st.cache_hits, st.cache_misses, st.backend_used, st.full_scans⟩
  let c := cache_confirm host params ctx Target source_file p.1 st1
  full_search host env params ctx Target source_file p.1 c.1 c.2.1 c.2.2

/-- The loop `for (float scale = min_scale; scale <= max_scale; scale += scale_step)`
(2056-2058), run for at most `fuel` rounds from the value `scale`: the list `scales`, or
`none` when the loop has not ended after `fuel` rounds. -/
def build_scales (max_scale scale_step : Rat) : Nat → Rat → Option (List Rat)
  | 0, scale => if scale ≤ max_scale then none else some []
  | fuel + 1, scale =>
    if scale ≤ max_scale then
      (build_scales max_scale scale_step fuel (scale + scale_step)).map fun scales =>
        (std_round (scale * 10) : Rat) / 10 :: scales
    else some []

/-- The expression `static_cast<int>(std::round(dim * scale))` (2066-2067, 2093-2094). -/
def scaled_size (dim : Int) (scale : Rat) : Int := std_round ((dim : Rat) * scale)

/-- The task started for one scale when all matches are searched at several scales
(2064-2081): the matches found and the calls of `SearchForBitmap` made. -/
def scale_task (host : Host) (env : SearchEnv) (ctx : SearchContext) (Target : PixelBuffer)
    (source_file : WString) (scale : Rat) : List MatchResult × List ScanCall :=
  let newW := scaled_size Target.width scale
  let newH := scaled_size Target.height scale
  if newW ≤ 0 ∨ newH ≤ 0 ∨ newW > ctx.Source.width ∨ newH > ctx.Source.height then ([], [])
  else
    match host.ScaleBitmap_GDI Target newW newH with
    | some scaled =>
      if scaled.IsValid then
        (SearchForBitmap env ctx.Source scaled ctx.search_offset_x ctx.search_offset_y
            ctx.tolerance Target.has_alpha true scale (String.mk source_file),
          [ScanCall.mk source_file scale])
      else ([], [])
    | none => ([], [])

/-- The loop `for (float scale : scales)` that searches one scale after the other
(2092-2108): the content of `current_file_matches` and the state afterwards. -/
def scale_loop (host : Host) (env : SearchEnv) (ctx : SearchContext) (Target : PixelBuffer)
    (source_file : WString) : List Rat → SearchState → List MatchResult × SearchState
  | [], st => ([], st)
  | scale :: rest, st =>
    let newW := scaled_size Target.width scale
    let newH := scaled_size Target.height scale
    if newW ≤ 0 ∨ newH ≤ 0 ∨ newW > ctx.Source.width ∨ newH > ctx.Source.height then
      scale_loop host env ctx Target source_file rest st
    else
      match host.ScaleBitmap_GDI Target newW newH with
      | some scaled =>
        if scaled.IsValid then
          let scan_matches := SearchForBitmap env ctx.Source scaled ctx.search_offset_x
            ctx.search_offset_y ctx.tolerance Target.has_alpha ctx.find_all scale
            (String.mk source_file)
          let st1 : SearchState :=
            ⟨st.world, st.cache_hits, st.cache_misses,
              SearchForBitmap_backend env ctx.Source scaled st.backend_used,
              st.full_scans ++ [ScanCall.mk source_file scale]⟩
          if scan_matches ≠ [] then
            if !ctx.find_all then (scan_matches, st1)
            else
              let r := scale_loop host env ctx Target source_file rest st1
              (scan_matches ++ r.1, r.2)
          else scale_loop host env ctx Target source_file rest st1
        else scale_loop host env ctx Target source_file rest st
      | none => scale_loop host env ctx Target source_file rest st

/-- The body of the loop over the targets of `UnifiedImageSearch` for a valid target
(1962-2109): the content of `current_file_matches` and the state afterwards, or `none`
when the loop that builds the scales has not ended after `fuel` rounds. -/
def search_target (host : Host) (env : SearchEnv) (fuel : Nat) (params : SearchParams)
    (ctx : SearchContext) (Target : PixelBuffer) (source_file : WString)
    (st : SearchState) : Option (List MatchResult × SearchState) :=
  if ctx.skip_scaling then some (search_unscaled host env params ctx Target source_file st)
  else
    match build_scales ctx.max_scale ctx.scale_step fuel ctx.min_scale with
    | none => none
    | some scales =>
      if ctx.find_all ∧ scales.length > 1 then
        let results := scales.map (scale_task host env ctx Target source_file)
        some ((results.map Prod.fst).flatten,
          ⟨st.world, st.cache_hits, st.cache_misses, st.backend_used,
            st.full_scans ++ (results.map Prod.snd).flatten⟩)
      else some (scale_loop host env ctx Target source_file scales st)

/-- The loop `for (size_t i = 0; i < load_futures.size(); ++i)` of `UnifiedImageSearch`
(1958-2116) from index `i` on, over the values that the remaining futures deliver: the
matches appended to `all_matches` and the state afterwards. -/
def target_loop (host : Host) (env : SearchEnv) (fuel : Nat) (params : SearchParams)
    (ctx : SearchContext) (target_files : List WString) :
    List (Option PixelBuffer) → Nat → SearchState → Option (List MatchResult × SearchState)
  | [], _, st => some ([], st)
  | Target_opt :: rest, i, st =>
    match Target_opt with
    | none => target_loop host env fuel params ctx target_files rest (i + 1) st
    | some Target =>
      if !Target.IsValid then target_loop host env fuel params ctx target_files rest (i + 1) st
      else
        let source_file := if i < target_files.length then target_files.getD i [] else []
        match search_target host env fuel params ctx Target source_file st with
        | none => none
        | some r =>
          if r.1 ≠ [] then
            if !ctx.find_all then some r
            else
              (target_loop host env fuel params ctx target_files rest (i + 1) r.2).map
                fun r2 => (r.1 ++ r2.1, r2.2)
          else target_loop host env fuel params ctx target_files rest (i + 1) r.2

/-- The end shared by the debug texts of `UnifiedImageSearch`: tolerance, result limit,
centre flag, scales and mode of the call. -/
def debug_params (host : Host) (params : SearchParams) : WString :=
  ",tolerance:".toList ++ to_wstring params.tolerance
    ++ ",max_results:".toList ++ to_wstring params.max_results
    ++ ",center_pos:".toList ++ to_wstring params.center_pos
    ++ ",min_scale:".toList ++ FormatFloat host.stream_fixed params.min_scale
    ++ ",max_scale:".toList ++ FormatFloat host.stream_fixed params.max_scale
    ++ ",scale_step:".toList ++ FormatFloat host.stream_fixed params.scale_step
    ++ ",mode:".toList ++ to_wstring params.mode.toInt

/-- The text that an early return of `UnifiedImageSearch` writes: the error string, and
the debug text when `return_debug` is positive. -/
def error_result (params : SearchParams) (code : ErrorCode) (debug : WString) : WString :=
  if params.return_debug > 0 then FormatError code ++ debug else FormatError code

/-- What the first part of `UnifiedImageSearch` hands to the rest (1715-1856): the source
buffer, its label, the offsets of the search and the bounds of the capture. -/
structure SourceInfo where
  Source_opt : Option PixelBuffer
  Source_source : WString
  search_offset_x : Int
  search_offset_y : Int
  capture_left : Int
  capture_top : Int
  capture_right : Int
  capture_bottom : Int
  capture_width : Int
  capture_height : Int

/-- The copy loop that crops the source of an HBITMAP search (1839-1843): the pixels of
the rows `top .. top + height - 1`, columns `left .. left + width - 1`. -/
def crop_pixels (Source : PixelBuffer) (left top width height : Int) : List Nat :=
  (List.range height.toNat).flatMap fun y =>
    (List.range width.toNat).map fun x =>
      Source.at ((top + (y : Int)) * Source.width + left + (x : Int))

/-- The first part of `UnifiedImageSearch` (1722-1856), which obtains the source for the
mode of the call: the text of an early return, or the source and its offsets. -/
def acquire_source (host : Host) (params : SearchParams) : Except WString SourceInfo :=
  match params.mode with
  | SearchMode.ScreenSearch =>
    let b := GetScreenBounds host params.screen
    let screenLeft := b.1
    let screenTop := b.2.1
    let screenWidth := b.2.2.1
    let screenHeight := b.2.2.2
    let screenRight := screenLeft + screenWidth
    let screenBottom := screenTop + screenHeight
    let region : Int × Int × Int × Int :=
      if params.screen = 0 then
        (params.left, params.top,
          if params.right = 0 ∨ params.right = -1 then screenWidth else params.right,
          if params.bottom = 0 ∨ params.bottom = -1 then screenHeight else params.bottom)
      else if params.left = 0 ∧ params.top = 0 ∧ params.right = 0 ∧ params.bottom = 0 then
        (screenLeft, screenTop, screenRight, screenBottom)
      else
        let left := clamp params.left screenLeft (screenRight - 1)
        let top := clamp params.top screenTop (screenBottom - 1)
        (left, top,
          if params.right ≤ left ∨ params.right > screenRight then screenRight
          else params.right,
          if params.bottom ≤ top ∨ params.bottom > screenBottom then screenBottom
          else params.bottom)
    let left := region.1
    let top := region.2.1
    let right := region.2.2.1
    let bottom := region.2.2.2
    if left ≥ right ∨ top ≥ bottom then
      Except.error (error_result params ErrorCode.InvalidSearchRegion
        ("(time=".toList ++ to_wstring host.duration ++ "ms".toList
          ++ ", params=left:".toList ++ to_wstring left ++ ",top:".toList ++ to_wstring top
          ++ ",right:".toList ++ to_wstring right ++ ",bottom:".toList ++ to_wstring bottom
          ++ ",screen:".toList ++ to_wstring params.screen
          ++ ",use_cache=".toList ++ to_wstring params.use_cache
          ++ debug_params host params ++ ")".toList))
    else
      Except.ok
        ⟨host.CaptureScreen_GDI left top right bottom params.screen, "Screen".toList,
          left, top, left, top, right, bottom, right - left, bottom - top⟩
  | SearchMode.SearchImageInImage =>
    match params.source_image with
    | some (c :: cs) =>
      Except.ok ⟨host.LoadImageFromFile_GDI (c :: cs), c :: cs, 0, 0, 0, 0, 0, 0, 0, 0⟩
    | other =>
      Except.error (error_result params ErrorCode.InvalidParameters
        ("(time=".toList ++ to_wstring host.duration ++ "ms".toList
          ++ ", params=source_image:".toList ++ other.getD "null".toList
          ++ ",use_cache=".toList ++ to_wstring params.use_cache
          ++ debug_params host params ++ ")".toList))
  | SearchMode.HBitmapSearch =>
    if params.Source_hbitmap = 0 then
      Except.error (error_result params ErrorCode.InvalidSourceBitmap
        ("(time=".toList ++ to_wstring host.duration ++ "ms".toList
          ++ ", params=Source_hbitmap:".toList
          ++ (if params.Source_hbitmap ≠ 0 then "valid".toList else "null".toList)
          ++ ",Target_hbitmap:".toList
          ++ (if params.Target_hbitmap ≠ 0 then "valid".toList else "null".toList)
          ++ ",use_cache=".toList ++ to_wstring params.use_cache
          ++ debug_params host params ++ ")".toList))
    else
      let Source_opt := host.GetBitmapPixels_GDI params.Source_hbitmap
      let whole : SourceInfo := ⟨Source_opt, "HBITMAP".toList, 0, 0, 0, 0, 0, 0, 0, 0⟩
      if params.left ≠ 0 ∨ params.top ≠ 0 ∨ params.right ≠ 0 ∨ params.bottom ≠ 0 then
        match Source_opt with
        | some Source =>
          if Source.IsValid then
            let left := clamp params.left 0 (Source.width - 1)
            let top := clamp params.top 0 (Source.height - 1)
            let right :=
              if params.right ≤ left ∨ params.right > Source.width then Source.width
              else params.right
            let bottom :=
              if params.bottom ≤ top ∨ params.bottom > Source.height then Source.height
              else params.bottom
            if left < right ∧ top < bottom then
              let cropped : PixelBuffer :=
                ⟨crop_pixels Source left top (right - left) (bottom - top), right - left,
                  bottom - top, Source.has_alpha, true⟩
              Except.ok ⟨some cropped, "HBITMAP".toList, left, top, 0, 0, 0, 0, 0, 0⟩
            else Except.ok whole
          else Except.ok whole
        | none => Except.ok whole
      else Except.ok whole

/-- The loop of `UnifiedImageSearch` that splits the list of target files at the
character `|` and drops the empty pieces (1886-1900), run for at most `fuel` rounds on
what is left of the list from `start_pos` on. -/
def split_target_files : Nat → WString → List WString
  | 0, _ => []
  | fuel + 1, all_files =>
    if all_files = [] then []
    else
      let file_view := all_files.takeWhile fun c => c != '|'
      let piece := if file_view ≠ [] then [file_view] else []
      match all_files.dropWhile fun c => c != '|' with
      | [] => piece
      | _ :: rest => piece ++ split_target_files fuel rest

/-- The vector `target_files` of `UnifiedImageSearch` (1872-1901). -/
def target_files_of (params : SearchParams) : List WString :=
  match params.mode with
  | SearchMode.HBitmapSearch => ["HBITMAP".toList]
  | SearchMode.ScreenSearch =>
    match params.image_files with
    | some l => split_target_files (l.length + 1) l
    | none => []
  | SearchMode.SearchImageInImage =>
    match params.target_images with
    | some l => split_target_files (l.length + 1) l
    | none => []

/-- The values delivered by the vector `load_futures` of `UnifiedImageSearch`
(1918-1939), in order. -/
def load_futures (host : Host) (params : SearchParams) (target_files : List WString) :
    List (Option PixelBuffer) :=
  match params.mode with
  | SearchMode.HBitmapSearch =>
    if params.Target_hbitmap ≠ 0 then [host.GetBitmapPixels_GDI params.Target_hbitmap]
    else []
  | _ =>
    if target_files.length > 1 then target_files.map host.LoadImageFromFile_GDI
    else [host.LoadImageFromFile_GDI (target_files.getD 0 [])]

/-- The text `debug_info` that `UnifiedImageSearch` appends to a result when
`return_debug` is positive (2144-2163). -/
def debug_info (host : Host) (env : SearchEnv) (params : SearchParams)
    (ctx : SearchContext) (target_files : List WString) (st : SearchState) : WString :=
  "(time=".toList ++ to_wstring host.duration ++ "ms".toList
    ++ ", backend=".toList ++ st.backend_used
    ++ ", Source=".toList ++ to_wstring ctx.Source.width ++ "x".toList
    ++ to_wstring ctx.Source.height
    ++ ", files=".toList ++ to_wstring target_files.length
    ++ ", cache_hits=".toList ++ to_wstring st.cache_hits
    ++ ", cache_misses=".toList ++ to_wstring st.cache_misses
    ++ ", tolerance=".toList ++ to_wstring ctx.tolerance
    ++ ", scale=".toList ++ FormatFloat host.stream_fixed ctx.min_scale ++ "-".toList
    ++ FormatFloat host.stream_fixed ctx.max_scale ++ ":".toList
    ++ FormatFloat host.stream_fixed ctx.scale_step
    ++ (if env.win64 then
          ", cpu=AVX2:".toList ++ (if env.g_is_avx2_supported then "Y".toList else "N".toList)
            ++ "/AVX512:".toList
            ++ (if env.g_is_avx512_supported then "Y".toList else "N".toList)
        else
          ", cpu=SSE2:".toList ++ (if env.g_is_sse2_supported then "Y".toList else "N".toList))
    ++ ", capture=".toList ++ to_wstring ctx.capture_left ++ "|".toList
    ++ to_wstring ctx.capture_top ++ "|".toList ++ to_wstring ctx.capture_right
    ++ "|".toList ++ to_wstring ctx.capture_bottom ++ "|".toList
    ++ to_wstring ctx.capture_width ++ "x".toList ++ to_wstring ctx.capture_height
    ++ ", screen=".toList ++ to_wstring params.screen ++ ")".toList

/-- What a call of `UnifiedImageSearch` leaves behind: the string returned, the vector
`all_matches` (empty on an early return), and the counters, caches and the log of the
scans at the end. -/
structure SearchOutcome where
  result : WString
  all_matches : List MatchResult
  state : SearchState

/-- The locals that `UnifiedImageSearch` has set when its loop over the targets starts
(1711-1715, 1952, 1956), for the source obtained. -/
def search_context (params : SearchParams) (info : SourceInfo) (Source : PixelBuffer) :
    SearchContext :=
  let tolerance := clamp params.tolerance 0 255
  let min_scale := clampf params.min_scale (1 / 10) 5
  let max_scale := clampf params.max_scale min_scale 5
  let scale_step := clampf params.scale_step (1 / 100) 1
  let scale_step := (std_round (scale_step * 10) : Rat) / 10
  let find_all := decide (params.max_results ≥ 2)
  let skip_scaling :=
    decide (|min_scale - 1| < 1 / 1000) && decide (|max_scale - 1| < 1 / 1000)
  ⟨Source, info.Source_source, info.search_offset_x, info.search_offset_y,
    info.capture_left, info.capture_top, info.capture_right, info.capture_bottom,
    info.capture_width, info.capture_height, tolerance, min_scale, max_scale,
    scale_step, find_all, skip_scaling⟩

/-- Main build, `UnifiedImageSearch` (1703-2170), started with the caches in state `w`.
`fuel` bounds the number of rounds of the loop that builds the list of scales; the value
is `none` when that loop has not ended within the bound. -/
def UnifiedImageSearch_run (host : Host) (env : SearchEnv) (fuel : Nat)
    (params : SearchParams) (w : World) : Option SearchOutcome :=
  let st0 : SearchState := ⟨w, 0, 0, [], []⟩
  match acquire_source host params with
  | Except.error text => some ⟨text, [], st0⟩
  | Except.ok info =>
    match info.Source_opt.filter PixelBuffer.IsValid with
    | none =>
      some ⟨error_result params ErrorCode.FailedToGetScreenDC
        ("(time=".toList ++ to_wstring host.duration ++ "ms".toList
          ++ ", params=left:".toList ++ to_wstring params.left
          ++ ",top:".toList ++ to_wstring params.top
          ++ ",right:".toList ++ to_wstring params.right
          ++ ",bottom:".toList ++ to_wstring params.bottom
          ++ ",screen:".toList ++ to_wstring params.screen
          ++ ",use_cache:".toList ++ to_wstring params.use_cache
          ++ debug_params host params
          ++ ",Source_valid:".toList
          ++ (if info.Source_opt.isSome then "yes".toList else "no".toList)
          ++ ")".toList), [], st0⟩
    | some Source =>
      let target_files := target_files_of params
      if target_files = [] then
        some ⟨error_result params ErrorCode.InvalidParameters
          ("(time=".toList ++ to_wstring host.duration ++ "ms".toList
            ++ ", params=target_files:".toList ++ to_wstring target_files.length
            ++ debug_params host params ++ ")".toList), [], st0⟩
      else
        let ctx := search_context params info Source
        match target_loop host env fuel params ctx target_files
            (load_futures host params target_files) 0 st0 with
        | none => none
        | some r =>
          let payload := result_payload r.1 params.max_results params.center_pos
          some
            ⟨if params.return_debug > 0 then
                payload ++ debug_info host env params ctx target_files r.2
              else payload,
              r.1, r.2⟩

/-- Main build, `UnifiedImageSearch` (1703-2170): the string returned. -/
def UnifiedImageSearch (host : Host) (env : SearchEnv) (fuel : Nat) (params : SearchParams)
    (w : World) : Option WString :=
  (UnifiedImageSearch_run host env fuel params w).map SearchOutcome.result

/-! ### Reading a result payload

The program only writes result strings. The reader below is the reference reader of the
documented format `{count}[x|y|w|h,...]`: it is what a caller has to do to get the
records back. -/

/-- The number read from a run of decimal digits at the start of `s`, after the value
`acc`, and the rest of `s`. -/
def read_digits : WString → Nat → Nat × WString
  | [], acc => (acc, [])
  | c :: rest, acc =>
    if c.isDigit then read_digits rest (10 * acc + (c.toNat - 48)) else (acc, c :: rest)

/-- Reads a non-empty run of decimal digits. -/
def read_nat (s : WString) : Option (Nat × WString) :=
  match s with
  | c :: _ => if c.isDigit then some (read_digits s 0) else none
  | [] => none

/-- Reads a decimal integer with an optional minus sign. -/
def read_int (s : WString) : Option (Int × WString) :=
  match s with
  | '-' :: rest => (read_nat rest).map fun r => (-(r.1 : Int), r.2)
  | _ => (read_nat s).map fun r => ((r.1 : Int), r.2)

/-- Reads the character `c`. -/
def read_char (c : Char) (s : WString) : Option WString :=
  match s with
  | d :: rest => if d = c then some rest else none
  | [] => none

/-- Reads one record `x|y|w|h`. -/
def read_record (s : WString) : Option ((Int × Int × Int × Int) × WString) :=
  (read_int s).bind fun x =>
  (read_char '|' x.2).bind fun s1 =>
  (read_int s1).bind fun y =>
  (read_char '|' y.2).bind fun s2 =>
  (read_int s2).bind fun w =>
  (read_char '|' w.2).bind fun s3 =>
  (read_int s3).bind fun h => some ((x.1, y.1, w.1, h.1), h.2)

/-- Reads records separated by commas, at most `fuel` of them. -/
def read_records : Nat → WString → Option (List (Int × Int × Int × Int) × WString)
  | 0, _ => none
  | fuel + 1, s =>
    (read_record s).bind fun r =>
      match r.2 with
      | ',' :: rest => (read_records fuel rest).map fun rs => (r.1 :: rs.1, rs.2)
      | rest => some ([r.1], rest)

/-- Reads a whole payload `{count}[x|y|w|h,...]`: the count and the records. -/
def read_payload (s : WString) : Option (Int × List (Int × Int × Int × Int)) :=
  (read_char '\x7b' s).bind fun s1 =>
  (read_int s1).bind fun k =>
  (read_char '\x7d' k.2).bind fun s2 =>
  (read_char '[' s2).bind fun s3 =>
    if s3 = [']'] then some (k.1, [])
    else
      (read_records s3.length s3).bind fun rs =>
        if rs.2 = [']'] then some (k.1, rs.1) else none

/-- The record that the specification gives for a match: the centre of the match, with
halves rounded down, when `center_pos` is 1, and its top-left corner otherwise, followed
by width and height. -/
def record_of (center_pos : Int) (m : MatchResult) : Int × Int × Int × Int :=
  if center_pos = 1 then (m.x + m.w / 2, m.y + m.h / 2, m.w, m.h) else (m.x, m.y, m.w, m.h)

/-- The text of a record: four decimal numbers separated by `|`. -/
def record_text (r : Int × Int × Int × Int) : WString :=
  to_wstring r.1 ++ "|".toList ++ to_wstring r.2.1 ++ "|".toList ++ to_wstring r.2.2.1
    ++ "|".toList ++ to_wstring r.2.2.2

/-- The text of a payload with the given records: the count in braces, then the records
joined by commas in square brackets. -/
def payload_text (records : List (Int × Int × Int × Int)) : WString :=
  "\x7b".toList ++ to_wstring records.length ++ "\x7d[".toList
    ++ ",".toList.intercalate (records.map record_text) ++ "]".toList


/-- The struct `SearchParams` with its default member initialisers (1684-1701). -/
def default_params : SearchParams :=
  ⟨SearchMode.ScreenSearch, none, 0, 0, 0, 0, 0, none, none, 0, 0, 10, 1, 1, 1, 1, 1 / 10, 0, 0⟩

/-! ### The invariant of the location cache -/

/-- The position of the first entry of a list of keyed entries that has key `k`. -/
def find_key {V : Type} (k : WString) : List (WString × V) → Option Nat
  | [] => none
  | item :: rest => if item.1 = k then some 0 else (find_key k rest).map fun j => j + 1

/-- The entry stored under key `k` in a list of keyed entries. -/
def entry_of {V : Type} (k : WString) (l : List (WString × V)) : Option V :=
  (l.find? fun item => item.1 == k).map Prod.snd

/-- A list of keyed entries without the entries of key `k`. -/
def without_key {V : Type} (k : WString) (l : List (WString × V)) : List (WString × V) :=
  l.filter fun item => item.1 != k

/-- A list of keyed entries after the entry of key `k`, if there is one, has been moved to
the front: what a least-recently-used list does when `k` is looked up. -/
def touch_key {V : Type} (k : WString) (l : List (WString × V)) : List (WString × V) :=
  match l.find? fun item => item.1 == k with
  | some item => item :: without_key k l
  | none => l

/-- A list of keyed entries after `(k, e)` has been put at the front and the list has been
cut to its first `limit` entries: what a least-recently-used list of capacity `limit`
does when `k` is inserted or updated. -/
def put_key {V : Type} (limit : Nat) (k : WString) (e : V) (l : List (WString × V)) :
    List (WString × V) :=
  ((k, e) :: without_key k l).take limit

/-- The invariant of the location cache of the main build: at most
`MAX_CACHED_LOCATIONS` entries, no key twice, and the index maps exactly the keys of the
entries, each to the position of its entry. -/
def LocationCache.Consistent (c : LocationCache) : Prop :=
  c.g_location_cache_lru.length ≤ MAX_CACHED_LOCATIONS ∧
    (c.g_location_cache_lru.map Prod.fst).Nodup ∧
    ∀ k : WString, c.g_location_cache_index k = find_key k c.g_location_cache_lru

/-- The entry that `GetCachedLocation` returns for a stored entry: the same position and
miss counter, stamped with the reading of the clock. -/
def CacheEntry.stamped (now : Nat) (e : CacheEntry) : CacheEntry :=
  ⟨e.position, e.miss_count, now⟩

namespace XP

/-- XP build: the entries of the location cache in the order of the list, without the
addresses of the nodes. -/
def LocationCache.entries (c : LocationCache) : List (WString × CacheEntry) :=
  c.g_location_cache_lru.map Prod.snd

/-- The invariant of the location cache of the XP build: at most `MAX_CACHED_LOCATIONS`
entries, no key twice, no node address twice, every node address below the next address
to be allocated, and the index maps exactly the keys of the entries, each to the node of
its entry. -/
def LocationCache.Consistent (c : LocationCache) : Prop :=
  c.g_location_cache_lru.length ≤ MAX_CACHED_LOCATIONS ∧
    (c.entries.map Prod.fst).Nodup ∧
    (c.g_location_cache_lru.map Prod.fst).Nodup ∧
    (∀ n ∈ c.g_location_cache_lru, n.1 < c.next_node) ∧
    ∀ k : WString, c.g_location_cache_index k =
      (c.g_location_cache_lru.find? fun n => n.2.1 == k).map Prod.fst

/-- XP build: the entry that `GetCachedLocation` returns for a stored entry. -/
def CacheEntry.stamped (now : Nat) (e : CacheEntry) : CacheEntry :=
  ⟨e.position, e.miss_count, now⟩

end XP

/-- Main build, the location cache at program start and after `ImageSearch_ClearCache`. -/
def LocationCache.empty : LocationCache := ⟨[], IndexMap.clear⟩

namespace XP

/-- XP build, the location cache at program start and after `ImageSearch_ClearCache`. -/
def LocationCache.empty : LocationCache := ⟨[], IndexMap.clear, 0⟩

end XP

/-- The entry of the XP build with the content of an entry of the main build. -/
def CacheEntry.toXP (e : CacheEntry) : XP.CacheEntry := ⟨e.position, e.miss_count, e.last_used⟩

/-! ### Sample inputs -/

/-- Sample cache entry number `i`: the key is `i + 1` letters `a`, the position is
`(i, 2 i)`, the miss counter is 0. -/
def sample_entry (i : Nat) : WString × CacheEntry :=
  (List.replicate (i + 1) 'a', ⟨⟨i, 2 * i⟩, 0, 0⟩)

/-- The sample entries number 1 to 100. -/
def sample_others : List (WString × CacheEntry) :=
  (List.range 100).map fun i => sample_entry (i + 1)

/-- Main build: a consistent cache that holds the sample entries number 0 to 99. -/
def sample_cache : LocationCache :=
  _RebuildCacheIndex ⟨(List.range 100).map sample_entry, IndexMap.clear⟩

namespace XP

/-- XP build: a consistent cache that holds the sample entries number 0 to 99, entry
number `i` in the node at address `i`. -/
def sample_cache : LocationCache :=
  ⟨(List.range 100).map fun i => (i, ((sample_entry i).1, (sample_entry i).2.toXP)),
    fun k =>
      (((List.range 100).map fun i =>
        (i, ((sample_entry i).1, (sample_entry i).2.toXP))).find?
          fun n => n.2.1 == k).map Prod.fst,
    100⟩

end XP

/-- The contract of `std::sort(first, last, CompareMatchResults)`: the result is a
rearrangement of the input in which no element comes before one that precedes it. -/
def SearchEnv.SortContract (env : SearchEnv) : Prop :=
  (∀ l : List MatchResult, (env.std_sort l).Perm l) ∧
    ∀ l : List MatchResult,
      (env.std_sort l).Pairwise fun a b => CompareMatchResults b a = false

/-- Sample processor: a 64-bit build without AVX2 and AVX-512, one hardware thread, merge
sort as the sort routine. -/
def sample_env : SearchEnv := ⟨true, false, false, false, 1, merge_sort_matches⟩

/-- Sample opaque black pixel. -/
def sample_black : Nat := 4278190080

/-- Sample opaque white pixel. -/
def sample_white : Nat := 4294967295

/-- Sample surroundings without a screen capture: one monitor, the primary screen, of 1920
by 1080 pixels at the origin (the values of `EnumDisplayMonitors` and of `GetSystemMetrics`
for `SM_CXSCREEN`, `SM_CYSCREEN` and the virtual screen), on which every capture fails (no
device context); the file `s` holds a source of two pixels in a row, black and white; the
file `a` holds a target of one white pixel, the file `b` a target of one black pixel;
paths are their own normal form, a cache key is the name of its cache file, the cache-file
mutex exists and can be locked, and the scale 1 is printed as `1.0`. -/
def blind_host : Host :=
  ⟨fun _ _ => "1.0".toList, [⟨0, 0, 1920, 1080⟩],
    fun index =>
      if index = SM_CXSCREEN ∨ index = SM_CXVIRTUALSCREEN then 1920
      else if index = SM_CYSCREEN ∨ index = SM_CYVIRTUALSCREEN then 1080
      else 0,
    fun _ _ _ _ _ => none,
    fun file =>
      if file = "s".toList then some ⟨[sample_black, sample_white], 2, 1, false, true⟩
      else if file = "a".toList then some ⟨[sample_white], 1, 1, false, true⟩
      else if file = "b".toList then some ⟨[sample_black], 1, 1, false, true⟩
      else none,
    fun _ => none, fun _ _ _ => none, fun p => p, fun k => k, true, true, 0, 0⟩

/-- Sample surroundings as `blind_host`, in which the screen shows the pixel `desktop x y`
at the point (x, y) and a capture returns the rectangle that `CaptureScreenInternal`
copies. -/
def desktop_host (desktop : Int → Int → Nat) : Host :=
  ⟨blind_host.stream_fixed, blind_host.monitors, blind_host.GetSystemMetrics,
    fun iLeft iTop iRight iBottom iScreen =>
      (CaptureScreenInternal blind_host iLeft iTop iRight iBottom iScreen).map
        (captured_buffer desktop),
    blind_host.LoadImageFromFile_GDI, blind_host.GetBitmapPixels_GDI,
    blind_host.ScaleBitmap_GDI, blind_host.GetNormalizedPathKey,
    blind_host.GetCacheFileForImage, true, true, 0, 0⟩

/-- Sample desktop: black, except for one white pixel at the point (1, 0). -/
def sample_desktop (x y : Int) : Nat := if x = 1 ∧ y = 0 then sample_white else sample_black

/-- Sample surroundings: the desktop `sample_desktop` on the monitor and the files of
`blind_host`; the two pixels of the screen from the origin on are black and white, the
content of the file `s`. -/
def sample_host : Host := desktop_host sample_desktop

/-- Sample state: an empty location cache and no cache file. -/
def sample_world : World := ⟨LocationCache.empty, fun _ => none, []⟩

/-- Sample call: image-in-image search of the targets `a` and `b` in the source `s`, all
matches (at most 2), tolerance 0, top-left positions, scale 1, no cache, no debug text. -/
def sample_params : SearchParams :=
  ⟨SearchMode.SearchImageInImage, none, 0, 0, 0, 0, 0, some "s".toList, some "a|b".toList,
    0, 0, 0, 2, 0, 1, 1, 1 / 10, 0, 0⟩

/-- The pixel at index `i` of the sample 100x100 source: white in the 10x10 block whose
top-left corner is column 20 of row 30, black elsewhere. -/
def scenario_pixel (i : Nat) : Nat :=
  if 20 ≤ i % 100 ∧ i % 100 < 30 ∧ 30 ≤ i / 100 ∧ i / 100 < 40 then sample_white
  else sample_black

/-- The pixels of the sample 100x100 source. -/
@[irreducible]
def scenario_pixels : List Nat := (List.range 10000).map scenario_pixel

/-- Sample 100x100 source with a white 10x10 block at (20, 30) on black. -/
def scenario_source : PixelBuffer := ⟨scenario_pixels, 100, 100, false, true⟩

/-- The pixels of the sample 10x10 target. -/
def scenario_target_pixels : List Nat := List.replicate 100 sample_white

/-- Sample 10x10 target, all white. -/
def scenario_target : PixelBuffer := ⟨scenario_target_pixels, 10, 10, false, true⟩

/-- Sample surroundings in which the file `s` holds the sample 100x100 source and the file
`t` the sample 10x10 target. -/
def scenario_host : Host :=
  ⟨fun _ _ => "1.0".toList, [], fun _ => 0, fun _ _ _ _ _ => none,
    fun file =>
      if file = "s".toList then some scenario_source
      else if file = "t".toList then some scenario_target
      else none,
    fun _ => none, fun _ _ _ => none, fun p => p, fun k => k, true, true, 0, 0⟩

/-- Sample call: image-in-image search of the target `t` in the source `s`, first match
only, tolerance 0, scale 1, no cache, no debug text, with the given `center_pos`. -/
def scenario_params (center_pos : Int) : SearchParams :=
  ⟨SearchMode.SearchImageInImage, none, 0, 0, 0, 0, 0, some "s".toList, some "t".toList,
    0, 0, 0, 1, center_pos, 1, 1, 1 / 10, 0, 0⟩

/-- Sample call: screen search of the target `a` in the region (0, 0)-(2, 1) of monitor 1
(`iScreen` = 1), top-left positions, scale 1, no debug text, with the given tolerance,
result limit and cache flag. -/
def screen_params (tolerance max_results use_cache : Int) : SearchParams :=
  ⟨SearchMode.ScreenSearch, some "a".toList, 0, 0, 2, 1, 1, none, none, 0, 0, tolerance,
    max_results, 0, 1, 1, 1 / 10, 0, use_cache⟩

/-- Sample state: the location cache holds the position `(x, y)` with miss counter 0 under
the key that `sample_host` gives a screen search for the target `a` at the given
tolerance; there is no cache file. -/
def cached_world (tolerance x y : Int) : World :=
  ⟨UpdateCachedLocation LocationCache.empty
      (GenerateCacheKey sample_host "Screen".toList "a".toList tolerance false 1)
      ⟨⟨x, y⟩, 0, 0⟩,
    fun _ => none, []⟩

/-- Sample call: image-in-image search of the target `a` in the source `s`, top-left
positions, scale 1, no debug text, with the given tolerance, result limit and cache
flag. -/
def in_image_params (tolerance max_results use_cache : Int) : SearchParams :=
  ⟨SearchMode.SearchImageInImage, none, 0, 0, 0, 0, 0, some "s".toList, some "a".toList, 0, 0,
    tolerance, max_results, 0, 1, 1, 1 / 10, 0, use_cache⟩

/-- Sample surroundings: as `sample_host`, and the bitmap handle 1 holds the content of
the file `s`, the handle 2 that of the file `a`. -/
def bitmap_host : Host :=
  ⟨sample_host.stream_fixed, sample_host.monitors, sample_host.GetSystemMetrics,
    sample_host.CaptureScreen_GDI, sample_host.LoadImageFromFile_GDI,
    fun handle =>
      if handle = 1 then some ⟨[sample_black, sample_white], 2, 1, false, true⟩
      else if handle = 2 then some ⟨[sample_white], 1, 1, false, true⟩
      else none,
    sample_host.ScaleBitmap_GDI, sample_host.GetNormalizedPathKey,
    sample_host.GetCacheFileForImage, true, true, 0, 0⟩

/-- Sample call: search of the bitmap with handle 2 in the bitmap with handle 1, top-left
positions, scale 1, no debug text, with the given tolerance, result limit and cache
flag. -/
def hbitmap_params (tolerance max_results use_cache : Int) : SearchParams :=
  ⟨SearchMode.HBitmapSearch, none, 0, 0, 0, 0, 0, none, none, 1, 2, tolerance, max_results, 0,
    1, 1, 1 / 10, 0, use_cache⟩

/-- Sample state: the location cache holds the position `(x, y)` with miss counter 0 under
the key `cache_key`; there is no cache file. -/
def world_with_entry (cache_key : WString) (x y : Int) : World :=
  ⟨UpdateCachedLocation LocationCache.empty cache_key ⟨⟨x, y⟩, 0, 0⟩, fun _ => none, []⟩

/-- What is observed of a call of `UnifiedImageSearch`: the string returned, the number of
cache hits, the calls of `SearchForBitmap`, and the position and miss counter that the
location cache holds for `cache_key` afterwards. -/
def observe (cache_key : WString) (o : SearchOutcome) :
    WString × Int × List ScanCall × Option (POINT × Int) :=
  (o.result, o.state.cache_hits, o.state.full_scans,
    (GetCachedLocation o.state.world.cache cache_key 0).1.map fun e =>
      (e.position, e.miss_count))

/-- Sample desktop: black, except for one white pixel at the origin. -/
def flipped_desktop (x y : Int) : Nat :=
  if x = 0 ∧ y = 0 then sample_white else sample_black

/-- Sample surroundings: as `sample_host`, with the first two pixels of the screen swapped,
white then black. -/
def flipped_host : Host := desktop_host flipped_desktop

/-- Sample surroundings: as `sample_host`, with a screen that is black all over. -/
def dark_host : Host := desktop_host fun _ _ => sample_black

/-- What is observed of a call of `UnifiedImageSearch` with the cache enabled: the string
returned, the numbers of cache hits and cache misses, and the position and miss counter
that the location cache holds for `cache_key` afterwards. -/
def observe_cache (cache_key : WString) (o : SearchOutcome) :
    WString × Int × Int × Option (POINT × Int) :=
  (o.result, o.state.cache_hits, o.state.cache_misses,
    (entry_of cache_key o.state.world.cache.g_location_cache_lru).map fun e =>
      (e.position, e.miss_count))

/-! ### The pool of pixel arrays -/

/-- A `std::vector<COLORREF>`: its elements and its capacity. -/
structure ColorVector where
  data : List Nat
  capacity : Nat
deriving DecidableEq, Repr

/-- The call `buf.resize(size)`: the first `size` elements are kept, missing ones are
zero; the capacity stays when it suffices and is otherwise taken as `size`, the least
value that the library may choose. -/
def ColorVector.resize (buf : ColorVector) (size : Nat) : ColorVector :=
  ⟨buf.data.take size ++ List.replicate (size - buf.data.length) 0,
    if size ≤ buf.capacity then buf.capacity else size⟩

/-- The constructor call `std::vector<COLORREF>(size)`: `size` zero elements. -/
def ColorVector.zeros (size : Nat) : ColorVector := ⟨List.replicate size 0, size⟩

/-- The struct `PixelBufferPool` (671-711; XP 745-802): the vector `buffers` and the map
`size_buckets`, as the list of its keys with their buckets, each key once. -/
structure PixelBufferPool where
  buffers : List ColorVector
  size_buckets : List (Nat × List ColorVector)
deriving DecidableEq, Repr

/-- The pool at program start. -/
def PixelBufferPool.empty : PixelBufferPool := ⟨[], []⟩

/-- The bucket that the map holds for a key; a key without mapping has no arrays. -/
def bucket_of (size_buckets : List (Nat × List ColorVector)) (key : Nat) : List ColorVector :=
  ((size_buckets.find? fun kv => kv.1 == key).map Prod.snd).getD []

/-- The assignment to `size_buckets[key]`: the bucket of a key that is mapped is replaced,
a key that is not mapped is added. -/
def set_bucket (size_buckets : List (Nat × List ColorVector)) (key : Nat)
    (bucket : List ColorVector) : List (Nat × List ColorVector) :=
  if size_buckets.any fun kv => kv.1 == key then
    size_buckets.map fun kv => if kv.1 = key then (key, bucket) else kv
  else size_buckets ++ [(key, bucket)]

/-- The expression `(size + 1023) / 1024 * 1024` (680, 696). -/
def bucket_size_of (size : Nat) : Nat := (size + 1023) / 1024 * 1024

/-- The count `total_buffers` of `Release` (699-703): the length of `buffers` plus the
lengths of all buckets. -/
def total_buffers (pool : PixelBufferPool) : Nat :=
  pool.buffers.length + (pool.size_buckets.map fun kv => kv.2.length).sum

/-- The conversion `static_cast<size_t>` of an `int`, with 64-bit `size_t`. -/
def size_t_of_int (v : Int) : Nat := (v % 18446744073709551616).toNat

/-- Main build, `PixelBufferPool::Acquire` (676-690): the array returned and the pool
afterwards. The access `size_buckets[bucket_size]` adds the key when it is not mapped. -/
def PixelBufferPool.Acquire (pool : PixelBufferPool) (size : Nat) :
    ColorVector × PixelBufferPool :=
  let bucket_size := bucket_size_of size
  let bucket := bucket_of pool.size_buckets bucket_size
  match bucket.getLast? with
  | some buf =>
    (buf.resize size, ⟨pool.buffers, set_bucket pool.size_buckets bucket_size bucket.dropLast⟩)
  | none =>
    (ColorVector.zeros size, ⟨pool.buffers, set_bucket pool.size_buckets bucket_size bucket⟩)

/-- Main build, `PixelBufferPool::Release` (692-710), with `g_pixel_pool_size` as first
argument: the pool afterwards. -/
def PixelBufferPool.Release (g_pixel_pool_size : Int) (pool : PixelBufferPool)
    (buffer : ColorVector) : PixelBufferPool :=
  if buffer.data = [] then pool
  else
    let bucket_size := bucket_size_of buffer.capacity
    if total_buffers pool < size_t_of_int g_pixel_pool_size then
      ⟨pool.buffers,
        set_bucket pool.size_buckets bucket_size
          (bucket_of pool.size_buckets bucket_size ++ [buffer])⟩
    else pool

namespace XP

/-- XP build, `PixelBufferPool::Acquire` (759-776): the array returned and the pool
afterwards. The map is searched with `find`, which adds no key. -/
def PixelBufferPool.Acquire (pool : PixelBufferPool) (size : Nat) :
    ColorVector × PixelBufferPool :=
  let bucket_size := bucket_size_of size
  match pool.size_buckets.find? fun kv => kv.1 == bucket_size with
  | some kv =>
    match kv.2.getLast? with
    | some buf =>
      (buf.resize size,
        ⟨pool.buffers, set_bucket pool.size_buckets bucket_size kv.2.dropLast⟩)
    | none => (ColorVector.zeros size, pool)
  | none => (ColorVector.zeros size, pool)

/-- XP build, `PixelBufferPool::Release` (778-801), with `g_pixel_pool_size` as first
argument and 32-bit `size_t`: the pool afterwards. -/
def PixelBufferPool.Release (g_pixel_pool_size : Int) (pool : PixelBufferPool)
    (buffer : ColorVector) : PixelBufferPool :=
  if buffer.data = [] then pool
  else
    let bucket_size := bucket_size_of buffer.capacity
    if total_buffers pool < (g_pixel_pool_size % 4294967296).toNat then
      ⟨pool.buffers,
        set_bucket pool.size_buckets bucket_size
          (bucket_of pool.size_buckets bucket_size ++ [buffer])⟩
    else pool

end XP

/-- A call on the pool: `Acquire(size)`, or `Release` of an array. -/
inductive PoolCall where
  | Acquire (size : Nat)
  | Release (buffer : ColorVector)
deriving DecidableEq, Repr

/-- The pool after a sequence of calls, main build. -/
def run_pool (g_pixel_pool_size : Int) (pool : PixelBufferPool) (calls : List PoolCall) :
    PixelBufferPool :=
  calls.foldl
    (fun p call =>
      match call with
      | PoolCall.Acquire size => (p.Acquire size).2
      | PoolCall.Release buffer => p.Release g_pixel_pool_size buffer)
    pool

namespace XP

/-- The pool after a sequence of calls, XP build. -/
def run_pool (g_pixel_pool_size : Int) (pool : PixelBufferPool) (calls : List PoolCall) :
    PixelBufferPool :=
  calls.foldl
    (fun p call =>
      match call with
      | PoolCall.Acquire size => (XP.PixelBufferPool.Acquire p size).2
      | PoolCall.Release buffer => XP.PixelBufferPool.Release g_pixel_pool_size p buffer)
    pool

end XP

/-- Sample locals of a screen search on `sample_host` in the region (0, 0)-(2, 1) of
monitor 1 with tolerance 0 and scale 1: the source is the two pixels captured there;
`find_all` as given. -/
def sample_screen_context (find_all : Bool) : SearchContext :=
  ⟨⟨[sample_black, sample_white], 2, 1, false, true⟩, "Screen".toList, 0, 0, 0, 0, 2, 1, 2, 1,
    0, 1, 1, 1 / 10, find_all, true⟩

/-- The expression `(i < target_files.size()) ? target_files[i] : L""` of the loop over
the targets (1964). -/
def target_file_at (target_files : List WString) (i : Nat) : WString :=
  if i < target_files.length then target_files.getD i [] else []

/-- The full scan of the source for one target at scale 1 in first-match mode, as
`UnifiedImageSearch` calls it (2035-2036): empty, or the first match of the target. -/
def first_match_scan (env : SearchEnv) (ctx : SearchContext) (Target : PixelBuffer)
    (source_file : WString) : List MatchResult :=
  SearchForBitmap env ctx.Source Target ctx.search_offset_x ctx.search_offset_y ctx.tolerance
    Target.has_alpha false 1 (String.mk source_file)

/-- Sample call: image-in-image search of the targets `a` and `b`, in this order, in the
source `s`, first match only, tolerance 0, top-left positions, scale 1, no cache, no debug
text. -/
def first_match_params : SearchParams :=
  ⟨SearchMode.SearchImageInImage, none, 0, 0, 0, 0, 0, some "s".toList, some "a|b".toList,
    0, 0, 0, 1, 0, 1, 1, 1 / 10, 0, 0⟩

/-- Sample call: image-in-image search in the source `s` of the target file `zz`, which
`sample_host` cannot decode; first match only, scale 1, no cache, no debug text. -/
def missing_target_params : SearchParams :=
  ⟨SearchMode.SearchImageInImage, none, 0, 0, 0, 0, 0, some "s".toList, some "zz".toList, 0, 0,
    0, 1, 0, 1, 1, 1 / 10, 0, 0⟩

/-- Sample call: search in the bitmap with handle 1 with a null target handle; first match
only, scale 1, no cache, no debug text. -/
def null_target_params : SearchParams :=
  ⟨SearchMode.HBitmapSearch, none, 0, 0, 0, 0, 0, none, none, 1, 0, 0, 1, 0, 1, 1, 1 / 10, 0, 0⟩

/-- Sample surroundings: `sample_host` under the name used where its screen metrics
matter: a primary screen of 1920 by 1080 pixels (the values of `GetSystemMetrics` for
`SM_CXSCREEN` and `SM_CYSCREEN`, and for the virtual screen), which is monitor 1; a capture
of the whole monitor returns its 1920 by 1080 pixels. -/
def metrics_host : Host := sample_host

/-- Sample call: screen search of the target `a` with the default region (0, 0, 0, 0) on
the screen `screen`; first match only, tolerance 0, scale 1, no cache, no debug text. -/
def default_region_params (screen : Int) : SearchParams :=
  ⟨SearchMode.ScreenSearch, some "a".toList, 0, 0, 0, 0, screen, none, none, 0, 0, 0, 1, 0, 1,
    1, 1 / 10, 0, 0⟩

/-- Sample state: an empty location cache and one cache file, at path `path`, with the
content `content`. -/
def world_with_file (path content : WString) : World :=
  ⟨LocationCache.empty, fun p => if p = path then some content else none, []⟩

/-- Sample call: image-in-image search of the target `a` in the source `s` over the scale
range 0.5 to 1.0 with the given scale step; first match only, tolerance 0, no cache, no
debug text. -/
def scaled_params (scale_step : Rat) : SearchParams :=
  ⟨SearchMode.SearchImageInImage, none, 0, 0, 0, 0, 0, some "s".toList, some "a".toList, 0, 0,
    0, 1, 0, 1 / 2, 1, scale_step, 0, 0⟩

/-- A call that changes the in-memory location cache: `UpdateCachedLocation`,
`GetCachedLocation` (with the reading of the clock), `RemoveFromCache`,
`ImageSearch_ClearCache`, and `LoadCacheForImage` with the entry that it has read from the
cache file. -/
inductive CacheCall where
  | UpdateCachedLocation (cache_key : WString) (entry : CacheEntry)
  | GetCachedLocation (cache_key : WString) (now : Nat)
  | RemoveFromCache (cache_key : WString)
  | ClearCache
  | LoadCacheForImage (cache_key : WString) (entry : CacheEntry)
deriving DecidableEq, Repr

/-- The location cache after one call, main build. -/
def apply_cache_call (c : LocationCache) : CacheCall → LocationCache
  | CacheCall.UpdateCachedLocation cache_key entry => UpdateCachedLocation c cache_key entry
  | CacheCall.GetCachedLocation cache_key now => (GetCachedLocation c cache_key now).2
  | CacheCall.RemoveFromCache cache_key =>
    if cache_key = [] then c else RemoveFromCache_locked c cache_key
  | CacheCall.ClearCache => ClearCache_locked c
  | CacheCall.LoadCacheForImage cache_key entry => LoadCacheForImage_locked c cache_key entry

/-- The location cache after a sequence of calls, main build. -/
def run_cache_calls (c : LocationCache) (calls : List CacheCall) : LocationCache :=
  calls.foldl apply_cache_call c

/-- Whether in a sequence of calls, run from the cache `c`, every `LoadCacheForImage` is
for a key that has no entry at that moment. -/
def loads_only_absent (c : LocationCache) : List CacheCall → Bool
  | [] => true
  | call :: rest =>
    (match call with
      | CacheCall.LoadCacheForImage cache_key _ =>
        decide (cache_key ∉ c.g_location_cache_lru.map Prod.fst)
      | _ => true) &&
    loads_only_absent (apply_cache_call c call) rest

/-- The mean of the pixels of a buffer, byte by byte: the pixel that a resampling filter
which weighs all pixels alike delivers when the buffer is scaled down to one pixel. -/
def mean_pixel (pixels : List Nat) : Nat :=
  (pixels.map AlphaByte).sum / pixels.length * 16777216 +
    (pixels.map GetBValue).sum / pixels.length * 65536 +
    (pixels.map GetGValue).sum / pixels.length * 256 +
    (pixels.map GetRValue).sum / pixels.length

/-- Sample resampler for `ScaleBitmap_GDI` (855-986). The requests that the function
refuses at its start are refused; a buffer scaled to its own size comes back with its
pixels; a buffer scaled to one pixel comes back as the mean of its pixels (for a buffer of
2 by 2 pixels every filter that is symmetric about the centre weighs the four pixels
alike); other requests fail, as the drawing call may. The result has the size asked for
and the alpha flag of the source, as in the code. -/
def sample_ScaleBitmap (source : PixelBuffer) (newW newH : Int) : Option PixelBuffer :=
  if !source.IsValid then none
  else if newW ≤ 0 ∨ newH ≤ 0 ∨ newW > 32000 ∨ newH > 32000 then none
  else if newW = source.width ∧ newH = source.height then
    some ⟨source.pixels, newW, newH, source.has_alpha, false⟩
  else if newW = 1 ∧ newH = 1 then
    some ⟨[mean_pixel source.pixels], newW, newH, source.has_alpha, false⟩
  else none

/-- Sample surroundings: as `sample_host`, with the resampler `sample_ScaleBitmap`, and a
further file `q` that holds 2 by 2 pixels, the first black and the other three white. -/
def scaling_host : Host :=
  ⟨sample_host.stream_fixed, sample_host.monitors, sample_host.GetSystemMetrics,
    sample_host.CaptureScreen_GDI,
    fun file =>
      if file = "q".toList then
        some ⟨[sample_black, sample_white, sample_white, sample_white], 2, 2, false, true⟩
      else sample_host.LoadImageFromFile_GDI file,
    sample_host.GetBitmapPixels_GDI, sample_ScaleBitmap, sample_host.GetNormalizedPathKey,
    sample_host.GetCacheFileForImage, true, true, 0, 0⟩

/-- Sample call: image-in-image search in the source `source` for the target `target` over
the scale range 0.5 to 1.0 with scale step 0.5, top-left positions, no cache, no debug
text, with the given tolerance and result limit. -/
def scale_range_params (source target : WString) (tolerance max_results : Int) :
    SearchParams :=
  ⟨SearchMode.SearchImageInImage, none, 0, 0, 0, 0, 0, some source, some target, 0, 0,
    tolerance, max_results, 0, 1 / 2, 1, 1 / 2, 0, 0⟩

/-- Sample call: image-in-image search in the source `source` for the target `target` at
scale range 1.0 to 1.0, top-left positions, no cache, no debug text, with the given
tolerance and result limit. -/
def unit_scale_params (source target : WString) (tolerance max_results : Int) :
    SearchParams :=
  ⟨SearchMode.SearchImageInImage, none, 0, 0, 0, 0, 0, some source, some target, 0, 0,
    tolerance, max_results, 0, 1, 1, 1 / 10, 0, 0⟩

/-- Sample call: screen search of the target `a` in the region (`left`, `top`)-(`right`,
`bottom`) of monitor 1 (`iScreen` = 1), top-left positions, scale 1, no debug text, with
the given tolerance, result limit and cache flag. -/
def region_params (left top right bottom tolerance max_results use_cache : Int) :
    SearchParams :=
  ⟨SearchMode.ScreenSearch, some "a".toList, left, top, right, bottom, 1, none, none, 0, 0,
    tolerance, max_results, 0, 1, 1, 1 / 10, 0, use_cache⟩

/-! ## Theorems -/

open PixelComparison

/-! ### The alpha threshold -/

theorem tdiv_mul_255 (t : Int) (ht : 0 < t) : Int.tdiv (t * 255) 255 = t := by
  rw [Int.tdiv_eq_ediv] <;> omega

theorem ComputeAlphaThreshold_disabled (t : Int) : ComputeAlphaThreshold false t = 0 := by
  simp [ComputeAlphaThreshold]

theorem ComputeAlphaThreshold_nonpos (t : Int) (ht : t ≤ 0) :
    ComputeAlphaThreshold true t = 255 := by
  simp [ComputeAlphaThreshold, ht]

theorem ComputeAlphaThreshold_pos (t : Int) (ht : 0 < t) :
    ComputeAlphaThreshold true t = clamp (255 - t) 0 255 := by
  have h3 : ¬ t ≤ 0 := by omega
  simp only [ComputeAlphaThreshold, Bool.not_true, Bool.false_eq_true, if_false, h3,
    tdiv_mul_255 t ht]

theorem ComputeAlphaThreshold_range (b : Bool) (t : Int) :
    0 ≤ ComputeAlphaThreshold b t ∧ ComputeAlphaThreshold b t ≤ 255 := by
  cases b
  · simp [ComputeAlphaThreshold]
  · by_cases h0 : t ≤ 0
    · simp [ComputeAlphaThreshold, h0]
    · rw [ComputeAlphaThreshold_pos t (by omega)]
      unfold clamp
      split_ifs <;> omega

theorem XP_ComputeAlphaThreshold_eq (b : Bool) (t : Int) :
    XP.ComputeAlphaThreshold b t = ComputeAlphaThreshold b t := by
  cases b
  · simp [ComputeAlphaThreshold, XP.ComputeAlphaThreshold]
  · by_cases h0 : t ≤ 0
    · simp [ComputeAlphaThreshold, XP.ComputeAlphaThreshold, h0]
    · simp only [ComputeAlphaThreshold, XP.ComputeAlphaThreshold, Bool.not_true,
        Bool.false_eq_true, if_false, h0, clamp, gt_iff_lt]

/-! ### The scalar matcher -/

theorem scalar_row_fst (screen source : PixelBuffer) (start_x start_y : Int) (te : Bool)
    (tol thr y : Int) (n : Nat) (x : Int) :
    (CheckApproxMatch_Scalar_row screen source start_x start_y te tol thr y n x).1 = true ↔
      ∀ k : Nat, k < n →
        CheckApproxMatch_Scalar_pixel screen source start_x start_y te tol thr y (x + k)
          = true := by
  induction n generalizing x with
  | zero => simp [CheckApproxMatch_Scalar_row]
  | succ n ih =>
    have hstep : (∀ k : Nat, k < n + 1 →
        CheckApproxMatch_Scalar_pixel screen source start_x start_y te tol thr y (x + k)
          = true) ↔
        (CheckApproxMatch_Scalar_pixel screen source start_x start_y te tol thr y x = true ∧
          ∀ k : Nat, k < n →
            CheckApproxMatch_Scalar_pixel screen source start_x start_y te tol thr y
              (x + 1 + k) = true) := by
      constructor
      · intro h
        refine ⟨by simpa using h 0 (Nat.succ_pos n), fun k hk => ?_⟩
        have := h (k + 1) (Nat.succ_lt_succ hk)
        rw [show x + 1 + (k : Int) = x + ((k + 1 : Nat) : Int) by push_cast; ring]
        exact this
      · rintro ⟨h0, h1⟩ k hk
        cases k with
        | zero => simpa using h0
        | succ k =>
          have := h1 k (Nat.lt_of_succ_lt_succ hk)
          rw [show x + ((k + 1 : Nat) : Int) = x + 1 + (k : Int) by push_cast; ring]
          exact this
    rw [hstep, ← ih (x + 1)]
    simp only [CheckApproxMatch_Scalar_row, CheckApproxMatch_Scalar_pixel]
    by_cases hskip : (te && decide ((AlphaByte (source.at (y * source.width + x)) : Int) < thr))
        = true
    · simp [hskip]
    · by_cases hex : RgbExceeds tol (source.at (y * source.width + x))
          (screen.at ((start_y + y) * screen.width + start_x + x)) = true
      · simp [hskip, hex]
      · simp [hskip, hex]

theorem scalar_rows_fst (screen source : PixelBuffer) (start_x start_y : Int) (te : Bool)
    (tol thr : Int) (n : Nat) (y : Int) :
    (CheckApproxMatch_Scalar_rows screen source start_x start_y te tol thr n y).1 = true ↔
      ∀ j : Nat, j < n → ∀ k : Nat, k < source.width.toNat →
        CheckApproxMatch_Scalar_pixel screen source start_x start_y te tol thr (y + j) k
          = true := by
  induction n generalizing y with
  | zero => simp [CheckApproxMatch_Scalar_rows]
  | succ n ih =>
    simp only [CheckApproxMatch_Scalar_rows]
    constructor
    · intro h j hj k hk
      by_cases hrow : (CheckApproxMatch_Scalar_row screen source start_x start_y te tol thr y
          source.width.toNat 0).1 = true
      · rw [if_pos hrow] at h
        cases j with
        | zero =>
          have := (scalar_row_fst screen source start_x start_y te tol thr y _ 0).1 hrow k hk
          simpa using this
        | succ j =>
          have := (ih (y + 1)).1 h j (Nat.lt_of_succ_lt_succ hj) k hk
          rw [show y + ((j + 1 : Nat) : Int) = y + 1 + (j : Int) by push_cast; ring]
          exact this
      · rw [if_neg hrow] at h
        exact absurd h (by simp)
    · intro h
      have hrow : (CheckApproxMatch_Scalar_row screen source start_x start_y te tol thr y
          source.width.toNat 0).1 = true := by
        rw [scalar_row_fst]
        intro k hk
        have := h 0 (Nat.succ_pos n) k hk
        simpa using this
      rw [if_pos hrow]
      rw [ih (y + 1)]
      intro j hj k hk
      have := h (j + 1) (Nat.succ_lt_succ hj) k hk
      rw [show y + 1 + (j : Int) = y + ((j + 1 : Nat) : Int) by push_cast; ring]
      exact this

/-- The decision of the scalar matcher, as a statement over all template pixels. -/
theorem scalar_accepts_iff (screen source : PixelBuffer) (start_x start_y : Int) (te : Bool)
    (tol : Int) :
    PixelComparison.CheckApproxMatch_Scalar screen source start_x start_y te tol = true ↔
      (PixelComparison.IsValidSearchRegion start_x start_y source.width source.height
          screen.width screen.height = true ∧
        ∀ i j : Int, 0 ≤ i → i < source.width → 0 ≤ j → j < source.height →
          PixelComparison.CheckApproxMatch_Scalar_pixel screen source start_x start_y te tol
            (ComputeAlphaThreshold te tol) j i = true) := by
  unfold PixelComparison.CheckApproxMatch_Scalar PixelComparison.CheckApproxMatch_Scalar_traced
  by_cases hreg : PixelComparison.IsValidSearchRegion start_x start_y source.width source.height
      screen.width screen.height = true
  · simp only [hreg, Bool.not_true, Bool.false_eq_true, if_false, true_and]
    rw [scalar_rows_fst]
    constructor
    · intro h i j hi hiw hj hjh
      have := h j.toNat (by omega) i.toNat (by omega)
      rw [show (0 : Int) + (j.toNat : Int) = j by omega, Int.toNat_of_nonneg hi] at this
      exact this
    · intro h j hj k hk
      have := h k j (by omega) (by omega) (by omega) (by omega)
      rw [show (0 : Int) + (j : Int) = j by omega]
      exact this
  · simp [hreg]

theorem XP_RgbExceeds_eq (tol : Int) (s c : Nat) :
    XP.PixelComparison.RgbExceeds tol s c = RgbExceeds tol s c := by
  have habs : ∀ d : Int, (if d < 0 then -d else d) = (d.natAbs : Int) := by
    intro d
    split_ifs <;> omega
  simp only [XP.PixelComparison.RgbExceeds, RgbExceeds, habs]

theorem XP_scalar_row_eq (screen source : PixelBuffer) (start_x start_y : Int) (te : Bool)
    (tol thr y : Int) (n : Nat) (x : Int) :
    XP.PixelComparison.CheckApproxMatch_Scalar_row screen source start_x start_y te tol thr y
        n x =
      (CheckApproxMatch_Scalar_row screen source start_x start_y te tol thr y n x).1 := by
  induction n generalizing x with
  | zero => simp [CheckApproxMatch_Scalar_row, XP.PixelComparison.CheckApproxMatch_Scalar_row]
  | succ n ih =>
    simp only [CheckApproxMatch_Scalar_row, XP.PixelComparison.CheckApproxMatch_Scalar_row,
      XP_RgbExceeds_eq, ih]
    split_ifs <;> rfl

theorem XP_scalar_rows_eq (screen source : PixelBuffer) (start_x start_y : Int) (te : Bool)
    (tol thr : Int) (n : Nat) (y : Int) :
    XP.PixelComparison.CheckApproxMatch_Scalar_rows screen source start_x start_y te tol thr
        n y =
      (CheckApproxMatch_Scalar_rows screen source start_x start_y te tol thr n y).1 := by
  induction n generalizing y with
  | zero =>
    simp [CheckApproxMatch_Scalar_rows, XP.PixelComparison.CheckApproxMatch_Scalar_rows]
  | succ n ih =>
    simp only [CheckApproxMatch_Scalar_rows, XP.PixelComparison.CheckApproxMatch_Scalar_rows,
      XP_scalar_row_eq, ih]
    split_ifs <;> rfl

/-- The XP scalar matcher takes the same decision as the scalar matcher of the main build. -/
theorem XP_scalar_eq (screen source : PixelBuffer) (start_x start_y : Int) (te : Bool)
    (tol : Int) :
    XP.PixelComparison.CheckApproxMatch_Scalar screen source start_x start_y te tol =
      CheckApproxMatch_Scalar screen source start_x start_y te tol := by
  unfold XP.PixelComparison.CheckApproxMatch_Scalar CheckApproxMatch_Scalar
    CheckApproxMatch_Scalar_traced
  have hreg : XP.PixelComparison.IsValidSearchRegion start_x start_y source.width
      source.height screen.width screen.height =
      IsValidSearchRegion start_x start_y source.width source.height screen.width
        screen.height := rfl
  rw [hreg]
  simp only [XP_scalar_rows_eq, XP_ComputeAlphaThreshold_eq]
  split_ifs <;> rfl

theorem IsValidSearchRegion_iff (start_x start_y sw sh cw ch : Int) :
    IsValidSearchRegion start_x start_y sw sh cw ch = true ↔
      0 ≤ start_x ∧ 0 ≤ start_y ∧ start_x + sw ≤ cw ∧ start_y + sh ≤ ch := by
  simp [IsValidSearchRegion, and_assoc]

theorem scalar_pixel_iff (screen source : PixelBuffer) (start_x start_y : Int) (te : Bool)
    (tol thr y x : Int) :
    CheckApproxMatch_Scalar_pixel screen source start_x start_y te tol thr y x = true ↔
      ((te = true ∧ (AlphaByte (source.at (y * source.width + x)) : Int) < thr) ∨
        ((((GetRValue (source.at (y * source.width + x)) : Int) -
            (GetRValue (screen.at ((start_y + y) * screen.width + start_x + x)) : Int)).natAbs
              : Int) ≤ tol ∧
         (((GetGValue (source.at (y * source.width + x)) : Int) -
            (GetGValue (screen.at ((start_y + y) * screen.width + start_x + x)) : Int)).natAbs
              : Int) ≤ tol ∧
         (((GetBValue (source.at (y * source.width + x)) : Int) -
            (GetBValue (screen.at ((start_y + y) * screen.width + start_x + x)) : Int)).natAbs
              : Int) ≤ tol)) := by
  unfold CheckApproxMatch_Scalar_pixel RgbExceeds
  by_cases hskip : (te = true ∧ (AlphaByte (source.at (y * source.width + x)) : Int) < thr)
  · simp [hskip]
  · have hskip2 : ¬ ((te && decide ((AlphaByte (source.at (y * source.width + x)) : Int) < thr))
        = true) := by simpa using hskip
    rw [if_neg hskip2]
    simp only [hskip, false_or, Bool.not_eq_true', Bool.or_eq_false_iff,
      decide_eq_false_iff_not, not_lt, gt_iff_lt, and_assoc]

/-- The decision does not change when the searched buffer is replaced by one that differs
from it only in bits 24 and above of its pixels. -/
theorem scalar_pixel_congr (screen screen2 source : PixelBuffer) (start_x start_y : Int)
    (te : Bool) (tol thr y x : Int) (hw : screen2.width = screen.width)
    (hpix : ∀ k : Int, screen2.at k % 16777216 = screen.at k % 16777216) :
    CheckApproxMatch_Scalar_pixel screen2 source start_x start_y te tol thr y x =
      CheckApproxMatch_Scalar_pixel screen source start_x start_y te tol thr y x := by
  have h := hpix ((start_y + y) * screen.width + start_x + x)
  unfold CheckApproxMatch_Scalar_pixel RgbExceeds GetRValue GetGValue GetBValue
  rw [hw]
  have hr : screen2.at ((start_y + y) * screen.width + start_x + x) % 256 =
      screen.at ((start_y + y) * screen.width + start_x + x) % 256 := by omega
  have hg : screen2.at ((start_y + y) * screen.width + start_x + x) / 256 % 256 =
      screen.at ((start_y + y) * screen.width + start_x + x) / 256 % 256 := by omega
  have hb : screen2.at ((start_y + y) * screen.width + start_x + x) / 65536 % 256 =
      screen.at ((start_y + y) * screen.width + start_x + x) / 65536 % 256 := by omega
  simp only [hr, hg, hb]

/-! ### The read log of the scalar matcher -/

theorem scalar_row_reads (screen source : PixelBuffer) (start_x start_y : Int) (te : Bool)
    (tol thr y : Int) (n : Nat) (x : Int) (r : PixelRead)
    (hr : r ∈ (CheckApproxMatch_Scalar_row screen source start_x start_y te tol thr y n x).2) :
    ∃ k : Nat, k < n ∧
      (r = PixelRead.source (y * source.width + (x + k)) ∨
       r = PixelRead.screen ((start_y + y) * screen.width + start_x + (x + k))) := by
  induction n generalizing x with
  | zero => simp [CheckApproxMatch_Scalar_row] at hr
  | succ n ih =>
    have hlift : (∃ k : Nat, k < n ∧
        (r = PixelRead.source (y * source.width + (x + 1 + k)) ∨
         r = PixelRead.screen ((start_y + y) * screen.width + start_x + (x + 1 + k)))) →
        ∃ k : Nat, k < n + 1 ∧
          (r = PixelRead.source (y * source.width + (x + k)) ∨
           r = PixelRead.screen ((start_y + y) * screen.width + start_x + (x + k))) := by
      rintro ⟨k, hk, h⟩
      refine ⟨k + 1, Nat.succ_lt_succ hk, ?_⟩
      rw [show x + ((k + 1 : Nat) : Int) = x + 1 + (k : Int) by push_cast; ring]
      exact h
    have hzero : (r = PixelRead.source (y * source.width + x) ∨
        r = PixelRead.screen ((start_y + y) * screen.width + start_x + x)) →
        ∃ k : Nat, k < n + 1 ∧
          (r = PixelRead.source (y * source.width + (x + k)) ∨
           r = PixelRead.screen ((start_y + y) * screen.width + start_x + (x + k))) := by
      intro h
      refine ⟨0, Nat.succ_pos n, ?_⟩
      simpa using h
    simp only [CheckApproxMatch_Scalar_row] at hr
    split_ifs at hr
    · rcases List.mem_cons.1 hr with h | h
      · exact hzero (Or.inl h)
      · exact hlift (ih (x + 1) h)
    · simp only [List.mem_cons, List.mem_singleton, List.not_mem_nil, or_false] at hr
      exact hzero hr
    · rcases List.mem_cons.1 hr with h | h
      · exact hzero (Or.inl h)
      · rcases List.mem_cons.1 h with h | h
        · exact hzero (Or.inr h)
        · exact hlift (ih (x + 1) h)

theorem scalar_rows_reads (screen source : PixelBuffer) (start_x start_y : Int) (te : Bool)
    (tol thr : Int) (n : Nat) (y : Int) (r : PixelRead)
    (hr : r ∈ (CheckApproxMatch_Scalar_rows screen source start_x start_y te tol thr n y).2) :
    ∃ j : Nat, j < n ∧ ∃ k : Nat, k < source.width.toNat ∧
      (r = PixelRead.source ((y + j) * source.width + k) ∨
       r = PixelRead.screen ((start_y + (y + j)) * screen.width + start_x + k)) := by
  induction n generalizing y with
  | zero => simp [CheckApproxMatch_Scalar_rows] at hr
  | succ n ih =>
    have hzero : r ∈ (CheckApproxMatch_Scalar_row screen source start_x start_y te tol thr y
        source.width.toNat 0).2 →
        ∃ j : Nat, j < n + 1 ∧ ∃ k : Nat, k < source.width.toNat ∧
          (r = PixelRead.source ((y + j) * source.width + k) ∨
           r = PixelRead.screen ((start_y + (y + j)) * screen.width + start_x + k)) := by
      intro h
      obtain ⟨k, hk, h⟩ := scalar_row_reads screen source start_x start_y te tol thr y _ 0 r h
      refine ⟨0, Nat.succ_pos n, k, hk, ?_⟩
      simpa using h
    simp only [CheckApproxMatch_Scalar_rows] at hr
    split_ifs at hr
    · rcases List.mem_append.1 hr with h | h
      · exact hzero h
      · obtain ⟨j, hj, k, hk, h⟩ := ih (y + 1) h
        refine ⟨j + 1, Nat.succ_lt_succ hj, k, hk, ?_⟩
        rw [show y + ((j + 1 : Nat) : Int) = y + 1 + (j : Int) by push_cast; ring]
        exact h
    · exact hzero hr

theorem index_in_bounds (w h i j : Int) (hi : 0 ≤ i) (hiw : i < w) (hj : 0 ≤ j)
    (hjh : j < h) : 0 ≤ j * w + i ∧ j * w + i < w * h := by
  have h1 : 0 ≤ j * w := mul_nonneg hj (by omega)
  have h2 : (j + 1) * w ≤ h * w := mul_le_mul_of_nonneg_right (by omega) (by omega)
  constructor
  · omega
  · have h3 : (j + 1) * w = j * w + w := by ring
    have h4 : h * w = w * h := by ring
    omega

/-! ### Claims on the scalar matcher -/

/-- C1. For valid buffers, an offset inside the searched buffer and a tolerance in
`[0, 255]`, the scalar matcher accepts exactly when every template pixel `(i, j)` that is
not skipped differs from the searched pixel at `(start_x + i, start_y + j)` by at most the
tolerance in each of R, G and B, a template pixel being skipped exactly when transparency
is enabled and its alpha byte is below `ComputeAlphaThreshold`. The XP build takes the same
decision, and the decision is unchanged when the alpha bytes of the searched buffer are
replaced by any others. -/
theorem CheckApproxMatch_Scalar_correct (screen source : PixelBuffer)
    (start_x start_y tolerance : Int) (transparent_enabled : Bool)
    (_hscreen : screen.IsValid = true) (_hsource : source.IsValid = true)
    (hx : 0 ≤ start_x) (hy : 0 ≤ start_y)
    (hxw : start_x + source.width ≤ screen.width)
    (hyh : start_y + source.height ≤ screen.height)
    (_htol : 0 ≤ tolerance ∧ tolerance ≤ 255) :
    (CheckApproxMatch_Scalar screen source start_x start_y transparent_enabled tolerance
        = true ↔
      ∀ i j : Int, 0 ≤ i → i < source.width → 0 ≤ j → j < source.height →
        ¬ (transparent_enabled = true ∧
            (AlphaByte (source.at (j * source.width + i)) : Int) <
              ComputeAlphaThreshold transparent_enabled tolerance) →
        ((((GetRValue (source.at (j * source.width + i)) : Int) -
            (GetRValue (screen.at ((start_y + j) * screen.width + start_x + i)) : Int)).natAbs
              : Int) ≤ tolerance ∧
         (((GetGValue (source.at (j * source.width + i)) : Int) -
            (GetGValue (screen.at ((start_y + j) * screen.width + start_x + i)) : Int)).natAbs
              : Int) ≤ tolerance ∧
         (((GetBValue (source.at (j * source.width + i)) : Int) -
            (GetBValue (screen.at ((start_y + j) * screen.width + start_x + i)) : Int)).natAbs
              : Int) ≤ tolerance)) ∧
    XP.PixelComparison.CheckApproxMatch_Scalar screen source start_x start_y
        transparent_enabled tolerance =
      CheckApproxMatch_Scalar screen source start_x start_y transparent_enabled tolerance ∧
    (∀ screen2 : PixelBuffer, screen2.width = screen.width →
      screen2.height = screen.height →
      (∀ k : Int, screen2.at k % 16777216 = screen.at k % 16777216) →
      CheckApproxMatch_Scalar screen2 source start_x start_y transparent_enabled tolerance =
        CheckApproxMatch_Scalar screen source start_x start_y transparent_enabled
          tolerance) := by
  have hreg : IsValidSearchRegion start_x start_y source.width source.height screen.width
      screen.height = true := (IsValidSearchRegion_iff _ _ _ _ _ _).2 ⟨hx, hy, hxw, hyh⟩
  refine ⟨?_, XP_scalar_eq _ _ _ _ _ _, ?_⟩
  · rw [scalar_accepts_iff]
    simp only [hreg, true_and]
    constructor
    · intro h i j hi hiw hj hjh hns
      have := (scalar_pixel_iff _ _ _ _ _ _ _ _ _).1 (h i j hi hiw hj hjh)
      rcases this with h1 | h1
      · exact absurd h1 hns
      · exact h1
    · intro h i j hi hiw hj hjh
      rw [scalar_pixel_iff]
      by_cases hs : (transparent_enabled = true ∧
          (AlphaByte (source.at (j * source.width + i)) : Int) <
            ComputeAlphaThreshold transparent_enabled tolerance)
      · exact Or.inl hs
      · exact Or.inr (h i j hi hiw hj hjh hs)
  · intro screen2 hw hh hpix
    rw [Bool.eq_iff_iff, scalar_accepts_iff, scalar_accepts_iff, hw, hh]
    simp only [scalar_pixel_congr screen screen2 source start_x start_y transparent_enabled
      tolerance _ _ _ hw hpix]

/-- Witness of C1: a 2x2 searched buffer, a 1x1 template at offset (1, 1), tolerance 10. -/
theorem CheckApproxMatch_Scalar_correct_witness :
    XP.PixelComparison.CheckApproxMatch_Scalar
        ⟨[0, 0, 0, 4278190335], 2, 2, false, true⟩ ⟨[4278190330], 1, 1, true, true⟩
        1 1 true 10 =
      CheckApproxMatch_Scalar
        ⟨[0, 0, 0, 4278190335], 2, 2, false, true⟩ ⟨[4278190330], 1, 1, true, true⟩
        1 1 true 10 :=
  (CheckApproxMatch_Scalar_correct
    ⟨[0, 0, 0, 4278190335], 2, 2, false, true⟩ ⟨[4278190330], 1, 1, true, true⟩
    1 1 10 true (by decide) (by decide) (by decide) (by decide) (by decide) (by decide)
    (by decide)).2.1

/-- C5 as stated fails: with transparency enabled a 1x1 template whose pixel has alpha 200
and red 255 is accepted on a black pixel at tolerance 0 (threshold 255, the pixel is
skipped) and rejected at tolerance 100 (threshold 155, the pixel is compared). -/
theorem CheckApproxMatch_Scalar_not_monotone_with_transparency :
    (0 : Int) ≤ 0 ∧ (0 : Int) < 100 ∧ (100 : Int) ≤ 255 ∧
    CheckApproxMatch_Scalar ⟨[4278190080], 1, 1, false, true⟩
      ⟨[3355443455], 1, 1, true, true⟩ 0 0 true 0 = true ∧
    CheckApproxMatch_Scalar ⟨[4278190080], 1, 1, false, true⟩
      ⟨[3355443455], 1, 1, true, true⟩ 0 0 true 100 = false := by
  decide

/-- C5, amended. For tolerances `0 ≤ T < T' ≤ 255`: if the scalar matcher accepts at `T`
it accepts at `T'` on the same inputs, when transparency is disabled, and when it is
enabled provided every template pixel that is skipped at `T` (alpha below the threshold of
`T`) is also skipped at `T'`. -/
theorem CheckApproxMatch_Scalar_tolerance_mono (screen source : PixelBuffer)
    (start_x start_y : Int) (transparent_enabled : Bool) (T T' : Int)
    (_hT : 0 ≤ T) (hTT : T < T') (_hT' : T' ≤ 255)
    (hskip : transparent_enabled = true →
      ∀ i j : Int, 0 ≤ i → i < source.width → 0 ≤ j → j < source.height →
        (AlphaByte (source.at (j * source.width + i)) : Int) < ComputeAlphaThreshold true T →
        (AlphaByte (source.at (j * source.width + i)) : Int) < ComputeAlphaThreshold true T')
    (hacc : CheckApproxMatch_Scalar screen source start_x start_y transparent_enabled T
      = true) :
    CheckApproxMatch_Scalar screen source start_x start_y transparent_enabled T' = true := by
  rw [scalar_accepts_iff] at hacc ⊢
  refine ⟨hacc.1, fun i j hi hiw hj hjh => ?_⟩
  have h := (scalar_pixel_iff _ _ _ _ _ _ _ _ _).1 (hacc.2 i j hi hiw hj hjh)
  rw [scalar_pixel_iff]
  rcases h with ⟨hte, ha⟩ | ⟨hr, hg, hb⟩
  · left
    subst hte
    exact ⟨rfl, hskip rfl i j hi hiw hj hjh ha⟩
  · right
    exact ⟨by omega, by omega, by omega⟩

/-- Witness of amended C5: transparency enabled, a fully transparent 1x1 template, which
is skipped at tolerance 0 and at tolerance 100. -/
theorem CheckApproxMatch_Scalar_tolerance_mono_witness :
    CheckApproxMatch_Scalar ⟨[4278190080], 1, 1, false, true⟩
        ⟨[255], 1, 1, true, true⟩ 0 0 true 0 = true ∧
    CheckApproxMatch_Scalar ⟨[4278190080], 1, 1, false, true⟩
        ⟨[255], 1, 1, true, true⟩ 0 0 true 100 = true :=
  ⟨by decide,
   CheckApproxMatch_Scalar_tolerance_mono ⟨[4278190080], 1, 1, false, true⟩
    ⟨[255], 1, 1, true, true⟩ 0 0 true 0 100 (by decide) (by decide) (by decide)
    (by
      intro _ i j hi hiw hj hjh _
      have hi0 : i = 0 := by
        have : i < 1 := hiw
        omega
      have hj0 : j = 0 := by
        have : j < 1 := hjh
        omega
      subst hi0 hj0
      decide)
    (by decide)⟩

/-- C7. For buffers whose pixel array has length width x height and every offset: when
the offset is negative or the template does not fit, the scalar matcher returns false
without reading a pixel; otherwise every read is a read of the template at
`j * source.width + i` or of the searched buffer at
`(start_y + j) * screen.width + start_x + i` with `0 ≤ i < source.width` and
`0 ≤ j < source.height`, and that index is inside the array it is applied to. -/
theorem CheckApproxMatch_Scalar_reads_in_bounds (screen source : PixelBuffer)
    (start_x start_y tolerance : Int) (transparent_enabled : Bool)
    (hscreen : (screen.pixels.length : Int) = screen.width * screen.height)
    (hsource : (source.pixels.length : Int) = source.width * source.height) :
    ((start_x < 0 ∨ start_y < 0 ∨ start_x + source.width > screen.width ∨
        start_y + source.height > screen.height) →
      CheckApproxMatch_Scalar_traced screen source start_x start_y transparent_enabled
        tolerance = (false, [])) ∧
    (¬ (start_x < 0 ∨ start_y < 0 ∨ start_x + source.width > screen.width ∨
        start_y + source.height > screen.height) →
      ∀ r ∈ (CheckApproxMatch_Scalar_traced screen source start_x start_y
          transparent_enabled tolerance).2,
        ∃ i j : Int, 0 ≤ i ∧ i < source.width ∧ 0 ≤ j ∧ j < source.height ∧
          ((r = PixelRead.source (j * source.width + i) ∧
              0 ≤ j * source.width + i ∧
              j * source.width + i < (source.pixels.length : Int)) ∨
           (r = PixelRead.screen ((start_y + j) * screen.width + start_x + i) ∧
              0 ≤ (start_y + j) * screen.width + start_x + i ∧
              (start_y + j) * screen.width + start_x + i < (screen.pixels.length : Int)))) := by
  constructor
  · intro hout
    have hreg : IsValidSearchRegion start_x start_y source.width source.height screen.width
        screen.height = false := by
      rw [← Bool.not_eq_true, IsValidSearchRegion_iff]
      omega
    simp [CheckApproxMatch_Scalar_traced, hreg]
  · intro hin r hr
    have hreg : IsValidSearchRegion start_x start_y source.width source.height screen.width
        screen.height = true := by
      rw [IsValidSearchRegion_iff]
      omega
    simp only [CheckApproxMatch_Scalar_traced, hreg, Bool.not_true, Bool.false_eq_true,
      if_false] at hr
    obtain ⟨j, hj, k, hk, h⟩ := scalar_rows_reads _ _ _ _ _ _ _ _ _ r hr
    have hjh : (j : Int) < source.height := by omega
    have hkw : (k : Int) < source.width := by omega
    refine ⟨k, j, by omega, hkw, by omega, hjh, ?_⟩
    rcases h with h | h
    · left
      have hb := index_in_bounds source.width source.height k j (by omega) hkw (by omega) hjh
      refine ⟨by simpa using h, hb.1, ?_⟩
      rw [hsource]
      exact hb.2
    · right
      have hb := index_in_bounds screen.width screen.height (start_x + k) (start_y + j)
        (by omega) (by omega) (by omega) (by omega)
      refine ⟨by simpa using h, ?_, ?_⟩
      · have := hb.1
        omega
      · rw [hscreen]
        have := hb.2
        omega

/-- Witness of C7: a 2x2 searched buffer and a 1x1 template at offset (1, 1); the two reads
are at index 0 of the template and index 3 of the searched buffer. -/
theorem CheckApproxMatch_Scalar_reads_in_bounds_witness :
    (CheckApproxMatch_Scalar_traced ⟨[0, 0, 0, 4278190335], 2, 2, false, true⟩
        ⟨[4278190330], 1, 1, true, true⟩ 1 1 true 10).2 =
      [PixelRead.source 0, PixelRead.screen 3] ∧
    ∀ r ∈ (CheckApproxMatch_Scalar_traced ⟨[0, 0, 0, 4278190335], 2, 2, false, true⟩
        ⟨[4278190330], 1, 1, true, true⟩ 1 1 true 10).2,
      ∃ i j : Int, 0 ≤ i ∧ i < 1 ∧ 0 ≤ j ∧ j < 1 ∧
        ((r = PixelRead.source (j * 1 + i) ∧ 0 ≤ j * 1 + i ∧ j * 1 + i < 1) ∨
         (r = PixelRead.screen ((1 + j) * 2 + 1 + i) ∧ 0 ≤ (1 + j) * 2 + 1 + i ∧
            (1 + j) * 2 + 1 + i < 4)) :=
  ⟨by decide,
   (CheckApproxMatch_Scalar_reads_in_bounds ⟨[0, 0, 0, 4278190335], 2, 2, false, true⟩
    ⟨[4278190330], 1, 1, true, true⟩ 1 1 10 true (by decide) (by decide)).2 (by decide)⟩

/-- C6. `ComputeAlphaThreshold` is 0 when transparency is disabled; with transparency
enabled it is 255 for every tolerance `t ≤ 0` and `255 - t` for `1 ≤ t ≤ 255` (so 0 at
`t = 255`, where no alpha byte is below it, and 255 at `t = 0`, where exactly the alpha
bytes other than 255 are below it); for every `t ≥ 0` it lies in `[0, 255]`. The same
holds in the XP build. -/
theorem ComputeAlphaThreshold_values :
    (∀ t : Int, ComputeAlphaThreshold false t = 0) ∧
    (∀ t : Int, t ≤ 0 → ComputeAlphaThreshold true t = 255) ∧
    (∀ t : Int, 1 ≤ t → t ≤ 255 → ComputeAlphaThreshold true t = 255 - t) ∧
    ComputeAlphaThreshold true 255 = 0 ∧
    (∀ pixel : Nat, ¬ ((AlphaByte pixel : Int) < ComputeAlphaThreshold true 255)) ∧
    ComputeAlphaThreshold true 0 = 255 ∧
    (∀ pixel : Nat, ¬ ((AlphaByte pixel : Int) < ComputeAlphaThreshold true 0) ↔
      AlphaByte pixel = 255) ∧
    (∀ (b : Bool) (t : Int), 0 ≤ t →
      0 ≤ ComputeAlphaThreshold b t ∧ ComputeAlphaThreshold b t ≤ 255) ∧
    (∀ (b : Bool) (t : Int), XP.ComputeAlphaThreshold b t = ComputeAlphaThreshold b t) := by
  refine ⟨ComputeAlphaThreshold_disabled, ComputeAlphaThreshold_nonpos, ?_, by decide, ?_,
    by decide, ?_, fun b t _ => ComputeAlphaThreshold_range b t, XP_ComputeAlphaThreshold_eq⟩
  · intro t h1 h2
    rw [ComputeAlphaThreshold_pos t (by omega)]
    unfold clamp
    split_ifs <;> omega
  · intro pixel
    have : ComputeAlphaThreshold true 255 = 0 := by decide
    rw [this]; omega
  · intro pixel
    have : ComputeAlphaThreshold true 0 = 255 := by decide
    rw [this]
    have := Nat.mod_lt (pixel / 16777216) (show 256 > 0 by decide)
    unfold AlphaByte
    omega

/-! ### The AVX2 kernel -/

theorem and_255 (x : Nat) : x &&& 255 = x % 256 := Nat.and_pow_two_sub_one_eq_mod x 8

theorem and_255_left (x : Nat) : 255 &&& x = x % 256 := by
  rw [Nat.and_comm]; exact and_255 x

theorem or_sub_sub (a b : Nat) : (a - b) ||| (b - a) = if a ≤ b then b - a else a - b := by
  split_ifs with h
  · rw [Nat.sub_eq_zero_of_le h, Nat.zero_or]
  · rw [Nat.sub_eq_zero_of_le (by omega : b ≤ a), Nat.or_zero]

theorem lane_rgb_mask : Lane32.ofInt 16777215 = ⟨255, 255, 255, 0⟩ := by decide

theorem lane_minus_one : Lane32.ofInt (-1) = Lane32.ones := by decide

theorem lane_alpha_lt (thr : Int) (h0 : 0 ≤ thr) (h1 : thr ≤ 255) (p : Nat) :
    (Lane32.ofNat ((Lane32.ofNat p).toNat / 2 ^ 24)).toInt < (Lane32.ofInt thr).toInt ↔
      (AlphaByte p : Int) < thr := by
  simp only [Lane32.ofInt, Lane32.ofNat, Lane32.toNat, Lane32.toInt, AlphaByte, Nat.reducePow]
  split_ifs <;> omega

/-- Lane `k` of the transparency mask of the AVX2 kernel. -/
theorem avx2_mask_lane (te : Bool) (thr : Int) (h0 : 0 ≤ thr) (h1 : thr ≤ 255)
    (rs : Nat → Nat) (k : Nat) :
    (if te = true then cmpgt_epi32 (set1_epi32 thr) (srli_epi32 (loadu rs) 24) else setzero) k =
      if (te && decide ((AlphaByte (rs k) : Int) < thr)) = true then Lane32.ones
      else Lane32.zero := by
  cases te
  · simp [setzero]
  · simp only [if_true, cmpgt_epi32, set1_epi32, srli_epi32, loadu, gt_iff_lt,
      lane_alpha_lt thr h0 h1, Bool.true_and, decide_eq_true_eq]

theorem lane_masked (c : Lane32) :
    (Lane32.and (Lane32.andnot Lane32.ones c) (Lane32.andnot Lane32.ones c)).isZero = true := by
  simp [Lane32.and, Lane32.andnot, Lane32.ones, Lane32.isZero]

theorem lane_testc (c : Bool) (k : Nat) :
    ((if c = true then Lane32.ones else Lane32.zero).andnot (set1_epi32 (-1) k)).isZero = c := by
  cases c <;> simp only [set1_epi32, lane_minus_one] <;> decide

theorem lane_cond_mismatch (c : Bool) (X : Lane32) :
    (Lane32.and ((if c = true then Lane32.ones else Lane32.zero).andnot X)
        ((if c = true then Lane32.ones else Lane32.zero).andnot X)).isZero =
      (c || (Lane32.and (Lane32.andnot Lane32.zero X) (Lane32.andnot Lane32.zero X)).isZero) := by
  cases c
  · simp
  · simp [lane_masked]

theorem step_logic (te : Bool) (n : Nat) (c e : Nat → Bool) :
    (if (te && (List.range n).all c) = true then true
      else (List.range n).all fun k => (c k || !e k)) = true ↔
      ∀ k : Nat, k < n → (if c k = true then true else !e k) = true := by
  by_cases h : (te && (List.range n).all c) = true
  · rw [if_pos h]
    simp only [Bool.and_eq_true, List.all_eq_true, List.mem_range] at h
    simp only [true_iff]
    intro k hk
    rw [if_pos (h.2 k hk)]
  · rw [if_neg h]
    simp only [List.all_eq_true, List.mem_range]
    refine forall_congr' fun k => forall_congr' fun _ => ?_
    cases c k <;> simp

theorem byte_absdiff_check (a b : Nat) (tol : Int) (h0 : 0 ≤ tol) (h1 : tol ≤ 255)
    (ha : a < 256) (hb : b < 256) :
    ((if a ≤ b then b - a else a - b) - (tol % 256).toNat) % 256 = 0 ↔
      ¬ ((((a : Int) - (b : Int)).natAbs : Int) > tol) := by
  split_ifs <;> omega

/-- The colour test of one lane of the AVX2 kernel, for a lane that is not masked. -/
theorem avx2_lane_unmasked (tol : Int) (h0 : 0 ≤ tol) (h1 : tol ≤ 255) (rs rc : Nat → Nat)
    (k : Nat) :
    (Lane32.and
      (Lane32.andnot Lane32.zero
        (subs_epu8
          (or_si (subs_epu8 (and_si (loadu rs) (set1_epi32 16777215))
                  (and_si (loadu rc) (set1_epi32 16777215)))
                (subs_epu8 (and_si (loadu rc) (set1_epi32 16777215))
                  (and_si (loadu rs) (set1_epi32 16777215))))
          (set1_epi8 tol) k))
      (Lane32.andnot Lane32.zero
        (subs_epu8
          (or_si (subs_epu8 (and_si (loadu rs) (set1_epi32 16777215))
                  (and_si (loadu rc) (set1_epi32 16777215)))
                (subs_epu8 (and_si (loadu rc) (set1_epi32 16777215))
                  (and_si (loadu rs) (set1_epi32 16777215))))
          (set1_epi8 tol) k))).isZero = !RgbExceeds tol (rs k) (rc k) := by
  simp only [subs_epu8, or_si, and_si, set1_epi32, set1_epi8, lane_rgb_mask, Lane32.and,
    Lane32.andnot, Lane32.zero, loadu,
    Lane32.or, Lane32.ofNat, Lane32.isZero, RgbExceeds, GetRValue, GetGValue, GetBValue,
    and_255, and_255_left, Nat.and_self, Nat.and_zero, or_sub_sub, Nat.zero_xor]
  rw [Bool.eq_iff_iff]
  simp only [Bool.and_eq_true, beq_iff_eq, Bool.not_eq_true', Bool.or_eq_false_iff,
    decide_eq_false_iff_not, Nat.mod_mod,
    byte_absdiff_check _ _ tol h0 h1 (Nat.mod_lt _ (by decide)) (Nat.mod_lt _ (by decide)),
    le_refl, if_true, Nat.sub_self, Nat.zero_sub, Nat.zero_mod, and_true, and_assoc]

theorem avx2_step_eq (screen source : PixelBuffer) (start_x start_y : Int) (te : Bool)
    (tol thr : Int) (htol0 : 0 ≤ tol) (htol1 : tol ≤ 255) (hthr0 : 0 ≤ thr) (hthr1 : thr ≤ 255)
    (y x : Int) :
    CheckApproxMatch_AVX2_step screen source start_x start_y te tol thr y x = true ↔
      ∀ k : Nat, k < 8 →
        CheckApproxMatch_Scalar_pixel screen source start_x start_y te tol thr y (x + k)
          = true := by
  simp only [CheckApproxMatch_AVX2_step, testc, testz, andnot_si,
    avx2_mask_lane te thr hthr0 hthr1, CheckApproxMatch_Scalar_pixel, lane_testc,
    lane_cond_mismatch, avx2_lane_unmasked tol htol0 htol1]
  exact step_logic te 8 _ _

theorem chunk_split (P : Int → Prop) (x : Int) (c n : Nat) :
    (∀ k : Nat, k < c + n → P (x + k)) ↔
      (∀ k : Nat, k < c → P (x + k)) ∧ (∀ k : Nat, k < n → P (x + c + k)) := by
  constructor
  · intro h
    refine ⟨fun k hk => h k (by omega), fun k hk => ?_⟩
    have := h (c + k) (by omega)
    rw [show x + (c : Int) + (k : Int) = x + ((c + k : Nat) : Int) by push_cast; ring]
    exact this
  · rintro ⟨h1, h2⟩ k hk
    by_cases hkc : k < c
    · exact h1 k hkc
    · have := h2 (k - c) (by omega)
      rw [show x + (c : Int) + ((k - c : Nat) : Int) = x + (k : Int) by omega] at this
      exact this

/-- A vector loop with stride `c` whose step agrees with `c` iterations of the scalar loop
computes what the scalar loop computes on the rest of the row. -/
theorem strided_row_eq (screen source : PixelBuffer) (start_x start_y : Int) (te : Bool)
    (tol thr y : Int) (c : Nat) (step : Int → Bool)
    (hstep : ∀ x : Int, step x = true ↔ ∀ k : Nat, k < c →
      CheckApproxMatch_Scalar_pixel screen source start_x start_y te tol thr y (x + k) = true)
    (x : Int) (hlt : x + c ≤ source.width) :
    (CheckApproxMatch_Scalar_row screen source start_x start_y te tol thr y
        (source.width - x).toNat x).1 =
      (step x &&
        (CheckApproxMatch_Scalar_row screen source start_x start_y te tol thr y
          (source.width - (x + c)).toNat (x + c)).1) := by
  rw [Bool.eq_iff_iff, Bool.and_eq_true, scalar_row_fst, scalar_row_fst, hstep,
    show (source.width - x).toNat = c + (source.width - (x + c)).toNat by omega]
  exact chunk_split
    (fun i => CheckApproxMatch_Scalar_pixel screen source start_x start_y te tol thr y i = true)
    x c _

theorem avx2_row_eq (screen source : PixelBuffer) (start_x start_y : Int) (te : Bool)
    (tol thr : Int) (htol0 : 0 ≤ tol) (htol1 : tol ≤ 255) (hthr0 : 0 ≤ thr) (hthr1 : thr ≤ 255)
    (y : Int) (fuel : Nat) (x : Int) :
    CheckApproxMatch_AVX2_row screen source start_x start_y te tol thr y fuel x =
      (CheckApproxMatch_Scalar_row screen source start_x start_y te tol thr y
        (source.width - x).toNat x).1 := by
  induction fuel generalizing x with
  | zero => rfl
  | succ fuel ih =>
    simp only [CheckApproxMatch_AVX2_row]
    by_cases hlt : x + 7 < source.width
    · rw [if_pos hlt, ih (x + 8),
        strided_row_eq screen source start_x start_y te tol thr y 8
          (CheckApproxMatch_AVX2_step screen source start_x start_y te tol thr y)
          (avx2_step_eq screen source start_x start_y te tol thr htol0 htol1 hthr0 hthr1 y)
          x (by push_cast; omega)]
      push_cast
      cases CheckApproxMatch_AVX2_step screen source start_x start_y te tol thr y x <;> simp
    · rw [if_neg hlt]

theorem avx2_rows_eq (screen source : PixelBuffer) (start_x start_y : Int) (te : Bool)
    (tol thr : Int) (htol0 : 0 ≤ tol) (htol1 : tol ≤ 255) (hthr0 : 0 ≤ thr) (hthr1 : thr ≤ 255)
    (n : Nat) (y : Int) :
    CheckApproxMatch_AVX2_rows screen source start_x start_y te tol thr n y =
      (CheckApproxMatch_Scalar_rows screen source start_x start_y te tol thr n y).1 := by
  induction n generalizing y with
  | zero => rfl
  | succ n ih =>
    simp only [CheckApproxMatch_AVX2_rows, CheckApproxMatch_Scalar_rows,
      avx2_row_eq screen source start_x start_y te tol thr htol0 htol1 hthr0 hthr1, ih,
      sub_zero]
    split_ifs <;> rfl

/-- C3. For every pair of buffers, every offset, every tolerance in `[0, 255]`, either
transparency flag and every template width, `CheckApproxMatch_AVX2` takes the same
decision as `CheckApproxMatch_Scalar`. -/
theorem CheckApproxMatch_AVX2_eq_Scalar (screen source : PixelBuffer)
    (start_x start_y tolerance : Int) (transparent_enabled : Bool)
    (htol : 0 ≤ tolerance ∧ tolerance ≤ 255) :
    CheckApproxMatch_AVX2 screen source start_x start_y transparent_enabled tolerance =
      CheckApproxMatch_Scalar screen source start_x start_y transparent_enabled tolerance := by
  have hthr := ComputeAlphaThreshold_range transparent_enabled tolerance
  unfold CheckApproxMatch_AVX2 CheckApproxMatch_Scalar CheckApproxMatch_Scalar_traced
  simp only [avx2_rows_eq screen source start_x start_y transparent_enabled tolerance _
    htol.1 htol.2 hthr.1 hthr.2]
  split_ifs <;> rfl

/-- Witness of C3: a template of width 9, one vector step and one scalar pixel. -/
theorem CheckApproxMatch_AVX2_eq_Scalar_witness :
    CheckApproxMatch_AVX2
        ⟨[0, 1, 2, 3, 4, 5, 6, 7, 8, 9], 10, 1, false, true⟩
        ⟨[5, 5, 5, 5, 5, 5, 5, 5, 5], 9, 1, false, true⟩ 1 0 true 10 =
      CheckApproxMatch_Scalar
        ⟨[0, 1, 2, 3, 4, 5, 6, 7, 8, 9], 10, 1, false, true⟩
        ⟨[5, 5, 5, 5, 5, 5, 5, 5, 5], 9, 1, false, true⟩ 1 0 true 10 :=
  CheckApproxMatch_AVX2_eq_Scalar _ _ 1 0 10 true (by decide)

/-! ### The SSE2 kernel -/

theorem maskOfBits_lt (n : Nat) (f : Nat → Bool) : maskOfBits n f < 2 ^ n := by
  induction n with
  | zero => simp [maskOfBits]
  | succ n ih =>
    simp only [maskOfBits, pow_succ]
    split_ifs <;> omega

theorem maskOfBits_eq_zero (n : Nat) (f : Nat → Bool) :
    maskOfBits n f = 0 ↔ ∀ k : Nat, k < n → f k = false := by
  induction n with
  | zero => simp [maskOfBits]
  | succ n ih =>
    simp only [maskOfBits]
    have hpos : 0 < 2 ^ n := Nat.pow_pos (by decide)
    constructor
    · intro h k hk
      by_cases hfn : f n = true
      · rw [if_pos hfn] at h; omega
      · rw [if_neg hfn] at h
        rcases Nat.lt_succ_iff_lt_or_eq.1 hk with hk | hk
        · exact ih.1 (by omega) k hk
        · subst hk; simpa using hfn
    · intro h
      have h1 := ih.2 fun k hk => h k (by omega)
      have h2 := h n (by omega)
      simp [h1, h2]

theorem maskOfBits_eq_ones (n : Nat) (f : Nat → Bool) :
    maskOfBits n f = 2 ^ n - 1 ↔ ∀ k : Nat, k < n → f k = true := by
  induction n with
  | zero => simp [maskOfBits]
  | succ n ih =>
    simp only [maskOfBits, pow_succ]
    have hpos : 0 < 2 ^ n := Nat.pow_pos (by decide)
    have hlt := maskOfBits_lt n f
    constructor
    · intro h k hk
      by_cases hfn : f n = true
      · rw [if_pos hfn] at h
        rcases Nat.lt_succ_iff_lt_or_eq.1 hk with hk | hk
        · exact ih.1 (by omega) k hk
        · subst hk; exact hfn
      · rw [if_neg hfn] at h; omega
    · intro h
      have h1 := ih.2 fun k hk => h k (by omega)
      have h2 := h n (by omega)
      rw [if_pos h2, h1]
      omega

theorem forall_bytes16 (P : Nat → Nat → Prop) :
    (∀ k : Nat, k < 16 → P (k / 4) (k % 4)) ↔ ∀ i : Nat, i < 4 → ∀ j : Nat, j < 4 → P i j := by
  constructor
  · intro h i hi j hj
    have := h (4 * i + j) (by omega)
    rwa [show (4 * i + j) / 4 = i by omega, show (4 * i + j) % 4 = j by omega] at this
  · intro h k hk
    exact h (k / 4) (by omega) (k % 4) (Nat.mod_lt _ (by decide))

theorem word_ofWords (w0 w1 m : Nat) :
    (Lane32.ofWords w0 w1).word (m % 2) = (if m % 2 = 0 then w0 else w1) % 65536 := by
  rcases Nat.mod_two_eq_zero_or_one m with h | h <;>
    simp only [h, Lane32.word, Lane32.ofWords] <;> simp <;> omega

theorem word_cmpgt_epi16 (a b : Vec) (m : Nat) :
    Vec.word (cmpgt_epi16 a b) m =
      if toInt16 (Vec.word a m) > toInt16 (Vec.word b m) then 65535 else 0 := by
  simp only [Vec.word, cmpgt_epi16, word_ofWords]
  rcases Nat.mod_two_eq_zero_or_one m with h | h <;> simp only [h] <;> split_ifs <;> simp_all

theorem word_max_epi16 (a b : Vec) (m : Nat) :
    Vec.word (max_epi16 a b) m =
      (if toInt16 (Vec.word a m) ≥ toInt16 (Vec.word b m) then Vec.word a m
        else Vec.word b m) % 65536 := by
  simp only [Vec.word, max_epi16, word_ofWords]
  rcases Nat.mod_two_eq_zero_or_one m with h | h <;> simp only [h] <;> simp

theorem word_sub_epi16 (a b : Vec) (m : Nat) :
    Vec.word (sub_epi16 a b) m = (Vec.word a m + 65536 - Vec.word b m) % 65536 := by
  simp only [Vec.word, sub_epi16, word_ofWords]
  rcases Nat.mod_two_eq_zero_or_one m with h | h <;> simp only [h] <;> simp

theorem word_set1_epi16 (t : Int) (m : Nat) :
    Vec.word (set1_epi16 t) m = (t % 65536).toNat % 65536 := by
  simp only [Vec.word, set1_epi16, word_ofWords]
  simp

theorem word_setzero (m : Nat) : Vec.word setzero m = 0 := by
  simp only [Vec.word, setzero, Lane32.zero]
  rcases Nat.mod_two_eq_zero_or_one m with h | h <;> simp [h, Lane32.word]

theorem byte_setzero (k : Nat) : Vec.byte setzero k = 0 := by
  have h4 : k % 4 < 4 := Nat.mod_lt _ (by decide)
  simp only [Vec.byte, setzero, Lane32.zero]
  interval_cases (k % 4) <;> simp [Lane32.byte]

theorem word_unpacklo_zero (a : Vec) (m : Nat) :
    Vec.word (unpacklo_epi8 a setzero) m = Vec.byte a m := by
  simp only [Vec.word, unpacklo_epi8, byte_setzero]
  rcases Nat.mod_two_eq_zero_or_one m with h | h
  · simp only [h, Lane32.word]
    rw [show 2 * (m / 2) = m by omega]; simp
  · simp only [h, Lane32.word]
    rw [show 2 * (m / 2) + 1 = m by omega]; simp

theorem word_unpackhi_zero (a : Vec) (m : Nat) :
    Vec.word (unpackhi_epi8 a setzero) m = Vec.byte a (8 + m) := by
  simp only [Vec.word, unpackhi_epi8, byte_setzero]
  rcases Nat.mod_two_eq_zero_or_one m with h | h
  · simp only [h, Lane32.word]
    rw [show 2 * (m / 2) = m by omega]; simp
  · simp only [h, Lane32.word]
    rw [show 8 + 2 * (m / 2) + 1 = 8 + m by omega]; simp

theorem toInt16_small (w : Nat) (h : w < 32768) : toInt16 w = (w : Int) := by
  unfold toInt16
  have h1 : w % 65536 = w := Nat.mod_eq_of_lt (by omega)
  rw [h1, if_pos h]

theorem toInt16_big (w : Nat) (h1 : 32768 ≤ w) (h2 : w < 65536) :
    toInt16 w = (w : Int) - 65536 := by
  unfold toInt16
  have h3 : w % 65536 = w := Nat.mod_eq_of_lt h2
  rw [h3, if_neg (by omega)]

/-- The absolute value of a difference of two bytes, computed on 16-bit words as the signed
maximum of the difference and its negation. -/
theorem abs_word (a b : Nat) (ha : a < 256) (hb : b < 256) :
    (if toInt16 ((a + 65536 - b) % 65536) ≥
          toInt16 ((0 + 65536 - (a + 65536 - b) % 65536) % 65536) then
        (a + 65536 - b) % 65536
      else (0 + 65536 - (a + 65536 - b) % 65536) % 65536) % 65536 =
      ((a : Int) - (b : Int)).natAbs := by
  by_cases hba : b ≤ a
  · have hd : (a + 65536 - b) % 65536 = a - b := by omega
    rw [hd]
    by_cases hab : a = b
    · subst hab
      simp
    · have hnd : (0 + 65536 - (a - b)) % 65536 = 65536 - (a - b) := by omega
      rw [hnd, toInt16_small (a - b) (by omega),
        toInt16_big (65536 - (a - b)) (by omega) (by omega)]
      rw [if_pos (by omega)]
      omega
  · have hd : (a + 65536 - b) % 65536 = a + 65536 - b := by omega
    rw [hd]
    have hnd : (0 + 65536 - (a + 65536 - b)) % 65536 = b - a := by omega
    rw [hnd, toInt16_small (b - a) (by omega),
      toInt16_big (a + 65536 - b) (by omega) (by omega)]
    rw [if_neg (by omega)]
    omega

/-- The 16-bit pipeline of the SSE2 kernel on one word: widened bytes are subtracted, the
absolute value is taken as `max(d, -d)` and compared with the tolerance. -/
theorem sse2_check_word (tol : Int) (h0 : 0 ≤ tol) (h1 : tol ≤ 255) (A B : Vec) (m : Nat)
    (hA : Vec.word A m < 256) (hB : Vec.word B m < 256) :
    Vec.word (cmpgt_epi16 (max_epi16 (sub_epi16 A B) (sub_epi16 setzero (sub_epi16 A B)))
        (set1_epi16 tol)) m =
      if ((((Vec.word A m : Int) - (Vec.word B m : Int)).natAbs : Int) > tol) then 65535
      else 0 := by
  simp only [word_cmpgt_epi16, word_max_epi16, word_sub_epi16, word_set1_epi16, word_setzero]
  rw [abs_word _ _ hA hB]
  have ht : (tol % 65536).toNat % 65536 = tol.toNat := by omega
  rw [ht, toInt16_small _ (by omega), toInt16_small _ (by omega)]
  have htt : (tol.toNat : Int) = tol := by omega
  rw [htt]

theorem byte_packs_epi16 (a b : Vec) (i j : Nat) (hj : j < 4) :
    (packs_epi16 a b i).byte j =
      packs_byte (if i < 2 then Vec.word a (4 * i + j) else Vec.word b (4 * (i - 2) + j)) := by
  unfold packs_epi16
  by_cases hi : i < 2
  · simp only [hi, if_true]
    interval_cases j <;> simp [Lane32.byte]
  · simp only [hi, if_false]
    interval_cases j <;> simp [Lane32.byte]

theorem byte_andnot (a b : Lane32) (j : Nat) :
    (Lane32.andnot a b).byte j = (a.byte j ^^^ 255) &&& b.byte j := by
  rcases j with _ | _ | _ | j <;> simp [Lane32.byte, Lane32.andnot]

theorem byte_cond_mask (c : Bool) (j : Nat) :
    (if c = true then Lane32.ones else Lane32.zero).byte j = if c = true then 255 else 0 := by
  cases c <;> rcases j with _ | _ | _ | j <;> simp [Lane32.byte, Lane32.ones, Lane32.zero]

/-- Byte `j` of lane `i` of a loaded register after the mask `0x00FFFFFF`. -/
theorem byte_rgb (r : Nat → Nat) (i j : Nat) (hj : j < 4) :
    Vec.byte (and_si (loadu r) (set1_epi32 16777215)) (4 * i + j) =
      if j = 0 then GetRValue (r i) else if j = 1 then GetGValue (r i)
      else if j = 2 then GetBValue (r i) else 0 := by
  simp only [Vec.byte, and_si, loadu, set1_epi32, lane_rgb_mask,
    show (4 * i + j) / 4 = i by omega, show (4 * i + j) % 4 = j by omega]
  interval_cases j <;>
    simp [Lane32.byte, Lane32.and, Lane32.ofNat, and_255, GetRValue, GetGValue, GetBValue]

theorem byte_rgb_lt (r : Nat → Nat) (i j : Nat) (hj : j < 4) :
    Vec.byte (and_si (loadu r) (set1_epi32 16777215)) (4 * i + j) < 256 := by
  rw [byte_rgb r i j hj]
  unfold GetRValue GetGValue GetBValue
  split_ifs <;> omega

/-- Byte `j` of lane `i` of `v_check` in the SSE2 kernel: 255 when the byte `j` of pixel `i`
differs by more than the tolerance, else 0. -/
theorem sse2_check_byte (tol : Int) (h0 : 0 ≤ tol) (h1 : tol ≤ 255) (rs rc : Nat → Nat)
    (i j : Nat) (hi : i < 4) (hj : j < 4) :
    (packs_epi16
      (cmpgt_epi16
        (max_epi16
          (sub_epi16 (unpacklo_epi8 (and_si (loadu rs) (set1_epi32 16777215)) setzero)
            (unpacklo_epi8 (and_si (loadu rc) (set1_epi32 16777215)) setzero))
          (sub_epi16 setzero
            (sub_epi16 (unpacklo_epi8 (and_si (loadu rs) (set1_epi32 16777215)) setzero)
              (unpacklo_epi8 (and_si (loadu rc) (set1_epi32 16777215)) setzero))))
        (set1_epi16 tol))
      (cmpgt_epi16
        (max_epi16
          (sub_epi16 (unpackhi_epi8 (and_si (loadu rs) (set1_epi32 16777215)) setzero)
            (unpackhi_epi8 (and_si (loadu rc) (set1_epi32 16777215)) setzero))
          (sub_epi16 setzero
            (sub_epi16 (unpackhi_epi8 (and_si (loadu rs) (set1_epi32 16777215)) setzero)
              (unpackhi_epi8 (and_si (loadu rc) (set1_epi32 16777215)) setzero))))
        (set1_epi16 tol)) i).byte j =
      if ((((Vec.byte (and_si (loadu rs) (set1_epi32 16777215)) (4 * i + j) : Int) -
          (Vec.byte (and_si (loadu rc) (set1_epi32 16777215)) (4 * i + j) : Int)).natAbs : Int)
            > tol) then 255 else 0 := by
  rw [byte_packs_epi16 _ _ i j hj]
  by_cases hi2 : i < 2
  · rw [if_pos hi2, sse2_check_word tol h0 h1 _ _ _
      (by rw [word_unpacklo_zero]; exact byte_rgb_lt rs i j hj)
      (by rw [word_unpacklo_zero]; exact byte_rgb_lt rc i j hj)]
    simp only [word_unpacklo_zero]
    split_ifs <;> decide
  · have h8 : 8 + (4 * (i - 2) + j) = 4 * i + j := by omega
    rw [if_neg hi2, sse2_check_word tol h0 h1 _ _ _
      (by rw [word_unpackhi_zero, h8]; exact byte_rgb_lt rs i j hj)
      (by rw [word_unpackhi_zero, h8]; exact byte_rgb_lt rc i j hj)]
    simp only [word_unpackhi_zero, h8]
    split_ifs <;> decide

theorem byte_zero (j : Nat) : Lane32.zero.byte j = 0 := by
  rcases j with _ | _ | _ | j <;> simp [Lane32.byte, Lane32.zero]

theorem byte_ones (j : Nat) : Lane32.ones.byte j = 255 := by
  rcases j with _ | _ | _ | j <;> simp [Lane32.byte, Lane32.ones]

/-- Lane `i` of `v_mismatch` in the SSE2 kernel has no byte with its top bit set exactly when
the lane is masked or no channel of pixel `i` exceeds the tolerance. -/
theorem sse2_lane (tol : Int) (h0 : 0 ≤ tol) (h1 : tol ≤ 255) (rs rc : Nat → Nat) (c : Bool)
    (i : Nat) (hi : i < 4) :
    (∀ j : Nat, j < 4 →
      decide ((Lane32.andnot (if c = true then Lane32.ones else Lane32.zero)
        (packs_epi16
          (cmpgt_epi16
            (max_epi16
              (sub_epi16 (unpacklo_epi8 (and_si (loadu rs) (set1_epi32 16777215)) setzero)
                (unpacklo_epi8 (and_si (loadu rc) (set1_epi32 16777215)) setzero))
              (sub_epi16 setzero
                (sub_epi16 (unpacklo_epi8 (and_si (loadu rs) (set1_epi32 16777215)) setzero)
                  (unpacklo_epi8 (and_si (loadu rc) (set1_epi32 16777215)) setzero))))
            (set1_epi16 tol))
          (cmpgt_epi16
            (max_epi16
              (sub_epi16 (unpackhi_epi8 (and_si (loadu rs) (set1_epi32 16777215)) setzero)
                (unpackhi_epi8 (and_si (loadu rc) (set1_epi32 16777215)) setzero))
              (sub_epi16 setzero
                (sub_epi16 (unpackhi_epi8 (and_si (loadu rs) (set1_epi32 16777215)) setzero)
                  (unpackhi_epi8 (and_si (loadu rc) (set1_epi32 16777215)) setzero))))
            (set1_epi16 tol)) i)).byte j ≥ 128) = false) ↔
      (c || !RgbExceeds tol (rs i) (rc i)) = true := by
  have hb : ∀ j : Nat, j < 4 → _ := fun j hj => sse2_check_byte tol h0 h1 rs rc i j hi hj
  cases c
  · simp only [Bool.false_eq_true, if_false, byte_andnot, byte_zero, Nat.zero_xor,
      and_255_left, Bool.false_or, Bool.not_eq_true', decide_eq_false_iff_not]
    have hx : ∀ j : Nat, j < 4 → ∀ a b : Nat,
        Vec.byte (and_si (loadu rs) (set1_epi32 16777215)) (4 * i + j) = a →
        Vec.byte (and_si (loadu rc) (set1_epi32 16777215)) (4 * i + j) = b →
        ((packs_epi16
          (cmpgt_epi16
            (max_epi16
              (sub_epi16 (unpacklo_epi8 (and_si (loadu rs) (set1_epi32 16777215)) setzero)
                (unpacklo_epi8 (and_si (loadu rc) (set1_epi32 16777215)) setzero))
              (sub_epi16 setzero
                (sub_epi16 (unpacklo_epi8 (and_si (loadu rs) (set1_epi32 16777215)) setzero)
                  (unpacklo_epi8 (and_si (loadu rc) (set1_epi32 16777215)) setzero))))
            (set1_epi16 tol))
          (cmpgt_epi16
            (max_epi16
              (sub_epi16 (unpackhi_epi8 (and_si (loadu rs) (set1_epi32 16777215)) setzero)
                (unpackhi_epi8 (and_si (loadu rc) (set1_epi32 16777215)) setzero))
              (sub_epi16 setzero
                (sub_epi16 (unpackhi_epi8 (and_si (loadu rs) (set1_epi32 16777215)) setzero)
                  (unpackhi_epi8 (and_si (loadu rc) (set1_epi32 16777215)) setzero))))
            (set1_epi16 tol)) i).byte j % 256 ≥ 128 ↔
          (((a : Int) - (b : Int)).natAbs : Int) > tol) := by
      intro j hj a b ha hb2
      rw [hb j hj, ha, hb2]
      split_ifs with hh
      · exact ⟨fun _ => hh, fun _ => by decide⟩
      · exact ⟨fun h => absurd h (by decide), fun h => absurd h hh⟩
    have hR := hx 0 (by decide) _ _ (byte_rgb rs i 0 (by decide)) (byte_rgb rc i 0 (by decide))
    have hG := hx 1 (by decide) _ _ (byte_rgb rs i 1 (by decide)) (byte_rgb rc i 1 (by decide))
    have hB := hx 2 (by decide) _ _ (byte_rgb rs i 2 (by decide)) (byte_rgb rc i 2 (by decide))
    have hA := hx 3 (by decide) _ _ (byte_rgb rs i 3 (by decide)) (byte_rgb rc i 3 (by decide))
    simp only [if_true, OfNat.ofNat_ne_zero, if_false, OfNat.ofNat_ne_one,
      show ¬ ((2 : Nat) = 1) by decide, show ¬ ((3 : Nat) = 1) by decide,
      show ¬ ((3 : Nat) = 2) by decide] at hR hG hB hA
    unfold RgbExceeds
    simp only [Bool.or_eq_false_iff, decide_eq_false_iff_not]
    constructor
    · intro h
      exact ⟨⟨fun hex => h 0 (by decide) (hR.2 hex), fun hex => h 1 (by decide) (hG.2 hex)⟩,
        fun hex => h 2 (by decide) (hB.2 hex)⟩
    · intro h j hj
      interval_cases j
      · exact fun hh => h.1.1 (hR.1 hh)
      · exact fun hh => h.1.2 (hG.1 hh)
      · exact fun hh => h.2 (hB.1 hh)
      · intro hh
        have := hA.1 hh
        simp at this
        omega
  · simp only [if_true, byte_andnot, byte_ones, Bool.true_or, iff_true]
    intro j _
    simp

/-- Lane `k` of the transparency mask of the SSE2 kernel. -/
theorem sse2_mask_lane (te : Bool) (thr : Int) (h0 : 0 ≤ thr) (h1 : thr ≤ 255)
    (rs : Nat → Nat) (k : Nat) :
    (if te = true then cmplt_epi32 (srli_epi32 (loadu rs) 24) (set1_epi32 thr) else setzero) k =
      if (te && decide ((AlphaByte (rs k) : Int) < thr)) = true then Lane32.ones
      else Lane32.zero := by
  cases te
  · simp [setzero]
  · simp only [if_true, cmplt_epi32, set1_epi32, srli_epi32, loadu,
      lane_alpha_lt thr h0 h1, Bool.true_and, decide_eq_true_eq]

theorem movemask_cond_mask (c : Nat → Bool) :
    (maskOfBits 16 (fun k => decide
        ((if c (k / 4) = true then Lane32.ones else Lane32.zero).byte (k % 4) ≥ 128))
      == 65535) = (List.range 4).all c := by
  rw [Bool.eq_iff_iff, beq_iff_eq, show (65535 : Nat) = 2 ^ 16 - 1 by norm_num,
    maskOfBits_eq_ones, List.all_eq_true]
  simp only [byte_cond_mask, decide_eq_true_eq, List.mem_range]
  rw [forall_bytes16 (fun i _ => (if c i = true then 255 else 0) ≥ 128)]
  constructor
  · intro h i hi
    have := h i hi 0 (by decide)
    by_contra hc
    rw [if_neg hc] at this
    omega
  · intro h i hi j _
    rw [if_pos (h i hi)]
    decide

theorem movemask_mismatch (tol : Int) (h0 : 0 ≤ tol) (h1 : tol ≤ 255) (rs rc : Nat → Nat)
    (c : Nat → Bool) :
    (!(maskOfBits 16 (fun k => decide
        ((Lane32.andnot (if c (k / 4) = true then Lane32.ones else Lane32.zero)
          (packs_epi16
            (cmpgt_epi16
              (max_epi16
                (sub_epi16 (unpacklo_epi8 (and_si (loadu rs) (set1_epi32 16777215)) setzero)
                  (unpacklo_epi8 (and_si (loadu rc) (set1_epi32 16777215)) setzero))
                (sub_epi16 setzero
                  (sub_epi16 (unpacklo_epi8 (and_si (loadu rs) (set1_epi32 16777215)) setzero)
                    (unpacklo_epi8 (and_si (loadu rc) (set1_epi32 16777215)) setzero))))
              (set1_epi16 tol))
            (cmpgt_epi16
              (max_epi16
                (sub_epi16 (unpackhi_epi8 (and_si (loadu rs) (set1_epi32 16777215)) setzero)
                  (unpackhi_epi8 (and_si (loadu rc) (set1_epi32 16777215)) setzero))
                (sub_epi16 setzero
                  (sub_epi16 (unpackhi_epi8 (and_si (loadu rs) (set1_epi32 16777215)) setzero)
                    (unpackhi_epi8 (and_si (loadu rc) (set1_epi32 16777215)) setzero))))
              (set1_epi16 tol)) (k / 4))).byte (k % 4) ≥ 128)) != 0)) =
      (List.range 4).all fun i => (c i || !RgbExceeds tol (rs i) (rc i)) := by
  rw [Bool.eq_iff_iff, Bool.not_eq_true', bne_eq_false_iff_eq, maskOfBits_eq_zero,
    List.all_eq_true]
  simp only [List.mem_range]
  rw [forall_bytes16 (fun i j => decide
        ((Lane32.andnot (if c i = true then Lane32.ones else Lane32.zero)
          (packs_epi16
            (cmpgt_epi16
              (max_epi16
                (sub_epi16 (unpacklo_epi8 (and_si (loadu rs) (set1_epi32 16777215)) setzero)
                  (unpacklo_epi8 (and_si (loadu rc) (set1_epi32 16777215)) setzero))
                (sub_epi16 setzero
                  (sub_epi16 (unpacklo_epi8 (and_si (loadu rs) (set1_epi32 16777215)) setzero)
                    (unpacklo_epi8 (and_si (loadu rc) (set1_epi32 16777215)) setzero))))
              (set1_epi16 tol))
            (cmpgt_epi16
              (max_epi16
                (sub_epi16 (unpackhi_epi8 (and_si (loadu rs) (set1_epi32 16777215)) setzero)
                  (unpackhi_epi8 (and_si (loadu rc) (set1_epi32 16777215)) setzero))
                (sub_epi16 setzero
                  (sub_epi16 (unpackhi_epi8 (and_si (loadu rs) (set1_epi32 16777215)) setzero)
                    (unpackhi_epi8 (and_si (loadu rc) (set1_epi32 16777215)) setzero))))
              (set1_epi16 tol)) i)).byte j ≥ 128) = false)]
  exact forall_congr' fun i => forall_congr' fun hi => sse2_lane tol h0 h1 rs rc (c i) i hi

theorem sse2_step_eq (screen source : PixelBuffer) (start_x start_y : Int) (te : Bool)
    (tol thr : Int) (htol0 : 0 ≤ tol) (htol1 : tol ≤ 255) (hthr0 : 0 ≤ thr) (hthr1 : thr ≤ 255)
    (y x : Int) :
    CheckApproxMatch_SSE2_step screen source start_x start_y te tol thr y x = true ↔
      ∀ k : Nat, k < 4 →
        CheckApproxMatch_Scalar_pixel screen source start_x start_y te tol thr y (x + k)
          = true := by
  simp only [CheckApproxMatch_SSE2_step, movemask_epi8, Vec.byte, andnot_si,
    sse2_mask_lane te thr hthr0 hthr1, CheckApproxMatch_Scalar_pixel]
  rw [movemask_cond_mask (fun k => te &&
      decide ((AlphaByte (source.at (y * source.width + (x + k))) : Int) < thr)),
    movemask_mismatch tol htol0 htol1 (fun k => source.at (y * source.width + (x + k)))
      (fun k => screen.at ((start_y + y) * screen.width + start_x + (x + k)))
      (fun k => te &&
        decide ((AlphaByte (source.at (y * source.width + (x + k))) : Int) < thr))]
  exact step_logic te 4 _ _

theorem sse2_row_eq (screen source : PixelBuffer) (start_x start_y : Int) (te : Bool)
    (tol thr : Int) (htol0 : 0 ≤ tol) (htol1 : tol ≤ 255) (hthr0 : 0 ≤ thr) (hthr1 : thr ≤ 255)
    (y : Int) (fuel : Nat) (x : Int) :
    CheckApproxMatch_SSE2_row screen source start_x start_y te tol thr y fuel x =
      (CheckApproxMatch_Scalar_row screen source start_x start_y te tol thr y
        (source.width - x).toNat x).1 := by
  induction fuel generalizing x with
  | zero => rfl
  | succ fuel ih =>
    simp only [CheckApproxMatch_SSE2_row]
    by_cases hlt : x + 3 < source.width
    · rw [if_pos hlt, ih (x + 4),
        strided_row_eq screen source start_x start_y te tol thr y 4
          (CheckApproxMatch_SSE2_step screen source start_x start_y te tol thr y)
          (sse2_step_eq screen source start_x start_y te tol thr htol0 htol1 hthr0 hthr1 y)
          x (by push_cast; omega)]
      push_cast
      cases CheckApproxMatch_SSE2_step screen source start_x start_y te tol thr y x <;> simp
    · rw [if_neg hlt]

theorem sse2_rows_eq (screen source : PixelBuffer) (start_x start_y : Int) (te : Bool)
    (tol thr : Int) (htol0 : 0 ≤ tol) (htol1 : tol ≤ 255) (hthr0 : 0 ≤ thr) (hthr1 : thr ≤ 255)
    (n : Nat) (y : Int) :
    CheckApproxMatch_SSE2_rows screen source start_x start_y te tol thr n y =
      (CheckApproxMatch_Scalar_rows screen source start_x start_y te tol thr n y).1 := by
  induction n generalizing y with
  | zero => rfl
  | succ n ih =>
    simp only [CheckApproxMatch_SSE2_rows, CheckApproxMatch_Scalar_rows,
      sse2_row_eq screen source start_x start_y te tol thr htol0 htol1 hthr0 hthr1, ih,
      sub_zero]
    split_ifs <;> rfl

theorem XP_sse2_row_eq (screen source : PixelBuffer) (start_x start_y : Int) (te : Bool)
    (tol thr : Int) (y : Int) (fuel : Nat) (x : Int) :
    XP.PixelComparison.CheckApproxMatch_SSE2_row screen source start_x start_y te tol thr y
        fuel x =
      CheckApproxMatch_SSE2_row screen source start_x start_y te tol thr y fuel x := by
  induction fuel generalizing x with
  | zero =>
    simp only [XP.PixelComparison.CheckApproxMatch_SSE2_row, CheckApproxMatch_SSE2_row,
      XP_scalar_row_eq]
  | succ fuel ih =>
    simp only [XP.PixelComparison.CheckApproxMatch_SSE2_row, CheckApproxMatch_SSE2_row,
      XP_scalar_row_eq, ih]

theorem XP_sse2_rows_eq (screen source : PixelBuffer) (start_x start_y : Int) (te : Bool)
    (tol thr : Int) (n : Nat) (y : Int) :
    XP.PixelComparison.CheckApproxMatch_SSE2_rows screen source start_x start_y te tol thr
        n y =
      CheckApproxMatch_SSE2_rows screen source start_x start_y te tol thr n y := by
  induction n generalizing y with
  | zero => rfl
  | succ n ih =>
    simp only [XP.PixelComparison.CheckApproxMatch_SSE2_rows, CheckApproxMatch_SSE2_rows,
      XP_sse2_row_eq, ih]

theorem sse2_eq_scalar (screen source : PixelBuffer) (start_x start_y tolerance : Int)
    (te : Bool) (htol : 0 ≤ tolerance ∧ tolerance ≤ 255) :
    CheckApproxMatch_SSE2 screen source start_x start_y te tolerance =
      CheckApproxMatch_Scalar screen source start_x start_y te tolerance := by
  have hthr := ComputeAlphaThreshold_range te tolerance
  unfold CheckApproxMatch_SSE2 CheckApproxMatch_Scalar CheckApproxMatch_Scalar_traced
  simp only [sse2_rows_eq screen source start_x start_y te tolerance _
    htol.1 htol.2 hthr.1 hthr.2]
  split_ifs <;> rfl

theorem XP_sse2_eq_sse2 (screen source : PixelBuffer) (start_x start_y tolerance : Int)
    (te : Bool) :
    XP.PixelComparison.CheckApproxMatch_SSE2 screen source start_x start_y te tolerance =
      CheckApproxMatch_SSE2 screen source start_x start_y te tolerance := by
  unfold XP.PixelComparison.CheckApproxMatch_SSE2 CheckApproxMatch_SSE2
  have hreg : XP.PixelComparison.IsValidSearchRegion start_x start_y source.width
      source.height screen.width screen.height =
      IsValidSearchRegion start_x start_y source.width source.height screen.width
        screen.height := rfl
  rw [hreg]
  simp only [XP_sse2_rows_eq, XP_ComputeAlphaThreshold_eq]

/-- C4. For every pair of buffers, every offset, every tolerance in `[0, 255]`, either
transparency flag and every template width, `CheckApproxMatch_SSE2` takes the same
decision as `CheckApproxMatch_Scalar`, in the main build and in the XP build. -/
theorem CheckApproxMatch_SSE2_eq_Scalar (screen source : PixelBuffer)
    (start_x start_y tolerance : Int) (transparent_enabled : Bool)
    (htol : 0 ≤ tolerance ∧ tolerance ≤ 255) :
    CheckApproxMatch_SSE2 screen source start_x start_y transparent_enabled tolerance =
        CheckApproxMatch_Scalar screen source start_x start_y transparent_enabled tolerance ∧
    XP.PixelComparison.CheckApproxMatch_SSE2 screen source start_x start_y
        transparent_enabled tolerance =
      XP.PixelComparison.CheckApproxMatch_Scalar screen source start_x start_y
        transparent_enabled tolerance := by
  refine ⟨sse2_eq_scalar _ _ _ _ _ _ htol, ?_⟩
  rw [XP_sse2_eq_sse2, XP_scalar_eq]
  exact sse2_eq_scalar _ _ _ _ _ _ htol

/-- Witness of C4: a template of width 5, one vector step and one scalar pixel. -/
theorem CheckApproxMatch_SSE2_eq_Scalar_witness :
    CheckApproxMatch_SSE2
        ⟨[0, 1, 2, 3, 4, 5], 6, 1, false, true⟩
        ⟨[5, 5, 5, 5, 5], 5, 1, false, true⟩ 1 0 true 10 =
      CheckApproxMatch_Scalar
        ⟨[0, 1, 2, 3, 4, 5], 6, 1, false, true⟩
        ⟨[5, 5, 5, 5, 5], 5, 1, false, true⟩ 1 0 true 10 ∧
    XP.PixelComparison.CheckApproxMatch_SSE2
        ⟨[0, 1, 2, 3, 4, 5], 6, 1, false, true⟩
        ⟨[5, 5, 5, 5, 5], 5, 1, false, true⟩ 1 0 true 10 =
      XP.PixelComparison.CheckApproxMatch_Scalar
        ⟨[0, 1, 2, 3, 4, 5], 6, 1, false, true⟩
        ⟨[5, 5, 5, 5, 5], 5, 1, false, true⟩ 1 0 true 10 :=
  CheckApproxMatch_SSE2_eq_Scalar _ _ 1 0 10 true (by decide)

/-! ### The AVX-512 kernel -/

/-- C2, evaluation of the code where it departs from the claim. Template and searched
buffer are 8 pixels wide and one row high, `g_is_avx2_supported` is set and transparency is
enabled, so the row is handled by the embedded 8-pixel loop.
* Tolerance 200 (threshold 55), opaque white template on black: the scalar matcher and
  `CheckApproxMatch_AVX2` reject, `CheckApproxMatch_AVX512` accepts (alpha 255 in the top
  byte is a negative lane, hence below the threshold, and the pixels are masked).
* Tolerance 0 (threshold 255), fully transparent white template on black: the scalar
  matcher and `CheckApproxMatch_AVX2` accept, `CheckApproxMatch_AVX512` rejects (the
  threshold in the top byte is a negative lane, hence not above alpha 0, and the pixels are
  compared). -/
theorem CheckApproxMatch_AVX512_differs_from_Scalar :
    (CheckApproxMatch_AVX512 true
        ⟨[4278190080, 4278190080, 4278190080, 4278190080, 4278190080, 4278190080,
          4278190080, 4278190080], 8, 1, false, true⟩
        ⟨[4294967295, 4294967295, 4294967295, 4294967295, 4294967295, 4294967295,
          4294967295, 4294967295], 8, 1, true, true⟩ 0 0 true 200 = true ∧
      CheckApproxMatch_Scalar
        ⟨[4278190080, 4278190080, 4278190080, 4278190080, 4278190080, 4278190080,
          4278190080, 4278190080], 8, 1, false, true⟩
        ⟨[4294967295, 4294967295, 4294967295, 4294967295, 4294967295, 4294967295,
          4294967295, 4294967295], 8, 1, true, true⟩ 0 0 true 200 = false ∧
      CheckApproxMatch_AVX2
        ⟨[4278190080, 4278190080, 4278190080, 4278190080, 4278190080, 4278190080,
          4278190080, 4278190080], 8, 1, false, true⟩
        ⟨[4294967295, 4294967295, 4294967295, 4294967295, 4294967295, 4294967295,
          4294967295, 4294967295], 8, 1, true, true⟩ 0 0 true 200 = false) ∧
    (CheckApproxMatch_AVX512 true
        ⟨[4278190080, 4278190080, 4278190080, 4278190080, 4278190080, 4278190080,
          4278190080, 4278190080], 8, 1, false, true⟩
        ⟨[16777215, 16777215, 16777215, 16777215, 16777215, 16777215, 16777215, 16777215],
          8, 1, true, true⟩ 0 0 true 0 = false ∧
      CheckApproxMatch_Scalar
        ⟨[4278190080, 4278190080, 4278190080, 4278190080, 4278190080, 4278190080,
          4278190080, 4278190080], 8, 1, false, true⟩
        ⟨[16777215, 16777215, 16777215, 16777215, 16777215, 16777215, 16777215, 16777215],
          8, 1, true, true⟩ 0 0 true 0 = true ∧
      CheckApproxMatch_AVX2
        ⟨[4278190080, 4278190080, 4278190080, 4278190080, 4278190080, 4278190080,
          4278190080, 4278190080], 8, 1, false, true⟩
        ⟨[16777215, 16777215, 16777215, 16777215, 16777215, 16777215, 16777215, 16777215],
          8, 1, true, true⟩ 0 0 true 0 = true) := by
  decide

/-! ### The scan loops of `SearchForBitmap` -/

theorem thread_row_mem (check : Int → Int → Bool) (mk : Int → Int → MatchResult) (y : Int)
    (n : Nat) (x : Int) (m : MatchResult) :
    m ∈ (thread_row check mk y n x).1 ↔
      ∃ k : Nat, k < n ∧ check (x + k) y = true ∧ m = mk (x + k) y := by
  induction n generalizing x with
  | zero => simp [thread_row]
  | succ n ih =>
    have hshift : (∃ k : Nat, k < n ∧ check (x + 1 + k) y = true ∧ m = mk (x + 1 + k) y) ↔
        ∃ k : Nat, 0 < k ∧ k < n + 1 ∧ check (x + k) y = true ∧ m = mk (x + k) y := by
      constructor
      · rintro ⟨k, hk, hc, hm⟩
        refine ⟨k + 1, Nat.succ_pos k, Nat.succ_lt_succ hk, ?_, ?_⟩
        · rw [show x + ((k + 1 : Nat) : Int) = x + 1 + (k : Int) by push_cast; ring]
          exact hc
        · rw [show x + ((k + 1 : Nat) : Int) = x + 1 + (k : Int) by push_cast; ring]
          exact hm
      · rintro ⟨k, hk0, hk, hc, hm⟩
        refine ⟨k - 1, by omega, ?_, ?_⟩
        · rw [show x + 1 + ((k - 1 : Nat) : Int) = x + (k : Int) by omega]
          exact hc
        · rw [show x + 1 + ((k - 1 : Nat) : Int) = x + (k : Int) by omega]
          exact hm
    simp only [thread_row]
    by_cases hc : check x y = true
    · rw [if_pos hc, List.mem_cons, ih (x + 1), hshift]
      constructor
      · rintro (h | ⟨k, _, hk, hck, hm⟩)
        · exact ⟨0, Nat.succ_pos n, by simpa using hc, by simpa using h⟩
        · exact ⟨k, hk, hck, hm⟩
      · rintro ⟨k, hk, hck, hm⟩
        rcases Nat.eq_zero_or_pos k with h0 | h0
        · subst h0
          left
          simpa using hm
        · exact Or.inr ⟨k, h0, hk, hck, hm⟩
    · rw [if_neg hc, ih (x + 1), hshift]
      constructor
      · rintro ⟨k, _, hk, hck, hm⟩
        exact ⟨k, hk, hck, hm⟩
      · rintro ⟨k, hk, hck, hm⟩
        rcases Nat.eq_zero_or_pos k with h0 | h0
        · subst h0
          exact absurd (by simpa using hck) hc
        · exact ⟨k, h0, hk, hck, hm⟩

theorem thread_rows_mem (check : Int → Int → Bool) (mk : Int → Int → MatchResult)
    (cols n : Nat) (y : Int) (m : MatchResult) :
    m ∈ (thread_rows check mk cols n y).1 ↔
      ∃ j : Nat, j < n ∧ ∃ k : Nat, k < cols ∧ check k (y + j) = true ∧ m = mk k (y + j) := by
  induction n generalizing y with
  | zero => simp [thread_rows]
  | succ n ih =>
    simp only [thread_rows, List.mem_append, thread_row_mem, ih (y + 1), zero_add]
    constructor
    · rintro (⟨k, hk, hc, hm⟩ | ⟨j, hj, k, hk, hc, hm⟩)
      · exact ⟨0, Nat.succ_pos n, k, hk, by simpa using hc, by simpa using hm⟩
      · refine ⟨j + 1, Nat.succ_lt_succ hj, k, hk, ?_, ?_⟩
        · rw [show y + ((j + 1 : Nat) : Int) = y + 1 + (j : Int) by push_cast; ring]
          exact hc
        · rw [show y + ((j + 1 : Nat) : Int) = y + 1 + (j : Int) by push_cast; ring]
          exact hm
    · rintro ⟨j, hj, k, hk, hc, hm⟩
      rcases Nat.eq_zero_or_pos j with h0 | h0
      · subst h0
        exact Or.inl ⟨k, hk, by simpa using hc, by simpa using hm⟩
      · refine Or.inr ⟨j - 1, by omega, k, hk, ?_, ?_⟩
        · rw [show y + 1 + ((j - 1 : Nat) : Int) = y + (j : Int) by omega]
          exact hc
        · rw [show y + 1 + ((j - 1 : Nat) : Int) = y + (j : Int) by omega]
          exact hm

theorem thread_row_sorted (check : Int → Int → Bool) (mk : Int → Int → MatchResult)
    (sl st : Int) (hx : ∀ x y, (mk x y).x = x + sl) (hy : ∀ x y, (mk x y).y = y + st)
    (y : Int) (n : Nat) (x : Int) :
    (thread_row check mk y n x).1.Pairwise
      (fun a b => a.y < b.y ∨ (a.y = b.y ∧ a.x < b.x)) := by
  induction n generalizing x with
  | zero => simp [thread_row]
  | succ n ih =>
    simp only [thread_row]
    split_ifs
    · refine List.pairwise_cons.2 ⟨fun b hb => ?_, ih (x + 1)⟩
      obtain ⟨k, _, _, hm⟩ := (thread_row_mem check mk y n (x + 1) b).1 hb
      right
      rw [hm, hx, hx, hy, hy]
      exact ⟨rfl, by omega⟩
    · exact ih (x + 1)

theorem thread_rows_sorted (check : Int → Int → Bool) (mk : Int → Int → MatchResult)
    (sl st : Int) (hx : ∀ x y, (mk x y).x = x + sl) (hy : ∀ x y, (mk x y).y = y + st)
    (cols n : Nat) (y : Int) :
    (thread_rows check mk cols n y).1.Pairwise
      (fun a b => a.y < b.y ∨ (a.y = b.y ∧ a.x < b.x)) := by
  induction n generalizing y with
  | zero => simp [thread_rows]
  | succ n ih =>
    simp only [thread_rows]
    refine List.pairwise_append.2 ⟨thread_row_sorted check mk sl st hx hy y cols 0, ih (y + 1),
      fun a ha b hb => ?_⟩
    obtain ⟨k, _, _, hma⟩ := (thread_row_mem check mk y cols 0 a).1 ha
    obtain ⟨j, _, k2, _, _, hmb⟩ := (thread_rows_mem check mk cols n (y + 1) b).1 hb
    left
    rw [hma, hmb, hy, hy]
    omega

theorem scan_row_all (check : Int → Int → Bool) (mk : Int → Int → MatchResult) (y : Int)
    (n : Nat) (x : Int) :
    scan_row check mk true y n x =
      ((thread_row check mk y n x).1, (thread_row check mk y n x).2, false) := by
  induction n generalizing x with
  | zero => rfl
  | succ n ih =>
    simp only [scan_row, thread_row, ih (x + 1)]
    split_ifs <;> simp_all

theorem scan_rows_all (check : Int → Int → Bool) (mk : Int → Int → MatchResult)
    (cols n : Nat) (y : Int) :
    scan_rows check mk true cols n y = thread_rows check mk cols n y := by
  induction n generalizing y with
  | zero => rfl
  | succ n ih =>
    simp only [scan_rows, thread_rows, scan_row_all, ih (y + 1)]
    simp

theorem scan_row_first (check : Int → Int → Bool) (mk : Int → Int → MatchResult) (y : Int)
    (n : Nat) (x : Int) :
    (scan_row check mk false y n x).1 = (thread_row check mk y n x).1.take 1 ∧
      (scan_row check mk false y n x).2.2 = !(thread_row check mk y n x).1.isEmpty := by
  induction n generalizing x with
  | zero => simp [scan_row, thread_row]
  | succ n ih =>
    simp only [scan_row, thread_row]
    by_cases hc : check x y = true
    · simp [hc]
    · simp only [hc, Bool.false_eq_true, if_false]
      exact ih (x + 1)

theorem scan_rows_first (check : Int → Int → Bool) (mk : Int → Int → MatchResult)
    (cols n : Nat) (y : Int) :
    (scan_rows check mk false cols n y).1 = (thread_rows check mk cols n y).1.take 1 := by
  induction n generalizing y with
  | zero => simp [scan_rows, thread_rows]
  | succ n ih =>
    simp only [scan_rows, thread_rows]
    obtain ⟨h1, h2⟩ := scan_row_first check mk y cols 0
    rw [h2]
    cases hrow : (thread_row check mk y cols 0).1 with
    | nil =>
      rw [hrow] at h1
      simp [h1, ih (y + 1)]
    | cons a l =>
      rw [hrow] at h1
      simp [h1]

theorem thread_rows_add (check : Int → Int → Bool) (mk : Int → Int → MatchResult)
    (cols a b : Nat) (y : Int) :
    (thread_rows check mk cols (a + b) y).1 =
      (thread_rows check mk cols a y).1 ++ (thread_rows check mk cols b (y + a)).1 := by
  induction a generalizing y with
  | zero => simp [thread_rows]
  | succ a ih =>
    rw [show a + 1 + b = (a + b) + 1 by omega]
    simp only [thread_rows, ih (y + 1), List.append_assoc]
    rw [show y + 1 + (a : Int) = y + ((a + 1 : Nat) : Int) by push_cast; ring]

/-- The offsets of the scan range, as naturals below the two trip counts. -/
theorem thread_rows_mem_int (check : Int → Int → Bool) (mk : Int → Int → MatchResult)
    (dw dh : Int) (m : MatchResult) :
    m ∈ (thread_rows check mk (dw + 1).toNat (dh + 1).toNat 0).1 ↔
      ∃ x y : Int, 0 ≤ y ∧ y ≤ dh ∧ 0 ≤ x ∧ x ≤ dw ∧ check x y = true ∧ m = mk x y := by
  rw [thread_rows_mem]
  constructor
  · rintro ⟨j, hj, k, hk, hc, hm⟩
    rw [zero_add] at hc hm
    exact ⟨k, j, by omega, by omega, by omega, by omega, hc, hm⟩
  · rintro ⟨x, y, hy0, hy, hx0, hx, hc, hm⟩
    refine ⟨y.toNat, by omega, x.toNat, by omega, ?_, ?_⟩
    · rw [zero_add, Int.toNat_of_nonneg hy0, Int.toNat_of_nonneg hx0]
      exact hc
    · rw [zero_add, Int.toNat_of_nonneg hy0, Int.toNat_of_nonneg hx0]
      exact hm

/-- The list of all matches of a scan: its members, its order, and no repetition. -/
theorem scan_all_spec (check : Int → Int → Bool) (mk : Int → Int → MatchResult)
    (sl st : Int) (hx : ∀ x y, (mk x y).x = x + sl) (hy : ∀ x y, (mk x y).y = y + st)
    (dw dh : Int) :
    (∀ m : MatchResult, m ∈ (thread_rows check mk (dw + 1).toNat (dh + 1).toNat 0).1 ↔
      ∃ x y : Int, 0 ≤ y ∧ y ≤ dh ∧ 0 ≤ x ∧ x ≤ dw ∧ check x y = true ∧ m = mk x y) ∧
    (thread_rows check mk (dw + 1).toNat (dh + 1).toNat 0).1.Pairwise
      (fun a b => a.y < b.y ∨ (a.y = b.y ∧ a.x < b.x)) ∧
    (∀ x y : Int, 0 ≤ y → y ≤ dh → 0 ≤ x → x ≤ dw → check x y = true →
      List.count (mk x y) (thread_rows check mk (dw + 1).toNat (dh + 1).toNat 0).1 = 1) := by
  have hsorted := thread_rows_sorted check mk sl st hx hy (dw + 1).toNat (dh + 1).toNat 0
  refine ⟨thread_rows_mem_int check mk dw dh, hsorted, ?_⟩
  intro x y hy0 hyh hx0 hxw hc
  have hnodup : (thread_rows check mk (dw + 1).toNat (dh + 1).toNat 0).1.Nodup := by
    refine hsorted.imp ?_
    intro a b hab heq
    subst heq
    omega
  exact List.count_eq_one_of_mem hnodup
    ((thread_rows_mem_int check mk dw dh _).2 ⟨x, y, hy0, hyh, hx0, hxw, hc, rfl⟩)

/-- The first-match scan returns nothing when no offset is accepted, and otherwise the
match of the accepted offset with the smallest row and, in that row, the smallest column. -/
theorem scan_first_spec (check : Int → Int → Bool) (mk : Int → Int → MatchResult)
    (sl st : Int) (hx : ∀ x y, (mk x y).x = x + sl) (hy : ∀ x y, (mk x y).y = y + st)
    (dw dh : Int) :
    ((∀ x y : Int, 0 ≤ y → y ≤ dh → 0 ≤ x → x ≤ dw → check x y = false) →
      (scan_rows check mk false (dw + 1).toNat (dh + 1).toNat 0).1 = []) ∧
    ((∃ x y : Int, 0 ≤ y ∧ y ≤ dh ∧ 0 ≤ x ∧ x ≤ dw ∧ check x y = true) →
      ∃ x0 y0 : Int, 0 ≤ y0 ∧ y0 ≤ dh ∧ 0 ≤ x0 ∧ x0 ≤ dw ∧ check x0 y0 = true ∧
        (∀ x y : Int, 0 ≤ y → y ≤ dh → 0 ≤ x → x ≤ dw → check x y = true →
          y0 < y ∨ (y0 = y ∧ x0 ≤ x)) ∧
        (scan_rows check mk false (dw + 1).toNat (dh + 1).toNat 0).1 = [mk x0 y0]) := by
  obtain ⟨hmem, hsorted, -⟩ := scan_all_spec check mk sl st hx hy dw dh
  rw [scan_rows_first]
  cases hA : (thread_rows check mk (dw + 1).toNat (dh + 1).toNat 0).1 with
  | nil =>
    refine ⟨fun _ => rfl, ?_⟩
    rintro ⟨x, y, hy0, hyh, hx0, hxw, hc⟩
    have := (hmem (mk x y)).2 ⟨x, y, hy0, hyh, hx0, hxw, hc, rfl⟩
    rw [hA] at this
    exact absurd this (List.not_mem_nil _)
  | cons a rest =>
    rw [hA] at hmem hsorted
    obtain ⟨x0, y0, hy0, hyh, hx0, hxw, hc0, ha⟩ := (hmem a).1 (List.mem_cons_self a rest)
    constructor
    · intro hnone
      rw [hnone x0 y0 hy0 hyh hx0 hxw] at hc0
      exact absurd hc0 (by decide)
    · intro _
      refine ⟨x0, y0, hy0, hyh, hx0, hxw, hc0, ?_, by simp [ha]⟩
      intro x y hy0' hyh' hx0' hxw' hc
      have hin := (hmem (mk x y)).2 ⟨x, y, hy0', hyh', hx0', hxw', hc, rfl⟩
      rcases List.mem_cons.1 hin with h | h
      · have h1 : (mk x y).x = (mk x0 y0).x := by rw [h, ha]
        have h2 : (mk x y).y = (mk x0 y0).y := by rw [h, ha]
        rw [hx, hx] at h1
        rw [hy, hy] at h2
        right
        exact ⟨by omega, by omega⟩
      · have := (List.pairwise_cons.1 hsorted).1 (mk x y) h
        rw [ha, hx, hx, hy, hy] at this
        omega

/-- In first-match mode `SearchForBitmap` is the single-threaded scan, also when the
template does not fit (the scan range is then empty). -/
theorem SearchForBitmap_first_eq (env : SearchEnv) (Source Target : PixelBuffer)
    (sl st tol : Int) (te : Bool) (scale : Rat) (file : String) :
    SearchForBitmap env Source Target sl st tol te false scale file =
      (scan_rows (CheckMatch env Source Target te tol)
        (fun x y : Int => MatchResult.mk (x + sl) (y + st) Target.width Target.height scale file)
        false (Source.width - Target.width + 1).toNat
        (Source.height - Target.height + 1).toNat 0).1 := by
  unfold SearchForBitmap SearchForBitmap_traced
  by_cases hfit : (decide (Target.width > Source.width) ||
      decide (Target.height > Source.height)) = true
  · rw [if_pos hfit, scan_rows_first]
    simp only [Bool.or_eq_true, decide_eq_true_eq] at hfit
    rcases hfit with h | h
    · have : (Source.width - Target.width + 1).toNat = 0 := by omega
      rw [this]
      have hempty : ∀ (n : Nat) (y : Int), (thread_rows (CheckMatch env Source Target te tol)
          (fun x y : Int =>
            MatchResult.mk (x + sl) (y + st) Target.width Target.height scale file)
          0 n y).1 = [] := by
        intro n
        induction n with
        | zero => intro y; rfl
        | succ n ih => intro y; simp [thread_rows, thread_row, ih (y + 1)]
      rw [hempty]
      rfl
    · have : (Source.height - Target.height + 1).toNat = 0 := by omega
      rw [this]
      rfl
  · rw [if_neg hfit]
    simp

theorem XP_SearchForBitmap_first_eq (g : Bool) (Source Target : PixelBuffer)
    (sl st tol : Int) (te : Bool) (scale : Rat) (file : String) :
    XP.SearchForBitmap g Source Target sl st tol te false scale file =
      (scan_rows (XP.CheckMatch g Source Target te tol)
        (fun x y : Int => MatchResult.mk (x + sl) (y + st) Target.width Target.height scale file)
        false (Source.width - Target.width + 1).toNat
        (Source.height - Target.height + 1).toNat 0).1 := by
  unfold XP.SearchForBitmap XP.SearchForBitmap_traced
  by_cases hfit : (decide (Target.width > Source.width) ||
      decide (Target.height > Source.height)) = true
  · rw [if_pos hfit, scan_rows_first]
    simp only [Bool.or_eq_true, decide_eq_true_eq] at hfit
    rcases hfit with h | h
    · have : (Source.width - Target.width + 1).toNat = 0 := by omega
      rw [this]
      have hempty : ∀ (n : Nat) (y : Int), (thread_rows (XP.CheckMatch g Source Target te tol)
          (fun x y : Int =>
            MatchResult.mk (x + sl) (y + st) Target.width Target.height scale file)
          0 n y).1 = [] := by
        intro n
        induction n with
        | zero => intro y; rfl
        | succ n ih => intro y; simp [thread_rows, thread_row, ih (y + 1)]
      rw [hempty]
      rfl
    · have : (Source.height - Target.height + 1).toNat = 0 := by omega
      rw [this]
      rfl
  · rw [if_neg hfit]

/-- C8. With `find_all = false`, `SearchForBitmap` returns the empty list when the matcher
accepts at no offset of the scan range, and otherwise exactly one `MatchResult`
`(x0 + search_left, y0 + search_top, Target.width, Target.height)`, where `(x0, y0)` is the
accepted offset with the smallest `y` and, among those, the smallest `x`; in the main build
and in the XP build. -/
theorem SearchForBitmap_first_match (env : SearchEnv) (Source Target : PixelBuffer)
    (search_left search_top tolerance : Int) (transparent_enabled : Bool)
    (scale_factor : Rat) (source_file : String)
    (_hS : Source.IsValid = true) (_hT : Target.IsValid = true) :
    (((∀ x y : Int, 0 ≤ y → y ≤ Source.height - Target.height → 0 ≤ x →
          x ≤ Source.width - Target.width →
          CheckMatch env Source Target transparent_enabled tolerance x y = false) →
        SearchForBitmap env Source Target search_left search_top tolerance
          transparent_enabled false scale_factor source_file = []) ∧
      ((∃ x y : Int, 0 ≤ y ∧ y ≤ Source.height - Target.height ∧ 0 ≤ x ∧
          x ≤ Source.width - Target.width ∧
          CheckMatch env Source Target transparent_enabled tolerance x y = true) →
        ∃ x0 y0 : Int, 0 ≤ y0 ∧ y0 ≤ Source.height - Target.height ∧ 0 ≤ x0 ∧
          x0 ≤ Source.width - Target.width ∧
          CheckMatch env Source Target transparent_enabled tolerance x0 y0 = true ∧
          (∀ x y : Int, 0 ≤ y → y ≤ Source.height - Target.height → 0 ≤ x →
            x ≤ Source.width - Target.width →
            CheckMatch env Source Target transparent_enabled tolerance x y = true →
            y0 < y ∨ (y0 = y ∧ x0 ≤ x)) ∧
          SearchForBitmap env Source Target search_left search_top tolerance
            transparent_enabled false scale_factor source_file =
            [⟨x0 + search_left, y0 + search_top, Target.width, Target.height, scale_factor,
              source_file⟩])) ∧
    (((∀ x y : Int, 0 ≤ y → y ≤ Source.height - Target.height → 0 ≤ x →
          x ≤ Source.width - Target.width →
          XP.CheckMatch env.g_is_sse2_supported Source Target transparent_enabled tolerance
            x y = false) →
        XP.SearchForBitmap env.g_is_sse2_supported Source Target search_left search_top
          tolerance transparent_enabled false scale_factor source_file = []) ∧
      ((∃ x y : Int, 0 ≤ y ∧ y ≤ Source.height - Target.height ∧ 0 ≤ x ∧
          x ≤ Source.width - Target.width ∧
          XP.CheckMatch env.g_is_sse2_supported Source Target transparent_enabled tolerance
            x y = true) →
        ∃ x0 y0 : Int, 0 ≤ y0 ∧ y0 ≤ Source.height - Target.height ∧ 0 ≤ x0 ∧
          x0 ≤ Source.width - Target.width ∧
          XP.CheckMatch env.g_is_sse2_supported Source Target transparent_enabled tolerance
            x0 y0 = true ∧
          (∀ x y : Int, 0 ≤ y → y ≤ Source.height - Target.height → 0 ≤ x →
            x ≤ Source.width - Target.width →
            XP.CheckMatch env.g_is_sse2_supported Source Target transparent_enabled
              tolerance x y = true →
            y0 < y ∨ (y0 = y ∧ x0 ≤ x)) ∧
          XP.SearchForBitmap env.g_is_sse2_supported Source Target search_left search_top
            tolerance transparent_enabled false scale_factor source_file =
            [⟨x0 + search_left, y0 + search_top, Target.width, Target.height, scale_factor,
              source_file⟩])) := by
  constructor
  · rw [SearchForBitmap_first_eq]
    exact scan_first_spec _ _ search_left search_top (fun _ _ => rfl) (fun _ _ => rfl) _ _
  · rw [XP_SearchForBitmap_first_eq]
    exact scan_first_spec _ _ search_left search_top (fun _ _ => rfl) (fun _ _ => rfl) _ _

theorem thread_rows_no_cols (check : Int → Int → Bool) (mk : Int → Int → MatchResult)
    (n : Nat) (y : Int) : thread_rows check mk 0 n y = ([], []) := by
  induction n generalizing y with
  | zero => rfl
  | succ n ih => simp [thread_rows, thread_row, ih (y + 1)]

theorem search_num_threads_one (env : SearchEnv) (Source Target : PixelBuffer)
    (h : env.hardware_concurrency ≤ 1) : search_num_threads env Source Target = 1 := by
  unfold search_num_threads
  have : max 1 env.hardware_concurrency = 1 := by omega
  simp [this]

/-- On the single-threaded path the all-matches search is the scan over all rows, also
when the template does not fit (the scan range is then empty). -/
theorem SearchForBitmap_all_eq (env : SearchEnv) (Source Target : PixelBuffer)
    (sl st tol : Int) (te : Bool) (scale : Rat) (file : String)
    (hsingle : ¬ (Source.height > 500 ∧ search_num_threads env Source Target > 1)) :
    SearchForBitmap env Source Target sl st tol te true scale file =
      (thread_rows (CheckMatch env Source Target te tol)
        (fun x y : Int => MatchResult.mk (x + sl) (y + st) Target.width Target.height scale file)
        (Source.width - Target.width + 1).toNat
        (Source.height - Target.height + 1).toNat 0).1 := by
  unfold SearchForBitmap SearchForBitmap_traced
  by_cases hfit : (decide (Target.width > Source.width) ||
      decide (Target.height > Source.height)) = true
  · rw [if_pos hfit]
    simp only [Bool.or_eq_true, decide_eq_true_eq] at hfit
    rcases hfit with h | h
    · have : (Source.width - Target.width + 1).toNat = 0 := by omega
      rw [this, thread_rows_no_cols]
    · have : (Source.height - Target.height + 1).toNat = 0 := by omega
      rw [this]
      rfl
  · rw [if_neg hfit]
    have hcond : ¬ (((true && decide (Source.height > 500)) &&
        decide (search_num_threads env Source Target > 1)) = true) := by
      simpa using hsingle
    rw [if_neg hcond, scan_rows_all]

theorem XP_SearchForBitmap_all_eq (g : Bool) (Source Target : PixelBuffer)
    (sl st tol : Int) (te : Bool) (scale : Rat) (file : String) :
    XP.SearchForBitmap g Source Target sl st tol te true scale file =
      (thread_rows (XP.CheckMatch g Source Target te tol)
        (fun x y : Int => MatchResult.mk (x + sl) (y + st) Target.width Target.height scale file)
        (Source.width - Target.width + 1).toNat
        (Source.height - Target.height + 1).toNat 0).1 := by
  unfold XP.SearchForBitmap XP.SearchForBitmap_traced
  by_cases hfit : (decide (Target.width > Source.width) ||
      decide (Target.height > Source.height)) = true
  · rw [if_pos hfit]
    simp only [Bool.or_eq_true, decide_eq_true_eq] at hfit
    rcases hfit with h | h
    · have : (Source.width - Target.width + 1).toNat = 0 := by omega
      rw [this, thread_rows_no_cols]
    · have : (Source.height - Target.height + 1).toNat = 0 := by omega
      rw [this]
      rfl
  · rw [if_neg hfit, scan_rows_all]

/-- C9. With `find_all = true` on the single-threaded path, `SearchForBitmap` returns for
each offset of the scan range at which the matcher accepts the record
`(x + search_left, y + search_top, Target.width, Target.height)` and nothing else, each
exactly once, in ascending `y` and then ascending `x`; when the template is wider or
taller than the searched buffer the result is empty and the matcher is not invoked. The
XP build, which has no other path, does the same. -/
theorem SearchForBitmap_all_matches (env : SearchEnv) (Source Target : PixelBuffer)
    (search_left search_top tolerance : Int) (transparent_enabled : Bool)
    (scale_factor : Rat) (source_file : String)
    (_hS : Source.IsValid = true) (_hT : Target.IsValid = true)
    (hsingle : ¬ (Source.height > 500 ∧ search_num_threads env Source Target > 1)) :
    ((∀ m : MatchResult,
        m ∈ SearchForBitmap env Source Target search_left search_top tolerance
          transparent_enabled true scale_factor source_file ↔
        ∃ x y : Int, 0 ≤ y ∧ y ≤ Source.height - Target.height ∧ 0 ≤ x ∧
          x ≤ Source.width - Target.width ∧
          CheckMatch env Source Target transparent_enabled tolerance x y = true ∧
          m = ⟨x + search_left, y + search_top, Target.width, Target.height, scale_factor,
            source_file⟩) ∧
      (SearchForBitmap env Source Target search_left search_top tolerance
          transparent_enabled true scale_factor source_file).Pairwise
        (fun a b => a.y < b.y ∨ (a.y = b.y ∧ a.x < b.x)) ∧
      (∀ x y : Int, 0 ≤ y → y ≤ Source.height - Target.height → 0 ≤ x →
        x ≤ Source.width - Target.width →
        CheckMatch env Source Target transparent_enabled tolerance x y = true →
        List.count (⟨x + search_left, y + search_top, Target.width, Target.height,
            scale_factor, source_file⟩ : MatchResult)
          (SearchForBitmap env Source Target search_left search_top tolerance
            transparent_enabled true scale_factor source_file) = 1) ∧
      ((Target.width > Source.width ∨ Target.height > Source.height) →
        SearchForBitmap_traced env Source Target search_left search_top tolerance
          transparent_enabled true scale_factor source_file = ([], []))) ∧
    ((∀ m : MatchResult,
        m ∈ XP.SearchForBitmap env.g_is_sse2_supported Source Target search_left search_top
          tolerance transparent_enabled true scale_factor source_file ↔
        ∃ x y : Int, 0 ≤ y ∧ y ≤ Source.height - Target.height ∧ 0 ≤ x ∧
          x ≤ Source.width - Target.width ∧
          XP.CheckMatch env.g_is_sse2_supported Source Target transparent_enabled tolerance
            x y = true ∧
          m = ⟨x + search_left, y + search_top, Target.width, Target.height, scale_factor,
            source_file⟩) ∧
      (XP.SearchForBitmap env.g_is_sse2_supported Source Target search_left search_top
          tolerance transparent_enabled true scale_factor source_file).Pairwise
        (fun a b => a.y < b.y ∨ (a.y = b.y ∧ a.x < b.x)) ∧
      (∀ x y : Int, 0 ≤ y → y ≤ Source.height - Target.height → 0 ≤ x →
        x ≤ Source.width - Target.width →
        XP.CheckMatch env.g_is_sse2_supported Source Target transparent_enabled tolerance
          x y = true →
        List.count (⟨x + search_left, y + search_top, Target.width, Target.height,
            scale_factor, source_file⟩ : MatchResult)
          (XP.SearchForBitmap env.g_is_sse2_supported Source Target search_left search_top
            tolerance transparent_enabled true scale_factor source_file) = 1) ∧
      ((Target.width > Source.width ∨ Target.height > Source.height) →
        XP.SearchForBitmap_traced env.g_is_sse2_supported Source Target search_left
          search_top tolerance transparent_enabled true scale_factor source_file
          = ([], []))) := by
  constructor
  · rw [SearchForBitmap_all_eq env Source Target search_left search_top tolerance
      transparent_enabled scale_factor source_file hsingle]
    obtain ⟨h1, h2, h3⟩ := scan_all_spec
      (CheckMatch env Source Target transparent_enabled tolerance)
      (fun x y : Int => MatchResult.mk (x + search_left) (y + search_top) Target.width
        Target.height scale_factor source_file)
      search_left search_top (fun _ _ => rfl) (fun _ _ => rfl)
      (Source.width - Target.width) (Source.height - Target.height)
    refine ⟨h1, h2, h3, ?_⟩
    intro hbig
    unfold SearchForBitmap_traced
    rw [if_pos (by simpa using hbig)]
  · rw [XP_SearchForBitmap_all_eq]
    obtain ⟨h1, h2, h3⟩ := scan_all_spec
      (XP.CheckMatch env.g_is_sse2_supported Source Target transparent_enabled tolerance)
      (fun x y : Int => MatchResult.mk (x + search_left) (y + search_top) Target.width
        Target.height scale_factor source_file)
      search_left search_top (fun _ _ => rfl) (fun _ _ => rfl)
      (Source.width - Target.width) (Source.height - Target.height)
    refine ⟨h1, h2, h3, ?_⟩
    intro hbig
    unfold XP.SearchForBitmap_traced
    rw [if_pos (by simpa using hbig)]

/-! ### The worker threads of `SearchForBitmap` -/

theorem CompareMatchResults_iff (a b : MatchResult) :
    CompareMatchResults a b = true ↔ a.y < b.y ∨ (a.y = b.y ∧ a.x < b.x) := by
  unfold CompareMatchResults
  by_cases h : a.y = b.y
  · simp [h]
  · simp only [bne_iff_ne, ne_eq, h, not_false_eq_true, if_true, decide_eq_true_eq,
      false_and, or_false]

/-- Consecutive chunks of `c` rows, scanned one after the other, give the scan of the rows
they cover. -/
theorem thread_chunks_flatten (check : Int → Int → Bool) (mk : Int → Int → MatchResult)
    (cols c k : Nat) :
    ((List.range k).map
        (fun t : Nat => (thread_rows check mk cols c ((t : Int) * (c : Int))).1)).flatten =
      (thread_rows check mk cols (k * c) 0).1 := by
  induction k with
  | zero => simp [thread_rows]
  | succ k ih =>
    rw [List.range_succ, List.map_append, List.flatten_append, ih, Nat.succ_mul,
      thread_rows_add]
    simp

/-- The row ranges of the worker threads lie in the scan range, follow one another without
overlap, and cover the scan range. -/
theorem thread_ranges (Source Target : PixelBuffer) (n : Nat) (hn : 2 ≤ n)
    (hc : 50 ≤ (Source.height - Target.height + 1) / (n : Int)) :
    (∀ t : Nat, t < n →
      0 ≤ thread_start_y ((Source.height - Target.height + 1) / (n : Int)) t ∧
      thread_start_y ((Source.height - Target.height + 1) / (n : Int)) t <
        thread_end_y Source Target n ((Source.height - Target.height + 1) / (n : Int)) t ∧
      thread_end_y Source Target n ((Source.height - Target.height + 1) / (n : Int)) t ≤
        Source.height - Target.height + 1) ∧
    (∀ t1 t2 : Nat, t1 < t2 → t2 < n →
      thread_end_y Source Target n ((Source.height - Target.height + 1) / (n : Int)) t1 ≤
        thread_start_y ((Source.height - Target.height + 1) / (n : Int)) t2) ∧
    (∀ y : Int, 0 ≤ y → y < Source.height - Target.height + 1 →
      ∃ t : Nat, t < n ∧
        thread_start_y ((Source.height - Target.height + 1) / (n : Int)) t ≤ y ∧
        y < thread_end_y Source Target n ((Source.height - Target.height + 1) / (n : Int))
          t) := by
  generalize hR : Source.height - Target.height + 1 = R at *
  generalize hcdef : R / (n : Int) = c at *
  have hnpos : (0 : Int) < n := by omega
  have hnc : (n : Int) * c ≤ R := by
    rw [← hcdef]; exact Int.mul_ediv_self_le (by omega)
  have hmono : ∀ a b : Int, a ≤ b → a * c ≤ b * c := fun a b hab =>
    mul_le_mul_of_nonneg_right hab (by omega)
  have hend : ∀ t : Nat, thread_end_y Source Target n c t =
      if t = n - 1 then R else ((t : Int) + 1) * c := by
    intro t; unfold thread_end_y; rw [hR]
  refine ⟨?_, ?_, ?_⟩
  · intro t ht
    rw [hend]
    unfold thread_start_y
    have h0 : (0 : Int) * c ≤ (t : Int) * c := hmono 0 t (by omega)
    have h1 : ((t : Int) + 1) * c = (t : Int) * c + c := by ring
    have h2 : ((t : Int) + 1) * c ≤ (n : Int) * c := hmono _ _ (by omega)
    split_ifs with hlast
    · refine ⟨by omega, ?_, le_refl _⟩
      omega
    · refine ⟨by omega, by omega, by omega⟩
  · intro t1 t2 h12 h2n
    rw [hend, if_neg (by omega)]
    unfold thread_start_y
    exact hmono _ _ (by omega)
  · intro y hy0 hyR
    have hq0 : 0 ≤ y / c := Int.ediv_nonneg hy0 (by omega)
    have hlow : y / c * c ≤ y := Int.ediv_mul_le y (by omega)
    have hhigh : y < (y / c + 1) * c := Int.lt_ediv_add_one_mul_self y (by omega)
    by_cases hq : y / c < (n : Int) - 1
    · refine ⟨(y / c).toNat, by omega, ?_, ?_⟩
      · unfold thread_start_y
        rw [Int.toNat_of_nonneg hq0]
        exact hlow
      · rw [hend, if_neg (by omega), Int.toNat_of_nonneg hq0]
        exact hhigh
    · refine ⟨n - 1, by omega, ?_, ?_⟩
      · unfold thread_start_y
        have h1 : ((n - 1 : Nat) : Int) * c ≤ y / c * c := hmono _ _ (by omega)
        omega
      · rw [hend, if_pos rfl]
        exact hyR

/-- The per-thread lists, concatenated in thread order, are the list of the scan over all
rows. -/
theorem threaded_flatten_eq (check : Int → Int → Bool) (mk : Int → Int → MatchResult)
    (Source Target : PixelBuffer) (cols n : Nat) (hn : 2 ≤ n)
    (hc : 50 ≤ (Source.height - Target.height + 1) / (n : Int)) :
    (((List.range n).map fun t =>
        thread_rows check mk cols
          (thread_end_y Source Target n ((Source.height - Target.height + 1) / (n : Int)) t -
            thread_start_y ((Source.height - Target.height + 1) / (n : Int)) t).toNat
          (thread_start_y ((Source.height - Target.height + 1) / (n : Int)) t)).map
        Prod.fst).flatten =
      (thread_rows check mk cols (Source.height - Target.height + 1).toNat 0).1 := by
  have hnc : (n : Int) * ((Source.height - Target.height + 1) / (n : Int)) ≤
      Source.height - Target.height + 1 := Int.mul_ediv_self_le (by omega)
  generalize hcdef : (Source.height - Target.height + 1) / (n : Int) = c at *
  obtain ⟨n', rfl⟩ : ∃ n', n = n' + 1 := ⟨n - 1, by omega⟩
  have hcN : ((c.toNat : Nat) : Int) = c := Int.toNat_of_nonneg (by omega)
  have hn'c : ((n' : Int)) * c ≤ Source.height - Target.height + 1 := by
    have : ((n' + 1 : Nat) : Int) * c = (n' : Int) * c + c := by push_cast; ring
    omega
  have hn'c0 : 0 ≤ (n' : Int) * c := mul_nonneg (by omega) (by omega)
  rw [List.map_map, List.range_succ, List.map_append, List.flatten_append]
  have hfirst : (List.range n').map (Prod.fst ∘ fun t =>
      thread_rows check mk cols
        (thread_end_y Source Target (n' + 1) c t - thread_start_y c t).toNat
        (thread_start_y c t)) =
      (List.range n').map fun t : Nat =>
        (thread_rows check mk cols c.toNat ((t : Int) * (c.toNat : Int))).1 := by
    apply List.map_congr_left
    intro t ht
    have htn : t < n' := List.mem_range.1 ht
    simp only [Function.comp, thread_end_y, thread_start_y, hcN]
    rw [if_neg (by omega)]
    have : (((t : Int) + 1) * c - (t : Int) * c).toNat = c.toNat := by
      have : ((t : Int) + 1) * c - (t : Int) * c = c := by ring
      rw [this]
    rw [this]
  rw [hfirst, thread_chunks_flatten]
  simp only [List.map_cons, List.map_nil, Function.comp, List.flatten_cons, List.flatten_nil,
    List.append_nil, thread_end_y, thread_start_y]
  rw [if_pos (by omega)]
  have hsplit : (Source.height - Target.height + 1).toNat =
      n' * c.toNat + (Source.height - Target.height + 1 - (n' : Int) * c).toNat := by
    have h1 : ((n' * c.toNat : Nat) : Int) = (n' : Int) * c := by push_cast; rw [hcN]
    omega
  rw [hsplit, thread_rows_add]
  have h1 : ((n' * c.toNat : Nat) : Int) = (n' : Int) * c := by push_cast; rw [hcN]
  rw [h1, zero_add]

/-- C10. For a searched buffer taller than 500 rows, a template that fits, and a thread
count `n ≥ 2` whose chunk `c = (Source.height - Target.height + 1) / n` is at least 50: the
row ranges of the worker threads lie in the scan range, are pairwise disjoint and cover
every scan row exactly once; and for every `std::sort` that returns a permutation of its
input ordered by `CompareMatchResults`, the list that `SearchForBitmap` returns in
all-matches mode is equal to the list that it returns without worker threads
(`hardware_concurrency` 1). -/
theorem SearchForBitmap_threads_eq_single_thread (env : SearchEnv)
    (Source Target : PixelBuffer) (search_left search_top tolerance : Int)
    (transparent_enabled : Bool) (scale_factor : Rat) (source_file : String)
    (hH : Source.height > 500) (hw : Target.width ≤ Source.width)
    (hh : Target.height ≤ Source.height) (hn : 2 ≤ env.hardware_concurrency)
    (hc : 50 ≤ (Source.height - Target.height + 1) / (env.hardware_concurrency : Int))
    (hperm : ∀ l : List MatchResult, (env.std_sort l).Perm l)
    (hsorted : ∀ l : List MatchResult,
      (env.std_sort l).Pairwise (fun a b => CompareMatchResults b a = false)) :
    (∀ t : Nat, t < env.hardware_concurrency →
      0 ≤ thread_start_y
        ((Source.height - Target.height + 1) / (env.hardware_concurrency : Int)) t ∧
      thread_end_y Source Target env.hardware_concurrency
        ((Source.height - Target.height + 1) / (env.hardware_concurrency : Int)) t ≤
        Source.height - Target.height + 1) ∧
    (∀ y : Int, 0 ≤ y → y < Source.height - Target.height + 1 →
      ∃! t : Nat, t < env.hardware_concurrency ∧
        thread_start_y
          ((Source.height - Target.height + 1) / (env.hardware_concurrency : Int)) t ≤ y ∧
        y < thread_end_y Source Target env.hardware_concurrency
          ((Source.height - Target.height + 1) / (env.hardware_concurrency : Int)) t) ∧
    SearchForBitmap env Source Target search_left search_top tolerance transparent_enabled
        true scale_factor source_file =
      SearchForBitmap
        ⟨env.win64, env.g_is_avx2_supported, env.g_is_avx512_supported,
          env.g_is_sse2_supported, 1, env.std_sort⟩
        Source Target search_left search_top tolerance transparent_enabled true scale_factor
        source_file := by
  obtain ⟨hrange, hdisj, hcover⟩ := thread_ranges Source Target env.hardware_concurrency hn hc
  refine ⟨fun t ht => ⟨(hrange t ht).1, (hrange t ht).2.2⟩, ?_, ?_⟩
  · intro y hy0 hyR
    obtain ⟨t, ht, hs, he⟩ := hcover y hy0 hyR
    refine ⟨t, ⟨ht, hs, he⟩, ?_⟩
    rintro t2 ⟨ht2, hs2, he2⟩
    rcases Nat.lt_trichotomy t2 t with h | h | h
    · have := hdisj t2 t h ht
      omega
    · exact h
    · have := hdisj t t2 h ht2
      omega
  · have hmax : max 1 env.hardware_concurrency = env.hardware_concurrency := by omega
    have hsingle : SearchForBitmap
        ⟨env.win64, env.g_is_avx2_supported, env.g_is_avx512_supported,
          env.g_is_sse2_supported, 1, env.std_sort⟩
        Source Target search_left search_top tolerance transparent_enabled true scale_factor
        source_file =
        (thread_rows (CheckMatch env Source Target transparent_enabled tolerance)
          (fun x y : Int => MatchResult.mk (x + search_left) (y + search_top) Target.width
            Target.height scale_factor source_file)
          (Source.width - Target.width + 1).toNat
          (Source.height - Target.height + 1).toNat 0).1 := by
      rw [SearchForBitmap_all_eq _ _ _ _ _ _ _ _ _
        (by rw [search_num_threads_one _ _ _ (le_refl 1)]; omega)]
      rfl
    rw [hsingle]
    have hthreads : search_num_threads env Source Target > 1 := by
      unfold search_num_threads
      simp only [hmax]
      rw [if_neg (by omega)]
      omega
    unfold SearchForBitmap SearchForBitmap_traced
    rw [if_neg (by simp; omega), if_pos (by simpa using ⟨hH, hthreads⟩)]
    simp only [hmax]
    rw [threaded_flatten_eq _ _ Source Target _ env.hardware_concurrency hn hc]
    obtain ⟨hmem, hstrict, -⟩ := scan_all_spec
      (CheckMatch env Source Target transparent_enabled tolerance)
      (fun x y : Int => MatchResult.mk (x + search_left) (y + search_top) Target.width
        Target.height scale_factor source_file)
      search_left search_top (fun _ _ => rfl) (fun _ _ => rfl)
      (Source.width - Target.width) (Source.height - Target.height)
    refine List.Perm.eq_of_sorted ?_ (hsorted _) ?_ (hperm _)
    · intro a b ha hb hab hba
      have ha' := (hperm _).mem_iff.1 ha
      obtain ⟨x1, y1, -, -, -, -, -, rfl⟩ := (hmem a).1 ha'
      obtain ⟨x2, y2, -, -, -, -, -, rfl⟩ := (hmem b).1 hb
      have h1 := (CompareMatchResults_iff _ _).not.1 (by simpa using hab)
      have h2 := (CompareMatchResults_iff _ _).not.1 (by simpa using hba)
      simp only at h1 h2
      have hx : x1 = x2 := by omega
      have hy : y1 = y2 := by omega
      rw [hx, hy]
    · refine hstrict.imp ?_
      intro a b hab
      rw [← Bool.not_eq_true, CompareMatchResults_iff]
      omega

/-! ### Witnesses for the search theorems -/

theorem merge_sort_matches_perm (l : List MatchResult) : (merge_sort_matches l).Perm l :=
  List.mergeSort_perm l _

theorem merge_sort_matches_sorted (l : List MatchResult) :
    (merge_sort_matches l).Pairwise (fun a b => CompareMatchResults b a = false) := by
  have h : (l.mergeSort fun a b : MatchResult => !CompareMatchResults b a).Pairwise
      (fun a b => (!CompareMatchResults b a) = true) := by
    apply List.sorted_mergeSort
    · intro a b c hab hbc
      simp only [Bool.not_eq_true', ← Bool.not_eq_true, CompareMatchResults_iff] at hab hbc ⊢
      omega
    · intro a b
      simp only [Bool.or_eq_true, Bool.not_eq_true', ← Bool.not_eq_true,
        CompareMatchResults_iff]
      omega
  refine h.imp ?_
  intro a b hab
  simpa using hab

/-- Witness of C8: a 3x3 searched buffer and a 1x1 template that is accepted at (0, 0). -/
theorem SearchForBitmap_first_match_witness :
    ∃ x0 y0 : Int,
      SearchForBitmap ⟨true, true, false, false, 4, merge_sort_matches⟩
        ⟨[1, 2, 3, 4, 1, 6, 1, 8, 1], 3, 3, false, true⟩ ⟨[1], 1, 1, false, true⟩
        10 20 0 false false 1 "" = [⟨x0 + 10, y0 + 20, 1, 1, 1, ""⟩] :=
  match (SearchForBitmap_first_match ⟨true, true, false, false, 4, merge_sort_matches⟩
    ⟨[1, 2, 3, 4, 1, 6, 1, 8, 1], 3, 3, false, true⟩ ⟨[1], 1, 1, false, true⟩
    10 20 0 false 1 "" (by decide) (by decide)).1.2
    ⟨0, 0, by decide, by decide, by decide, by decide, by decide⟩ with
  | ⟨x0, y0, _, _, _, _, _, _, h⟩ => ⟨x0, y0, h⟩

/-- Witness of C9: a 3x3 searched buffer and a 1x1 template, four hardware threads. -/
theorem SearchForBitmap_all_matches_witness :
    (SearchForBitmap ⟨true, true, false, false, 4, merge_sort_matches⟩
        ⟨[1, 2, 3, 4, 1, 6, 1, 8, 1], 3, 3, false, true⟩ ⟨[1], 1, 1, false, true⟩
        10 20 0 false true 1 "").Pairwise
      (fun a b => a.y < b.y ∨ (a.y = b.y ∧ a.x < b.x)) :=
  (SearchForBitmap_all_matches ⟨true, true, false, false, 4, merge_sort_matches⟩
    ⟨[1, 2, 3, 4, 1, 6, 1, 8, 1], 3, 3, false, true⟩ ⟨[1], 1, 1, false, true⟩
    10 20 0 false 1 "" (by decide) (by decide) (by decide)).1.2.1

/-- Witness of C10: a searched buffer of one column and 600 rows, a 1x1 template and two
hardware threads (chunks of 300 rows). -/
theorem SearchForBitmap_threads_eq_single_thread_witness :
    SearchForBitmap ⟨true, true, false, false, 2, merge_sort_matches⟩
        ⟨List.replicate 600 0, 1, 600, false, true⟩ ⟨[0], 1, 1, false, true⟩
        0 0 0 false true 1 "" =
      SearchForBitmap ⟨true, true, false, false, 1, merge_sort_matches⟩
        ⟨List.replicate 600 0, 1, 600, false, true⟩ ⟨[0], 1, 1, false, true⟩
        0 0 0 false true 1 "" :=
  (SearchForBitmap_threads_eq_single_thread
    ⟨true, true, false, false, 2, merge_sort_matches⟩
    ⟨List.replicate 600 0, 1, 600, false, true⟩ ⟨[0], 1, 1, false, true⟩
    0 0 0 false 1 "" (by decide) (by decide) (by decide) (by decide) (by decide)
    merge_sort_matches_perm merge_sort_matches_sorted).2.2

/-! ### Decimal output and the result payload -/

theorem digitChar_spec (d : Nat) (hd : d < 10) :
    (Nat.digitChar d).isDigit = true ∧ (Nat.digitChar d).toNat - 48 = d := by
  interval_cases d <;> decide

theorem toDigitsCore_append (fuel n : Nat) (ds : List Char) :
    Nat.toDigitsCore 10 fuel n ds = Nat.toDigitsCore 10 fuel n [] ++ ds := by
  induction fuel generalizing n ds with
  | zero => simp [Nat.toDigitsCore]
  | succ fuel ih =>
    simp only [Nat.toDigitsCore]
    split_ifs with h
    · simp
    · rw [ih (n / 10) (Nat.digitChar (n % 10) :: ds), ih (n / 10) [Nat.digitChar (n % 10)]]
      simp

theorem toDigitsCore_spec (fuel n : Nat) (h : n < fuel) :
    Nat.toDigitsCore 10 fuel n [] ≠ [] ∧
      (∀ c ∈ Nat.toDigitsCore 10 fuel n [], c.isDigit = true) ∧
      ∀ acc, digits_value acc (Nat.toDigitsCore 10 fuel n []) =
        acc * 10 ^ (Nat.toDigitsCore 10 fuel n []).length + n := by
  induction fuel generalizing n with
  | zero => omega
  | succ fuel ih =>
    have hd := digitChar_spec (n % 10) (Nat.mod_lt _ (by norm_num))
    simp only [Nat.toDigitsCore]
    split_ifs with h0
    · refine ⟨by simp, ?_, ?_⟩
      · intro c hc
        simp only [List.mem_singleton] at hc
        rw [hc]; exact hd.1
      · intro acc
        simp only [digits_value, List.foldl_cons, List.foldl_nil, List.length_singleton, hd.2]
        omega
    · rw [toDigitsCore_append]
      have hlt : n / 10 < fuel := by omega
      obtain ⟨-, h2, h3⟩ := ih (n / 10) hlt
      refine ⟨by simp, ?_, ?_⟩
      · intro c hc
        simp only [List.mem_append, List.mem_singleton] at hc
        rcases hc with hc | hc
        · exact h2 c hc
        · rw [hc]; exact hd.1
      · intro acc
        have := h3 acc
        simp only [digits_value] at this
        simp only [digits_value, List.foldl_append, List.foldl_cons, List.foldl_nil, this,
          List.length_append, List.length_singleton, hd.2, pow_succ]
        have := Nat.div_add_mod n 10
        nlinarith [Nat.div_add_mod n 10]

/-- The decimal digits of a natural number: a non-empty run of digit characters whose
value is the number. -/
theorem toDigits_spec (n : Nat) :
    Nat.toDigits 10 n ≠ [] ∧ (∀ c ∈ Nat.toDigits 10 n, c.isDigit = true) ∧
      digits_value 0 (Nat.toDigits 10 n) = n := by
  obtain ⟨h1, h2, h3⟩ := toDigitsCore_spec (n + 1) n (by omega)
  refine ⟨h1, h2, ?_⟩
  have := h3 0
  simpa [Nat.toDigits] using this

/-- A text at which the reading of a number stops: it is empty or starts with a character
that is not a digit. -/
theorem read_digits_append (ds rest : WString) (acc : Nat)
    (hds : ∀ c ∈ ds, c.isDigit = true) (hrest : ∀ c ∈ rest.head?, c.isDigit = false) :
    read_digits (ds ++ rest) acc = (digits_value acc ds, rest) := by
  induction ds generalizing acc with
  | nil =>
    cases rest with
    | nil => rfl
    | cons c r =>
      have : c.isDigit = false := hrest c (by simp)
      simp [read_digits, this, digits_value]
  | cons d ds ih =>
    have hd : d.isDigit = true := hds d (List.mem_cons_self _ _)
    simp only [List.cons_append, read_digits, hd, if_true]
    exact ih _ (fun c hc => hds c (List.mem_cons_of_mem _ hc))

theorem read_nat_toDigits (n : Nat) (rest : WString)
    (hrest : ∀ c ∈ rest.head?, c.isDigit = false) :
    read_nat (Nat.toDigits 10 n ++ rest) = some (n, rest) := by
  obtain ⟨h1, h2, h3⟩ := toDigits_spec n
  cases hds : Nat.toDigits 10 n with
  | nil => exact absurd hds h1
  | cons d ds =>
    have hd : d.isDigit = true := h2 d (by rw [hds]; exact List.mem_cons_self _ _)
    have := read_digits_append (Nat.toDigits 10 n) rest 0 h2 hrest
    rw [hds] at this h3
    simp only [List.cons_append] at this
    simp only [List.cons_append, read_nat, hd, if_true, this, h3]

theorem read_int_to_wstring (v : Int) (rest : WString)
    (hrest : ∀ c ∈ rest.head?, c.isDigit = false) :
    read_int (to_wstring v ++ rest) = some (v, rest) := by
  unfold to_wstring
  split_ifs with hneg
  · simp only [List.cons_append, read_int, read_nat_toDigits _ _ hrest, Option.map_some']
    congr 2
    omega
  · obtain ⟨h1, h2, -⟩ := toDigits_spec v.natAbs
    cases hds : Nat.toDigits 10 v.natAbs with
    | nil => exact absurd hds h1
    | cons d ds =>
      have hd : d.isDigit = true := h2 d (by rw [hds]; exact List.mem_cons_self _ _)
      have hne : d ≠ '-' := by
        intro h
        rw [h] at hd
        exact absurd hd (by decide)
      have := read_nat_toDigits v.natAbs rest hrest
      rw [hds] at this
      have hv : ((v.natAbs : Nat) : Int) = v := by omega
      unfold read_int
      split
      · rename_i heq
        simp only [List.cons_append, List.cons.injEq] at heq
        exact absurd heq.1 hne
      · rw [this]
        simp [hv]

theorem bar_not_digit (t : WString) : ∀ c ∈ ('|' :: t).head?, c.isDigit = false := by
  intro c hc
  simp only [List.head?_cons, Option.mem_def, Option.some.injEq] at hc
  subst hc
  decide

theorem read_record_text (r : Int × Int × Int × Int) (rest : WString)
    (hrest : ∀ c ∈ rest.head?, c.isDigit = false) :
    read_record (record_text r ++ rest) = some (r, rest) := by
  obtain ⟨x, y, w, h⟩ := r
  have e : record_text (x, y, w, h) ++ rest =
      to_wstring x ++ ('|' :: (to_wstring y ++ ('|' :: (to_wstring w ++
        ('|' :: (to_wstring h ++ rest)))))) := by
    simp [record_text]
  rw [e]
  unfold read_record
  rw [read_int_to_wstring x _ (bar_not_digit _)]
  simp only [Option.some_bind, read_char, if_true]
  rw [read_int_to_wstring y _ (bar_not_digit _)]
  simp only [Option.some_bind, read_char, if_true]
  rw [read_int_to_wstring w _ (bar_not_digit _)]
  simp only [Option.some_bind, read_char, if_true]
  rw [read_int_to_wstring h _ hrest]
  simp only [Option.some_bind]

theorem record_text_length (r : Int × Int × Int × Int) : 1 ≤ (record_text r).length := by
  simp [record_text]
  omega

theorem intercalate_cons_cons (sep a b : WString) (l : List WString) :
    sep.intercalate (a :: b :: l) = a ++ sep ++ sep.intercalate (b :: l) := by
  simp [List.intercalate, List.intersperse]

theorem intercalate_length (records : List (Int × Int × Int × Int)) :
    records.length ≤ (",".toList.intercalate (records.map record_text)).length := by
  induction records with
  | nil => simp
  | cons r rs ih =>
    cases rs with
    | nil =>
      have := record_text_length r
      simp [List.intercalate, List.intersperse]
      omega
    | cons r2 rs =>
      have := record_text_length r
      simp only [List.map_cons, intercalate_cons_cons, List.length_append, List.length_cons]
      simp only [List.map_cons, List.length_cons] at ih
      omega

theorem read_records_text (records : List (Int × Int × Int × Int)) (fuel : Nat)
    (rest : WString) (hne : records ≠ []) (hfuel : records.length ≤ fuel)
    (hrest : ∀ c ∈ rest.head?, c.isDigit = false) (hcomma : rest.head? ≠ some ',') :
    read_records fuel (",".toList.intercalate (records.map record_text) ++ rest) =
      some (records, rest) := by
  induction records generalizing fuel with
  | nil => exact absurd rfl hne
  | cons r rs ih =>
    cases fuel with
    | zero => simp at hfuel
    | succ fuel =>
      cases rs with
      | nil =>
        have e : ",".toList.intercalate ([r].map record_text) = record_text r := by
          simp [List.intercalate, List.intersperse]
        rw [e]
        simp only [read_records, read_record_text r rest hrest, Option.some_bind]
        split
        · simp at hcomma
        · rfl
      | cons r2 rs =>
        have hcd : ∀ c ∈ (',' :: (",".toList.intercalate ((r2 :: rs).map record_text) ++
            rest)).head?, c.isDigit = false := by
          intro c hc
          simp only [List.head?_cons, Option.mem_def, Option.some.injEq] at hc
          subst hc
          decide
        have e : ",".toList.intercalate ((r :: r2 :: rs).map record_text) ++ rest =
            record_text r ++ (',' :: (",".toList.intercalate ((r2 :: rs).map record_text) ++
              rest)) := by
          simp only [List.map_cons, intercalate_cons_cons]
          simp
        rw [e]
        simp only [read_records, read_record_text r _ hcd, Option.some_bind]
        rw [ih fuel (by simp) (by simpa using hfuel)]
        rfl

/-- Reading a payload text gives back the number of its records and the records. -/
theorem read_payload_text (records : List (Int × Int × Int × Int)) :
    read_payload (payload_text records) = some ((records.length : Int), records) := by
  have hclose : ∀ t : WString, ∀ c ∈ ('\x7d' :: t).head?, c.isDigit = false := by
    intro t c hc
    simp only [List.head?_cons, Option.mem_def, Option.some.injEq] at hc
    subst hc
    decide
  have e : payload_text records =
      '\x7b' :: (to_wstring records.length ++ ('\x7d' :: '[' ::
        (",".toList.intercalate (records.map record_text) ++ [']']))) := by
    simp [payload_text]
  rw [e]
  unfold read_payload
  simp only [read_char, if_true, Option.some_bind]
  rw [read_int_to_wstring _ _ (hclose _)]
  simp only [read_char, if_true, Option.some_bind]
  cases records with
  | nil => simp [List.intercalate]
  | cons r rs =>
    have hlen := intercalate_length (r :: rs)
    have hne : ",".toList.intercalate ((r :: rs).map record_text) ++ [']'] ≠ [']'] := by
      intro h
      have := congrArg List.length h
      simp only [List.length_append, List.length_singleton, List.length_cons] at this hlen
      omega
    rw [if_neg hne]
    rw [read_records_text (r :: rs) _ [']'] (by simp)
      (by rw [List.length_append]; omega)
      (by intro c hc; simp at hc; subst hc; decide) (by simp)]
    simp

theorem match_count_le (all_matches : List MatchResult) (max_results : Int) :
    match_count all_matches max_results ≤ all_matches.length := by
  unfold match_count
  split_ifs with h <;> omega

theorem match_count_eq_zero (all_matches : List MatchResult) (max_results : Int) :
    match_count all_matches max_results = 0 ↔ all_matches = [] := by
  unfold match_count
  split_ifs with h
  · constructor
    · intro h0; omega
    · intro h0; rw [h0] at h; simp at h; omega
  · exact List.length_eq_zero

theorem match_count_eq_min (all_matches : List MatchResult) (max_results : Int)
    (h : 1 ≤ max_results) :
    match_count all_matches max_results = min all_matches.length max_results.toNat := by
  unfold match_count
  split_ifs with h1 <;> omega

theorem match_record_eq (center_pos : Int) (m : MatchResult) :
    match_record center_pos m = record_text (match_values center_pos m) := rfl

theorem intercalate_cons_eq (sep a : WString) (l : List WString) :
    sep.intercalate (a :: l) = a ++ (l.map fun t => sep ++ t).flatten := by
  induction l generalizing a with
  | nil => simp [List.intercalate, List.intersperse]
  | cons b l ih =>
    rw [intercalate_cons_cons, ih b]
    simp

/-- The loop that writes the records, from a positive index on: each record is preceded by
a comma. -/
theorem matches_stream_pos (center_pos : Int) (all_matches : List MatchResult) (n i : Nat)
    (hi : 0 < i) (hn : i + n ≤ all_matches.length) :
    matches_stream center_pos all_matches n i =
      (((all_matches.drop i).take n).map fun m =>
        ",".toList ++ record_text (match_values center_pos m)).flatten := by
  induction n generalizing i with
  | zero => simp [matches_stream]
  | succ n ih =>
    have hlt : i < all_matches.length := by omega
    rw [List.drop_eq_getElem_cons hlt]
    simp only [matches_stream, if_pos hi, List.take_succ_cons, List.map_cons,
      List.flatten_cons, List.getD_eq_getElem _ _ hlt, match_record_eq]
    rw [ih (i + 1) (by omega) (by omega)]

/-- The loop that writes the records writes them joined by commas. -/
theorem matches_stream_eq (center_pos : Int) (all_matches : List MatchResult) (n : Nat)
    (hn : n ≤ all_matches.length) :
    matches_stream center_pos all_matches n 0 =
      ",".toList.intercalate
        (((all_matches.take n).map (match_values center_pos)).map record_text) := by
  cases n with
  | zero => simp [matches_stream, List.intercalate]
  | succ n =>
    cases all_matches with
    | nil => simp at hn
    | cons m rest =>
      simp only [List.length_cons] at hn
      simp only [matches_stream, lt_irrefl, if_false, List.nil_append, List.getD_cons_zero,
        List.take_succ_cons, List.map_cons, intercalate_cons_eq, match_record_eq]
      rw [matches_stream_pos center_pos (m :: rest) n 1 (by omega) (by simp; omega)]
      simp [List.map_map, Function.comp_def]

/-- The payload that the code writes is the payload text of the values of the first
`match_count` matches. -/
theorem result_payload_eq (all_matches : List MatchResult) (max_results center_pos : Int) :
    result_payload all_matches max_results center_pos =
      payload_text ((all_matches.take (match_count all_matches max_results)).map
        (match_values center_pos)) := by
  have hle := match_count_le all_matches max_results
  unfold result_payload
  simp only
  split_ifs with h
  · rw [matches_stream_eq _ _ _ hle]
    simp [payload_text, List.length_take, Nat.min_eq_left hle]
  · have h0 : match_count all_matches max_results = 0 := by omega
    rw [h0, List.take_zero, List.map_nil]
    decide

/-! ### The cap on the length of a result -/

/-- C15, evaluation of the code where it departs from the claim: a result of exactly
262144 characters, which the claim says is left unchanged, is replaced by the error string
of code -9, in the main build and in the XP build (debugging not requested). -/
theorem CheckResultBufferSize_replaces_at_limit :
    (List.replicate 262144 'x').length = 262144 ∧
      CheckResultBufferSize (fun _ _ => []) (List.replicate 262144 'x') default_params =
        "\x7b-9\x7d[]<Result String Too Large>".toList ∧
      XP.CheckResultBufferSize (List.replicate 262144 'x') default_params =
        "\x7b-9\x7d[]<Result String Too Large>".toList := by
  refine ⟨List.length_replicate _ _, ?_, ?_⟩
  · unfold CheckResultBufferSize
    rw [if_pos (by rw [List.length_replicate]; decide)]
    decide
  · unfold XP.CheckResultBufferSize
    rw [if_pos (by rw [List.length_replicate]; decide)]
    decide

/-- C15, amended: `CheckResultBufferSize` leaves every result string shorter than 262144
characters unchanged, and replaces every result string of 262144 characters or more
entirely by the error string of code -9, `{-9}[]<Result String Too Large>`; a debug suffix,
which opens with `(buffer_size=31`, the length of that error string, is appended exactly
when `return_debug` is positive. Main build and XP build. -/
theorem CheckResultBufferSize_spec (stream_fixed : Nat → Rat → WString)
    (result_buffer : WString) (params : SearchParams) :
    (result_buffer.length < 262144 →
      CheckResultBufferSize stream_fixed result_buffer params = result_buffer ∧
      XP.CheckResultBufferSize result_buffer params = result_buffer) ∧
    (262144 ≤ result_buffer.length → params.return_debug ≤ 0 →
      CheckResultBufferSize stream_fixed result_buffer params =
        "\x7b-9\x7d[]<Result String Too Large>".toList ∧
      XP.CheckResultBufferSize result_buffer params =
        "\x7b-9\x7d[]<Result String Too Large>".toList) ∧
    (262144 ≤ result_buffer.length → 0 < params.return_debug →
      (∃ rest : WString,
        CheckResultBufferSize stream_fixed result_buffer params =
          "\x7b-9\x7d[]<Result String Too Large>".toList ++ "(buffer_size=31".toList
            ++ rest) ∧
      XP.CheckResultBufferSize result_buffer params =
        "\x7b-9\x7d[]<Result String Too Large>(buffer_size=31)".toList) := by
  have herr : FormatError ErrorCode.ResultTooLarge =
      "\x7b-9\x7d[]<Result String Too Large>".toList := by decide
  have hlen : to_wstring ((FormatError ErrorCode.ResultTooLarge).length : Int) =
      "31".toList := by decide
  have hge : 262144 ≤ result_buffer.length →
      result_buffer.length ≥ MAX_RESULT_STRING_LENGTH := fun h => h
  refine ⟨fun h => ?_, fun h hd => ?_, fun h hd => ?_⟩
  · have hlt : ¬ result_buffer.length ≥ MAX_RESULT_STRING_LENGTH := by
      simp only [MAX_RESULT_STRING_LENGTH]; omega
    unfold CheckResultBufferSize XP.CheckResultBufferSize
    rw [if_neg hlt, if_neg hlt]
    exact ⟨rfl, rfl⟩
  · have hnd : ¬ params.return_debug > 0 := by omega
    unfold CheckResultBufferSize XP.CheckResultBufferSize
    rw [if_pos (hge h), if_pos (hge h)]
    simp only []
    rw [if_neg hnd, if_neg hnd, herr]
    exact ⟨rfl, rfl⟩
  · have hd' : params.return_debug > 0 := hd
    unfold CheckResultBufferSize XP.CheckResultBufferSize
    rw [if_pos (hge h), if_pos (hge h)]
    simp only []
    rw [if_pos hd', if_pos hd', hlen, herr]
    refine ⟨⟨",params=left:".toList ++ to_wstring params.left
        ++ ",top:".toList ++ to_wstring params.top
        ++ ",right:".toList ++ to_wstring params.right
        ++ ",bottom:".toList ++ to_wstring params.bottom
        ++ ",screen:".toList ++ to_wstring params.screen
        ++ ",tolerance:".toList ++ to_wstring params.tolerance
        ++ ",max_results:".toList ++ to_wstring params.max_results
        ++ ",center_pos:".toList ++ to_wstring params.center_pos
        ++ ",min_scale:".toList ++ FormatFloat stream_fixed params.min_scale
        ++ ",max_scale:".toList ++ FormatFloat stream_fixed params.max_scale
        ++ ",scale_step:".toList ++ FormatFloat stream_fixed params.scale_step
        ++ ",mode:".toList ++ to_wstring params.mode.toInt ++ ")".toList, ?_⟩, by decide⟩
    simp only [List.append_assoc]
    rfl

/-- Witness of C15 (amended): the result `{0}[]` is left unchanged, and a result of
262144 characters is replaced. -/
theorem CheckResultBufferSize_spec_witness :
    (CheckResultBufferSize (fun _ _ => []) "\x7b0\x7d[]".toList default_params =
        "\x7b0\x7d[]".toList ∧
      XP.CheckResultBufferSize "\x7b0\x7d[]".toList default_params = "\x7b0\x7d[]".toList) ∧
    (CheckResultBufferSize (fun _ _ => []) (List.replicate 262144 'x') default_params =
        "\x7b-9\x7d[]<Result String Too Large>".toList ∧
      XP.CheckResultBufferSize (List.replicate 262144 'x') default_params =
        "\x7b-9\x7d[]<Result String Too Large>".toList) :=
  ⟨(CheckResultBufferSize_spec (fun _ _ => []) "\x7b0\x7d[]".toList default_params).1
      (by decide),
    (CheckResultBufferSize_spec (fun _ _ => []) (List.replicate 262144 'x')
      default_params).2.1 (by rw [List.length_replicate]) (by decide)⟩

/-! ### The bitmap cache of the main build -/

/-- The loop that pops entries from the back of a deque while it is longer than `limit`
ends within `fuel` rounds when the deque has at most `limit + fuel` entries, and leaves
the first `limit` entries. -/
theorem pop_back_while_eq {α : Type} (limit fuel : Nat) (l : List α)
    (h : l.length ≤ limit + fuel) : pop_back_while limit fuel l = l.take limit := by
  induction fuel generalizing l with
  | zero =>
    simp only [pop_back_while]
    rw [List.take_of_length_le (by omega)]
  | succ fuel ih =>
    simp only [pop_back_while]
    split_ifs with hlen
    · rw [ih l.dropLast (by rw [List.length_dropLast]; omega), List.dropLast_eq_take,
        List.take_take, Nat.min_eq_left (by omega)]
    · rw [List.take_of_length_le (by omega)]

theorem pop_back_while_self {α : Type} (limit : Nat) (l : List α) :
    pop_back_while limit l.length l = l.take limit :=
  pop_back_while_eq limit l.length l (by omega)

theorem CacheBitmap_index (c : BitmapCache) (key : WString) (buffer : PixelBuffer) :
    (CacheBitmap c key buffer).g_bitmap_cache_index = c.g_bitmap_cache_index := rfl

theorem GetCachedBitmap_empty_index (c : BitmapCache) (key : WString)
    (h : c.g_bitmap_cache_index = IndexMap.clear) : GetCachedBitmap c key = (none, c) := by
  unfold GetCachedBitmap
  rw [h]
  rfl

/-- Every state of the bitmap cache that `CacheBitmap` and `GetCachedBitmap` reach from the
empty cache has an empty index. -/
theorem bitmap_cache_ops_index (ops : List (Bool × WString × PixelBuffer)) :
    (ops.foldl
      (fun c op => if op.1 then CacheBitmap c op.2.1 op.2.2 else (GetCachedBitmap c op.2.1).2)
      BitmapCache.empty).g_bitmap_cache_index = IndexMap.clear := by
  suffices h : ∀ c : BitmapCache, c.g_bitmap_cache_index = IndexMap.clear →
      (ops.foldl
        (fun c op =>
          if op.1 then CacheBitmap c op.2.1 op.2.2 else (GetCachedBitmap c op.2.1).2)
        c).g_bitmap_cache_index = IndexMap.clear from h _ rfl
  induction ops with
  | nil => intro c hc; exact hc
  | cons op ops ih =>
    intro c hc
    rw [List.foldl_cons]
    apply ih
    split_ifs
    · rw [CacheBitmap_index, hc]
    · rw [GetCachedBitmap_empty_index c _ hc, hc]

/-- C20, evaluation of the code where it departs from the claim. In the main build
`CacheBitmap` stores the buffer in the deque and leaves `g_bitmap_cache_index` as it is, and
`GetCachedBitmap` looks the key up in that index only. Hence, starting from the empty
cache, after any sequence of calls of `CacheBitmap` (flag true) and `GetCachedBitmap` (flag
false), a buffer stored under any key by `CacheBitmap` is in the deque, at its front, and
`GetCachedBitmap` for that key still returns the null pointer. -/
theorem GetCachedBitmap_never_hits (ops : List (Bool × WString × PixelBuffer))
    (key : WString) (buffer : PixelBuffer) :
    ((CacheBitmap
        (ops.foldl
          (fun c op =>
            if op.1 then CacheBitmap c op.2.1 op.2.2 else (GetCachedBitmap c op.2.1).2)
          BitmapCache.empty) key buffer).g_bitmap_cache.head? = some ⟨buffer, key⟩) ∧
    (GetCachedBitmap
        (CacheBitmap
          (ops.foldl
            (fun c op =>
              if op.1 then CacheBitmap c op.2.1 op.2.2 else (GetCachedBitmap c op.2.1).2)
            BitmapCache.empty) key buffer) key).1 = none := by
  constructor
  · unfold CacheBitmap
    simp only [pop_back_while_self, MAX_CACHED_BITMAPS]
    rfl
  · rw [GetCachedBitmap_empty_index _ _
      (by rw [CacheBitmap_index]; exact bitmap_cache_ops_index ops)]

/-! ### The location cache -/

theorem find_key_none {V : Type} (k : WString) (l : List (WString × V)) :
    find_key k l = none ↔ k ∉ l.map Prod.fst := by
  induction l with
  | nil => simp [find_key]
  | cons item rest ih =>
    simp only [find_key, List.map_cons, List.mem_cons, not_or]
    by_cases h : item.1 = k
    · rw [if_pos h]
      constructor
      · intro h2; cases h2
      · intro h2; exact absurd h.symm h2.1
    · simp only [h, if_false, Option.map_eq_none', ih]
      constructor
      · intro h2; exact ⟨fun h3 => h h3.symm, h2⟩
      · intro h2; exact h2.2

theorem find_key_some {V : Type} [Inhabited V] (k : WString) (l : List (WString × V))
    (j : Nat) (h : find_key k l = some j) :
    j < l.length ∧ (l.getD j default).1 = k ∧
      l.find? (fun item => item.1 == k) = some (l.getD j default) ∧
      ((l.map Prod.fst).Nodup → l.eraseIdx j = without_key k l) := by
  induction l generalizing j with
  | nil => simp [find_key] at h
  | cons item rest ih =>
    simp only [find_key] at h
    by_cases hk : item.1 = k
    · rw [if_pos hk] at h
      cases h
      refine ⟨by simp, by simpa using hk, by simp [hk], ?_⟩
      intro hnd
      simp only [List.map_cons, List.nodup_cons] at hnd
      simp only [List.eraseIdx_cons_zero, without_key, List.filter_cons, hk, bne_self_eq_false,
        Bool.false_eq_true, if_false]
      rw [List.filter_eq_self.2]
      intro a ha
      simp only [bne_iff_ne, ne_eq]
      intro hak
      exact hnd.1 (by rw [hk, ← hak]; exact List.mem_map_of_mem _ ha)
    · rw [if_neg hk] at h
      cases hf : find_key k rest with
      | none => rw [hf] at h; simp at h
      | some j' =>
        rw [hf] at h
        simp only [Option.map_some', Option.some.injEq] at h
        subst h
        obtain ⟨h1, h2, h3, h4⟩ := ih j' hf
        refine ⟨by simp; omega, by simpa using h2, ?_, ?_⟩
        · have hk' : (item.1 == k) = false := by simpa using hk
          rw [List.find?_cons, hk', List.getD_cons_succ]
          exact h3
        · intro hnd
          simp only [List.map_cons, List.nodup_cons] at hnd
          simp only [List.eraseIdx_cons_succ, without_key, List.filter_cons, bne_iff_ne, ne_eq,
            hk, not_false_eq_true, if_true]
          rw [h4 hnd.2]
          rfl

/-- The index that `_RebuildCacheIndex` builds for a list without repeated keys sends each
key of the list to the position of its entry, counted from `i`, and leaves other keys as
they are. -/
theorem RebuildCacheIndex_loop_spec (lru : List (WString × CacheEntry)) (i : Nat)
    (index : IndexMap) (k : WString) (hnd : (lru.map Prod.fst).Nodup) :
    _RebuildCacheIndex_loop lru i index k =
      match find_key k lru with
      | some j => some (i + j)
      | none => index k := by
  induction lru generalizing i index with
  | nil => rfl
  | cons item rest ih =>
    simp only [List.map_cons, List.nodup_cons] at hnd
    simp only [_RebuildCacheIndex_loop, find_key]
    rw [ih (i + 1) _ hnd.2]
    by_cases hk : item.1 = k
    · have hnone : find_key k rest = none := by
        rw [find_key_none, ← hk]; exact hnd.1
      simp [hnone, hk, IndexMap.assign]
    · rw [if_neg hk]
      cases hf : find_key k rest with
      | none =>
        simp only [Option.map_none', IndexMap.assign]
        rw [if_neg (fun h => hk h.symm)]
      | some j =>
        simp only [Option.map_some', Option.some.injEq]
        omega

theorem RebuildCacheIndex_consistent (lru : List (WString × CacheEntry)) (index : IndexMap)
    (hlen : lru.length ≤ MAX_CACHED_LOCATIONS) (hnd : (lru.map Prod.fst).Nodup) :
    (_RebuildCacheIndex ⟨lru, index⟩).Consistent ∧
      (_RebuildCacheIndex ⟨lru, index⟩).g_location_cache_lru = lru := by
  refine ⟨⟨hlen, hnd, fun k => ?_⟩, rfl⟩
  simp only [_RebuildCacheIndex]
  rw [RebuildCacheIndex_loop_spec _ _ _ _ hnd]
  cases find_key k lru with
  | none => rfl
  | some j => simp

theorem without_key_nodup {V : Type} (k : WString) (l : List (WString × V))
    (h : (l.map Prod.fst).Nodup) : ((without_key k l).map Prod.fst).Nodup :=
  h.sublist ((List.filter_sublist l).map Prod.fst)

theorem not_mem_without_key {V : Type} (k : WString) (l : List (WString × V)) :
    k ∉ (without_key k l).map Prod.fst := by
  simp only [without_key, List.mem_map, List.mem_filter, bne_iff_ne, ne_eq, not_exists,
    not_and]
  intro a ha h
  exact ha.2 h

theorem without_key_of_not_mem {V : Type} (k : WString) (l : List (WString × V))
    (h : k ∉ l.map Prod.fst) : without_key k l = l := by
  unfold without_key
  rw [List.filter_eq_self]
  intro a ha
  simp only [bne_iff_ne, ne_eq]
  intro hak
  exact h (by rw [← hak]; exact List.mem_map_of_mem _ ha)

theorem without_key_length {V : Type} (k : WString) (l : List (WString × V)) :
    (without_key k l).length ≤ l.length :=
  List.length_filter_le _ _

theorem mem_without_key {V : Type} (k : WString) (l : List (WString × V))
    (item : WString × V) : item ∈ without_key k l ↔ item ∈ l ∧ item.1 ≠ k := by
  simp [without_key]

theorem find_none_of_find_key {V : Type} (k : WString) (l : List (WString × V))
    (h : find_key k l = none) : l.find? (fun item => item.1 == k) = none := by
  rw [find_key_none] at h
  rw [List.find?_eq_none]
  intro a ha hak
  simp only [beq_iff_eq] at hak
  exact h (by rw [← hak]; exact List.mem_map_of_mem _ ha)

theorem find_key_congr {V W : Type} (k : WString) (l : List (WString × V))
    (l2 : List (WString × W)) (h : l.map Prod.fst = l2.map Prod.fst) :
    find_key k l = find_key k l2 := by
  induction l generalizing l2 with
  | nil =>
    cases l2 with
    | nil => rfl
    | cons b l2 => simp at h
  | cons a l ih =>
    cases l2 with
    | nil => simp at h
    | cons b l2 =>
      simp only [List.map_cons, List.cons.injEq] at h
      simp only [find_key, h.1, ih l2 h.2]

theorem eraseIdx_set_self {α : Type} (l : List α) (j : Nat) (x : α) :
    (l.set j x).eraseIdx j = l.eraseIdx j := by
  induction l generalizing j with
  | nil => rfl
  | cons a l ih =>
    cases j with
    | zero => rfl
    | succ j => simp [ih j]

/-- Main build, `GetCachedLocation` on a consistent cache: it returns the stored entry of
the key, stamped with the time, or nothing when the key has no entry; it moves the entry
to the front of the list; and it leaves the cache consistent. -/
theorem GetCachedLocation_spec (c : LocationCache) (k : WString) (now : Nat)
    (hc : c.Consistent) :
    (GetCachedLocation c k now).1 =
        (entry_of k c.g_location_cache_lru).map (CacheEntry.stamped now) ∧
      (GetCachedLocation c k now).2.g_location_cache_lru =
        touch_key k c.g_location_cache_lru ∧
      (GetCachedLocation c k now).2.Consistent := by
  obtain ⟨hlen, hnd, hidx⟩ := hc
  unfold GetCachedLocation
  rw [hidx k]
  cases hf : find_key k c.g_location_cache_lru with
  | none =>
    have hnone := find_none_of_find_key k _ hf
    simp only [entry_of, touch_key, hnone, Option.map_none']
    exact ⟨trivial, trivial, hlen, hnd, hidx⟩
  | some j =>
    obtain ⟨hj, hkey, hfind, herase⟩ := find_key_some k _ j hf
    have hnot : ¬ j ≥ c.g_location_cache_lru.length := by omega
    simp only [if_neg hnot, entry_of, touch_key, hfind, Option.map_some']
    by_cases hpos : j > 0
    · simp only [if_pos hpos, herase hnd]
      refine ⟨rfl, rfl, ?_⟩
      refine (RebuildCacheIndex_consistent _ _ ?_ ?_).1
      · have := List.length_eraseIdx (l := c.g_location_cache_lru) (i := j)
        rw [← herase hnd, List.length_cons, List.length_eraseIdx, if_pos hj]
        omega
      · rw [List.map_cons, List.nodup_cons, hkey]
        exact ⟨not_mem_without_key k _, without_key_nodup k _ hnd⟩
    · have hj0 : j = 0 := by omega
      subst hj0
      simp only [if_neg hpos]
      refine ⟨rfl, ?_, hlen, hnd, hidx⟩
      rw [← herase hnd]
      cases hl : c.g_location_cache_lru with
      | nil => rw [hl] at hj; simp at hj
      | cons a rest => simp

/-- Main build, `UpdateCachedLocation` on a consistent cache: the entry is put at the
front of the list under its key, any older entry of the key is dropped, the list is cut to
`MAX_CACHED_LOCATIONS` entries, and the cache stays consistent. -/
theorem UpdateCachedLocation_spec (c : LocationCache) (k : WString) (e : CacheEntry)
    (hc : c.Consistent) :
    (UpdateCachedLocation c k e).g_location_cache_lru =
        put_key MAX_CACHED_LOCATIONS k e c.g_location_cache_lru ∧
      (UpdateCachedLocation c k e).Consistent := by
  obtain ⟨hlen, hnd, hidx⟩ := hc
  unfold UpdateCachedLocation
  rw [hidx k]
  cases hf : find_key k c.g_location_cache_lru with
  | none =>
    have hnot := (find_key_none k _).1 hf
    simp only [pop_back_while_self, put_key, without_key_of_not_mem k _ hnot]
    refine ⟨rfl, (RebuildCacheIndex_consistent _ _ ?_ ?_).1⟩
    · rw [List.length_take]; exact Nat.min_le_left _ _
    · refine List.Nodup.sublist ((List.take_sublist _ _).map Prod.fst) ?_
      rw [List.map_cons, List.nodup_cons]
      exact ⟨hnot, hnd⟩
  | some j =>
    obtain ⟨hj, hkey, hfind, herase⟩ := find_key_some k _ j hf
    have hlen2 : ((k, e) :: without_key k c.g_location_cache_lru).length ≤
        MAX_CACHED_LOCATIONS := by
      rw [← herase hnd, List.length_cons, List.length_eraseIdx, if_pos hj]
      omega
    have hput : put_key MAX_CACHED_LOCATIONS k e c.g_location_cache_lru =
        (k, e) :: without_key k c.g_location_cache_lru := by
      unfold put_key
      rw [List.take_of_length_le hlen2]
    rw [hput]
    simp only [hkey]
    by_cases hpos : j > 0
    · simp only [if_pos hpos]
      have hget : (c.g_location_cache_lru.set j (k, e)).getD j default = (k, e) := by
        rw [List.getD_eq_getElem _ _ (by rw [List.length_set]; exact hj)]
        simp
      have her : (c.g_location_cache_lru.set j (k, e)).eraseIdx j =
          without_key k c.g_location_cache_lru := by
        rw [eraseIdx_set_self, herase hnd]
      rw [hget, her]
      refine ⟨rfl, (RebuildCacheIndex_consistent _ _ hlen2 ?_).1⟩
      rw [List.map_cons, List.nodup_cons]
      exact ⟨not_mem_without_key k _, without_key_nodup k _ hnd⟩
    · have hj0 : j = 0 := by omega
      subst hj0
      simp only [if_neg hpos]
      cases hl : c.g_location_cache_lru with
      | nil => rw [hl] at hj; simp at hj
      | cons a rest =>
        rw [hl] at herase hnd hlen hidx hkey
        have hrest : without_key k (a :: rest) = rest := by
          rw [← herase hnd]; rfl
        rw [hrest]
        have hak : a.1 = k := by simpa using hkey
        refine ⟨rfl, ?_, ?_, ?_⟩
        · simpa using hlen
        · rw [List.set_cons_zero, List.map_cons]
          rw [List.map_cons, hak] at hnd
          exact hnd
        · intro k2
          rw [hidx k2]
          apply find_key_congr
          simp only [List.set_cons_zero, List.map_cons, List.cons.injEq, and_true]
          simpa using hkey

/-- Main build, the locked block of `RemoveFromCache` on a consistent cache: the entry of
the key is dropped and the cache stays consistent. -/
theorem RemoveFromCache_locked_spec (c : LocationCache) (k : WString) (hc : c.Consistent) :
    (RemoveFromCache_locked c k).g_location_cache_lru =
        without_key k c.g_location_cache_lru ∧
      (RemoveFromCache_locked c k).Consistent := by
  obtain ⟨hlen, hnd, hidx⟩ := hc
  unfold RemoveFromCache_locked
  rw [hidx k]
  cases hf : find_key k c.g_location_cache_lru with
  | none =>
    have hnot := (find_key_none k _).1 hf
    simp only [without_key_of_not_mem k _ hnot]
    exact ⟨trivial, hlen, hnd, hidx⟩
  | some j =>
    obtain ⟨hj, hkey, hfind, herase⟩ := find_key_some k _ j hf
    simp only [if_pos hj, herase hnd]
    refine ⟨rfl, (RebuildCacheIndex_consistent _ _ ?_ (without_key_nodup k _ hnd)).1⟩
    exact le_trans (without_key_length k _) hlen

/-! ### The location cache of the XP build -/

theorem XP_erase_node_cons_eq (a : Nat × (WString × XP.CacheEntry))
    (rest : List (Nat × (WString × XP.CacheEntry))) :
    XP.erase_node (a :: rest) a.1 = rest := by
  simp [XP.erase_node, List.eraseP_cons]

theorem XP_erase_node_cons_ne (a : Nat × (WString × XP.CacheEntry))
    (rest : List (Nat × (WString × XP.CacheEntry))) (i : Nat) (h : a.1 ≠ i) :
    XP.erase_node (a :: rest) i = a :: XP.erase_node rest i := by
  have : (a.1 == i) = false := by simpa using h
  simp [XP.erase_node, List.eraseP_cons, this]

theorem XP_nodes_of_find (l : List (Nat × (WString × XP.CacheEntry))) (k : WString)
    (n : Nat × (WString × XP.CacheEntry))
    (hids : (l.map Prod.fst).Nodup) (hkeys : ((l.map Prod.snd).map Prod.fst).Nodup)
    (hf : l.find? (fun m => m.2.1 == k) = some n) :
    n ∈ l ∧ n.2.1 = k ∧ XP.node_at l n.1 = n.2 ∧
      (XP.erase_node l n.1).map Prod.snd = without_key k (l.map Prod.snd) ∧
      (∀ k2 : WString, k2 ≠ k →
        (XP.erase_node l n.1).find? (fun m => m.2.1 == k2) =
          l.find? (fun m => m.2.1 == k2)) ∧
      (XP.erase_node l n.1).Sublist l ∧
      (XP.list_begin l = some n.1 → ∃ rest, l = n :: rest) := by
  induction l with
  | nil => simp at hf
  | cons a rest ih =>
    simp only [List.map_cons, List.nodup_cons] at hids hkeys
    by_cases hak : a.2.1 = k
    · have hn : n = a := by
        rw [List.find?_cons, show (a.2.1 == k) = true by simpa using hak] at hf
        exact (Option.some.inj hf).symm
      subst hn
      have hrest : without_key k (rest.map Prod.snd) = rest.map Prod.snd :=
        without_key_of_not_mem k _ (by rw [← hak]; exact hkeys.1)
      refine ⟨List.mem_cons_self _ _, hak, ?_, ?_, ?_, ?_, fun _ => ⟨rest, rfl⟩⟩
      · simp [XP.node_at]
      · rw [XP_erase_node_cons_eq]
        simp only [without_key, List.map_cons, List.filter_cons, hak, bne_self_eq_false,
          Bool.false_eq_true, if_false] at hrest ⊢
        exact hrest.symm
      · intro k2 hk2
        have : (n.2.1 == k2) = false := by
          simp only [beq_eq_false_iff_ne, ne_eq, hak]
          exact fun h => hk2 h.symm
        rw [XP_erase_node_cons_eq, List.find?_cons, this]
      · rw [XP_erase_node_cons_eq]
        exact List.sublist_cons_self _ _
    · have hak' : (a.2.1 == k) = false := by simpa using hak
      rw [List.find?_cons, hak'] at hf
      obtain ⟨h1, h2, h3, h4, h5, h6, -⟩ := ih hids.2 hkeys.2 hf
      have hne : a.1 ≠ n.1 := by
        intro h
        exact hids.1 (by rw [h]; exact List.mem_map_of_mem _ h1)
      have hne' : (a.1 == n.1) = false := by simpa using hne
      refine ⟨List.mem_cons_of_mem _ h1, h2, ?_, ?_, ?_, ?_, ?_⟩
      · simp only [XP.node_at, List.find?_cons, hne'] at h3 ⊢
        exact h3
      · rw [XP_erase_node_cons_ne _ _ _ hne, List.map_cons, h4]
        simp [without_key, List.filter_cons, hak]
      · intro k2 hk2
        rw [XP_erase_node_cons_ne _ _ _ hne, List.find?_cons, List.find?_cons, h5 k2 hk2]
      · rw [XP_erase_node_cons_ne _ _ _ hne]
        exact List.Sublist.cons₂ _ h6
      · intro hb
        simp only [XP.list_begin, List.head?_cons, Option.map_some', Option.some.injEq] at hb
        exact absurd hb hne

theorem XP_entry_of_find (l : List (Nat × (WString × XP.CacheEntry))) (k : WString) :
    (l.map Prod.snd).find? (fun item => item.1 == k) =
      (l.find? (fun m => m.2.1 == k)).map Prod.snd := by
  induction l with
  | nil => rfl
  | cons a rest ih =>
    simp only [List.map_cons, List.find?_cons]
    cases h : (a.2.1 == k) with
    | true => simp
    | false => simpa using ih

theorem XP_find_of_not_mem (l : List (Nat × (WString × XP.CacheEntry))) (k : WString)
    (h : k ∉ (l.map Prod.snd).map Prod.fst) : l.find? (fun m => m.2.1 == k) = none := by
  rw [List.find?_eq_none]
  intro a ha hak
  simp only [beq_iff_eq] at hak
  exact h (by rw [← hak]; exact List.mem_map_of_mem _ (List.mem_map_of_mem _ ha))

theorem XP_erase_node_length (l : List (Nat × (WString × XP.CacheEntry)))
    (n : Nat × (WString × XP.CacheEntry)) (h : n ∈ l) :
    (XP.erase_node l n.1).length = l.length - 1 := by
  unfold XP.erase_node
  exact List.length_eraseP_of_mem h (by simp)

/-- XP build, `GetCachedLocation` on a consistent cache: it returns the stored entry of the
key, stamped with the time, or nothing when the key has no entry; it moves the entry to the
front of the list; and it leaves the cache consistent. -/
theorem XP_GetCachedLocation_spec (c : XP.LocationCache) (k : WString) (now : Nat)
    (hc : c.Consistent) :
    (XP.GetCachedLocation c k now).1 =
        (entry_of k c.entries).map (XP.CacheEntry.stamped now) ∧
      (XP.GetCachedLocation c k now).2.entries = touch_key k c.entries ∧
      (XP.GetCachedLocation c k now).2.Consistent := by
  obtain ⟨hlen, hkeys, hids, hlt, hidx⟩ := hc
  unfold XP.GetCachedLocation
  rw [hidx k]
  simp only [entry_of, touch_key, XP.LocationCache.entries, XP_entry_of_find]
  cases hf : c.g_location_cache_lru.find? (fun m => m.2.1 == k) with
  | none =>
    simp only [Option.map_none']
    exact ⟨trivial, trivial, hlen, hkeys, hids, hlt, hidx⟩
  | some n =>
    obtain ⟨hmem, hkey, hnode, herase, hother, hsub, hbegin⟩ :=
      XP_nodes_of_find _ k n hids hkeys hf
    simp only [Option.map_some', hnode]
    by_cases hb : some n.1 ≠ XP.list_begin c.g_location_cache_lru
    · simp only [if_pos hb, List.map_cons, herase]
      refine ⟨rfl, trivial, ?_, ?_, ?_, ?_, ?_⟩
      · simp only [List.length_cons, XP_erase_node_length _ n hmem]
        have : 0 < c.g_location_cache_lru.length := List.length_pos_of_mem hmem
        omega
      · simp only [XP.LocationCache.entries, List.map_cons, herase, List.nodup_cons, hkey]
        exact ⟨not_mem_without_key k _, without_key_nodup k _ hkeys⟩
      · simp only [List.map_cons, List.nodup_cons]
        refine ⟨?_, hids.sublist (hsub.map Prod.fst)⟩
        intro hin
        obtain ⟨m, hm, hm1⟩ := List.mem_map.1 hin
        have := hlt m (hsub.subset hm)
        omega
      · intro m hm
        show m.1 < c.next_node + 1
        simp only [List.mem_cons] at hm
        rcases hm with hm | hm
        · rw [hm]; simp
        · have := hlt m (hsub.subset hm)
          omega
      · intro k2
        by_cases hk2 : k2 = k
        · subst hk2
          simp [IndexMap.assign, List.find?_cons, hkey]
        · have hne : (n.2.1 == k2) = false := by
            simp only [beq_eq_false_iff_ne, ne_eq, hkey]
            exact fun h => hk2 h.symm
          simp only [IndexMap.assign, if_neg hk2, List.find?_cons, hne, hother k2 hk2]
          exact hidx k2
    · simp only [if_neg hb]
      obtain ⟨rest, hrest⟩ := hbegin (by
        by_contra h
        exact hb (fun h2 => h h2.symm))
      refine ⟨rfl, ?_, hlen, hkeys, hids, hlt, hidx⟩
      rw [← herase, hrest, XP_erase_node_cons_eq]
      rfl

theorem XP_find_take_drop (l : List (Nat × (WString × XP.CacheEntry))) (j : Nat)
    (k : WString) (hkeys : ((l.map Prod.snd).map Prod.fst).Nodup) :
    (l.take j).find? (fun m => m.2.1 == k) =
      if k ∈ ((l.drop j).map Prod.snd).map Prod.fst then none
      else l.find? (fun m => m.2.1 == k) := by
  have hsplit := List.take_append_drop j l
  split_ifs with h
  · rw [List.find?_eq_none]
    intro a ha hak
    simp only [beq_iff_eq] at hak
    rw [← hsplit, List.map_append, List.map_append, List.nodup_append] at hkeys
    exact hkeys.2.2 (by rw [← hak]; exact List.mem_map_of_mem _ (List.mem_map_of_mem _ ha)) h
  · conv_rhs => rw [← hsplit, List.find?_append]
    rw [XP_find_of_not_mem (l.drop j) k h]
    simp

/-- XP build: the eviction loop ends within `fuel` rounds when the list has at most
`limit + fuel` nodes, leaves the first `limit` nodes, and has erased from the index
exactly the keys of the nodes it has popped. -/
theorem XP_evict_while_spec (limit fuel : Nat) (l : List (Nat × (WString × XP.CacheEntry)))
    (index : IndexMap) (h : l.length ≤ limit + fuel) :
    (XP.evict_while limit fuel l index).1 = l.take limit ∧
      ∀ k : WString, (XP.evict_while limit fuel l index).2 k =
        if k ∈ ((l.drop limit).map Prod.snd).map Prod.fst then none else index k := by
  induction fuel generalizing l index with
  | zero =>
    simp only [XP.evict_while]
    rw [List.take_of_length_le (by omega), List.drop_of_length_le (by omega)]
    simp
  | succ fuel ih =>
    simp only [XP.evict_while]
    split_ifs with hlen
    · obtain ⟨h1, h2⟩ := ih l.dropLast
        (index.erase ((l.getLast?.map fun n => n.2.1).getD []))
        (by rw [List.length_dropLast]; omega)
      have hne : l ≠ [] := by
        intro h0; rw [h0] at hlen; simp at hlen
      have hlast : l = l.dropLast ++ [l.getLast hne] := (List.dropLast_append_getLast hne).symm
      refine ⟨?_, fun k => ?_⟩
      · rw [h1, List.dropLast_eq_take, List.take_take, Nat.min_eq_left (by omega)]
      · rw [h2 k]
        have hdrop : l.drop limit = l.dropLast.drop limit ++ [l.getLast hne] := by
          conv_lhs => rw [hlast]
          rw [List.drop_append_of_le_length (by rw [List.length_dropLast]; omega)]
        rw [hdrop, List.getLast?_eq_getLast _ hne]
        simp only [Option.map_some', Option.getD_some, List.map_append, List.map_cons,
          List.map_nil, List.mem_append, List.mem_singleton, IndexMap.erase]
        by_cases hk1 : k ∈ ((l.dropLast.drop limit).map Prod.snd).map Prod.fst
        · rw [if_pos hk1, if_pos (Or.inl hk1)]
        · by_cases hk2 : k = (l.getLast hne).2.1
          · rw [if_neg hk1, if_pos hk2, if_pos (Or.inr hk2)]
          · rw [if_neg hk1, if_neg hk2, if_neg (not_or.2 ⟨hk1, hk2⟩)]
    · rw [List.take_of_length_le (by omega), List.drop_of_length_le (by omega)]
      simp

/-- XP build: overwriting the entry of the node at address `i` keeps the addresses and the
keys of all nodes, and changes nothing else. -/
theorem XP_replace_spec (l : List (Nat × (WString × XP.CacheEntry))) (k : WString)
    (n : Nat × (WString × XP.CacheEntry)) (e : XP.CacheEntry)
    (hids : (l.map Prod.fst).Nodup) (hkeys : ((l.map Prod.snd).map Prod.fst).Nodup)
    (hf : l.find? (fun m => m.2.1 == k) = some n) :
    (l.map fun m => if m.1 = n.1 then (m.1, (m.2.1, e)) else m).map Prod.fst =
        l.map Prod.fst ∧
      ((l.map fun m => if m.1 = n.1 then (m.1, (m.2.1, e)) else m).map Prod.snd).map
          Prod.fst = (l.map Prod.snd).map Prod.fst ∧
      (l.map fun m => if m.1 = n.1 then (m.1, (m.2.1, e)) else m).find?
          (fun m => m.2.1 == k) = some (n.1, (k, e)) ∧
      without_key k ((l.map fun m => if m.1 = n.1 then (m.1, (m.2.1, e)) else m).map
          Prod.snd) = without_key k (l.map Prod.snd) ∧
      (∀ k2 : WString, k2 ≠ k →
        (l.map fun m => if m.1 = n.1 then (m.1, (m.2.1, e)) else m).find?
            (fun m => m.2.1 == k2) = l.find? (fun m => m.2.1 == k2)) ∧
      XP.list_begin (l.map fun m => if m.1 = n.1 then (m.1, (m.2.1, e)) else m) =
        XP.list_begin l := by
  induction l with
  | nil => simp at hf
  | cons a rest ih =>
    simp only [List.map_cons, List.nodup_cons] at hids hkeys
    by_cases hak : a.2.1 = k
    · have hn : n = a := by
        rw [List.find?_cons, show (a.2.1 == k) = true by simpa using hak] at hf
        exact (Option.some.inj hf).symm
      subst hn
      have hrest : rest.map (fun m => if m.1 = n.1 then (m.1, (m.2.1, e)) else m) = rest := by
        conv_rhs => rw [← List.map_id rest]
        apply List.map_congr_left
        intro m hm
        have : m.1 ≠ n.1 := fun h => hids.1 (by rw [← h]; exact List.mem_map_of_mem _ hm)
        simp [this]
      simp only [List.map_cons, if_true, hrest, hak]
      refine ⟨trivial, trivial, by simp [List.find?_cons], ?_, ?_, rfl⟩
      · simp [without_key, List.filter_cons, hak]
      · intro k2 hk2
        have h1 : (k == k2) = false := by
          simp only [beq_eq_false_iff_ne, ne_eq]; exact fun h => hk2 h.symm
        have h2 : (n.2.1 == k2) = false := by rw [hak]; exact h1
        simp only [List.find?_cons, h1, h2]
    · have hak' : (a.2.1 == k) = false := by simpa using hak
      rw [List.find?_cons, hak'] at hf
      obtain ⟨h1, h2, h3, h4, h5, -⟩ := ih hids.2 hkeys.2 hf
      have hmem := List.mem_of_find?_eq_some hf
      have hne : a.1 ≠ n.1 := fun h =>
        hids.1 (by rw [h]; exact List.mem_map_of_mem _ hmem)
      simp only [List.map_cons, if_neg hne, h1, h2]
      refine ⟨trivial, trivial, ?_, ?_, ?_, rfl⟩
      · rw [List.find?_cons, hak']
        exact h3
      · simp only [without_key, List.filter_cons] at h4 ⊢
        rw [h4]
      · intro k2 hk2
        rw [List.find?_cons, List.find?_cons, h5 k2 hk2]

/-- XP build, `UpdateCachedLocation` on a consistent cache: the entry is put at the front
of the list under its key, any older entry of the key is dropped, the list is cut to
`MAX_CACHED_LOCATIONS` entries, and the cache stays consistent. -/
theorem XP_UpdateCachedLocation_spec (c : XP.LocationCache) (k : WString)
    (e : XP.CacheEntry) (hc : c.Consistent) :
    (XP.UpdateCachedLocation c k e).entries = put_key MAX_CACHED_LOCATIONS k e c.entries ∧
      (XP.UpdateCachedLocation c k e).Consistent := by
  obtain ⟨hlen, hkeys, hids, hlt, hidx⟩ := hc
  unfold XP.UpdateCachedLocation
  rw [hidx k]
  cases hf : c.g_location_cache_lru.find? (fun m => m.2.1 == k) with
  | none =>
    have hnot : k ∉ (c.entries).map Prod.fst := by
      intro hin
      obtain ⟨it, hit, hk⟩ := List.mem_map.1 hin
      obtain ⟨m, hm, hmit⟩ := List.mem_map.1 hit
      have := List.find?_eq_none.1 hf m hm
      simp only [beq_iff_eq] at this
      exact this (by rw [hmit, hk])
    have hnot' : k ∉ (c.g_location_cache_lru.map Prod.snd).map Prod.fst := hnot
    simp only [Option.map_none']
    obtain ⟨h1, h2⟩ := XP_evict_while_spec MAX_CACHED_LOCATIONS
      ((c.next_node, (k, e)) :: c.g_location_cache_lru).length
      ((c.next_node, (k, e)) :: c.g_location_cache_lru) c.g_location_cache_index (by omega)
    have hsub : (((c.next_node, (k, e)) :: c.g_location_cache_lru).take
        MAX_CACHED_LOCATIONS).Sublist ((c.next_node, (k, e)) :: c.g_location_cache_lru) :=
      List.take_sublist _ _
    have hkeys2 : ((((c.next_node, (k, e)) :: c.g_location_cache_lru).map Prod.snd).map
        Prod.fst).Nodup := by
      simp only [List.map_cons, List.nodup_cons]
      exact ⟨hnot, hkeys⟩
    refine ⟨?_, ?_, ?_, ?_, ?_, ?_⟩
    · simp only [XP.LocationCache.entries, h1, put_key,
        without_key_of_not_mem k _ hnot', List.map_take, List.map_cons]
    · simp only [h1, List.length_take]
      exact Nat.min_le_left _ _
    · simp only [XP.LocationCache.entries, h1]
      exact hkeys2.sublist ((hsub.map Prod.snd).map Prod.fst)
    · simp only [h1]
      refine List.Nodup.sublist (hsub.map Prod.fst) ?_
      simp only [List.map_cons, List.nodup_cons]
      refine ⟨?_, hids⟩
      intro hin
      obtain ⟨m, hm, hm1⟩ := List.mem_map.1 hin
      have := hlt m hm
      omega
    · intro m hm
      show m.1 < c.next_node + 1
      simp only [h1] at hm
      have hm2 := hsub.subset hm
      simp only [List.mem_cons] at hm2
      rcases hm2 with hm2 | hm2
      · rw [hm2]; simp
      · have := hlt m hm2
        omega
    · intro k2
      simp only [h1]
      rw [XP_find_take_drop _ _ _ hkeys2]
      by_cases hk2 : k2 = k
      · subst hk2
        have hnd : k2 ∉ ((((c.next_node, (k2, e)) :: c.g_location_cache_lru).drop
            MAX_CACHED_LOCATIONS).map Prod.snd).map Prod.fst := by
          intro hin
          simp only [MAX_CACHED_LOCATIONS, List.drop_succ_cons] at hin
          exact hnot (by
            simp only [XP.LocationCache.entries]
            exact ((List.drop_sublist 99 c.g_location_cache_lru).map Prod.snd |>.map
              Prod.fst).subset hin)
        rw [if_neg hnd]
        simp [IndexMap.assign, List.find?_cons]
      · have hne : (k == k2) = false := by
          simp only [beq_eq_false_iff_ne, ne_eq]; exact fun h => hk2 h.symm
        simp only [IndexMap.assign, if_neg hk2, h2 k2, List.find?_cons, hne]
        split_ifs
        · rfl
        · exact hidx k2
  | some n =>
    obtain ⟨hmem, hkey, -, herase0, -, -, -⟩ := XP_nodes_of_find _ k n hids hkeys hf
    obtain ⟨r1, r2, r3, r4, r5, r6⟩ := XP_replace_spec _ k n e hids hkeys hf
    have hids1 := hids
    have hkeys1 : ((c.g_location_cache_lru.map Prod.snd).map Prod.fst).Nodup := hkeys
    rw [← r1] at hids1
    rw [← r2] at hkeys1
    obtain ⟨hmem1, -, hnode1, herase1, hother1, hsub1, hbegin1⟩ :=
      XP_nodes_of_find _ k (n.1, (k, e)) hids1 hkeys1 r3
    have hlen1 : (c.g_location_cache_lru.map fun m =>
        if m.1 = n.1 then (m.1, (m.2.1, e)) else m).length = c.g_location_cache_lru.length :=
      List.length_map _ _
    have hlen2 : ((k, e) :: without_key k c.entries).length ≤ MAX_CACHED_LOCATIONS := by
      have h1 := XP_erase_node_length _ n hmem
      have h2 := congrArg List.length herase0
      rw [List.length_map, h1] at h2
      have : 0 < c.g_location_cache_lru.length := List.length_pos_of_mem hmem
      simp only [List.length_cons, XP.LocationCache.entries, ← h2]
      omega
    have hput : put_key MAX_CACHED_LOCATIONS k e c.entries =
        (k, e) :: without_key k c.entries := by
      unfold put_key
      rw [List.take_of_length_le hlen2]
    rw [hput]
    simp only [Option.map_some']
    by_cases hb : some n.1 ≠ XP.list_begin (c.g_location_cache_lru.map fun m =>
        if m.1 = n.1 then (m.1, (m.2.1, e)) else m)
    · simp only [if_pos hb]
      simp only [] at hnode1 herase1 hother1 hsub1
      refine ⟨?_, ?_, ?_, ?_, ?_, ?_⟩
      · simp only [XP.LocationCache.entries, List.map_cons, hnode1, herase1, r4]
      · have h1 := XP_erase_node_length _ _ hmem1
        simp only [] at h1
        simp only [List.length_cons, h1, hlen1]
        have : 0 < c.g_location_cache_lru.length := List.length_pos_of_mem hmem
        omega
      · simp only [XP.LocationCache.entries, List.map_cons, hnode1, herase1, r4,
          List.nodup_cons]
        exact ⟨not_mem_without_key k _, without_key_nodup k _ hkeys⟩
      · simp only [List.map_cons, List.nodup_cons]
        refine ⟨?_, hids1.sublist (hsub1.map Prod.fst)⟩
        intro hin
        have hin2 := (hsub1.map Prod.fst).subset hin
        rw [r1] at hin2
        obtain ⟨m, hm, hm1⟩ := List.mem_map.1 hin2
        have := hlt m hm
        omega
      · intro m hm
        show m.1 < c.next_node + 1
        simp only [List.mem_cons] at hm
        rcases hm with hm | hm
        · rw [hm]; simp
        · have hm2 := List.mem_map_of_mem Prod.fst (hsub1.subset hm)
          rw [r1] at hm2
          obtain ⟨m', hm', hm1⟩ := List.mem_map.1 hm2
          have := hlt m' hm'
          omega
      · intro k2
        by_cases hk2 : k2 = k
        · subst hk2
          simp [IndexMap.assign, List.find?_cons, hnode1]
        · have hne : (k == k2) = false := by
            simp only [beq_eq_false_iff_ne, ne_eq]; exact fun h => hk2 h.symm
          simp only [IndexMap.assign, if_neg hk2, List.find?_cons, hnode1, hne,
            hother1 k2 hk2, r5 k2 hk2]
          exact hidx k2
    · simp only [if_neg hb]
      obtain ⟨rest, hrest⟩ := hbegin1 (by
        by_contra h
        exact hb (fun h2 => h h2.symm))
      refine ⟨?_, ?_, ?_, ?_, ?_, ?_⟩
      · simp only [XP.LocationCache.entries]
        rw [← r4, ← herase1, hrest]
        simp only [XP_erase_node_cons_eq (n.1, k, e) rest, List.map_cons]
      · simp only [hlen1]; exact hlen
      · simp only [XP.LocationCache.entries]; exact hkeys1
      · exact hids1
      · intro m hm
        have hm2 := List.mem_map_of_mem Prod.fst hm
        simp only [] at hm2
        rw [r1] at hm2
        obtain ⟨m', hm', hm1⟩ := List.mem_map.1 hm2
        have := hlt m' hm'
        show m.1 < c.next_node
        omega
      · intro k2
        simp only []
        by_cases hk2 : k2 = k
        · subst hk2
          rw [hidx k2, hf, r3]
          rfl
        · rw [hidx k2, r5 k2 hk2]

/-! ### Least-recently-used lists -/

theorem put_key_head {V : Type} (limit : Nat) (k : WString) (e : V) (l : List (WString × V))
    (h : 0 < limit) : (put_key limit k e l).head? = some (k, e) := by
  obtain ⟨n, rfl⟩ : ∃ n, limit = n + 1 := ⟨limit - 1, by omega⟩
  simp [put_key, List.take_succ_cons]

theorem entry_of_head {V : Type} (k : WString) (e : V) (l : List (WString × V))
    (h : l.head? = some (k, e)) : entry_of k l = some e ∧ (touch_key k l).head? = some (k, e) := by
  cases l with
  | nil => simp at h
  | cons a rest =>
    simp only [List.head?_cons, Option.some.injEq] at h
    subst h
    simp [entry_of, touch_key, List.find?_cons]

theorem entry_of_mem {V : Type} (l : List (WString × V)) (item : WString × V)
    (hnd : (l.map Prod.fst).Nodup) (h : item ∈ l) : entry_of item.1 l = some item.2 := by
  induction l with
  | nil => simp at h
  | cons a rest ih =>
    simp only [List.map_cons, List.nodup_cons] at hnd
    simp only [List.mem_cons] at h
    rcases h with h | h
    · subst h
      simp [entry_of, List.find?_cons]
    · have hne : (a.1 == item.1) = false := by
        simp only [beq_eq_false_iff_ne, ne_eq]
        intro heq
        exact hnd.1 (by rw [heq]; exact List.mem_map_of_mem _ h)
      have := ih hnd.2 h
      simp only [entry_of, List.find?_cons, hne] at this ⊢
      exact this

theorem entry_of_not_mem {V : Type} (l : List (WString × V)) (k : WString)
    (h : k ∉ l.map Prod.fst) : entry_of k l = none := by
  unfold entry_of
  rw [Option.map_eq_none', List.find?_eq_none]
  intro a ha hak
  simp only [beq_iff_eq] at hak
  exact h (by rw [← hak]; exact List.mem_map_of_mem _ ha)

theorem take_append_take {α : Type} (n : Nat) (a b : List α) :
    (a ++ b.take n).take n = (a ++ b).take n := by
  rw [List.take_append_eq_append_take, List.take_append_eq_append_take, List.take_take,
    Nat.min_eq_left (Nat.sub_le _ _)]

/-- Putting entries with pairwise distinct new keys one after the other into a
least-recently-used list leaves the most recent `limit` entries, the latest first. -/
theorem foldl_put_key {V : Type} (limit : Nat) (kes l0 : List (WString × V))
    (hnd : (kes.map Prod.fst).Nodup)
    (hdisj : ∀ k ∈ kes.map Prod.fst, k ∉ l0.map Prod.fst) (hlen : l0.length ≤ limit) :
    kes.foldl (fun l p => put_key limit p.1 p.2 l) l0 = (kes.reverse ++ l0).take limit := by
  induction kes generalizing l0 with
  | nil =>
    simp only [List.foldl_nil, List.reverse_nil, List.nil_append]
    rw [List.take_of_length_le hlen]
  | cons a rest ih =>
    simp only [List.map_cons, List.nodup_cons] at hnd
    rw [List.foldl_cons]
    have ha : a.1 ∉ l0.map Prod.fst := hdisj a.1 (List.mem_cons_self _ _)
    have hput : put_key limit a.1 a.2 l0 = (a :: l0).take limit := by
      unfold put_key
      rw [without_key_of_not_mem _ _ ha]
    rw [hput, ih _ hnd.2]
    · rw [take_append_take]
      simp
    · intro k hk hin
      have hsub := ((List.take_sublist limit (a :: l0)).map Prod.fst).subset hin
      simp only [List.map_cons, List.mem_cons] at hsub
      rcases hsub with h | h
      · rw [h] at hk; exact hnd.1 hk
      · exact hdisj k (List.mem_cons_of_mem _ hk) h
    · rw [List.length_take]
      exact Nat.min_le_left _ _

theorem LocationCache_empty_consistent : LocationCache.empty.Consistent :=
  ⟨Nat.zero_le _, List.nodup_nil, fun _ => rfl⟩

theorem XP_LocationCache_empty_consistent : XP.LocationCache.empty.Consistent :=
  ⟨Nat.zero_le _, List.nodup_nil, List.nodup_nil, fun _ h => absurd h (List.not_mem_nil _),
    fun _ => rfl⟩

theorem foldl_UpdateCachedLocation (kes : List (WString × CacheEntry)) (c : LocationCache)
    (hc : c.Consistent) :
    (kes.foldl (fun c p => UpdateCachedLocation c p.1 p.2) c).Consistent ∧
      (kes.foldl (fun c p => UpdateCachedLocation c p.1 p.2) c).g_location_cache_lru =
        kes.foldl (fun l p => put_key MAX_CACHED_LOCATIONS p.1 p.2 l)
          c.g_location_cache_lru := by
  induction kes generalizing c with
  | nil => exact ⟨hc, rfl⟩
  | cons a rest ih =>
    obtain ⟨h1, h2⟩ := UpdateCachedLocation_spec c a.1 a.2 hc
    obtain ⟨h3, h4⟩ := ih _ h2
    simp only [List.foldl_cons]
    exact ⟨h3, by rw [h4, h1]⟩

theorem XP_foldl_UpdateCachedLocation (kes : List (WString × XP.CacheEntry))
    (c : XP.LocationCache) (hc : c.Consistent) :
    (kes.foldl (fun c p => XP.UpdateCachedLocation c p.1 p.2) c).Consistent ∧
      (kes.foldl (fun c p => XP.UpdateCachedLocation c p.1 p.2) c).entries =
        kes.foldl (fun l p => put_key MAX_CACHED_LOCATIONS p.1 p.2 l) c.entries := by
  induction kes generalizing c with
  | nil => exact ⟨hc, rfl⟩
  | cons a rest ih =>
    obtain ⟨h1, h2⟩ := XP_UpdateCachedLocation_spec c a.1 a.2 hc
    obtain ⟨h3, h4⟩ := ih _ h2
    simp only [List.foldl_cons]
    exact ⟨h3, by rw [h4, h1]⟩

/-- C16. In both builds, on every consistent state of the location cache (at most 100
entries, no key twice, index in step with the list; these are the states that the cache
functions reach from the empty cache), for every key `k` and entry `e`: after
`UpdateCachedLocation(k, e)`, `GetCachedLocation(k)` returns an entry with the position and
the miss counter of `e` (so a counter stored as 0 comes back as 0), whether or not `k` had
an entry before, and `(k, e)` is the first, most recent element of the list, after the
update and after the lookup. -/
theorem UpdateCachedLocation_GetCachedLocation_roundtrip (c : LocationCache)
    (xc : XP.LocationCache) (k : WString) (e : CacheEntry) (xe : XP.CacheEntry) (now : Nat)
    (hc : c.Consistent) (hxc : xc.Consistent) :
    ((GetCachedLocation (UpdateCachedLocation c k e) k now).1 =
        some ⟨e.position, e.miss_count, now⟩ ∧
      (UpdateCachedLocation c k e).g_location_cache_lru.head? = some (k, e) ∧
      (GetCachedLocation (UpdateCachedLocation c k e) k now).2.g_location_cache_lru.head? =
        some (k, e)) ∧
    ((XP.GetCachedLocation (XP.UpdateCachedLocation xc k xe) k now).1 =
        some ⟨xe.position, xe.miss_count, now⟩ ∧
      (XP.UpdateCachedLocation xc k xe).entries.head? = some (k, xe) ∧
      (XP.GetCachedLocation (XP.UpdateCachedLocation xc k xe) k now).2.entries.head? =
        some (k, xe)) := by
  constructor
  · obtain ⟨h1, h2⟩ := UpdateCachedLocation_spec c k e hc
    obtain ⟨g1, g2, -⟩ := GetCachedLocation_spec (UpdateCachedLocation c k e) k now h2
    have hhead := put_key_head MAX_CACHED_LOCATIONS k e c.g_location_cache_lru (by decide)
    rw [← h1] at hhead
    obtain ⟨e1, e2⟩ := entry_of_head k e _ hhead
    refine ⟨?_, hhead, ?_⟩
    · rw [g1, e1]; rfl
    · rw [g2]; exact e2
  · obtain ⟨h1, h2⟩ := XP_UpdateCachedLocation_spec xc k xe hxc
    obtain ⟨g1, g2, -⟩ := XP_GetCachedLocation_spec (XP.UpdateCachedLocation xc k xe) k now h2
    have hhead := put_key_head MAX_CACHED_LOCATIONS k xe xc.entries (by decide)
    rw [← h1] at hhead
    obtain ⟨e1, e2⟩ := entry_of_head k xe _ hhead
    refine ⟨?_, hhead, ?_⟩
    · rw [g1, e1]; rfl
    · rw [g2]; exact e2

/-- Witness of C16: an update of the empty cache, then a lookup at time 7. -/
theorem UpdateCachedLocation_GetCachedLocation_roundtrip_witness :
    (GetCachedLocation (UpdateCachedLocation LocationCache.empty "a".toList ⟨⟨3, 4⟩, 0, 5⟩)
        "a".toList 7).1 = some ⟨⟨3, 4⟩, 0, 7⟩ ∧
      (XP.GetCachedLocation
        (XP.UpdateCachedLocation XP.LocationCache.empty "a".toList ⟨⟨3, 4⟩, 0, 5⟩)
        "a".toList 7).1 = some ⟨⟨3, 4⟩, 0, 7⟩ :=
  ⟨(UpdateCachedLocation_GetCachedLocation_roundtrip LocationCache.empty
      XP.LocationCache.empty "a".toList ⟨⟨3, 4⟩, 0, 5⟩ ⟨⟨3, 4⟩, 0, 5⟩ 7
      LocationCache_empty_consistent XP_LocationCache_empty_consistent).1.1,
    (UpdateCachedLocation_GetCachedLocation_roundtrip LocationCache.empty
      XP.LocationCache.empty "a".toList ⟨⟨3, 4⟩, 0, 5⟩ ⟨⟨3, 4⟩, 0, 5⟩ 7
      LocationCache_empty_consistent XP_LocationCache_empty_consistent).2.1⟩

/-- Inserting a new key into a full least-recently-used list of entries with distinct keys
drops the last entry and keeps the others. -/
theorem put_key_full {V : Type} (k : WString) (e : V) (l : List (WString × V))
    (hlen : l.length = MAX_CACHED_LOCATIONS) (hnd : (l.map Prod.fst).Nodup)
    (hnew : k ∉ l.map Prod.fst) :
    put_key MAX_CACHED_LOCATIONS k e l = (k, e) :: l.dropLast ∧
      ((put_key MAX_CACHED_LOCATIONS k e l).map Prod.fst).Nodup ∧
      (∀ last, l.getLast? = some last → entry_of last.1 (put_key MAX_CACHED_LOCATIONS k e l) = none) ∧
      ∀ p ∈ l.dropLast, entry_of p.1 (put_key MAX_CACHED_LOCATIONS k e l) = some p.2 := by
  have hput : put_key MAX_CACHED_LOCATIONS k e l = (k, e) :: l.dropLast := by
    unfold put_key
    rw [without_key_of_not_mem _ _ hnew, List.dropLast_eq_take, hlen]
    rfl
  have hsub : (l.dropLast.map Prod.fst).Sublist (l.map Prod.fst) :=
    (List.dropLast_sublist l).map Prod.fst
  have hnd2 : (((k, e) :: l.dropLast).map Prod.fst).Nodup := by
    rw [List.map_cons, List.nodup_cons]
    exact ⟨fun h => hnew (hsub.subset h), hnd.sublist hsub⟩
  rw [hput]
  refine ⟨rfl, hnd2, ?_, ?_⟩
  · intro last hlast
    apply entry_of_not_mem
    have hne : l ≠ [] := by
      intro h0; rw [h0] at hlast; simp at hlast
    have hl : l = l.dropLast ++ [last] := by
      have := List.dropLast_append_getLast hne
      rw [List.getLast?_eq_getLast _ hne] at hlast
      rw [Option.some.inj hlast] at this
      exact this.symm
    have hmem : last ∈ l := by rw [hl]; simp
    rw [hl, List.map_append, List.nodup_append] at hnd
    rw [List.map_cons, List.mem_cons, not_or]
    refine ⟨fun h => hnew (by
      have h' : last.1 = k := h
      rw [← h']; exact List.mem_map_of_mem _ hmem), ?_⟩
    intro hin
    exact hnd.2.2 hin (by simp)
  · intro p hp
    exact entry_of_mem _ p hnd2 (List.mem_cons_of_mem _ hp)

/-- Inserting 101 entries with pairwise distinct keys into an empty least-recently-used
list of capacity 100 leaves the last 100, without the first. -/
theorem foldl_put_key_101 {V : Type} (first : WString × V) (others : List (WString × V))
    (hlen : others.length = 100) (hnd : ((first :: others).map Prod.fst).Nodup) :
    entry_of first.1
        ((first :: others).foldl (fun l p => put_key MAX_CACHED_LOCATIONS p.1 p.2 l) []) =
        none ∧
      ∀ p ∈ others,
        entry_of p.1
          ((first :: others).foldl (fun l p => put_key MAX_CACHED_LOCATIONS p.1 p.2 l) []) =
          some p.2 := by
  have hfold := foldl_put_key MAX_CACHED_LOCATIONS (first :: others) [] hnd
    (fun _ _ h => absurd h (List.not_mem_nil _)) (Nat.zero_le _)
  have htake : ((first :: others).reverse ++ []).take MAX_CACHED_LOCATIONS =
      others.reverse := by
    rw [List.append_nil, List.reverse_cons]
    exact List.take_left' (by rw [List.length_reverse, hlen]; rfl)
  rw [hfold, htake]
  rw [List.map_cons, List.nodup_cons] at hnd
  constructor
  · apply entry_of_not_mem
    rw [List.map_reverse, List.mem_reverse]
    exact hnd.1
  · intro p hp
    refine entry_of_mem _ p ?_ (List.mem_reverse.2 hp)
    rw [List.map_reverse, List.nodup_reverse]
    exact hnd.2

/-- C19. In both builds, starting from the empty location cache, after
`UpdateCachedLocation` has been called for 101 pairwise distinct keys in order (`first`,
then the 100 `others`), `GetCachedLocation` returns nothing for the first key and the
stored entry (position and miss counter) for each of the other 100. More generally, on a
consistent cache holding 100 entries, the update of a new key `k` puts `(k, e)` at the
front and drops exactly the last entry of the list: the lookup of its key returns
nothing, and every other entry is returned by the lookup of its key with its position and
miss counter. The last entry is the least recently used one, because on a consistent
cache every update and every lookup that finds its key moves that key to the front of the
list and keeps the order of the other entries (`put_key`, `touch_key`). -/
theorem LocationCache_evicts_least_recent (first : WString × CacheEntry)
    (others : List (WString × CacheEntry)) (c : LocationCache) (xc : XP.LocationCache)
    (k : WString) (e : CacheEntry) (now : Nat)
    (hlen : others.length = 100) (hnd : ((first :: others).map Prod.fst).Nodup)
    (hc : c.Consistent) (hfull : c.g_location_cache_lru.length = 100)
    (hnew : k ∉ c.g_location_cache_lru.map Prod.fst)
    (hxc : xc.Consistent) (hxfull : xc.entries.length = 100)
    (hxnew : k ∉ xc.entries.map Prod.fst) :
    ((GetCachedLocation
          ((first :: others).foldl (fun c p => UpdateCachedLocation c p.1 p.2)
            LocationCache.empty) first.1 now).1 = none ∧
      (∀ p ∈ others,
        (GetCachedLocation
          ((first :: others).foldl (fun c p => UpdateCachedLocation c p.1 p.2)
            LocationCache.empty) p.1 now).1 = some ⟨p.2.position, p.2.miss_count, now⟩) ∧
      (UpdateCachedLocation c k e).g_location_cache_lru =
        (k, e) :: c.g_location_cache_lru.dropLast ∧
      (∀ last, c.g_location_cache_lru.getLast? = some last →
        (GetCachedLocation (UpdateCachedLocation c k e) last.1 now).1 = none) ∧
      (∀ p ∈ c.g_location_cache_lru.dropLast,
        (GetCachedLocation (UpdateCachedLocation c k e) p.1 now).1 =
          some ⟨p.2.position, p.2.miss_count, now⟩) ∧
      (∀ (k2 : WString) (e2 : CacheEntry),
        (UpdateCachedLocation c k2 e2).g_location_cache_lru =
          put_key 100 k2 e2 c.g_location_cache_lru) ∧
      (∀ k2 : WString,
        (GetCachedLocation c k2 now).2.g_location_cache_lru =
          touch_key k2 c.g_location_cache_lru)) ∧
    ((XP.GetCachedLocation
          (((first :: others).map fun p => (p.1, p.2.toXP)).foldl
            (fun c p => XP.UpdateCachedLocation c p.1 p.2) XP.LocationCache.empty)
          first.1 now).1 = none ∧
      (∀ p ∈ others,
        (XP.GetCachedLocation
          (((first :: others).map fun p => (p.1, p.2.toXP)).foldl
            (fun c p => XP.UpdateCachedLocation c p.1 p.2) XP.LocationCache.empty)
          p.1 now).1 = some ⟨p.2.position, p.2.miss_count, now⟩) ∧
      (XP.UpdateCachedLocation xc k e.toXP).entries = (k, e.toXP) :: xc.entries.dropLast ∧
      (∀ last, xc.entries.getLast? = some last →
        (XP.GetCachedLocation (XP.UpdateCachedLocation xc k e.toXP) last.1 now).1 = none) ∧
      (∀ p ∈ xc.entries.dropLast,
        (XP.GetCachedLocation (XP.UpdateCachedLocation xc k e.toXP) p.1 now).1 =
          some ⟨p.2.position, p.2.miss_count, now⟩) ∧
      (∀ (k2 : WString) (e2 : XP.CacheEntry),
        (XP.UpdateCachedLocation xc k2 e2).entries = put_key 100 k2 e2 xc.entries) ∧
      (∀ k2 : WString,
        (XP.GetCachedLocation xc k2 now).2.entries = touch_key k2 xc.entries)) := by
  constructor
  · obtain ⟨f1, f2⟩ := foldl_UpdateCachedLocation (first :: others) LocationCache.empty
      LocationCache_empty_consistent
    obtain ⟨a1, a2⟩ := foldl_put_key_101 first others hlen hnd
    obtain ⟨u1, u2⟩ := UpdateCachedLocation_spec c k e hc
    obtain ⟨q1, q2, q3, q4⟩ := put_key_full k e c.g_location_cache_lru hfull hc.2.1 hnew
    refine ⟨?_, ?_, ?_, ?_, ?_, ?_, ?_⟩
    · rw [(GetCachedLocation_spec _ first.1 now f1).1, f2]
      show Option.map _ (entry_of first.1 (List.foldl _ [] (first :: others))) = none
      rw [a1]; rfl
    · intro p hp
      rw [(GetCachedLocation_spec _ p.1 now f1).1, f2]
      show Option.map _ (entry_of p.1 (List.foldl _ [] (first :: others))) = _
      rw [a2 p hp]; rfl
    · rw [u1, q1]
    · intro last hlast
      rw [(GetCachedLocation_spec _ last.1 now u2).1, u1, q3 last hlast]; rfl
    · intro p hp
      rw [(GetCachedLocation_spec _ p.1 now u2).1, u1, q4 p hp]; rfl
    · intro k2 e2
      exact (UpdateCachedLocation_spec c k2 e2 hc).1
    · intro k2
      exact (GetCachedLocation_spec c k2 now hc).2.1
  · have hmapfst : ((first :: others).map fun p => (p.1, p.2.toXP)).map Prod.fst =
        (first :: others).map Prod.fst := by
      rw [List.map_map]; rfl
    obtain ⟨f1, f2⟩ := XP_foldl_UpdateCachedLocation
      ((first :: others).map fun p => (p.1, p.2.toXP)) XP.LocationCache.empty
      XP_LocationCache_empty_consistent
    obtain ⟨a1, a2⟩ := foldl_put_key_101 (first.1, first.2.toXP)
      (others.map fun p => (p.1, p.2.toXP)) (by rw [List.length_map, hlen])
      (by rw [← List.map_cons (fun p : WString × CacheEntry => (p.1, p.2.toXP)), hmapfst]
          exact hnd)
    obtain ⟨u1, u2⟩ := XP_UpdateCachedLocation_spec xc k e.toXP hxc
    obtain ⟨q1, q2, q3, q4⟩ := put_key_full k e.toXP xc.entries hxfull hxc.2.1 hxnew
    refine ⟨?_, ?_, ?_, ?_, ?_, ?_, ?_⟩
    · rw [(XP_GetCachedLocation_spec _ first.1 now f1).1, f2]
      show Option.map _ (entry_of first.1 (List.foldl _ []
        ((first.1, first.2.toXP) :: others.map fun p => (p.1, p.2.toXP)))) = none
      rw [a1]; rfl
    · intro p hp
      rw [(XP_GetCachedLocation_spec _ p.1 now f1).1, f2]
      show Option.map _ (entry_of p.1 (List.foldl _ []
        ((first.1, first.2.toXP) :: others.map fun p => (p.1, p.2.toXP)))) = _
      rw [a2 (p.1, p.2.toXP) (List.mem_map_of_mem _ hp)]; rfl
    · rw [u1, q1]
    · intro last hlast
      rw [(XP_GetCachedLocation_spec _ last.1 now u2).1, u1, q3 last hlast]; rfl
    · intro p hp
      rw [(XP_GetCachedLocation_spec _ p.1 now u2).1, u1, q4 p hp]; rfl
    · intro k2 e2
      exact (XP_UpdateCachedLocation_spec xc k2 e2 hxc).1
    · intro k2
      exact (XP_GetCachedLocation_spec xc k2 now hxc).2.1

theorem sample_keys_nodup (n : Nat) : (((List.range n).map sample_entry).map Prod.fst).Nodup := by
  rw [List.map_map]
  refine (List.nodup_range n).map ?_
  intro i j h
  have := congrArg List.length h
  simpa [sample_entry] using this

theorem sample_cache_consistent : sample_cache.Consistent :=
  (RebuildCacheIndex_consistent _ _ (by simp [MAX_CACHED_LOCATIONS]) (sample_keys_nodup 100)).1

theorem XP_sample_cache_consistent : XP.sample_cache.Consistent := by
  refine ⟨by simp [XP.sample_cache, MAX_CACHED_LOCATIONS], ?_, ?_, ?_, fun _ => rfl⟩
  · have := sample_keys_nodup 100
    simpa [XP.sample_cache, XP.LocationCache.entries, List.map_map, Function.comp_def] using this
  · simp only [XP.sample_cache, List.map_map, Function.comp_def]
    simpa using List.nodup_range 100
  · intro n hn
    simp only [XP.sample_cache, List.mem_map, List.mem_range] at hn
    obtain ⟨i, hi, rfl⟩ := hn
    exact hi

theorem sample_first_others_nodup :
    ((sample_entry 0 :: sample_others).map Prod.fst).Nodup := by
  have h := sample_keys_nodup 101
  have e : (List.range 101).map sample_entry = sample_entry 0 :: sample_others := by
    rw [List.range_succ_eq_map]
    simp [sample_others, List.map_map, Function.comp_def]
  rw [e] at h
  exact h

theorem sample_new_key :
    List.replicate 101 'a' ∉ ((List.range 100).map sample_entry).map Prod.fst := by
  simp only [List.map_map, List.mem_map, List.mem_range, Function.comp_apply, sample_entry,
    not_exists, not_and]
  intro i hi h
  have := congrArg List.length h
  simp at this
  omega

/-- Witness of C19: the sample entries number 0 to 100 are inserted into the empty cache,
and a new key is inserted into the full sample cache. -/
theorem LocationCache_evicts_least_recent_witness :
    (GetCachedLocation
        ((sample_entry 0 :: sample_others).foldl (fun c p => UpdateCachedLocation c p.1 p.2)
          LocationCache.empty) (sample_entry 0).1 0).1 = none ∧
      (UpdateCachedLocation sample_cache (List.replicate 101 'a')
          ⟨⟨7, 8⟩, 0, 0⟩).g_location_cache_lru =
        (List.replicate 101 'a', ⟨⟨7, 8⟩, 0, 0⟩) ::
          sample_cache.g_location_cache_lru.dropLast ∧
      (XP.UpdateCachedLocation XP.sample_cache (List.replicate 101 'a')
          (CacheEntry.toXP ⟨⟨7, 8⟩, 0, 0⟩)).entries =
        (List.replicate 101 'a', CacheEntry.toXP ⟨⟨7, 8⟩, 0, 0⟩) ::
          XP.sample_cache.entries.dropLast :=
  match LocationCache_evicts_least_recent (sample_entry 0) sample_others sample_cache
    XP.sample_cache (List.replicate 101 'a') ⟨⟨7, 8⟩, 0, 0⟩ 0
    (by simp [sample_others]) sample_first_others_nodup sample_cache_consistent
    (by simp [sample_cache, _RebuildCacheIndex])
    sample_new_key XP_sample_cache_consistent
    (by simp [XP.sample_cache, XP.LocationCache.entries])
    (by
      have := sample_new_key
      simpa [XP.sample_cache, XP.LocationCache.entries, List.map_map, Function.comp_def]
        using this) with
  | ⟨⟨h1, _, h3, _⟩, ⟨_, _, x3, _⟩⟩ => ⟨h1, h3, x3⟩

/-! ### The unified search -/

/-- In first-match mode `SearchForBitmap` returns at most one match. -/
theorem SearchForBitmap_first_length (env : SearchEnv) (Source Target : PixelBuffer)
    (sl st tol : Int) (te : Bool) (scale : Rat) (file : String) :
    (SearchForBitmap env Source Target sl st tol te false scale file).length ≤ 1 := by
  rw [SearchForBitmap_first_eq, scan_rows_first, List.length_take]
  exact Nat.min_le_left _ _

/-- With a sort routine that meets its contract, the all-matches search is the scan over
all rows, on the threaded path as well. -/
theorem SearchForBitmap_all_eq_rows (env : SearchEnv) (Source Target : PixelBuffer)
    (sl st tol : Int) (te : Bool) (scale : Rat) (file : String) (hsort : env.SortContract) :
    SearchForBitmap env Source Target sl st tol te true scale file =
      (thread_rows (CheckMatch env Source Target te tol)
        (fun x y : Int => MatchResult.mk (x + sl) (y + st) Target.width Target.height scale file)
        (Source.width - Target.width + 1).toNat
        (Source.height - Target.height + 1).toNat 0).1 := by
  obtain ⟨hperm, hsorted⟩ := hsort
  by_cases hsingle : ¬ (Source.height > 500 ∧ search_num_threads env Source Target > 1)
  · exact SearchForBitmap_all_eq env Source Target sl st tol te scale file hsingle
  · rw [not_not] at hsingle
    obtain ⟨hH, hthreads⟩ := hsingle
    by_cases hfit : (decide (Target.width > Source.width) ||
        decide (Target.height > Source.height)) = true
    · unfold SearchForBitmap SearchForBitmap_traced
      rw [if_pos hfit]
      simp only [Bool.or_eq_true, decide_eq_true_eq] at hfit
      rcases hfit with h | h
      · have : (Source.width - Target.width + 1).toNat = 0 := by omega
        rw [this, thread_rows_no_cols]
      · have : (Source.height - Target.height + 1).toNat = 0 := by omega
        rw [this]
        rfl
    · have hn : 2 ≤ env.hardware_concurrency ∧
          50 ≤ (Source.height - Target.height + 1) / (env.hardware_concurrency : Int) := by
        unfold search_num_threads at hthreads
        simp only at hthreads
        split_ifs at hthreads with h50
        · omega
        · have h2 : 2 ≤ env.hardware_concurrency := by omega
          have hmax : max 1 env.hardware_concurrency = env.hardware_concurrency := by omega
          rw [hmax] at h50
          exact ⟨h2, by omega⟩
      obtain ⟨hn, hc⟩ := hn
      have hmax : max 1 env.hardware_concurrency = env.hardware_concurrency := by omega
      unfold SearchForBitmap SearchForBitmap_traced
      rw [if_neg hfit, if_pos (by simpa using ⟨hH, hthreads⟩)]
      simp only [hmax]
      rw [threaded_flatten_eq _ _ Source Target _ env.hardware_concurrency hn hc]
      obtain ⟨hmem, hstrict, -⟩ := scan_all_spec
        (CheckMatch env Source Target te tol)
        (fun x y : Int => MatchResult.mk (x + sl) (y + st) Target.width
          Target.height scale file)
        sl st (fun _ _ => rfl) (fun _ _ => rfl)
        (Source.width - Target.width) (Source.height - Target.height)
      refine List.Perm.eq_of_sorted ?_ (hsorted _) ?_ (hperm _)
      · intro a b ha hb hab hba
        have ha' := (hperm _).mem_iff.1 ha
        obtain ⟨x1, y1, -, -, -, -, -, rfl⟩ := (hmem a).1 ha'
        obtain ⟨x2, y2, -, -, -, -, -, rfl⟩ := (hmem b).1 hb
        have h1 := (CompareMatchResults_iff _ _).not.1 (by simpa using hab)
        have h2 := (CompareMatchResults_iff _ _).not.1 (by simpa using hba)
        simp only at h1 h2
        have hx : x1 = x2 := by omega
        have hy : y1 = y2 := by omega
        rw [hx, hy]
      · refine hstrict.imp ?_
        intro a b hab
        rw [← Bool.not_eq_true, CompareMatchResults_iff]
        omega

/-- The matches that `SearchForBitmap` returns are in strict order of row, then column,
and carry the size of the target, the scale and the file passed in. -/
theorem SearchForBitmap_sorted_sized (env : SearchEnv) (Source Target : PixelBuffer)
    (sl st tol : Int) (te find_all : Bool) (scale : Rat) (file : String)
    (hsort : env.SortContract) :
    (SearchForBitmap env Source Target sl st tol te find_all scale file).Pairwise
        (fun a b => a.y < b.y ∨ (a.y = b.y ∧ a.x < b.x)) ∧
      ∀ m ∈ SearchForBitmap env Source Target sl st tol te find_all scale file,
        m.w = Target.width ∧ m.h = Target.height ∧ m.scale = scale ∧ m.source_file = file := by
  have hrows := thread_rows_sorted (CheckMatch env Source Target te tol)
    (fun x y : Int => MatchResult.mk (x + sl) (y + st) Target.width Target.height scale file)
    sl st (fun _ _ => rfl) (fun _ _ => rfl) (Source.width - Target.width + 1).toNat
    (Source.height - Target.height + 1).toNat 0
  have hmem : ∀ m ∈ (thread_rows (CheckMatch env Source Target te tol)
      (fun x y : Int => MatchResult.mk (x + sl) (y + st) Target.width Target.height scale file)
      (Source.width - Target.width + 1).toNat (Source.height - Target.height + 1).toNat 0).1,
      m.w = Target.width ∧ m.h = Target.height ∧ m.scale = scale ∧ m.source_file = file := by
    intro m hm
    obtain ⟨j, -, k, -, -, rfl⟩ := (thread_rows_mem _ _ _ _ _ m).1 hm
    exact ⟨rfl, rfl, rfl, rfl⟩
  cases find_all with
  | true =>
    rw [SearchForBitmap_all_eq_rows env Source Target sl st tol te scale file hsort]
    exact ⟨hrows, hmem⟩
  | false =>
    rw [SearchForBitmap_first_eq, scan_rows_first]
    exact ⟨hrows.sublist (List.take_sublist _ _),
      fun m hm => hmem m ((List.take_sublist _ _).subset hm)⟩

/-- The block that confirms a cached position either reports nothing and counts no hit, or
reports one match of the size of the target at a cached position that lies within the
capture bounds, and counts one hit. It makes no call of `SearchForBitmap`. -/
theorem cache_confirm_cases (host : Host) (params : SearchParams) (ctx : SearchContext)
    (Target : PixelBuffer) (source_file cache_key : WString) (st : SearchState) :
    ((cache_confirm host params ctx Target source_file cache_key st).2.1 = false ∧
        (cache_confirm host params ctx Target source_file cache_key st).1 = [] ∧
        (cache_confirm host params ctx Target source_file cache_key st).2.2.cache_hits =
          st.cache_hits) ∨
      ((cache_confirm host params ctx Target source_file cache_key st).2.1 = true ∧
        (∃ x y : Int,
          (cache_confirm host params ctx Target source_file cache_key st).1 =
            [⟨x, y, Target.width, Target.height, 1, String.mk source_file⟩] ∧
          x ≥ ctx.capture_left ∧ x + Target.width ≤ ctx.capture_right) ∧
        (cache_confirm host params ctx Target source_file cache_key st).2.2.cache_hits =
          st.cache_hits + 1 ∧
        params.use_cache ≠ 0) := by
  unfold cache_confirm
  split_ifs with h1
  · simp only []
    cases hget : (GetCachedLocation st.world.cache cache_key host.now).1 with
    | none => left; exact ⟨rfl, rfl, rfl⟩
    | some cached_entry =>
      simp only []
      split_ifs with h2 h3 h4
      · right
        exact ⟨rfl, ⟨_, _, rfl, h2.1, h2.2.2.1⟩, rfl, h1.2⟩
      · left; exact ⟨rfl, rfl, rfl⟩
      · left; exact ⟨rfl, rfl, rfl⟩
      · left; exact ⟨rfl, rfl, rfl⟩
      · left; exact ⟨rfl, rfl, rfl⟩
  · left; exact ⟨rfl, rfl, rfl⟩

theorem cache_confirm_scans (host : Host) (params : SearchParams) (ctx : SearchContext)
    (Target : PixelBuffer) (source_file cache_key : WString) (st : SearchState) :
    (cache_confirm host params ctx Target source_file cache_key st).2.2.full_scans =
      st.full_scans := by
  unfold cache_confirm
  split_ifs with h1
  · simp only []
    cases hget : (GetCachedLocation st.world.cache cache_key host.now).1 with
    | none => rfl
    | some cached_entry =>
      simp only []
      split_ifs <;> rfl
  · rfl

/-- The block that runs the full scan appends the result of `SearchForBitmap` when no
cached position was confirmed or all matches are asked for, logs that call, and leaves the
hit counter as it is. -/
theorem full_search_spec (host : Host) (env : SearchEnv) (params : SearchParams)
    (ctx : SearchContext) (Target : PixelBuffer) (source_file cache_key : WString)
    (current : List MatchResult) (found : Bool) (st : SearchState) :
    (full_search host env params ctx Target source_file cache_key current found st).1 =
        current ++
          (if (!found || ctx.find_all) = true then
            SearchForBitmap env ctx.Source Target ctx.search_offset_x ctx.search_offset_y
              ctx.tolerance Target.has_alpha ctx.find_all 1 (String.mk source_file)
          else []) ∧
      (full_search host env params ctx Target source_file cache_key current found
          st).2.cache_hits = st.cache_hits ∧
      (full_search host env params ctx Target source_file cache_key current found
          st).2.cache_misses = st.cache_misses ∧
      (full_search host env params ctx Target source_file cache_key current found
          st).2.full_scans =
        st.full_scans ++
          (if (!found || ctx.find_all) = true then [ScanCall.mk source_file 1] else []) := by
  unfold full_search
  by_cases h1 : (!found || ctx.find_all) = true
  · simp only [if_pos h1]
    split
    · rename_i hm
      simp [hm]
    · rename_i m0 rest hm
      split_ifs <;> simp [hm]
  · simp only [if_neg h1]
    simp

/-- The unscaled search of one target: what it reports is the confirmed cached position,
if any, followed by the result of the full scan, which runs when no cached position was
confirmed or all matches are asked for. -/
theorem search_unscaled_spec (host : Host) (env : SearchEnv) (params : SearchParams)
    (ctx : SearchContext) (Target : PixelBuffer) (source_file : WString) (st : SearchState) :
    ∃ (found : Bool) (cached : List MatchResult),
      (search_unscaled host env params ctx Target source_file st).1 =
        cached ++
          (if (!found || ctx.find_all) = true then
            SearchForBitmap env ctx.Source Target ctx.search_offset_x ctx.search_offset_y
              ctx.tolerance Target.has_alpha ctx.find_all 1 (String.mk source_file)
          else []) ∧
      (search_unscaled host env params ctx Target source_file st).2.full_scans =
        st.full_scans ++
          (if (!found || ctx.find_all) = true then [ScanCall.mk source_file 1] else []) ∧
      (found = false →
        cached = [] ∧
        (search_unscaled host env params ctx Target source_file st).2.cache_hits =
          st.cache_hits) ∧
      (found = true →
        (∃ x y : Int,
          cached = [⟨x, y, Target.width, Target.height, 1, String.mk source_file⟩] ∧
          x ≥ ctx.capture_left ∧ x + Target.width ≤ ctx.capture_right) ∧
        (search_unscaled host env params ctx Target source_file st).2.cache_hits =
          st.cache_hits + 1 ∧
        params.use_cache ≠ 0) := by
  unfold search_unscaled
  simp only []
  generalize hst1 : (⟨(cache_preload host params ctx Target source_file st.world).2,
    st.cache_hits, st.cache_misses, st.backend_used, st.full_scans⟩ : SearchState) = st1
  have hh : st1.cache_hits = st.cache_hits := by rw [← hst1]
  have hs : st1.full_scans = st.full_scans := by rw [← hst1]
  generalize (cache_preload host params ctx Target source_file st.world).1 = key
  obtain ⟨f1, f2, f3, f4⟩ := full_search_spec host env params ctx Target source_file key
    (cache_confirm host params ctx Target source_file key st1).1
    (cache_confirm host params ctx Target source_file key st1).2.1
    (cache_confirm host params ctx Target source_file key st1).2.2
  have hsc := cache_confirm_scans host params ctx Target source_file key st1
  refine ⟨(cache_confirm host params ctx Target source_file key st1).2.1,
    (cache_confirm host params ctx Target source_file key st1).1, f1, ?_, ?_, ?_⟩
  · rw [f4, hsc, hs]
  · intro hfound
    rcases cache_confirm_cases host params ctx Target source_file key st1 with h | h
    · exact ⟨h.2.1, by rw [f2, h.2.2, hh]⟩
    · rw [hfound] at h; exact absurd h.1 (by decide)
  · intro hfound
    rcases cache_confirm_cases host params ctx Target source_file key st1 with h | h
    · rw [hfound] at h; exact absurd h.1 (by decide)
    · exact ⟨h.2.1, by rw [f2, h.2.2.1, hh], h.2.2.2⟩

/-- In first-match mode the unscaled search of one target reports at most one match. -/
theorem search_unscaled_first_length (host : Host) (env : SearchEnv) (params : SearchParams)
    (ctx : SearchContext) (Target : PixelBuffer) (source_file : WString) (st : SearchState)
    (hfirst : ctx.find_all = false) :
    (search_unscaled host env params ctx Target source_file st).1.length ≤ 1 := by
  obtain ⟨found, cached, h1, -, h3, h4⟩ :=
    search_unscaled_spec host env params ctx Target source_file st
  rw [h1, hfirst]
  cases found with
  | false =>
    rw [(h3 rfl).1]
    simpa using SearchForBitmap_first_length env ctx.Source Target ctx.search_offset_x
      ctx.search_offset_y ctx.tolerance Target.has_alpha 1 (String.mk source_file)
  | true =>
    obtain ⟨⟨x, y, hc, -⟩, -⟩ := h4 rfl
    rw [hc]
    simp

/-- The matches that the unscaled search of a valid target reports have the size of the
target. -/
theorem search_unscaled_sized (host : Host) (env : SearchEnv) (params : SearchParams)
    (ctx : SearchContext) (Target : PixelBuffer) (source_file : WString) (st : SearchState)
    (hsort : env.SortContract) :
    ∀ m ∈ (search_unscaled host env params ctx Target source_file st).1,
      m.w = Target.width ∧ m.h = Target.height := by
  obtain ⟨found, cached, h1, -, h3, h4⟩ :=
    search_unscaled_spec host env params ctx Target source_file st
  intro m hm
  rw [h1, List.mem_append] at hm
  rcases hm with hm | hm
  · cases found with
    | false => rw [(h3 rfl).1] at hm; exact absurd hm (List.not_mem_nil _)
    | true =>
      obtain ⟨⟨x, y, hc, -⟩, -⟩ := h4 rfl
      rw [hc, List.mem_singleton] at hm
      rw [hm]
      exact ⟨rfl, rfl⟩
  · split_ifs at hm
    · obtain ⟨hw, hh, -⟩ := (SearchForBitmap_sorted_sized env ctx.Source Target
        ctx.search_offset_x ctx.search_offset_y ctx.tolerance Target.has_alpha ctx.find_all 1
        (String.mk source_file) hsort).2 m hm
      exact ⟨hw, hh⟩
    · exact absurd hm (List.not_mem_nil _)

theorem PixelBuffer_IsValid_pos (b : PixelBuffer) (h : b.IsValid = true) :
    0 < b.width ∧ 0 < b.height := by
  unfold PixelBuffer.IsValid at h
  simp only [Bool.and_eq_true, decide_eq_true_eq] at h
  exact ⟨h.1.1, h.1.2⟩

/-- In first-match mode the loop over the scales reports at most one match. -/
theorem scale_loop_first_length (host : Host) (env : SearchEnv) (ctx : SearchContext)
    (Target : PixelBuffer) (source_file : WString) (scales : List Rat) (st : SearchState)
    (hfirst : ctx.find_all = false) :
    (scale_loop host env ctx Target source_file scales st).1.length ≤ 1 := by
  induction scales generalizing st with
  | nil => simp [scale_loop]
  | cons scale rest ih =>
    unfold scale_loop
    simp only []
    by_cases h1 : scaled_size Target.width scale ≤ 0 ∨ scaled_size Target.height scale ≤ 0 ∨
        scaled_size Target.width scale > ctx.Source.width ∨
        scaled_size Target.height scale > ctx.Source.height
    · rw [if_pos h1]; exact ih st
    · rw [if_neg h1]
      cases hsc : host.ScaleBitmap_GDI Target (scaled_size Target.width scale)
          (scaled_size Target.height scale) with
      | none => exact ih st
      | some scaled =>
        simp only []
        by_cases h2 : scaled.IsValid = true
        · rw [if_pos h2]
          by_cases h3 : SearchForBitmap env ctx.Source scaled ctx.search_offset_x
              ctx.search_offset_y ctx.tolerance Target.has_alpha ctx.find_all scale
              (String.mk source_file) ≠ []
          · rw [if_pos h3, hfirst]
            simp only [Bool.not_false, if_true]
            exact SearchForBitmap_first_length _ _ _ _ _ _ _ _ _
          · rw [if_neg h3]; exact ih _
        · rw [if_neg h2]; exact ih st

/-- The matches that the loop over the scales reports have positive width and height. -/
theorem scale_loop_sized (host : Host) (env : SearchEnv) (ctx : SearchContext)
    (Target : PixelBuffer) (source_file : WString) (scales : List Rat) (st : SearchState)
    (hsort : env.SortContract) :
    ∀ m ∈ (scale_loop host env ctx Target source_file scales st).1, 0 < m.w ∧ 0 < m.h := by
  induction scales generalizing st with
  | nil => intro m hm; simp [scale_loop] at hm
  | cons scale rest ih =>
    unfold scale_loop
    simp only []
    by_cases h1 : scaled_size Target.width scale ≤ 0 ∨ scaled_size Target.height scale ≤ 0 ∨
        scaled_size Target.width scale > ctx.Source.width ∨
        scaled_size Target.height scale > ctx.Source.height
    · rw [if_pos h1]; exact ih st
    · rw [if_neg h1]
      cases hsc : host.ScaleBitmap_GDI Target (scaled_size Target.width scale)
          (scaled_size Target.height scale) with
      | none => exact ih st
      | some scaled =>
        simp only []
        by_cases h2 : scaled.IsValid = true
        · rw [if_pos h2]
          have hsz : ∀ m ∈ SearchForBitmap env ctx.Source scaled ctx.search_offset_x
              ctx.search_offset_y ctx.tolerance Target.has_alpha ctx.find_all scale
              (String.mk source_file), 0 < m.w ∧ 0 < m.h := by
            intro m hm
            obtain ⟨hw, hh, -⟩ := (SearchForBitmap_sorted_sized env ctx.Source scaled
              ctx.search_offset_x ctx.search_offset_y ctx.tolerance Target.has_alpha
              ctx.find_all scale (String.mk source_file) hsort).2 m hm
            have := PixelBuffer_IsValid_pos scaled h2
            rw [hw, hh]; exact this
          by_cases h3 : SearchForBitmap env ctx.Source scaled ctx.search_offset_x
              ctx.search_offset_y ctx.tolerance Target.has_alpha ctx.find_all scale
              (String.mk source_file) ≠ []
          · rw [if_pos h3]
            by_cases h4 : (!ctx.find_all) = true
            · rw [if_pos h4]; exact hsz
            · rw [if_neg h4]
              intro m hm
              rw [List.mem_append] at hm
              rcases hm with hm | hm
              · exact hsz m hm
              · exact ih _ m hm
          · rw [if_neg h3]; exact ih _
        · rw [if_neg h2]; exact ih st

/-- The matches that the task of one scale reports have positive width and height. -/
theorem scale_task_sized (host : Host) (env : SearchEnv) (ctx : SearchContext)
    (Target : PixelBuffer) (source_file : WString) (scale : Rat) (hsort : env.SortContract) :
    ∀ m ∈ (scale_task host env ctx Target source_file scale).1, 0 < m.w ∧ 0 < m.h := by
  unfold scale_task
  simp only []
  by_cases h1 : scaled_size Target.width scale ≤ 0 ∨ scaled_size Target.height scale ≤ 0 ∨
      scaled_size Target.width scale > ctx.Source.width ∨
      scaled_size Target.height scale > ctx.Source.height
  · rw [if_pos h1]; intro m hm; exact absurd hm (List.not_mem_nil _)
  · rw [if_neg h1]
    cases hsc : host.ScaleBitmap_GDI Target (scaled_size Target.width scale)
        (scaled_size Target.height scale) with
    | none => intro m hm; exact absurd hm (List.not_mem_nil _)
    | some scaled =>
      simp only []
      by_cases h2 : scaled.IsValid = true
      · rw [if_pos h2]
        intro m hm
        obtain ⟨hw, hh, -⟩ := (SearchForBitmap_sorted_sized env ctx.Source scaled
          ctx.search_offset_x ctx.search_offset_y ctx.tolerance Target.has_alpha
          true scale (String.mk source_file) hsort).2 m hm
        have := PixelBuffer_IsValid_pos scaled h2
        rw [hw, hh]; exact this
      · rw [if_neg h2]; intro m hm; exact absurd hm (List.not_mem_nil _)

theorem search_target_first_length (host : Host) (env : SearchEnv) (fuel : Nat)
    (params : SearchParams) (ctx : SearchContext) (Target : PixelBuffer)
    (source_file : WString) (st : SearchState) (r : List MatchResult × SearchState)
    (hfirst : ctx.find_all = false)
    (h : search_target host env fuel params ctx Target source_file st = some r) :
    r.1.length ≤ 1 := by
  unfold search_target at h
  by_cases hs : ctx.skip_scaling = true
  · rw [if_pos hs] at h
    rw [← Option.some.inj h]
    exact search_unscaled_first_length host env params ctx Target source_file st hfirst
  · rw [if_neg hs] at h
    cases hb : build_scales ctx.max_scale ctx.scale_step fuel ctx.min_scale with
    | none => rw [hb] at h; exact absurd h (by simp)
    | some scales =>
      rw [hb] at h
      simp only [] at h
      rw [if_neg (by rw [hfirst]; simp)] at h
      rw [← Option.some.inj h]
      exact scale_loop_first_length host env ctx Target source_file scales st hfirst

theorem search_target_sized (host : Host) (env : SearchEnv) (fuel : Nat)
    (params : SearchParams) (ctx : SearchContext) (Target : PixelBuffer)
    (source_file : WString) (st : SearchState) (r : List MatchResult × SearchState)
    (hsort : env.SortContract) (hT : Target.IsValid = true)
    (h : search_target host env fuel params ctx Target source_file st = some r) :
    ∀ m ∈ r.1, 0 < m.w ∧ 0 < m.h := by
  unfold search_target at h
  by_cases hs : ctx.skip_scaling = true
  · rw [if_pos hs] at h
    rw [← Option.some.inj h]
    intro m hm
    obtain ⟨hw, hh⟩ := search_unscaled_sized host env params ctx Target source_file st hsort m hm
    have := PixelBuffer_IsValid_pos Target hT
    rw [hw, hh]; exact this
  · rw [if_neg hs] at h
    cases hb : build_scales ctx.max_scale ctx.scale_step fuel ctx.min_scale with
    | none => rw [hb] at h; exact absurd h (by simp)
    | some scales =>
      rw [hb] at h
      simp only [] at h
      by_cases hpar : ctx.find_all = true ∧ scales.length > 1
      · rw [if_pos hpar] at h
        rw [← Option.some.inj h]
        intro m hm
        rw [List.mem_flatten] at hm
        obtain ⟨l, hl, hml⟩ := hm
        rw [List.map_map, List.mem_map] at hl
        obtain ⟨scale, -, rfl⟩ := hl
        exact scale_task_sized host env ctx Target source_file scale hsort m hml
      · rw [if_neg hpar] at h
        rw [← Option.some.inj h]
        exact scale_loop_sized host env ctx Target source_file scales st hsort

/-- In first-match mode the loop over the targets reports at most one match. -/
theorem target_loop_first_length (host : Host) (env : SearchEnv) (fuel : Nat)
    (params : SearchParams) (ctx : SearchContext) (target_files : List WString)
    (futures : List (Option PixelBuffer)) (i : Nat) (st : SearchState)
    (r : List MatchResult × SearchState) (hfirst : ctx.find_all = false)
    (h : target_loop host env fuel params ctx target_files futures i st = some r) :
    r.1.length ≤ 1 := by
  induction futures generalizing i st with
  | nil =>
    simp only [target_loop, Option.some.injEq] at h
    rw [← h]; simp
  | cons Target_opt rest ih =>
    unfold target_loop at h
    cases Target_opt with
    | none => exact ih _ _ h
    | some Target =>
      simp only [] at h
      by_cases hv : (!Target.IsValid) = true
      · rw [if_pos hv] at h; exact ih _ _ h
      · rw [if_neg hv] at h
        cases hs : search_target host env fuel params ctx Target
            (if i < target_files.length then target_files.getD i [] else []) st with
        | none => rw [hs] at h; exact absurd h (by simp)
        | some r1 =>
          rw [hs] at h
          simp only [] at h
          by_cases hne : r1.1 ≠ []
          · rw [if_pos hne, if_pos (by rw [hfirst]; rfl)] at h
            rw [← Option.some.inj h]
            exact search_target_first_length host env fuel params ctx Target _ st r1 hfirst hs
          · rw [if_neg hne] at h; exact ih _ _ h

/-- The matches that the loop over the targets reports have positive width and height. -/
theorem target_loop_sized (host : Host) (env : SearchEnv) (fuel : Nat)
    (params : SearchParams) (ctx : SearchContext) (target_files : List WString)
    (futures : List (Option PixelBuffer)) (i : Nat) (st : SearchState)
    (r : List MatchResult × SearchState) (hsort : env.SortContract)
    (h : target_loop host env fuel params ctx target_files futures i st = some r) :
    ∀ m ∈ r.1, 0 < m.w ∧ 0 < m.h := by
  induction futures generalizing i st r with
  | nil =>
    simp only [target_loop, Option.some.injEq] at h
    rw [← h]; intro m hm; exact absurd hm (List.not_mem_nil _)
  | cons Target_opt rest ih =>
    unfold target_loop at h
    cases Target_opt with
    | none => exact ih _ _ _ h
    | some Target =>
      simp only [] at h
      by_cases hv : (!Target.IsValid) = true
      · rw [if_pos hv] at h; exact ih _ _ _ h
      · rw [if_neg hv] at h
        have hT : Target.IsValid = true := by simpa using hv
        cases hs : search_target host env fuel params ctx Target
            (if i < target_files.length then target_files.getD i [] else []) st with
        | none => rw [hs] at h; exact absurd h (by simp)
        | some r1 =>
          rw [hs] at h
          simp only [] at h
          have h1 := search_target_sized host env fuel params ctx Target _ st r1 hsort hT hs
          by_cases hne : r1.1 ≠ []
          · rw [if_pos hne] at h
            by_cases hfa : (!ctx.find_all) = true
            · rw [if_pos hfa] at h
              rw [← Option.some.inj h]
              exact h1
            · rw [if_neg hfa] at h
              cases hrest : target_loop host env fuel params ctx target_files rest (i + 1)
                  r1.2 with
              | none => rw [hrest] at h; exact absurd h (by simp)
              | some r2 =>
                rw [hrest] at h
                simp only [Option.map_some', Option.some.injEq] at h
                rw [← h]
                intro m hm
                rw [List.mem_append] at hm
                rcases hm with hm | hm
                · exact h1 m hm
                · exact ih _ _ _ hrest m hm
          · rw [if_neg hne] at h; exact ih _ _ _ h

theorem acquire_source_error (host : Host) (params : SearchParams) (text : WString)
    (h : acquire_source host params = Except.error text) :
    ∃ (code : ErrorCode) (debug : WString), text = error_result params code debug := by
  unfold acquire_source at h
  split at h
  · simp only [] at h
    split_ifs at h <;> (cases h; exact ⟨_, _, rfl⟩)
  · split at h <;> (cases h <;> exact ⟨_, _, rfl⟩)
  · simp only [] at h
    split_ifs at h <;> (try split at h) <;> (try split_ifs at h) <;>
      (cases h <;> exact ⟨_, _, rfl⟩)

/-- The two ways in which `UnifiedImageSearch` ends: an early return with an error text,
no match and the state untouched, or the return after the loop over the targets, with the
payload of the matches that the loop has assembled, followed by the debug text when
`return_debug` is positive. -/
theorem UnifiedImageSearch_run_cases (host : Host) (env : SearchEnv) (fuel : Nat)
    (params : SearchParams) (w : World) (o : SearchOutcome)
    (h : UnifiedImageSearch_run host env fuel params w = some o) :
    (o.all_matches = [] ∧ o.state.cache_hits = 0 ∧ o.state.full_scans = [] ∧
        ∃ (code : ErrorCode) (debug : WString), o.result = error_result params code debug) ∨
      ∃ (info : SourceInfo) (Source : PixelBuffer),
        acquire_source host params = Except.ok info ∧ info.Source_opt = some Source ∧
        Source.IsValid = true ∧ target_files_of params ≠ [] ∧
        target_loop host env fuel params (search_context params info Source)
          (target_files_of params) (load_futures host params (target_files_of params)) 0
          ⟨w, 0, 0, [], []⟩ = some (o.all_matches, o.state) ∧
        o.result =
          result_payload o.all_matches params.max_results params.center_pos ++
            (if params.return_debug > 0 then
              debug_info host env params (search_context params info Source)
                (target_files_of params) o.state
            else []) := by
  unfold UnifiedImageSearch_run at h
  simp only [] at h
  cases hacq : acquire_source host params with
  | error text =>
    rw [hacq] at h
    simp only [Option.some.injEq] at h
    left
    rw [← h]
    exact ⟨rfl, rfl, rfl, acquire_source_error host params text hacq⟩
  | ok info =>
    rw [hacq] at h
    simp only [] at h
    cases hsrc : info.Source_opt.filter PixelBuffer.IsValid with
    | none =>
      rw [hsrc] at h
      simp only [Option.some.injEq] at h
      left
      rw [← h]
      exact ⟨rfl, rfl, rfl, _, _, rfl⟩
    | some Source =>
      rw [hsrc] at h
      simp only [] at h
      by_cases htf : target_files_of params = []
      · rw [if_pos htf] at h
        simp only [Option.some.injEq] at h
        left
        rw [← h]
        exact ⟨rfl, rfl, rfl, _, _, rfl⟩
      · rw [if_neg htf] at h
        right
        cases hloop : target_loop host env fuel params (search_context params info Source)
            (target_files_of params) (load_futures host params (target_files_of params)) 0
            ⟨w, 0, 0, [], []⟩ with
        | none => rw [hloop] at h; exact absurd h (by simp)
        | some r =>
          rw [hloop] at h
          simp only [Option.some.injEq] at h
          obtain ⟨hS1, hS2⟩ : info.Source_opt = some Source ∧ Source.IsValid = true := by
            cases hso : info.Source_opt with
            | none => rw [hso] at hsrc; simp at hsrc
            | some S =>
              rw [hso] at hsrc
              simp only [Option.filter] at hsrc
              split_ifs at hsrc with hv
              · simp only [Option.some.injEq] at hsrc
                subst hsrc
                exact ⟨rfl, hv⟩
          refine ⟨info, Source, rfl, hS1, hS2, htf, ?_, ?_⟩
          · rw [← h]
            exact hloop
          · rw [← h]
            simp only []
            split_ifs
            · rfl
            · simp

/-- With the scale range 1.0 to 1.0 the search takes the unscaled branch. -/
theorem search_context_unit_scale (params : SearchParams) (info : SourceInfo)
    (Source : PixelBuffer) (hmin : params.min_scale = 1) (hmax : params.max_scale = 1) :
    (search_context params info Source).skip_scaling = true := by
  simp only [search_context, hmin, hmax]
  norm_num [clampf]

theorem sample_context (info : SourceInfo) (Source : PixelBuffer) :
    search_context sample_params info Source =
      ⟨Source, info.Source_source, info.search_offset_x, info.search_offset_y,
        info.capture_left, info.capture_top, info.capture_right, info.capture_bottom,
        info.capture_width, info.capture_height, 0, 1, 1, 1 / 10, true, true⟩ := by
  simp only [search_context, sample_params]
  norm_num [clampf, clamp, std_round]

/-- C14. The payload that `UnifiedImageSearch` writes for the assembled matches is the
payload text of the records it emits (the values written for the first `match_count`
matches): the count in braces, then, in square brackets, the records, each `x|y|w|h` in
decimal, joined by commas. The number in braces is the number of records, it is positive
when there is a match, and reading the payload gives back that number and the records in
order. Without a match the payload is `{0}[]`. Every call that gets past the checks of its
arguments returns this payload, followed by the debug text only when `return_debug` is
positive. -/
theorem UnifiedImageSearch_payload_format (all_matches : List MatchResult)
    (max_results center_pos : Int) :
    result_payload all_matches max_results center_pos =
        payload_text ((all_matches.take (match_count all_matches max_results)).map
          (match_values center_pos)) ∧
      ((all_matches.take (match_count all_matches max_results)).map
          (match_values center_pos)).length = match_count all_matches max_results ∧
      (all_matches ≠ [] → 0 < match_count all_matches max_results) ∧
      read_payload (result_payload all_matches max_results center_pos) =
        some ((match_count all_matches max_results : Int),
          (all_matches.take (match_count all_matches max_results)).map
            (match_values center_pos)) ∧
      (all_matches = [] →
        result_payload all_matches max_results center_pos = "\x7b0\x7d[]".toList) ∧
      ∀ (host : Host) (env : SearchEnv) (fuel : Nat) (params : SearchParams) (w : World)
        (o : SearchOutcome), UnifiedImageSearch_run host env fuel params w = some o →
        (∃ (code : ErrorCode) (debug : WString), o.result = error_result params code debug) ∨
        ∃ dbg : WString,
          o.result =
            result_payload o.all_matches params.max_results params.center_pos ++ dbg ∧
          (params.return_debug ≤ 0 → dbg = []) := by
  have hlen : ((all_matches.take (match_count all_matches max_results)).map
      (match_values center_pos)).length = match_count all_matches max_results := by
    rw [List.length_map, List.length_take]
    exact Nat.min_eq_left (match_count_le _ _)
  refine ⟨result_payload_eq _ _ _, hlen, ?_, ?_, ?_, ?_⟩
  · intro hne
    have := (match_count_eq_zero all_matches max_results).not.2 hne
    omega
  · rw [result_payload_eq, read_payload_text, hlen]
  · intro hnil
    have h0 := (match_count_eq_zero all_matches max_results).2 hnil
    unfold result_payload
    simp only [h0, lt_irrefl, if_false]
  · intro host env fuel params w o h
    rcases UnifiedImageSearch_run_cases host env fuel params w o h with h1 | h1
    · left; exact h1.2.2.2
    · right
      obtain ⟨info, Source, -, -, -, -, -, hres⟩ := h1
      refine ⟨_, hres, ?_⟩
      intro hd
      rw [if_neg (by omega)]

/-- Witness of C14: the sample call returns the payload of two records, and reading it
gives the two records back. -/
theorem UnifiedImageSearch_payload_format_witness :
    ∃ o : SearchOutcome,
      UnifiedImageSearch_run sample_host sample_env 0 sample_params sample_world = some o ∧
      o.result = "\x7b2\x7d[1|0|1|1,0|0|1|1]".toList ∧
      read_payload o.result = some (2, [(1, 0, 1, 1), (0, 0, 1, 1)]) ∧
      ((∃ (code : ErrorCode) (debug : WString),
          o.result = error_result sample_params code debug) ∨
        ∃ dbg : WString,
          o.result =
            result_payload o.all_matches sample_params.max_results sample_params.center_pos
              ++ dbg ∧
          (sample_params.return_debug ≤ 0 → dbg = [])) := by
  have hres : (UnifiedImageSearch_run sample_host sample_env 0 sample_params
      sample_world).map SearchOutcome.result = some "\x7b2\x7d[1|0|1|1,0|0|1|1]".toList := by
    simp only [UnifiedImageSearch_run, sample_context]
    decide
  cases ho : UnifiedImageSearch_run sample_host sample_env 0 sample_params sample_world with
  | none => rw [ho] at hres; exact absurd hres (by simp)
  | some o =>
    rw [ho] at hres
    have hr : o.result = "\x7b2\x7d[1|0|1|1,0|0|1|1]".toList := by simpa using hres
    refine ⟨o, rfl, hr, by rw [hr]; decide, ?_⟩
    exact (UnifiedImageSearch_payload_format o.all_matches sample_params.max_results
      sample_params.center_pos).2.2.2.2.2 sample_host sample_env 0 sample_params sample_world
      o ho

/-- C12. For every call of `UnifiedImageSearch` with `max_results` at least 1: the number
of records emitted is the smaller of the number of assembled matches and `max_results`;
unless the call ends early with an error text, the string returned is the payload of the
first that many assembled matches, in their order (followed by the debug text only when
`return_debug` is positive); and with `max_results` = 1 the search runs in first-match
mode (`find_all` is false), assembles at most one match and emits at most one record. -/
theorem UnifiedImageSearch_result_count (host : Host) (env : SearchEnv) (fuel : Nat)
    (params : SearchParams) (w : World) (o : SearchOutcome) (hmax : 1 ≤ params.max_results)
    (h : UnifiedImageSearch_run host env fuel params w = some o) :
    match_count o.all_matches params.max_results =
        min o.all_matches.length params.max_results.toNat ∧
      ((∃ (code : ErrorCode) (debug : WString),
          o.result = error_result params code debug ∧ o.all_matches = []) ∨
        ∃ dbg : WString,
          o.result =
            payload_text
              ((o.all_matches.take (min o.all_matches.length params.max_results.toNat)).map
                (match_values params.center_pos)) ++ dbg ∧
          (params.return_debug ≤ 0 → dbg = [])) ∧
      (params.max_results = 1 →
        (∀ (info : SourceInfo) (Source : PixelBuffer),
          (search_context params info Source).find_all = false) ∧
        o.all_matches.length ≤ 1 ∧
        match_count o.all_matches params.max_results ≤ 1) := by
  have hcount := match_count_eq_min o.all_matches params.max_results hmax
  refine ⟨hcount, ?_, ?_⟩
  · rcases UnifiedImageSearch_run_cases host env fuel params w o h with h1 | h1
    · left
      obtain ⟨hnil, -, -, code, debug, hres⟩ := h1
      exact ⟨code, debug, hres, hnil⟩
    · right
      obtain ⟨info, Source, -, -, -, -, -, hres⟩ := h1
      refine ⟨if params.return_debug > 0 then
          debug_info host env params (search_context params info Source)
            (target_files_of params) o.state
        else [], ?_, ?_⟩
      · rw [hres, result_payload_eq, hcount]
      · intro hd
        rw [if_neg (by omega)]
  · intro h1
    have hfa : ∀ (info : SourceInfo) (Source : PixelBuffer),
        (search_context params info Source).find_all = false := by
      intro info Source
      simp only [search_context, h1]
      decide
    have hlen : o.all_matches.length ≤ 1 := by
      rcases UnifiedImageSearch_run_cases host env fuel params w o h with h2 | h2
      · rw [h2.1]; simp
      · obtain ⟨info, Source, -, -, -, -, hloop, -⟩ := h2
        exact target_loop_first_length host env fuel params _ _ _ 0 _ _ (hfa info Source) hloop
    refine ⟨hfa, hlen, ?_⟩
    rw [hcount]
    omega

/-- Witness of C12: the sample call, with `max_results` = 2, assembles two matches and
emits both. -/
theorem UnifiedImageSearch_result_count_witness :
    ∃ o : SearchOutcome,
      UnifiedImageSearch_run sample_host sample_env 0 sample_params sample_world = some o ∧
      match_count o.all_matches sample_params.max_results =
        min o.all_matches.length sample_params.max_results.toNat := by
  have hres : (UnifiedImageSearch_run sample_host sample_env 0 sample_params
      sample_world).isSome = true := by
    simp only [UnifiedImageSearch_run, sample_context]
    decide
  obtain ⟨o, ho⟩ := Option.isSome_iff_exists.1 hres
  exact ⟨o, ho,
    (UnifiedImageSearch_result_count sample_host sample_env 0 sample_params sample_world o
      (by decide) ho).1⟩

theorem match_values_eq_record_of (center_pos : Int) (m : MatchResult) (hw : 0 ≤ m.w)
    (hh : 0 ≤ m.h) : match_values center_pos m = record_of center_pos m := by
  unfold match_values record_of
  rw [Int.tdiv_eq_ediv hw (by decide), Int.tdiv_eq_ediv hh (by decide)]
  split_ifs <;> rfl

/-- A list of target files that is one name without the separator is split into that
name. -/
theorem split_target_files_single (tgt : WString) (hne : tgt ≠ []) (hbar : '|' ∉ tgt) :
    split_target_files (tgt.length + 1) tgt = [tgt] := by
  have htake : tgt.takeWhile (fun c => c != '|') = tgt := by
    rw [List.takeWhile_eq_self_iff]
    intro c hc
    simp only [bne_iff_ne, ne_eq]
    intro h
    exact hbar (by rw [← h]; exact hc)
  have hdrop : tgt.dropWhile (fun c => c != '|') = [] := by
    rw [List.dropWhile_eq_nil_iff]
    intro c hc
    simp only [bne_iff_ne, ne_eq]
    intro h
    exact hbar (by rw [← h]; exact hc)
  simp only [split_target_files, if_neg hne, htake, hdrop, if_pos hne]

/-- In first-match mode `SearchForBitmap` returns the match of the first accepted offset:
the one at which the matcher accepts while it rejects at all offsets of earlier rows and at
all earlier offsets of the same row. -/
theorem SearchForBitmap_first_at (env : SearchEnv) (Source Target : PixelBuffer)
    (sl st tol : Int) (te : Bool) (scale : Rat) (file : String) (x0 y0 : Int)
    (hy0 : 0 ≤ y0) (hy1 : y0 ≤ Source.height - Target.height) (hx0 : 0 ≤ x0)
    (hx1 : x0 ≤ Source.width - Target.width)
    (hacc : CheckMatch env Source Target te tol x0 y0 = true)
    (hrej : ∀ x y : Int, 0 ≤ y → y ≤ Source.height - Target.height → 0 ≤ x →
      x ≤ Source.width - Target.width → (y < y0 ∨ (y = y0 ∧ x < x0)) →
      CheckMatch env Source Target te tol x y = false) :
    SearchForBitmap env Source Target sl st tol te false scale file =
      [⟨x0 + sl, y0 + st, Target.width, Target.height, scale, file⟩] := by
  rw [SearchForBitmap_first_eq]
  obtain ⟨x1, y1, h1, h2, h3, h4, h5, h6, h7⟩ :=
    (scan_first_spec (CheckMatch env Source Target te tol)
      (fun x y : Int => MatchResult.mk (x + sl) (y + st) Target.width Target.height scale file)
      sl st (fun _ _ => rfl) (fun _ _ => rfl) (Source.width - Target.width)
      (Source.height - Target.height)).2 ⟨x0, y0, hy0, hy1, hx0, hx1, hacc⟩
  have hmin := h6 x0 y0 hy0 hy1 hx0 hx1 hacc
  have heq : x1 = x0 ∧ y1 = y0 := by
    by_contra hne
    have hearlier : y1 < y0 ∨ (y1 = y0 ∧ x1 < x0) := by omega
    have := hrej x1 y1 h1 h2 h3 h4 hearlier
    rw [this] at h5
    exact absurd h5 (by decide)
  rw [h7, heq.1, heq.2]

/-- With the cache disabled the unscaled search of a target leaves the caches, the cache
files and the log of disk calls as they are and counts neither hits nor misses. -/
theorem search_unscaled_no_cache (host : Host) (env : SearchEnv) (params : SearchParams)
    (ctx : SearchContext) (Target : PixelBuffer) (source_file : WString) (st : SearchState)
    (h : params.use_cache = 0) :
    (search_unscaled host env params ctx Target source_file st).2.world = st.world ∧
      (search_unscaled host env params ctx Target source_file st).2.cache_hits =
        st.cache_hits ∧
      (search_unscaled host env params ctx Target source_file st).2.cache_misses =
        st.cache_misses := by
  have hp : cache_preload host params ctx Target source_file st.world = ([], st.world) := by
    unfold cache_preload
    rw [if_neg (by simp [h])]
  unfold search_unscaled
  simp only [hp]
  have hcf : cache_confirm host params ctx Target source_file []
      ⟨st.world, st.cache_hits, st.cache_misses, st.backend_used, st.full_scans⟩ =
      ([], false, ⟨st.world, st.cache_hits, st.cache_misses, st.backend_used,
        st.full_scans⟩) := by
    unfold cache_confirm
    rw [if_neg (by simp)]
  rw [hcf]
  unfold full_search
  simp only [Bool.not_false, Bool.true_or, if_true]
  split
  · exact ⟨rfl, rfl, rfl⟩
  · rw [if_neg (by simp [h])]
    exact ⟨rfl, rfl, rfl⟩

/-- An image-in-image search for a single target file at scale 1, first match only,
without cache: the matches assembled are the result of the first-match scan of the source
for the target, and the string returned is their payload, followed by the debug text when
`return_debug` is positive. -/
theorem UnifiedImageSearch_in_image_first (host : Host) (env : SearchEnv) (fuel : Nat)
    (params : SearchParams) (w : World) (src tgt : WString) (Source Target : PixelBuffer)
    (hmode : params.mode = SearchMode.SearchImageInImage)
    (hsrc : params.source_image = some src) (hsrcne : src ≠ [])
    (htgt : params.target_images = some tgt) (htne : tgt ≠ []) (hbar : '|' ∉ tgt)
    (hS : host.LoadImageFromFile_GDI src = some Source)
    (hT : host.LoadImageFromFile_GDI tgt = some Target)
    (hSv : Source.IsValid = true) (hTv : Target.IsValid = true)
    (hmin : params.min_scale = 1) (hmaxs : params.max_scale = 1)
    (hmr : params.max_results = 1) (hcache : params.use_cache = 0) :
    ∃ o : SearchOutcome,
      UnifiedImageSearch_run host env fuel params w = some o ∧
      o.all_matches =
        SearchForBitmap env Source Target 0 0 (clamp params.tolerance 0 255) Target.has_alpha
          false 1 (String.mk tgt) ∧
      o.state.world.cache = w.cache ∧ o.state.world.disk_log = w.disk_log ∧
      o.state.cache_hits = 0 ∧
      ∃ dbg : WString,
        o.result = result_payload o.all_matches 1 params.center_pos ++ dbg ∧
        (params.return_debug ≤ 0 → dbg = []) := by
  obtain ⟨c, cs, rfl⟩ : ∃ c cs, src = c :: cs := by
    cases src with
    | nil => exact absurd rfl hsrcne
    | cons c cs => exact ⟨c, cs, rfl⟩
  have hacq : acquire_source host params =
      Except.ok ⟨some Source, c :: cs, 0, 0, 0, 0, 0, 0, 0, 0⟩ := by
    unfold acquire_source
    rw [hmode]
    simp only [hsrc, hS]
  have hfiles : target_files_of params = [tgt] := by
    unfold target_files_of
    rw [hmode]
    simp only [htgt, split_target_files_single tgt htne hbar]
  have hfut : load_futures host params [tgt] = [some Target] := by
    unfold load_futures
    rw [hmode]
    simp [hT]
  have hctx_skip := search_context_unit_scale params
    ⟨some Source, c :: cs, 0, 0, 0, 0, 0, 0, 0, 0⟩ Source hmin hmaxs
  have hctx_fa : (search_context params ⟨some Source, c :: cs, 0, 0, 0, 0, 0, 0, 0, 0⟩
      Source).find_all = false := by
    simp only [search_context, hmr]; decide
  generalize hctx : search_context params ⟨some Source, c :: cs, 0, 0, 0, 0, 0, 0, 0, 0⟩
    Source = ctx at hctx_skip hctx_fa
  have hctxS : ctx.Source = Source := by rw [← hctx]; rfl
  have hctxx : ctx.search_offset_x = 0 := by rw [← hctx]; rfl
  have hctxy : ctx.search_offset_y = 0 := by rw [← hctx]; rfl
  have hctxt : ctx.tolerance = clamp params.tolerance 0 255 := by rw [← hctx]; rfl
  have hloop : target_loop host env fuel params ctx [tgt] [some Target] 0 ⟨w, 0, 0, [], []⟩ =
      some (search_unscaled host env params ctx Target tgt ⟨w, 0, 0, [], []⟩) := by
    simp only [target_loop, hTv, Bool.not_true, Bool.false_eq_true, if_false, List.length_cons,
      List.length_nil, Nat.lt_one_iff, if_true, List.getD_cons_zero, search_target,
      hctx_skip, hctx_fa, ite_self, ne_eq, ite_not]
    have h01 : (0 : Nat) < 0 + 1 := by decide
    simp only [h01, if_true, Bool.not_false]
    split_ifs with hnil
    · rw [Option.some.injEq]
      exact Prod.ext hnil.symm rfl
    · rfl
  obtain ⟨found, cached, u1, u2, u3, u4⟩ :=
    search_unscaled_spec host env params ctx Target tgt ⟨w, 0, 0, [], []⟩
  have hnf : found = false := by
    cases found with
    | false => rfl
    | true => exact absurd hcache (u4 rfl).2.2
  subst hnf
  obtain ⟨hc, hh⟩ := u3 rfl
  have hrun : UnifiedImageSearch_run host env fuel params w =
      some ⟨if params.return_debug > 0 then
          result_payload (search_unscaled host env params ctx Target tgt
              ⟨w, 0, 0, [], []⟩).1 params.max_results params.center_pos ++
            debug_info host env params ctx [tgt]
              (search_unscaled host env params ctx Target tgt ⟨w, 0, 0, [], []⟩).2
        else
          result_payload (search_unscaled host env params ctx Target tgt
            ⟨w, 0, 0, [], []⟩).1 params.max_results params.center_pos,
        (search_unscaled host env params ctx Target tgt ⟨w, 0, 0, [], []⟩).1,
        (search_unscaled host env params ctx Target tgt ⟨w, 0, 0, [], []⟩).2⟩ := by
    unfold UnifiedImageSearch_run
    simp only [hacq, Option.filter, hSv, if_true, hfiles, hfut, hctx, hloop]
    rfl
  refine ⟨_, hrun, ?_, ?_, ?_, ?_, ?_⟩
  · simp only [u1, hc, hctx_fa, hctxS, hctxx, hctxy, hctxt]
    simp
  · rw [(search_unscaled_no_cache host env params ctx Target tgt _ hcache).1]
  · rw [(search_unscaled_no_cache host env params ctx Target tgt _ hcache).1]
  · exact hh
  · simp only [hmr]
    by_cases hd : params.return_debug > 0
    · simp only [if_pos hd]
      exact ⟨_, rfl, fun h => absurd hd (by omega)⟩
    · simp only [if_neg hd]
      exact ⟨[], by simp, fun _ => rfl⟩

theorem scenario_payload (file : String) :
    result_payload [⟨20, 30, 10, 10, 1, file⟩] 1 0 = "\x7b1\x7d[20|30|10|10]".toList ∧
      result_payload [⟨20, 30, 10, 10, 1, file⟩] 1 1 = "\x7b1\x7d[25|35|10|10]".toList := by
  have hc : match_count [(⟨20, 30, 10, 10, 1, file⟩ : MatchResult)] 1 = 1 := by
    simp [match_count]
  have h0 : match_values 0 ⟨20, 30, 10, 10, 1, file⟩ = (20, 30, 10, 10) := rfl
  have h1 : match_values 1 ⟨20, 30, 10, 10, 1, file⟩ = (25, 35, 10, 10) := by
    simp only [match_values, if_true]
    decide
  rw [result_payload_eq, result_payload_eq, hc]
  simp only [List.take_succ_cons, List.take_zero, List.map_cons, List.map_nil, h0, h1]
  exact ⟨by decide, by decide⟩

/-- C13. For every match that `UnifiedImageSearch` assembles (the sort routine meeting its
contract), width and height are positive and the values written for it are
`(x + w / 2, y + h / 2, w, h)`, halves rounded down, when `center_pos` is 1, and
`(x, y, w, h)` when `center_pos` is 0. Scenario: an image-in-image search with a valid
100x100 source and a valid 10x10 target file, scale 1, first match only, cache and debug
text off, in which the matcher of the build accepts at offset (20, 30) and rejects at every
offset of an earlier row and at every earlier offset of row 30, returns `{1}[20|30|10|10]`
when `center_pos` is 0 and `{1}[25|35|10|10]` when `center_pos` is 1. -/
theorem UnifiedImageSearch_record_position :
    (∀ (host : Host) (env : SearchEnv) (fuel : Nat) (params : SearchParams) (w : World)
        (o : SearchOutcome), env.SortContract →
        UnifiedImageSearch_run host env fuel params w = some o →
        ∀ m ∈ o.all_matches,
          0 < m.w ∧ 0 < m.h ∧
          match_values params.center_pos m = record_of params.center_pos m ∧
          match_values 1 m = (m.x + m.w / 2, m.y + m.h / 2, m.w, m.h) ∧
          match_values 0 m = (m.x, m.y, m.w, m.h)) ∧
    (∀ (host : Host) (env : SearchEnv) (fuel : Nat) (params : SearchParams) (w : World)
        (src tgt : WString) (Source Target : PixelBuffer),
        params.mode = SearchMode.SearchImageInImage →
        params.source_image = some src → src ≠ [] →
        params.target_images = some tgt → tgt ≠ [] → '|' ∉ tgt →
        host.LoadImageFromFile_GDI src = some Source →
        host.LoadImageFromFile_GDI tgt = some Target →
        Source.IsValid = true → Target.IsValid = true →
        Source.width = 100 → Source.height = 100 → Target.width = 10 → Target.height = 10 →
        params.min_scale = 1 → params.max_scale = 1 → params.max_results = 1 →
        params.use_cache = 0 → params.return_debug = 0 →
        CheckMatch env Source Target Target.has_alpha (clamp params.tolerance 0 255) 20 30 =
          true →
        (∀ x y : Int, 0 ≤ y → y ≤ 90 → 0 ≤ x → x ≤ 90 → (y < 30 ∨ (y = 30 ∧ x < 20)) →
          CheckMatch env Source Target Target.has_alpha (clamp params.tolerance 0 255) x y =
            false) →
        (params.center_pos = 0 →
          UnifiedImageSearch host env fuel params w =
            some "\x7b1\x7d[20|30|10|10]".toList) ∧
        (params.center_pos = 1 →
          UnifiedImageSearch host env fuel params w =
            some "\x7b1\x7d[25|35|10|10]".toList)) := by
  constructor
  · intro host env fuel params w o hsort h m hm
    have hpos : 0 < m.w ∧ 0 < m.h := by
      rcases UnifiedImageSearch_run_cases host env fuel params w o h with h1 | h1
      · rw [h1.1] at hm; exact absurd hm (List.not_mem_nil _)
      · obtain ⟨info, Source, -, -, -, -, hloop, -⟩ := h1
        exact target_loop_sized host env fuel params _ _ _ 0 _ _ hsort hloop m hm
    refine ⟨hpos.1, hpos.2, match_values_eq_record_of _ m (by omega) (by omega), ?_, ?_⟩
    · rw [match_values_eq_record_of 1 m (by omega) (by omega)]; rfl
    · rfl
  · intro host env fuel params w src tgt Source Target hmode hsrc hsrcne htgt htne hbar hS hT
      hSv hTv hSw hSh hTw hTh hmin hmaxs hmr hcache hdebug hacc hrej
    obtain ⟨o, hrun, hall, -, -, -, dbg, hres, hdbg⟩ :=
      UnifiedImageSearch_in_image_first host env fuel params w src tgt Source Target hmode
        hsrc hsrcne htgt htne hbar hS hT hSv hTv hmin hmaxs hmr hcache
    have hscan := SearchForBitmap_first_at env Source Target 0 0 (clamp params.tolerance 0 255)
      Target.has_alpha 1 (String.mk tgt) 20 30 (by decide) (by omega) (by decide) (by omega)
      hacc (fun x y h1 h2 h3 h4 h5 => hrej x y h1 (by omega) h3 (by omega) h5)
    rw [hscan, hTw, hTh] at hall
    have hall' : o.all_matches = [⟨20, 30, 10, 10, 1, String.mk tgt⟩] := by
      rw [hall]; rfl
    rw [hdbg (by omega), List.append_nil, hall'] at hres
    unfold UnifiedImageSearch
    rw [hrun, Option.map_some']
    constructor
    · intro hc
      rw [hres, hc, (scenario_payload _).1]
    · intro hc
      rw [hres, hc, (scenario_payload _).2]

theorem merge_sort_contract (win64 avx2 avx512 sse2 : Bool) (n : Nat) :
    SearchEnv.SortContract ⟨win64, avx2, avx512, sse2, n, merge_sort_matches⟩ :=
  ⟨merge_sort_matches_perm, merge_sort_matches_sorted⟩

theorem scenario_source_at (i : Int) (h0 : 0 ≤ i) (h1 : i < 10000) :
    scenario_source.at i = scenario_pixel i.toNat := by
  have hlt : i.toNat < ((List.range 10000).map scenario_pixel).length := by
    rw [List.length_map, List.length_range]; omega
  have hp : scenario_source.pixels = (List.range 10000).map scenario_pixel := by
    show scenario_pixels = _
    unfold scenario_pixels
    rfl
  unfold PixelBuffer.at
  rw [if_pos h0, hp, List.getD_eq_getElem _ _ hlt, List.getElem_map, List.getElem_range]

theorem scenario_target_at (i : Int) (h0 : 0 ≤ i) (h1 : i < 100) :
    scenario_target.at i = sample_white := by
  have hlt : i.toNat < (List.replicate 100 sample_white).length := by
    rw [List.length_replicate]; omega
  have hp : scenario_target.pixels = List.replicate 100 sample_white := by
    show scenario_target_pixels = _
    unfold scenario_target_pixels
    rfl
  unfold PixelBuffer.at
  rw [if_pos h0, hp, List.getD_eq_getElem _ _ hlt, List.getElem_replicate]

theorem scenario_valid : scenario_source.IsValid = true ∧ scenario_target.IsValid = true := by
  constructor
  · unfold PixelBuffer.IsValid
    have hl : scenario_source.pixels.length = 10000 := by
      show scenario_pixels.length = 10000
      unfold scenario_pixels
      rw [List.length_map, List.length_range]
    rw [hl]
    decide
  · unfold PixelBuffer.IsValid
    have hl : scenario_target.pixels.length = 100 := by
      show scenario_target_pixels.length = 100
      unfold scenario_target_pixels
      rw [List.length_replicate]
    rw [hl]
    decide

theorem CheckMatch_sample_env (Source Target : PixelBuffer) (transparent_enabled : Bool)
    (tolerance x y : Int) :
    CheckMatch sample_env Source Target transparent_enabled tolerance x y =
      PixelComparison.CheckApproxMatch_Scalar Source Target x y transparent_enabled
        tolerance := by
  unfold CheckMatch
  have h1 : sample_env.win64 = true := rfl
  have h2 : sample_env.g_is_avx512_supported = false := rfl
  have h3 : sample_env.g_is_avx2_supported = false := rfl
  rw [if_pos h1, if_neg (by rw [h2]; decide), if_neg (by rw [h3]; decide)]

theorem scenario_accepts :
    CheckMatch sample_env scenario_source scenario_target scenario_target.has_alpha
      (clamp 0 0 255) 20 30 = true := by
  have ha : scenario_target.has_alpha = false := rfl
  have hc : clamp 0 0 255 = 0 := by decide
  rw [CheckMatch_sample_env, ha, hc, scalar_accepts_iff]
  refine ⟨by decide, ?_⟩
  intro i j hi hiw hj hjh
  have hiw' : i < 10 := hiw
  have hjh' : j < 10 := hjh
  rw [scalar_pixel_iff]
  right
  have hw1 : scenario_target.width = 10 := rfl
  have hw2 : scenario_source.width = 100 := rfl
  rw [hw1, hw2, scenario_target_at _ (by omega) (by omega),
    scenario_source_at _ (by omega) (by omega)]
  have hpix : scenario_pixel ((30 + j) * 100 + 20 + i).toNat = sample_white := by
    unfold scenario_pixel
    rw [if_pos (by omega)]
  rw [hpix]
  decide

theorem scenario_rejects (x y : Int) (hy0 : 0 ≤ y) (hy1 : y ≤ 90) (hx0 : 0 ≤ x) (hx1 : x ≤ 90)
    (hearlier : y < 30 ∨ (y = 30 ∧ x < 20)) :
    CheckMatch sample_env scenario_source scenario_target scenario_target.has_alpha
      (clamp 0 0 255) x y = false := by
  have ha : scenario_target.has_alpha = false := rfl
  have hc : clamp 0 0 255 = 0 := by decide
  rw [CheckMatch_sample_env, ha, hc, ← Bool.not_eq_true, scalar_accepts_iff]
  rintro ⟨-, h⟩
  have h00 := h 0 0 (le_refl 0) (by decide) (le_refl 0) (by decide)
  rw [scalar_pixel_iff] at h00
  have hw1 : scenario_target.width = 10 := rfl
  have hw2 : scenario_source.width = 100 := rfl
  rw [hw1, hw2, scenario_target_at _ (by omega) (by omega),
    scenario_source_at _ (by omega) (by omega)] at h00
  have hpix : scenario_pixel ((y + 0) * 100 + x + 0).toNat = sample_black := by
    unfold scenario_pixel
    rw [if_neg (by omega)]
  rw [hpix] at h00
  revert h00
  decide

/-- Witness of C13: the sample 100x100 source with a white block at (20, 30) and the white
10x10 target, on a processor that uses the scalar matcher. -/
theorem UnifiedImageSearch_record_position_witness :
    UnifiedImageSearch scenario_host sample_env 0 (scenario_params 0) sample_world =
        some "\x7b1\x7d[20|30|10|10]".toList ∧
      UnifiedImageSearch scenario_host sample_env 0 (scenario_params 1) sample_world =
        some "\x7b1\x7d[25|35|10|10]".toList :=
  ⟨(UnifiedImageSearch_record_position.2 scenario_host sample_env 0 (scenario_params 0)
      sample_world "s".toList "t".toList scenario_source scenario_target rfl rfl (by decide)
      rfl (by decide) (by decide) rfl rfl scenario_valid.1 scenario_valid.2 rfl rfl rfl rfl
      rfl rfl rfl rfl rfl scenario_accepts scenario_rejects).1 rfl,
    (UnifiedImageSearch_record_position.2 scenario_host sample_env 0 (scenario_params 1)
      sample_world "s".toList "t".toList scenario_source scenario_target rfl rfl (by decide)
      rfl (by decide) (by decide) rfl rfl scenario_valid.1 scenario_valid.2 rfl rfl rfl rfl
      rfl rfl rfl rfl rfl scenario_accepts scenario_rejects).2 rfl⟩

/-- The locals of a call with scale range 1.0 to 1.0 and scale step 0.1. -/
theorem search_context_eq (params : SearchParams) (hmin : params.min_scale = 1)
    (hmax : params.max_scale = 1) (hstep : params.scale_step = 1 / 10) (info : SourceInfo)
    (Source : PixelBuffer) :
    search_context params info Source =
      ⟨Source, info.Source_source, info.search_offset_x, info.search_offset_y,
        info.capture_left, info.capture_top, info.capture_right, info.capture_bottom,
        info.capture_width, info.capture_height, clamp params.tolerance 0 255, 1, 1, 1 / 10,
        decide (params.max_results ≥ 2), true⟩ := by
  simp only [search_context, hmin, hmax, hstep]
  norm_num [clampf, std_round]

theorem clamp_empty_bounds (v w : Int) :
    clamp w (clamp v 0 (0 + 0 - 1) + 1) (0 + 0) - clamp v 0 (0 + 0 - 1) ≤ 1 := by
  unfold clamp
  split_ifs <;> omega

/-- For `iScreen` = 0 the rectangle that `CaptureScreenInternal` copies is a single pixel,
whatever region is asked for: the bounds of the screen are all 0 there. -/
theorem CaptureScreenInternal_screen_zero (host : Host) (iLeft iTop iRight iBottom : Int)
    (rect : Int × Int × Int × Int)
    (h : CaptureScreenInternal host iLeft iTop iRight iBottom 0 = some rect) :
    rect.2.2.1 = 1 ∧ rect.2.2.2 = 1 := by
  unfold CaptureScreenInternal at h
  have hb : GetScreenBounds host 0 = (0, 0, 0, 0) := rfl
  have hz : ¬ ((0 : Int) > 0 ∧ iLeft = 0 ∧ iTop = 0 ∧ iRight = 0 ∧ iBottom = 0) :=
    fun hc => absurd hc.1 (by decide)
  rw [hb] at h
  simp only [if_neg hz] at h
  generalize (if iRight = -1 ∨ iRight = 0 then (0 : Int) + 0 else iRight) = R at h
  generalize (if iBottom = -1 ∨ iBottom = 0 then (0 : Int) + 0 else iBottom) = B at h
  have h1 := clamp_empty_bounds iLeft R
  have h2 := clamp_empty_bounds iTop B
  split_ifs at h with hsize
  simp only [Option.some.injEq] at h
  rw [← h]
  simp only []
  constructor <;> omega

/-- The sample surroundings with a desktop capture the screen as the code does. -/
theorem desktop_host_capture_as_coded (desktop : Int → Int → Nat) :
    (desktop_host desktop).CaptureAsCoded := by
  intro iLeft iTop iRight iBottom iScreen buffer h
  have h2 : (CaptureScreenInternal blind_host iLeft iTop iRight iBottom iScreen).map
      (captured_buffer desktop) = some buffer := h
  cases hrect : CaptureScreenInternal blind_host iLeft iTop iRight iBottom iScreen with
  | none => rw [hrect] at h2; exact absurd h2 (by simp)
  | some rect =>
    rw [hrect, Option.map_some', Option.some.injEq] at h2
    refine ⟨rect, hrect, ?_, ?_⟩
    · rw [← h2]; rfl
    · rw [← h2]; rfl

/-- The sample surroundings capture the screen as the code does. -/
theorem sample_hosts_capture_as_coded :
    sample_host.CaptureAsCoded ∧ flipped_host.CaptureAsCoded ∧ dark_host.CaptureAsCoded ∧
      metrics_host.CaptureAsCoded :=
  ⟨desktop_host_capture_as_coded _, desktop_host_capture_as_coded _,
    desktop_host_capture_as_coded _, desktop_host_capture_as_coded _⟩

/-- The rectangle copied for the region (0, 0)-(2, 1) of monitor 1 of the sample
surroundings. -/
theorem CaptureScreenInternal_sample_region :
    CaptureScreenInternal blind_host 0 0 2 1 1 = some (0, 0, 2, 1) := rfl

/-- The capture of the region (0, 0)-(2, 1) of monitor 1: the two pixels of the desktop from
the origin on. -/
theorem desktop_host_capture (desktop : Int → Int → Nat) :
    (desktop_host desktop).CaptureScreen_GDI 0 0 2 1 1 =
      some ⟨[desktop 0 0, desktop 1 0], 2, 1, false, true⟩ := by
  show (CaptureScreenInternal blind_host 0 0 2 1 1).map (captured_buffer desktop) = _
  rw [CaptureScreenInternal_sample_region]
  rfl

/-- The source of the sample screen search: the region (0, 0)-(2, 1) of monitor 1 passes the
clamping unchanged and the capture returns its two pixels. -/
theorem screen_params_source (desktop : Int → Int → Nat)
    (tolerance max_results use_cache : Int) :
    acquire_source (desktop_host desktop) (screen_params tolerance max_results use_cache) =
      Except.ok ⟨some ⟨[desktop 0 0, desktop 1 0], 2, 1, false, true⟩, "Screen".toList, 0, 0,
        0, 0, 2, 1, 2, 1⟩ := by
  have h : acquire_source (desktop_host desktop)
      (screen_params tolerance max_results use_cache) =
      Except.ok ⟨(desktop_host desktop).CaptureScreen_GDI 0 0 2 1 1, "Screen".toList, 0, 0,
        0, 0, 2, 1, 2, 1⟩ := rfl
  rw [h, desktop_host_capture]

theorem sample_host_source (tolerance max_results use_cache : Int) :
    acquire_source sample_host (screen_params tolerance max_results use_cache) =
      Except.ok ⟨some ⟨[sample_black, sample_white], 2, 1, false, true⟩, "Screen".toList, 0, 0,
        0, 0, 2, 1, 2, 1⟩ :=
  screen_params_source sample_desktop tolerance max_results use_cache

theorem flipped_host_source (tolerance max_results use_cache : Int) :
    acquire_source flipped_host (screen_params tolerance max_results use_cache) =
      Except.ok ⟨some ⟨[sample_white, sample_black], 2, 1, false, true⟩, "Screen".toList, 0, 0,
        0, 0, 2, 1, 2, 1⟩ :=
  screen_params_source flipped_desktop tolerance max_results use_cache

theorem dark_host_source (tolerance max_results use_cache : Int) :
    acquire_source dark_host (screen_params tolerance max_results use_cache) =
      Except.ok ⟨some ⟨[sample_black, sample_black], 2, 1, false, true⟩, "Screen".toList, 0, 0,
        0, 0, 2, 1, 2, 1⟩ :=
  screen_params_source (fun _ _ => sample_black) tolerance max_results use_cache

/-- The rectangle copied for the region (1, 0)-(2, 1) of monitor 1 of the sample
surroundings. -/
theorem CaptureScreenInternal_sample_pixel :
    CaptureScreenInternal blind_host 1 0 2 1 1 = some (1, 0, 1, 1) := rfl

/-- The source of the sample screen search in the region (1, 0)-(2, 1) of monitor 1: the
white pixel of the desktop, with search offset (1, 0). -/
theorem sample_host_pixel_source (tolerance max_results use_cache : Int) :
    acquire_source sample_host (region_params 1 0 2 1 tolerance max_results use_cache) =
      Except.ok ⟨some ⟨[sample_white], 1, 1, false, true⟩, "Screen".toList, 1, 0, 1, 0, 2, 1,
        1, 1⟩ := by
  have h : acquire_source sample_host
      (region_params 1 0 2 1 tolerance max_results use_cache) =
      Except.ok ⟨sample_host.CaptureScreen_GDI 1 0 2 1 1, "Screen".toList, 1, 0, 1, 0, 2, 1,
        1, 1⟩ := rfl
  have hc : sample_host.CaptureScreen_GDI 1 0 2 1 1 =
      some ⟨[sample_white], 1, 1, false, true⟩ := by
    show (CaptureScreenInternal blind_host 1 0 2 1 1).map (captured_buffer sample_desktop) = _
    rw [CaptureScreenInternal_sample_pixel]
    rfl
  rw [h, hc]

/-- The function `std::round` at a value that is a whole number. -/
theorem std_round_of_int (n : Int) (v : Rat) (h0 : 0 ≤ n) (hv : v = n) :
    std_round v = n := by
  have hn : (0 : Rat) ≤ n := by exact_mod_cast h0
  unfold std_round
  rw [if_pos (by rw [hv]; exact hn), hv, Int.floor_eq_iff]
  constructor
  · linarith
  · linarith

theorem std_round_half : std_round (1 / 2) = 1 := by
  have h : (1 / 2 : Rat) ≥ 0 := by norm_num
  unfold std_round
  rw [if_pos h, Int.floor_eq_iff]
  constructor <;> norm_num

/-- The locals of a sample call over the scale range 0.5 to 1.0 with scale step 0.5. -/
theorem scale_range_context (source target : WString) (tolerance max_results : Int)
    (info : SourceInfo) (Source : PixelBuffer) :
    search_context (scale_range_params source target tolerance max_results) info Source =
      ⟨Source, info.Source_source, info.search_offset_x, info.search_offset_y,
        info.capture_left, info.capture_top, info.capture_right, info.capture_bottom,
        info.capture_width, info.capture_height, clamp tolerance 0 255, 1 / 2, 1, 1 / 2,
        decide (max_results ≥ 2), false⟩ := by
  have hr : std_round 5 = 5 := std_round_of_int 5 _ (by decide) (by norm_num)
  simp only [search_context, scale_range_params]
  norm_num [clampf, hr]
  rw [abs_of_pos (by norm_num : (0 : Rat) < 1 / 2)]
  norm_num

/-- The list of scales of the sample call over the scale range 0.5 to 1.0: 0.5 and 1.0. -/
theorem scale_range_scales :
    build_scales 1 (1 / 2) 3 (1 / 2) = some [1 / 2, 1] := by
  have r5 : std_round (1 / 2 * 10) = 5 := std_round_of_int 5 _ (by decide) (by norm_num)
  have r10 : std_round ((1 / 2 + 1 / 2) * 10) = 10 :=
    std_round_of_int 10 _ (by decide) (by norm_num)
  have c1 : (1 / 2 : Rat) ≤ 1 := by norm_num
  have c2 : (1 / 2 + 1 / 2 : Rat) ≤ 1 := by norm_num
  have c3 : ¬ (1 / 2 + 1 / 2 + 1 / 2 : Rat) ≤ 1 := by norm_num
  simp only [build_scales, if_pos c1, if_pos c2, if_neg c3, r5, r10, Option.map_some']
  norm_num

theorem scaled_size_whole (dim : Int) (h : 0 ≤ dim) : scaled_size dim 1 = dim := by
  unfold scaled_size
  exact std_round_of_int dim _ h (by rw [mul_one])

theorem scaled_size_two_half : scaled_size 2 (1 / 2) = 1 := by
  unfold scaled_size
  exact std_round_of_int 1 _ (by decide) (by norm_num)

theorem scaled_size_one_half : scaled_size 1 (1 / 2) = 1 := by
  unfold scaled_size
  have h : ((1 : Int) : Rat) * (1 / 2) = 1 / 2 := by norm_num
  rw [h, std_round_half]

/-- C11, evaluation of the code where it departs from the claim. First call: an
image-in-image search for all matches of the two targets `a|b` in a source of two pixels,
black then white, where `a` is a white pixel and `b` a black one; cache off. The records
come out target by target, (1, 0) of `a` before (0, 0) of `b`: same row, column
descending. Second call: a screen search in the region (0, 0)-(2, 1) of monitor 1 for all
matches of the single target `a` with tolerance 255, cache on, the cache holding the
position (1, 0) for the key of the search; the screen shows the same two pixels and the
target matches at (0, 0) and (1, 0). The confirmed cached position is emitted first, then
the matches of the full scan: (1, 0), (0, 0), (1, 0). The cache gets into that state by an
earlier first-match search for the same target in the region (1, 0)-(2, 1); the two calls
in a row, started with an empty cache, give the same three records. Third call: an image-in-image search
for all matches of the single target `s`, two pixels wide, in the source `s` over the scale
range 0.5 to 1.0 with scale step 0.5 and tolerance 255, cache off. At tolerance 255 every
pixel is accepted, whatever the resampler delivers: the target scaled to one pixel matches
at (0, 0) and (1, 0), the target at scale 1.0 at (0, 0). The records come out scale by
scale: (0, 0), (1, 0), (0, 0). -/
theorem UnifiedImageSearch_records_not_sorted :
    UnifiedImageSearch sample_host sample_env 0 sample_params sample_world =
        some "\x7b2\x7d[1|0|1|1,0|0|1|1]".toList ∧
      UnifiedImageSearch sample_host sample_env 0 (screen_params 255 5 1)
          (cached_world 255 1 0) =
        some "\x7b3\x7d[1|0|1|1,0|0|1|1,1|0|1|1]".toList ∧
      ((UnifiedImageSearch_run sample_host sample_env 0 (region_params 1 0 2 1 255 1 1)
          sample_world).bind fun o1 =>
        (UnifiedImageSearch_run sample_host sample_env 0 (screen_params 255 5 1)
          o1.state.world).map SearchOutcome.result) =
        some "\x7b3\x7d[1|0|1|1,0|0|1|1,1|0|1|1]".toList ∧
      UnifiedImageSearch scaling_host sample_env 3
          (scale_range_params "s".toList "s".toList 255 5) sample_world =
        some "\x7b3\x7d[0|0|1|1,1|0|1|1,0|0|2|1]".toList := by
  refine ⟨?_, ?_, ?_, ?_⟩
  · simp only [UnifiedImageSearch, UnifiedImageSearch_run, sample_context]
    decide
  · have hctx := search_context_eq (screen_params 255 5 1) rfl rfl rfl
    simp only [UnifiedImageSearch, UnifiedImageSearch_run, hctx]
    decide
  · have h1 := search_context_eq (region_params 1 0 2 1 255 1 1) rfl rfl rfl
    have h2 := search_context_eq (screen_params 255 5 1) rfl rfl rfl
    simp only [UnifiedImageSearch_run, sample_host_pixel_source, sample_host_source, h1, h2]
    decide
  · have hacq : acquire_source scaling_host
        (scale_range_params "s".toList "s".toList 255 5) =
        Except.ok ⟨some ⟨[sample_black, sample_white], 2, 1, false, true⟩, "s".toList, 0, 0,
          0, 0, 0, 0, 0, 0⟩ := rfl
    have hvalid : (⟨[sample_black, sample_white], 2, 1, false, true⟩ : PixelBuffer).IsValid =
        true := by decide
    have htf : target_files_of (scale_range_params "s".toList "s".toList 255 5) =
        ["s".toList] := by decide
    have hfut : load_futures scaling_host (scale_range_params "s".toList "s".toList 255 5)
        ["s".toList] = [some ⟨[sample_black, sample_white], 2, 1, false, true⟩] := by decide
    have s1 : scaled_size 2 1 = 2 := scaled_size_whole 2 (by decide)
    have s2 : scaled_size 1 1 = 1 := scaled_size_whole 1 (by decide)
    unfold UnifiedImageSearch UnifiedImageSearch_run
    simp only [hacq, Option.filter, hvalid, if_true, htf, hfut, scale_range_context]
    rw [if_neg (by decide)]
    simp only [target_loop, search_target, scale_range_scales, List.map_cons, List.map_nil,
      scale_task, scaled_size_two_half, scaled_size_one_half, s1, s2]
    decide

/-- One target file gives at most one future. -/
theorem load_futures_single (host : Host) (params : SearchParams)
    (target_files : List WString) (h : target_files.length = 1) :
    (load_futures host params target_files).length ≤ 1 := by
  unfold load_futures
  cases params.mode with
  | HBitmapSearch =>
    simp only []
    split_ifs <;> simp
  | ScreenSearch =>
    simp only []
    rw [if_neg (by omega)]
    simp
  | SearchImageInImage =>
    simp only []
    rw [if_neg (by omega)]
    simp

/-- The loop over the targets with at most one future and scale range 1.0 to 1.0: it
either leaves everything as it is, or its outcome is that of the unscaled search of the
one target. -/
theorem target_loop_single (host : Host) (env : SearchEnv) (fuel : Nat)
    (params : SearchParams) (ctx : SearchContext) (target_files : List WString)
    (futures : List (Option PixelBuffer)) (i : Nat) (st : SearchState)
    (r : List MatchResult × SearchState) (hlen : futures.length ≤ 1)
    (hskip : ctx.skip_scaling = true)
    (h : target_loop host env fuel params ctx target_files futures i st = some r) :
    r = ([], st) ∨
      ∃ (Target : PixelBuffer) (source_file : WString),
        r = search_unscaled host env params ctx Target source_file st := by
  match futures, hlen with
  | [], _ =>
    simp only [target_loop, Option.some.injEq] at h
    exact Or.inl h.symm
  | [none], _ =>
    simp only [target_loop, Option.some.injEq] at h
    exact Or.inl h.symm
  | [some Target], _ =>
    unfold target_loop at h
    simp only [] at h
    by_cases hv : Target.IsValid = true
    · rw [if_neg (by simp [hv])] at h
      simp only [search_target, if_pos hskip] at h
      right
      refine ⟨Target, if i < target_files.length then target_files.getD i [] else [], ?_⟩
      by_cases hne : (search_unscaled host env params ctx Target
          (if i < target_files.length then target_files.getD i [] else []) st).1 ≠ []
      · rw [if_pos hne] at h
        by_cases hfa : ctx.find_all = true
        · rw [if_neg (by simp [hfa])] at h
          simp only [target_loop, Option.map_some', List.append_nil, Option.some.injEq] at h
          exact h.symm
        · rw [if_pos (by simpa using hfa)] at h
          simp only [Option.some.injEq] at h
          exact h.symm
      · rw [if_neg hne] at h
        simp only [target_loop, Option.some.injEq] at h
        rw [← h]
        have hnil := not_not.1 hne
        exact Prod.ext hnil.symm rfl
    · rw [if_pos (by simpa using hv)] at h
      simp only [target_loop, Option.some.injEq] at h
      exact Or.inl h.symm

/-- C11, amended claim. For every call of `UnifiedImageSearch` with a single target and
scale range 1.0 to 1.0 (in particular every such call in all-matches mode): with the cache
disabled no cache hit is counted, and when the call counts no cache hit, the records
emitted are in strict order of y ascending, then x ascending. -/
theorem UnifiedImageSearch_single_target_sorted (host : Host) (env : SearchEnv) (fuel : Nat)
    (params : SearchParams) (w : World) (o : SearchOutcome) (hsort : env.SortContract)
    (hmin : params.min_scale = 1) (hmax : params.max_scale = 1)
    (hsingle : (target_files_of params).length = 1)
    (h : UnifiedImageSearch_run host env fuel params w = some o) :
    (params.use_cache = 0 → o.state.cache_hits = 0) ∧
      (o.state.cache_hits = 0 →
        (((o.all_matches.take (match_count o.all_matches params.max_results)).map
          (match_values params.center_pos)).Pairwise
            fun a b => a.2.1 < b.2.1 ∨ (a.2.1 = b.2.1 ∧ a.1 < b.1))) := by
  rcases UnifiedImageSearch_run_cases host env fuel params w o h with h1 | h1
  · obtain ⟨hnil, hhits, -, -⟩ := h1
    refine ⟨fun _ => hhits, fun _ => ?_⟩
    rw [hnil]
    simp
  · obtain ⟨info, Source, -, -, -, -, hloop, -⟩ := h1
    have hskip := search_context_unit_scale params info Source hmin hmax
    rcases target_loop_single host env fuel params _ _ _ 0 _ _
      (load_futures_single host params _ hsingle) hskip hloop with hr | ⟨Target, file, hr⟩
    · have h1 : o.all_matches = [] := congrArg Prod.fst hr
      have h2 : o.state = ⟨w, 0, 0, [], []⟩ := congrArg Prod.snd hr
      refine ⟨fun _ => by rw [h2], fun _ => ?_⟩
      rw [h1]
      simp
    · have h1 : o.all_matches = (search_unscaled host env params
          (search_context params info Source) Target file ⟨w, 0, 0, [], []⟩).1 :=
        congrArg Prod.fst hr
      have h2 : o.state = (search_unscaled host env params
          (search_context params info Source) Target file ⟨w, 0, 0, [], []⟩).2 :=
        congrArg Prod.snd hr
      constructor
      · intro hc
        rw [h2]
        exact (search_unscaled_no_cache host env params _ Target file _ hc).2.1
      · intro hhit
        obtain ⟨found, cached, s1, -, s3, s4⟩ := search_unscaled_spec host env params
          (search_context params info Source) Target file ⟨w, 0, 0, [], []⟩
        have hfound : found = false := by
          cases found with
          | false => rfl
          | true =>
            have := (s4 rfl).2.1
            rw [← h2, hhit] at this
            simp only [zero_add] at this
            exact absurd this (by decide)
        subst hfound
        rw [(s3 rfl).1] at s1
        simp only [Bool.not_false, Bool.true_or, if_true, List.nil_append] at s1
        obtain ⟨hsorted, hsized⟩ := SearchForBitmap_sorted_sized env
          (search_context params info Source).Source Target
          (search_context params info Source).search_offset_x
          (search_context params info Source).search_offset_y
          (search_context params info Source).tolerance Target.has_alpha
          (search_context params info Source).find_all 1 (String.mk file) hsort
        rw [h1, s1, List.pairwise_map]
        refine List.Pairwise.sublist (List.take_sublist _ _) ?_
        refine (List.Pairwise.and_mem.1 hsorted).imp ?_
        intro a b hab
        obtain ⟨ha, hb, hlt⟩ := hab
        obtain ⟨haw, hah, -⟩ := hsized a ha
        obtain ⟨hbw, hbh, -⟩ := hsized b hb
        simp only [match_values, haw, hah, hbw, hbh]
        split_ifs <;> omega

/-- Witness of the amended C11: the screen search for all matches of the single target `a`
in the region (0, 0)-(2, 1) of monitor 1 with tolerance 255 and the cache disabled, where
both pixels match;
the two records (0, 0) and (1, 0) come out in order. -/
theorem UnifiedImageSearch_single_target_sorted_witness :
    ∃ o : SearchOutcome,
      UnifiedImageSearch_run sample_host sample_env 0 (screen_params 255 5 0) sample_world =
        some o ∧
      o.result = "\x7b2\x7d[0|0|1|1,1|0|1|1]".toList ∧
      o.state.cache_hits = 0 ∧
      (((o.all_matches.take (match_count o.all_matches 5)).map (match_values 0)).Pairwise
        fun a b => a.2.1 < b.2.1 ∨ (a.2.1 = b.2.1 ∧ a.1 < b.1)) := by
  have hctx := search_context_eq (screen_params 255 5 0) rfl rfl rfl
  have hres : (UnifiedImageSearch_run sample_host sample_env 0 (screen_params 255 5 0)
      sample_world).map SearchOutcome.result =
      some "\x7b2\x7d[0|0|1|1,1|0|1|1]".toList := by
    simp only [UnifiedImageSearch_run, sample_host_source, hctx]
    decide
  cases ho : UnifiedImageSearch_run sample_host sample_env 0 (screen_params 255 5 0)
      sample_world with
  | none => rw [ho] at hres; exact absurd hres (by simp)
  | some o =>
    rw [ho] at hres
    have hthm := UnifiedImageSearch_single_target_sorted sample_host sample_env 0
      (screen_params 255 5 0) sample_world o (merge_sort_contract _ _ _ _ _) rfl rfl (by decide) ho
    have hhits := hthm.1 rfl
    exact ⟨o, rfl, by simpa using hres, hhits, hthm.2 hhits⟩

/-- The loop over the scales leaves the count of cache hits as it is. -/
theorem scale_loop_cache_hits (host : Host) (env : SearchEnv) (ctx : SearchContext)
    (Target : PixelBuffer) (source_file : WString) (scales : List Rat) (st : SearchState) :
    (scale_loop host env ctx Target source_file scales st).2.cache_hits = st.cache_hits := by
  induction scales generalizing st with
  | nil => rfl
  | cons scale rest ih =>
    unfold scale_loop
    simp only []
    by_cases h1 : scaled_size Target.width scale ≤ 0 ∨ scaled_size Target.height scale ≤ 0 ∨
        scaled_size Target.width scale > ctx.Source.width ∨
        scaled_size Target.height scale > ctx.Source.height
    · rw [if_pos h1]; exact ih st
    · rw [if_neg h1]
      cases hsc : host.ScaleBitmap_GDI Target (scaled_size Target.width scale)
          (scaled_size Target.height scale) with
      | none => exact ih st
      | some scaled =>
        simp only []
        by_cases h2 : scaled.IsValid = true
        · rw [if_pos h2]
          by_cases h3 : SearchForBitmap env ctx.Source scaled ctx.search_offset_x
              ctx.search_offset_y ctx.tolerance Target.has_alpha ctx.find_all scale
              (String.mk source_file) ≠ []
          · rw [if_pos h3]
            by_cases h4 : (!ctx.find_all) = true
            · rw [if_pos h4]
            · rw [if_neg h4]
              exact ih _
          · rw [if_neg h3]; exact ih _
        · rw [if_neg h2]; exact ih st

/-- When the capture bounds are those of a search that is not a screen search (all 0),
the search of a valid target counts no cache hit. -/
theorem search_target_cache_hits (host : Host) (env : SearchEnv) (fuel : Nat)
    (params : SearchParams) (ctx : SearchContext) (Target : PixelBuffer)
    (source_file : WString) (st : SearchState) (r : List MatchResult × SearchState)
    (hleft : ctx.capture_left = 0) (hright : ctx.capture_right = 0)
    (hvalid : Target.IsValid = true)
    (h : search_target host env fuel params ctx Target source_file st = some r) :
    r.2.cache_hits = st.cache_hits := by
  unfold search_target at h
  by_cases hskip : ctx.skip_scaling = true
  · rw [if_pos hskip] at h
    simp only [Option.some.injEq] at h
    rw [← h]
    obtain ⟨found, cached, -, -, s3, s4⟩ :=
      search_unscaled_spec host env params ctx Target source_file st
    cases found with
    | false => exact (s3 rfl).2
    | true =>
      obtain ⟨⟨x, y, -, hx1, hx2⟩, -⟩ := s4 rfl
      have hpos := (PixelBuffer_IsValid_pos Target hvalid).1
      omega
  · rw [if_neg hskip] at h
    cases hsc : build_scales ctx.max_scale ctx.scale_step fuel ctx.min_scale with
    | none => rw [hsc] at h; exact absurd h (by simp)
    | some scales =>
      rw [hsc] at h
      simp only [] at h
      split_ifs at h
      · simp only [Option.some.injEq] at h
        rw [← h]
      · simp only [Option.some.injEq] at h
        rw [← h]
        exact scale_loop_cache_hits host env ctx Target source_file scales st

/-- When the capture bounds are all 0, the loop over the targets counts no cache hit. -/
theorem target_loop_cache_hits (host : Host) (env : SearchEnv) (fuel : Nat)
    (params : SearchParams) (ctx : SearchContext) (target_files : List WString)
    (futures : List (Option PixelBuffer)) (i : Nat) (st : SearchState)
    (r : List MatchResult × SearchState) (hleft : ctx.capture_left = 0)
    (hright : ctx.capture_right = 0)
    (h : target_loop host env fuel params ctx target_files futures i st = some r) :
    r.2.cache_hits = st.cache_hits := by
  induction futures generalizing i st r with
  | nil =>
    simp only [target_loop, Option.some.injEq] at h
    rw [← h]
  | cons Target_opt rest ih =>
    unfold target_loop at h
    cases Target_opt with
    | none => exact ih _ _ _ h
    | some Target =>
      simp only [] at h
      by_cases hv : Target.IsValid = true
      · rw [if_neg (by simp [hv])] at h
        cases hst : search_target host env fuel params ctx Target
            (if i < target_files.length then target_files.getD i [] else []) st with
        | none => rw [hst] at h; exact absurd h (by simp)
        | some r1 =>
          rw [hst] at h
          simp only [] at h
          have h1 := search_target_cache_hits host env fuel params ctx Target _ st r1 hleft
            hright hv hst
          split_ifs at h
          · simp only [Option.some.injEq] at h
            rw [← h, h1]
          · cases hrest : target_loop host env fuel params ctx target_files rest (i + 1)
                r1.2 with
            | none => rw [hrest] at h; exact absurd h (by simp)
            | some r2 =>
              rw [hrest] at h
              simp only [Option.map_some', Option.some.injEq] at h
              rw [← h]
              exact (ih _ _ _ hrest).trans h1
          · exact (ih _ _ _ h).trans h1
      · rw [if_pos (by simpa using hv)] at h
        exact ih _ _ _ h

/-- Outside screen-search mode the capture bounds that `UnifiedImageSearch` hands to its
loop are all 0. -/
theorem acquire_source_capture (host : Host) (params : SearchParams) (info : SourceInfo)
    (hmode : params.mode ≠ SearchMode.ScreenSearch)
    (h : acquire_source host params = Except.ok info) :
    info.capture_left = 0 ∧ info.capture_top = 0 ∧ info.capture_right = 0 ∧
      info.capture_bottom = 0 := by
  unfold acquire_source at h
  cases hm : params.mode with
  | ScreenSearch => exact absurd hm hmode
  | SearchImageInImage =>
    rw [hm] at h
    simp only [] at h
    split at h
    · cases h
      exact ⟨rfl, rfl, rfl, rfl⟩
    · cases h
  | HBitmapSearch =>
    rw [hm] at h
    simp only [] at h
    split_ifs at h <;> (try split at h) <;> (try split_ifs at h) <;>
      (cases h; exact ⟨rfl, rfl, rfl, rfl⟩)

/-- Outside screen-search mode no call of `UnifiedImageSearch` counts a cache hit. -/
theorem UnifiedImageSearch_no_hit_outside_screen (host : Host) (env : SearchEnv)
    (fuel : Nat) (params : SearchParams) (w : World) (o : SearchOutcome)
    (hmode : params.mode ≠ SearchMode.ScreenSearch)
    (h : UnifiedImageSearch_run host env fuel params w = some o) :
    o.state.cache_hits = 0 := by
  rcases UnifiedImageSearch_run_cases host env fuel params w o h with h1 | h1
  · exact h1.2.1
  · obtain ⟨info, Source, hacq, -, -, -, hloop, -⟩ := h1
    obtain ⟨hl, -, hr, -⟩ := acquire_source_capture host params info hmode hacq
    exact target_loop_cache_hits host env fuel params _ _ _ 0 _ _ hl hr hloop

/-- C18, evaluation of the code. Outside screen-search mode no call of
`UnifiedImageSearch` ever counts a cache hit: the capture bounds are all 0 there, so the
test of the cached position against them fails for every valid target. On the sample
source of two pixels, black then white, with the one-pixel white target, tolerance 255,
cache enabled and first-match mode, the matcher accepts at (1, 0). Image-in-image search
with the cache holding (1, 0) for the key of the search: the code returns (0, 0), counts
no hit, runs one full scan and overwrites the entry with (0, 0). An identical second
image-in-image search after a first one from the empty cache: it counts no hit and runs a
full scan again. HBITMAP search with the cache holding (1, 0): as the image-in-image
search. Screen search in the region (0, 0)-(2, 1) of monitor 1, whose two pixels are those
of the source, with the cache holding (1, 0): the cached position is returned, one
hit is counted, no full scan runs and the entry stays with miss counter 0. -/
theorem UnifiedImageSearch_cache_hit_only_in_screen_search :
    (∀ (host : Host) (env : SearchEnv) (fuel : Nat) (params : SearchParams) (w : World)
        (o : SearchOutcome), params.mode ≠ SearchMode.ScreenSearch →
        UnifiedImageSearch_run host env fuel params w = some o → o.state.cache_hits = 0) ∧
      CheckApproxMatch_Scalar ⟨[sample_black, sample_white], 2, 1, false, true⟩
        ⟨[sample_white], 1, 1, false, true⟩ 1 0 false 255 = true ∧
      (UnifiedImageSearch_run sample_host sample_env 0 (in_image_params 255 1 1)
          (world_with_entry "s|a|255|0|1.0".toList 1 0)).map
          (observe "s|a|255|0|1.0".toList) =
        some ("\x7b1\x7d[0|0|1|1]".toList, 0, [⟨"a".toList, 1⟩], some (⟨0, 0⟩, 0)) ∧
      (UnifiedImageSearch_run sample_host sample_env 0 (in_image_params 255 1 1)
          sample_world).map (observe "s|a|255|0|1.0".toList) =
        some ("\x7b1\x7d[0|0|1|1]".toList, 0, [⟨"a".toList, 1⟩], some (⟨0, 0⟩, 0)) ∧
      ((UnifiedImageSearch_run sample_host sample_env 0 (in_image_params 255 1 1)
          sample_world).bind fun o1 =>
          (UnifiedImageSearch_run sample_host sample_env 0 (in_image_params 255 1 1)
            o1.state.world).map (observe "s|a|255|0|1.0".toList)) =
        some ("\x7b1\x7d[0|0|1|1]".toList, 0, [⟨"a".toList, 1⟩], some (⟨0, 0⟩, 0)) ∧
      (UnifiedImageSearch_run bitmap_host sample_env 0 (hbitmap_params 255 1 1)
          (world_with_entry "HBITMAP|HBITMAP|255|0|1.0".toList 1 0)).map
          (observe "HBITMAP|HBITMAP|255|0|1.0".toList) =
        some ("\x7b1\x7d[0|0|1|1]".toList, 0, [⟨"HBITMAP".toList, 1⟩], some (⟨0, 0⟩, 0)) ∧
      (UnifiedImageSearch_run sample_host sample_env 0 (screen_params 255 1 1)
          (world_with_entry "Screen|a|255|0|1.0".toList 1 0)).map
          (observe "Screen|a|255|0|1.0".toList) =
        some ("\x7b1\x7d[1|0|1|1]".toList, 1, [], some (⟨1, 0⟩, 0)) := by
  have h1 := search_context_eq (in_image_params 255 1 1) rfl rfl rfl
  have h2 := search_context_eq (hbitmap_params 255 1 1) rfl rfl rfl
  have h3 := search_context_eq (screen_params 255 1 1) rfl rfl rfl
  refine ⟨fun host env fuel params w o hmode h =>
    UnifiedImageSearch_no_hit_outside_screen host env fuel params w o hmode h, by decide,
    ?_, ?_, ?_, ?_, ?_⟩
  · simp only [UnifiedImageSearch_run, h1]
    decide
  · simp only [UnifiedImageSearch_run, h1]
    decide
  · simp only [UnifiedImageSearch_run, h1]
    decide
  · simp only [UnifiedImageSearch_run, h2]
    decide
  · simp only [UnifiedImageSearch_run, h3]
    decide

/-- Witness of C18: the image-in-image search with the cache holding the accepted position
(1, 0) returns and counts no cache hit. -/
theorem UnifiedImageSearch_cache_hit_only_in_screen_search_witness :
    ∃ o : SearchOutcome,
      UnifiedImageSearch_run sample_host sample_env 0 (in_image_params 255 1 1)
        (world_with_entry "s|a|255|0|1.0".toList 1 0) = some o ∧
      o.state.cache_hits = 0 := by
  have h1 := search_context_eq (in_image_params 255 1 1) rfl rfl rfl
  have hres : (UnifiedImageSearch_run sample_host sample_env 0 (in_image_params 255 1 1)
      (world_with_entry "s|a|255|0|1.0".toList 1 0)).isSome = true := by
    simp only [UnifiedImageSearch_run, h1]
    decide
  obtain ⟨o, ho⟩ := Option.isSome_iff_exists.1 hres
  exact ⟨o, ho,
    UnifiedImageSearch_cache_hit_only_in_screen_search.1 sample_host sample_env 0
      (in_image_params 255 1 1) (world_with_entry "s|a|255|0|1.0".toList 1 0) o (by decide)
      ho⟩

theorem entry_of_touch_key {V : Type} (k : WString) (l : List (WString × V)) :
    entry_of k (touch_key k l) = entry_of k l := by
  unfold touch_key
  cases hf : l.find? (fun item => item.1 == k) with
  | none => rfl
  | some item =>
    have hk : item.1 = k := by simpa using List.find?_some hf
    simp only [entry_of, hf, Option.map_some', List.find?_cons, hk, beq_self_eq_true]

theorem entry_of_without_key {V : Type} (k : WString) (l : List (WString × V)) :
    entry_of k (without_key k l) = none :=
  entry_of_not_mem _ k (not_mem_without_key k l)

theorem entry_of_put_key {V : Type} (limit : Nat) (k : WString) (e : V)
    (l : List (WString × V)) (h : 0 < limit) : entry_of k (put_key limit k e l) = some e :=
  (entry_of_head k e _ (put_key_head limit k e l h)).1

/-- The block that confirms a cached position, when the cache holds an entry for the key
at a position within the capture bounds and the source and the matcher rejects there: no
match, no hit, one miss more; the entry keeps its position and gets its miss counter
raised by one, or is removed when the counter reaches `CACHE_MISS_THRESHOLD`. -/
theorem cache_confirm_miss (host : Host) (params : SearchParams) (ctx : SearchContext)
    (Target : PixelBuffer) (source_file cache_key : WString) (st : SearchState)
    (e : CacheEntry) (huse : params.use_cache ≠ 0) (hkey : cache_key ≠ [])
    (hc : st.world.cache.Consistent)
    (hentry : entry_of cache_key st.world.cache.g_location_cache_lru = some e)
    (hcap : e.position.x ≥ ctx.capture_left ∧ e.position.y ≥ ctx.capture_top ∧
      e.position.x + Target.width ≤ ctx.capture_right ∧
      e.position.y + Target.height ≤ ctx.capture_bottom)
    (hsrc : e.position.x - ctx.search_offset_x ≥ 0 ∧ e.position.y - ctx.search_offset_y ≥ 0 ∧
      e.position.x - ctx.search_offset_x + Target.width ≤ ctx.Source.width ∧
      e.position.y - ctx.search_offset_y + Target.height ≤ ctx.Source.height)
    (hrej : PixelComparison.CheckApproxMatch_Scalar ctx.Source Target
      (e.position.x - ctx.search_offset_x) (e.position.y - ctx.search_offset_y)
      Target.has_alpha ctx.tolerance = false) :
    (cache_confirm host params ctx Target source_file cache_key st).1 = [] ∧
      (cache_confirm host params ctx Target source_file cache_key st).2.1 = false ∧
      (cache_confirm host params ctx Target source_file cache_key st).2.2.cache_hits =
        st.cache_hits ∧
      (cache_confirm host params ctx Target source_file cache_key st).2.2.cache_misses =
        st.cache_misses + 1 ∧
      (cache_confirm host params ctx Target source_file cache_key st).2.2.world.cache.Consistent ∧
      (e.miss_count + 1 < CACHE_MISS_THRESHOLD →
        entry_of cache_key (cache_confirm host params ctx Target source_file cache_key
          st).2.2.world.cache.g_location_cache_lru =
          some ⟨e.position, e.miss_count + 1, host.now⟩) ∧
      (e.miss_count + 1 ≥ CACHE_MISS_THRESHOLD →
        entry_of cache_key (cache_confirm host params ctx Target source_file cache_key
          st).2.2.world.cache.g_location_cache_lru = none) := by
  obtain ⟨g1, g2, g3⟩ := GetCachedLocation_spec st.world.cache cache_key host.now hc
  rw [hentry, Option.map_some'] at g1
  unfold cache_confirm
  rw [if_pos ⟨hkey, huse⟩]
  simp only [g1, CacheEntry.stamped]
  rw [if_pos hcap, if_pos hsrc, hrej]
  simp only [Bool.false_eq_true, if_false]
  by_cases hm : e.miss_count + 1 ≥ CACHE_MISS_THRESHOLD
  · rw [if_pos hm]
    unfold RemoveFromCache
    rw [if_neg hkey]
    simp only []
    obtain ⟨r1, r2⟩ := RemoveFromCache_locked_spec _ cache_key g3
    refine ⟨trivial, trivial, trivial, trivial, r2, fun h => absurd hm (by omega), fun _ => ?_⟩
    rw [r1]
    exact entry_of_without_key _ _
  · rw [if_neg hm]
    simp only []
    obtain ⟨u1, u2⟩ := UpdateCachedLocation_spec _ cache_key
      ⟨e.position, e.miss_count + 1, host.now⟩ g3
    refine ⟨trivial, trivial, trivial, trivial, u2, fun _ => ?_, fun h => absurd h hm⟩
    rw [u1]
    exact entry_of_put_key _ _ _ _ (by decide)

theorem GenerateCacheKey_ne_nil (host : Host) (primary_path secondary_path : WString)
    (tolerance : Int) (transparent : Bool) (scale : Rat) :
    GenerateCacheKey host primary_path secondary_path tolerance transparent scale ≠ [] := by
  unfold GenerateCacheKey
  intro h
  have := congrArg List.length h
  simp only [List.length_append, List.length_nil] at this
  have h1 : "|".toList.length = 1 := rfl
  omega

/-- The unscaled search of one target with the cache enabled, when the cache holds an
entry for the key of the search at a position within the capture bounds and the source,
the matcher rejects there and the full scan finds nothing: no match is reported, no hit
and one miss are counted, and the entry keeps its position and gets its miss counter
raised by one, or is removed when the counter reaches `CACHE_MISS_THRESHOLD`. -/
theorem search_unscaled_miss (host : Host) (env : SearchEnv) (params : SearchParams)
    (ctx : SearchContext) (Target : PixelBuffer) (source_file : WString) (st : SearchState)
    (e : CacheEntry) (huse : params.use_cache ≠ 0) (hfile : source_file ≠ [])
    (hc : st.world.cache.Consistent)
    (hentry : entry_of
      (GenerateCacheKey host ctx.Source_source source_file ctx.tolerance Target.has_alpha 1)
      st.world.cache.g_location_cache_lru = some e)
    (hcap : e.position.x ≥ ctx.capture_left ∧ e.position.y ≥ ctx.capture_top ∧
      e.position.x + Target.width ≤ ctx.capture_right ∧
      e.position.y + Target.height ≤ ctx.capture_bottom)
    (hsrc : e.position.x - ctx.search_offset_x ≥ 0 ∧ e.position.y - ctx.search_offset_y ≥ 0 ∧
      e.position.x - ctx.search_offset_x + Target.width ≤ ctx.Source.width ∧
      e.position.y - ctx.search_offset_y + Target.height ≤ ctx.Source.height)
    (hrej : PixelComparison.CheckApproxMatch_Scalar ctx.Source Target
      (e.position.x - ctx.search_offset_x) (e.position.y - ctx.search_offset_y)
      Target.has_alpha ctx.tolerance = false)
    (hscan : SearchForBitmap env ctx.Source Target ctx.search_offset_x ctx.search_offset_y
      ctx.tolerance Target.has_alpha ctx.find_all 1 (String.mk source_file) = []) :
    (search_unscaled host env params ctx Target source_file st).1 = [] ∧
      (search_unscaled host env params ctx Target source_file st).2.cache_hits =
        st.cache_hits ∧
      (search_unscaled host env params ctx Target source_file st).2.cache_misses =
        st.cache_misses + 1 ∧
      (search_unscaled host env params ctx Target source_file st).2.world.cache.Consistent ∧
      (e.miss_count + 1 < CACHE_MISS_THRESHOLD →
        entry_of
          (GenerateCacheKey host ctx.Source_source source_file ctx.tolerance Target.has_alpha 1)
          (search_unscaled host env params ctx Target source_file
            st).2.world.cache.g_location_cache_lru =
          some ⟨e.position, e.miss_count + 1, host.now⟩) ∧
      (e.miss_count + 1 ≥ CACHE_MISS_THRESHOLD →
        entry_of
          (GenerateCacheKey host ctx.Source_source source_file ctx.tolerance Target.has_alpha 1)
          (search_unscaled host env params ctx Target source_file
            st).2.world.cache.g_location_cache_lru = none) := by
  obtain ⟨g1, g2, g3⟩ := GetCachedLocation_spec st.world.cache
    (GenerateCacheKey host ctx.Source_source source_file ctx.tolerance Target.has_alpha 1)
    host.now hc
  rw [hentry, Option.map_some'] at g1
  have hp : cache_preload host params ctx Target source_file st.world =
      (GenerateCacheKey host ctx.Source_source source_file ctx.tolerance Target.has_alpha 1,
        ⟨(GetCachedLocation st.world.cache
          (GenerateCacheKey host ctx.Source_source source_file ctx.tolerance Target.has_alpha 1)
          host.now).2, st.world.files, st.world.disk_log⟩) := by
    unfold cache_preload
    rw [if_pos ⟨hfile, huse⟩]
    simp only [g1, Option.isSome_some, if_true]
  have hentry1 : entry_of
      (GenerateCacheKey host ctx.Source_source source_file ctx.tolerance Target.has_alpha 1)
      (GetCachedLocation st.world.cache
        (GenerateCacheKey host ctx.Source_source source_file ctx.tolerance Target.has_alpha 1)
        host.now).2.g_location_cache_lru = some e := by
    rw [g2, entry_of_touch_key, hentry]
  obtain ⟨c1, c2, c3, c4, c5, c6, c7⟩ := cache_confirm_miss host params ctx Target source_file
    (GenerateCacheKey host ctx.Source_source source_file ctx.tolerance Target.has_alpha 1)
    ⟨⟨(GetCachedLocation st.world.cache
          (GenerateCacheKey host ctx.Source_source source_file ctx.tolerance Target.has_alpha 1)
          host.now).2, st.world.files, st.world.disk_log⟩,
      st.cache_hits, st.cache_misses, st.backend_used, st.full_scans⟩
    e huse (GenerateCacheKey_ne_nil _ _ _ _ _ _) g3 hentry1 hcap hsrc hrej
  unfold search_unscaled
  simp only [hp]
  unfold full_search
  rw [c1, c2]
  simp only [Bool.not_false, Bool.true_or, if_true, hscan]
  exact ⟨trivial, c3, c4, c5, c6, c7⟩

/-- The loop over the targets with one valid target and scale range 1.0 to 1.0: its
outcome is that of the unscaled search of the target. -/
theorem target_loop_one (host : Host) (env : SearchEnv) (fuel : Nat)
    (params : SearchParams) (ctx : SearchContext) (target_files : List WString)
    (Target : PixelBuffer) (i : Nat) (st : SearchState) (hv : Target.IsValid = true)
    (hskip : ctx.skip_scaling = true) :
    target_loop host env fuel params ctx target_files [some Target] i st =
      some (search_unscaled host env params ctx Target
        (if i < target_files.length then target_files.getD i [] else []) st) := by
  unfold target_loop
  simp only []
  rw [if_neg (by simp [hv])]
  simp only [search_target, if_pos hskip]
  by_cases hne : (search_unscaled host env params ctx Target
      (if i < target_files.length then target_files.getD i [] else []) st).1 ≠ []
  · rw [if_pos hne]
    by_cases hfa : ctx.find_all = true
    · rw [if_neg (by simp [hfa])]
      simp only [target_loop, Option.map_some', List.append_nil]
    · rw [if_pos (by simpa using hfa)]
  · rw [if_neg hne]
    simp only [target_loop, Option.some.injEq]
    have hnil := not_not.1 hne
    exact Prod.ext hnil.symm rfl

/-- A call of `UnifiedImageSearch` for a single target file that loads as a valid target,
with a valid source and scale range 1.0 to 1.0, not in HBITMAP mode: the call returns, and
the matches assembled and the state left are those of the unscaled search of the
target. -/
theorem UnifiedImageSearch_run_single (host : Host) (env : SearchEnv) (fuel : Nat)
    (params : SearchParams) (w : World) (info : SourceInfo) (Source Target : PixelBuffer)
    (file : WString) (hacq : acquire_source host params = Except.ok info)
    (hsrc : info.Source_opt = some Source) (hvalid : Source.IsValid = true)
    (htf : target_files_of params = [file])
    (hmode : params.mode ≠ SearchMode.HBitmapSearch)
    (hload : host.LoadImageFromFile_GDI file = some Target) (htv : Target.IsValid = true)
    (hmin : params.min_scale = 1) (hmax : params.max_scale = 1) :
    ∃ o : SearchOutcome,
      UnifiedImageSearch_run host env fuel params w = some o ∧
      o.all_matches = (search_unscaled host env params (search_context params info Source)
        Target file ⟨w, 0, 0, [], []⟩).1 ∧
      o.state = (search_unscaled host env params (search_context params info Source)
        Target file ⟨w, 0, 0, [], []⟩).2 := by
  have hskip := search_context_unit_scale params info Source hmin hmax
  have hfut : load_futures host params [file] = [some Target] := by
    unfold load_futures
    cases hm : params.mode with
    | HBitmapSearch => exact absurd hm hmode
    | ScreenSearch =>
      simp only []
      rw [if_neg (by simp)]
      simp [hload]
    | SearchImageInImage =>
      simp only []
      rw [if_neg (by simp)]
      simp [hload]
  have hloop := target_loop_one host env fuel params (search_context params info Source)
    [file] Target 0 ⟨w, 0, 0, [], []⟩ htv hskip
  have hfile : (if 0 < [file].length then [file].getD 0 [] else []) = file := by simp
  rw [hfile] at hloop
  unfold UnifiedImageSearch_run
  simp only [hacq, hsrc, Option.filter, hvalid, if_true, htf, hfut, hloop]
  simp only [List.cons_ne_nil, if_false, reduceCtorEq]
  exact ⟨_, rfl, rfl, rfl⟩

theorem split_target_files_ne_nil (fuel : Nat) (all_files : WString) :
    ∀ f ∈ split_target_files fuel all_files, f ≠ [] := by
  induction fuel generalizing all_files with
  | zero => intro f hf; simp [split_target_files] at hf
  | succ n ih =>
    intro f hf
    unfold split_target_files at hf
    by_cases h0 : all_files = []
    · rw [if_pos h0] at hf; exact absurd hf (List.not_mem_nil _)
    · rw [if_neg h0] at hf
      simp only [] at hf
      have hpiece : ∀ g ∈ (if all_files.takeWhile (fun c => c != '|') ≠ [] then
          [all_files.takeWhile fun c => c != '|'] else []), g ≠ [] := by
        intro g hg
        by_cases h1 : all_files.takeWhile (fun c => c != '|') ≠ []
        · rw [if_pos h1, List.mem_singleton] at hg
          rw [hg]; exact h1
        · rw [if_neg h1] at hg; exact absurd hg (List.not_mem_nil _)
      split at hf
      · exact hpiece f hf
      · rw [List.mem_append] at hf
        rcases hf with hf | hf
        · exact hpiece f hf
        · exact ih _ f hf

theorem target_files_of_ne_nil (params : SearchParams) :
    ∀ f ∈ target_files_of params, f ≠ [] := by
  unfold target_files_of
  cases params.mode with
  | HBitmapSearch =>
    intro f hf
    simp only [List.mem_singleton] at hf
    rw [hf]; decide
  | ScreenSearch =>
    simp only []
    split
    · exact split_target_files_ne_nil _ _
    · intro f hf; exact absurd hf (List.not_mem_nil _)
  | SearchImageInImage =>
    simp only []
    split
    · exact split_target_files_ne_nil _ _
    · intro f hf; exact absurd hf (List.not_mem_nil _)

/-- C17, amended claim. A search for a single target file that loads as a valid target,
with a valid source, scale range 1.0 to 1.0 and the cache enabled, not in HBITMAP mode,
started from a consistent location cache that holds for the key of the search an entry
with miss counter 0 at a position within the capture bounds and the source, where the
matcher rejects at the cached position and the full scan of the source finds no match:
three such searches in a row return; after the first the entry is present with its
position and miss counter 1, after the second with miss counter 2, and after the third
the key is absent from the cache, so that a lookup returns nothing. Each search reports no
match and counts one cache miss. -/
theorem UnifiedImageSearch_three_misses (host : Host) (env : SearchEnv) (fuel : Nat)
    (params : SearchParams) (w : World) (info : SourceInfo) (Source Target : PixelBuffer)
    (file : WString) (e : CacheEntry)
    (hacq : acquire_source host params = Except.ok info)
    (hsrc : info.Source_opt = some Source) (hvalid : Source.IsValid = true)
    (htf : target_files_of params = [file])
    (hmode : params.mode ≠ SearchMode.HBitmapSearch)
    (hload : host.LoadImageFromFile_GDI file = some Target) (htv : Target.IsValid = true)
    (hmin : params.min_scale = 1) (hmax : params.max_scale = 1)
    (huse : params.use_cache ≠ 0) (hc : w.cache.Consistent)
    (hentry : entry_of
      (GenerateCacheKey host info.Source_source file (clamp params.tolerance 0 255)
        Target.has_alpha 1) w.cache.g_location_cache_lru = some e)
    (hmiss : e.miss_count = 0)
    (hcap : e.position.x ≥ info.capture_left ∧ e.position.y ≥ info.capture_top ∧
      e.position.x + Target.width ≤ info.capture_right ∧
      e.position.y + Target.height ≤ info.capture_bottom)
    (hin : e.position.x - info.search_offset_x ≥ 0 ∧
      e.position.y - info.search_offset_y ≥ 0 ∧
      e.position.x - info.search_offset_x + Target.width ≤ Source.width ∧
      e.position.y - info.search_offset_y + Target.height ≤ Source.height)
    (hrej : CheckApproxMatch_Scalar Source Target (e.position.x - info.search_offset_x)
      (e.position.y - info.search_offset_y) Target.has_alpha
      (clamp params.tolerance 0 255) = false)
    (hscan : SearchForBitmap env Source Target info.search_offset_x info.search_offset_y
      (clamp params.tolerance 0 255) Target.has_alpha (decide (params.max_results ≥ 2)) 1
      (String.mk file) = []) :
    ∃ o1 o2 o3 : SearchOutcome,
      UnifiedImageSearch_run host env fuel params w = some o1 ∧
      UnifiedImageSearch_run host env fuel params o1.state.world = some o2 ∧
      UnifiedImageSearch_run host env fuel params o2.state.world = some o3 ∧
      (o1.all_matches = [] ∧ o2.all_matches = [] ∧ o3.all_matches = []) ∧
      (o1.state.cache_misses = 1 ∧ o2.state.cache_misses = 1 ∧ o3.state.cache_misses = 1) ∧
      entry_of
          (GenerateCacheKey host info.Source_source file (clamp params.tolerance 0 255)
            Target.has_alpha 1) o1.state.world.cache.g_location_cache_lru =
        some ⟨e.position, 1, host.now⟩ ∧
      entry_of
          (GenerateCacheKey host info.Source_source file (clamp params.tolerance 0 255)
            Target.has_alpha 1) o2.state.world.cache.g_location_cache_lru =
        some ⟨e.position, 2, host.now⟩ ∧
      entry_of
          (GenerateCacheKey host info.Source_source file (clamp params.tolerance 0 255)
            Target.has_alpha 1) o3.state.world.cache.g_location_cache_lru = none ∧
      (GetCachedLocation o3.state.world.cache
          (GenerateCacheKey host info.Source_source file (clamp params.tolerance 0 255)
            Target.has_alpha 1) host.now).1 = none := by
  have hfile : file ≠ [] :=
    target_files_of_ne_nil params file (by rw [htf]; exact List.mem_singleton_self _)
  have step : ∀ (w1 : World) (e1 : CacheEntry), w1.cache.Consistent →
      entry_of
        (GenerateCacheKey host info.Source_source file (clamp params.tolerance 0 255)
          Target.has_alpha 1) w1.cache.g_location_cache_lru = some e1 →
      e1.position = e.position →
      ∃ o : SearchOutcome,
        UnifiedImageSearch_run host env fuel params w1 = some o ∧ o.all_matches = [] ∧
        o.state.cache_misses = 1 ∧ o.state.world.cache.Consistent ∧
        (e1.miss_count + 1 < CACHE_MISS_THRESHOLD →
          entry_of
            (GenerateCacheKey host info.Source_source file (clamp params.tolerance 0 255)
              Target.has_alpha 1) o.state.world.cache.g_location_cache_lru =
            some ⟨e.position, e1.miss_count + 1, host.now⟩) ∧
        (e1.miss_count + 1 ≥ CACHE_MISS_THRESHOLD →
          entry_of
            (GenerateCacheKey host info.Source_source file (clamp params.tolerance 0 255)
              Target.has_alpha 1) o.state.world.cache.g_location_cache_lru = none) := by
    intro w1 e1 hc1 hentry1 hpos
    obtain ⟨o, ho, hm, hs⟩ := UnifiedImageSearch_run_single host env fuel params w1 info
      Source Target file hacq hsrc hvalid htf hmode hload htv hmin hmax
    obtain ⟨m1, -, m3, m4, m5, m6⟩ := search_unscaled_miss host env params
      (search_context params info Source) Target file ⟨w1, 0, 0, [], []⟩ e1 huse hfile hc1
      hentry1 (by rw [hpos]; exact hcap) (by rw [hpos]; exact hin) (by rw [hpos]; exact hrej)
      hscan
    rw [← hs] at m3 m4 m5 m6
    rw [← hm] at m1
    rw [hpos] at m5
    exact ⟨o, ho, m1, m3, m4, m5, m6⟩
  obtain ⟨o1, r1, a1, b1, c1, d1, -⟩ := step w e hc hentry rfl
  have d1 : entry_of
      (GenerateCacheKey host info.Source_source file (clamp params.tolerance 0 255)
        Target.has_alpha 1) o1.state.world.cache.g_location_cache_lru =
      some ⟨e.position, 1, host.now⟩ := by
    have := d1 (by rw [hmiss]; decide)
    rw [hmiss] at this
    exact this
  obtain ⟨o2, r2, a2, b2, c2, d2, -⟩ := step o1.state.world ⟨e.position, 1, host.now⟩ c1 d1 rfl
  have d2 : entry_of
      (GenerateCacheKey host info.Source_source file (clamp params.tolerance 0 255)
        Target.has_alpha 1) o2.state.world.cache.g_location_cache_lru =
      some ⟨e.position, 2, host.now⟩ :=
    d2 (show (1 : Int) + 1 < 3 by decide)
  obtain ⟨o3, r3, a3, b3, c3, -, d3⟩ := step o2.state.world ⟨e.position, 2, host.now⟩ c2 d2 rfl
  have d3 := d3 (show (2 : Int) + 1 ≥ 3 by decide)
  refine ⟨o1, o2, o3, r1, r2, r3, ⟨a1, a2, a3⟩, ⟨b1, b2, b3⟩, d1, d2, d3, ?_⟩
  rw [(GetCachedLocation_spec _ _ host.now c3).1, d3]
  rfl

/-- C17, evaluation of the code where it departs from the claim. Screen searches in the
region (0, 0)-(2, 1) of monitor 1 for the one-pixel white target `a` at tolerance 0 with
the cache enabled, first match only, started
with the cache holding the position (0, 0) with miss counter 0 for the key of the search.
First search, screen black then white: the confirmation at (0, 0) fails (one miss), the
full scan finds (1, 0) and stores it with miss counter 0. Second search, screen white then
black: the confirmation at (1, 0) fails, the scan finds (0, 0) and stores it. Third search,
screen black then white again: the confirmation at (0, 0) fails, the scan finds (1, 0).
After three searches in a row whose confirmation failed the key is still in the cache, at
(1, 0) with miss counter 0. -/
theorem UnifiedImageSearch_three_misses_key_present :
    (UnifiedImageSearch_run sample_host sample_env 0 (screen_params 0 1 1)
        (world_with_entry "Screen|a|0|0|1.0".toList 0 0)).map
        (observe_cache "Screen|a|0|0|1.0".toList) =
      some ("\x7b1\x7d[1|0|1|1]".toList, 0, 1, some (⟨1, 0⟩, 0)) ∧
    ((UnifiedImageSearch_run sample_host sample_env 0 (screen_params 0 1 1)
        (world_with_entry "Screen|a|0|0|1.0".toList 0 0)).bind fun o1 =>
        (UnifiedImageSearch_run flipped_host sample_env 0 (screen_params 0 1 1)
          o1.state.world).map (observe_cache "Screen|a|0|0|1.0".toList)) =
      some ("\x7b1\x7d[0|0|1|1]".toList, 0, 1, some (⟨0, 0⟩, 0)) ∧
    ((UnifiedImageSearch_run sample_host sample_env 0 (screen_params 0 1 1)
        (world_with_entry "Screen|a|0|0|1.0".toList 0 0)).bind fun o1 =>
        (UnifiedImageSearch_run flipped_host sample_env 0 (screen_params 0 1 1)
          o1.state.world).bind fun o2 =>
          (UnifiedImageSearch_run sample_host sample_env 0 (screen_params 0 1 1)
            o2.state.world).map (observe_cache "Screen|a|0|0|1.0".toList)) =
      some ("\x7b1\x7d[1|0|1|1]".toList, 0, 1, some (⟨1, 0⟩, 0)) := by
  have hctx := search_context_eq (screen_params 0 1 1) rfl rfl rfl
  refine ⟨?_, ?_, ?_⟩
  · simp only [UnifiedImageSearch_run, sample_host_source, flipped_host_source, hctx]
    decide
  · simp only [UnifiedImageSearch_run, sample_host_source, flipped_host_source, hctx]
    decide
  · simp only [UnifiedImageSearch_run, sample_host_source, flipped_host_source, hctx]
    decide

/-- Witness of the amended C17: three screen searches in the region (0, 0)-(2, 1) of
monitor 1 for the white target `a` on a screen that is black all over, started with the cache holding (0, 0) with miss counter 0: the entry
has miss counter 1 after the first, 2 after the second, and is gone after the third. -/
theorem UnifiedImageSearch_three_misses_witness :
    ∃ o1 o2 o3 : SearchOutcome,
      UnifiedImageSearch_run dark_host sample_env 0 (screen_params 0 1 1)
        (world_with_entry "Screen|a|0|0|1.0".toList 0 0) = some o1 ∧
      UnifiedImageSearch_run dark_host sample_env 0 (screen_params 0 1 1) o1.state.world =
        some o2 ∧
      UnifiedImageSearch_run dark_host sample_env 0 (screen_params 0 1 1) o2.state.world =
        some o3 ∧
      entry_of (GenerateCacheKey dark_host "Screen".toList "a".toList 0 false 1)
          o1.state.world.cache.g_location_cache_lru = some ⟨⟨0, 0⟩, 1, 0⟩ ∧
      entry_of (GenerateCacheKey dark_host "Screen".toList "a".toList 0 false 1)
          o2.state.world.cache.g_location_cache_lru = some ⟨⟨0, 0⟩, 2, 0⟩ ∧
      entry_of (GenerateCacheKey dark_host "Screen".toList "a".toList 0 false 1)
          o3.state.world.cache.g_location_cache_lru = none := by
  obtain ⟨o1, o2, o3, r1, r2, r3, -, -, d1, d2, d3, -⟩ :=
    UnifiedImageSearch_three_misses dark_host sample_env 0 (screen_params 0 1 1)
      (world_with_entry "Screen|a|0|0|1.0".toList 0 0)
      ⟨some ⟨[sample_black, sample_black], 2, 1, false, true⟩, "Screen".toList, 0, 0, 0, 0, 2,
        1, 2, 1⟩
      ⟨[sample_black, sample_black], 2, 1, false, true⟩ ⟨[sample_white], 1, 1, false, true⟩
      "a".toList ⟨⟨0, 0⟩, 0, 0⟩ rfl rfl (by decide) (by decide) (by decide) (by decide)
      (by decide) rfl rfl (by decide)
      (UpdateCachedLocation_spec LocationCache.empty _ _ LocationCache_empty_consistent).2
      (by decide) rfl (by decide) (by decide) (by decide) (by decide)
  exact ⟨o1, o2, o3, r1, r2, r3, d1, d2, d3⟩

/-! ### The pool of pixel arrays -/

theorem bucket_of_cons (a : Nat × List ColorVector) (rest : List (Nat × List ColorVector))
    (k : Nat) : bucket_of (a :: rest) k = if a.1 = k then a.2 else bucket_of rest k := by
  unfold bucket_of
  by_cases h : a.1 = k
  · rw [if_pos h, List.find?_cons_of_pos _ (by simpa using h)]
    rfl
  · rw [if_neg h, List.find?_cons_of_neg _ (by simpa using h)]

theorem bucket_of_not_mem (m : List (Nat × List ColorVector)) (k : Nat)
    (h : k ∉ m.map Prod.fst) : bucket_of m k = [] := by
  induction m with
  | nil => rfl
  | cons a rest ih =>
    rw [List.map_cons, List.mem_cons, not_or] at h
    rw [bucket_of_cons, if_neg (fun hh => h.1 hh.symm), ih h.2]

theorem any_key_iff (m : List (Nat × List ColorVector)) (key : Nat) :
    (m.any fun kv => kv.1 == key) = true ↔ key ∈ m.map Prod.fst := by
  simp only [List.any_eq_true, beq_iff_eq, List.mem_map]

theorem map_replace_of_not_mem (m : List (Nat × List ColorVector)) (key : Nat)
    (bucket : List ColorVector) (h : key ∉ m.map Prod.fst) :
    (m.map fun kv => if kv.1 = key then (key, bucket) else kv) = m := by
  induction m with
  | nil => rfl
  | cons a rest ih =>
    rw [List.map_cons, List.mem_cons, not_or] at h
    rw [List.map_cons, ih h.2, if_neg (fun hh => h.1 hh.symm)]

theorem bucket_of_map_replace (m : List (Nat × List ColorVector)) (key : Nat)
    (bucket : List ColorVector) (k : Nat) (hmem : key ∈ m.map Prod.fst) :
    bucket_of (m.map fun kv => if kv.1 = key then (key, bucket) else kv) k =
      if k = key then bucket else bucket_of m k := by
  induction m with
  | nil => simp at hmem
  | cons a rest ih =>
    rw [List.map_cons, bucket_of_cons, bucket_of_cons]
    by_cases ha : a.1 = key
    · simp only [if_pos ha]
      by_cases hk : k = key
      · rw [if_pos hk.symm, if_pos hk]
      · rw [if_neg (fun h => hk h.symm), if_neg hk, if_neg (fun h => hk (by rw [← h, ha]))]
        by_cases hrest : key ∈ rest.map Prod.fst
        · rw [ih hrest, if_neg hk]
        · rw [map_replace_of_not_mem rest key bucket hrest]
    · simp only [if_neg ha]
      have hrest : key ∈ rest.map Prod.fst := by
        rw [List.map_cons, List.mem_cons] at hmem
        rcases hmem with h | h
        · exact absurd h.symm ha
        · exact h
      by_cases hak : a.1 = k
      · have hk : ¬ k = key := fun h => ha (by rw [hak, h])
        simp only [if_pos hak, if_neg hk]
      · simp only [if_neg hak, ih hrest]

theorem bucket_of_append_new (m : List (Nat × List ColorVector)) (key : Nat)
    (bucket : List ColorVector) (k : Nat) (hmem : key ∉ m.map Prod.fst) :
    bucket_of (m ++ [(key, bucket)]) k = if k = key then bucket else bucket_of m k := by
  induction m with
  | nil =>
    rw [List.nil_append, bucket_of_cons]
    by_cases hk : k = key
    · rw [if_pos hk.symm, if_pos hk]
    · rw [if_neg (fun h => hk h.symm), if_neg hk]
  | cons a rest ih =>
    rw [List.map_cons, List.mem_cons, not_or] at hmem
    rw [List.cons_append, bucket_of_cons, bucket_of_cons, ih hmem.2]
    by_cases hak : a.1 = k
    · rw [if_pos hak, if_pos hak, if_neg (fun h => hmem.1 (by rw [← h, hak]))]
    · rw [if_neg hak, if_neg hak]

/-- The bucket of each key after an assignment to `size_buckets[key]`. -/
theorem bucket_of_set_bucket (m : List (Nat × List ColorVector)) (key : Nat)
    (bucket : List ColorVector) (k : Nat) :
    bucket_of (set_bucket m key bucket) k = if k = key then bucket else bucket_of m k := by
  unfold set_bucket
  by_cases hany : (m.any fun kv => kv.1 == key) = true
  · rw [if_pos hany]
    exact bucket_of_map_replace m key bucket k ((any_key_iff m key).1 hany)
  · rw [if_neg hany]
    exact bucket_of_append_new m key bucket k (fun h => hany ((any_key_iff m key).2 h))

theorem sum_map_replace (m : List (Nat × List ColorVector)) (key : Nat)
    (bucket : List ColorVector) (hnd : (m.map Prod.fst).Nodup) (hmem : key ∈ m.map Prod.fst) :
    ((m.map fun kv => if kv.1 = key then (key, bucket) else kv).map fun kv => kv.2.length).sum +
        (bucket_of m key).length =
      (m.map fun kv => kv.2.length).sum + bucket.length ∧
    ((m.map fun kv => if kv.1 = key then (key, bucket) else kv).map Prod.fst) =
      m.map Prod.fst := by
  induction m with
  | nil => simp at hmem
  | cons a rest ih =>
    rw [List.map_cons, List.nodup_cons] at hnd
    by_cases ha : a.1 = key
    · have hrest : key ∉ rest.map Prod.fst := by rw [← ha]; exact hnd.1
      rw [List.map_cons, map_replace_of_not_mem rest key bucket hrest, if_pos ha,
        bucket_of_cons, if_pos ha]
      simp only [List.map_cons, List.sum_cons]
      exact ⟨by omega, by rw [ha]⟩
    · have hrest : key ∈ rest.map Prod.fst := by
        rw [List.map_cons, List.mem_cons] at hmem
        rcases hmem with h | h
        · exact absurd h.symm ha
        · exact h
      obtain ⟨i1, i2⟩ := ih hnd.2 hrest
      rw [List.map_cons, if_neg ha, bucket_of_cons, if_neg ha]
      simp only [List.map_cons, List.sum_cons]
      exact ⟨by omega, by rw [i2]⟩

/-- The count of pooled arrays and the keys after an assignment to `size_buckets[key]`, on
a map that holds no key twice. -/
theorem total_set_bucket (buffers : List ColorVector) (m : List (Nat × List ColorVector))
    (key : Nat) (bucket : List ColorVector) (hnd : (m.map Prod.fst).Nodup) :
    total_buffers ⟨buffers, set_bucket m key bucket⟩ + (bucket_of m key).length =
        total_buffers ⟨buffers, m⟩ + bucket.length ∧
      ((set_bucket m key bucket).map Prod.fst).Nodup := by
  unfold total_buffers set_bucket
  simp only []
  by_cases hany : (m.any fun kv => kv.1 == key) = true
  · rw [if_pos hany]
    obtain ⟨h1, h2⟩ := sum_map_replace m key bucket hnd ((any_key_iff m key).1 hany)
    exact ⟨by omega, by rw [h2]; exact hnd⟩
  · rw [if_neg hany]
    have hnot : key ∉ m.map Prod.fst := fun h => hany ((any_key_iff m key).2 h)
    rw [bucket_of_not_mem m key hnot]
    simp only [List.map_append, List.sum_append, List.map_cons, List.map_nil, List.sum_cons,
      List.sum_nil, List.length_nil]
    refine ⟨by omega, ?_⟩
    rw [List.nodup_append]
    refine ⟨hnd, List.nodup_singleton _, ?_⟩
    intro a ha hb
    rw [List.mem_singleton] at hb
    exact hnot (by rw [← hb]; exact ha)

theorem ColorVector_resize_length (buf : ColorVector) (size : Nat) :
    (buf.resize size).data.length = size := by
  unfold ColorVector.resize
  simp only [List.length_append, List.length_take, List.length_replicate]
  omega

theorem size_t_of_int_eq (v : Int) (h0 : 0 ≤ v) (h1 : v ≤ 2147483647) :
    size_t_of_int v = v.toNat ∧ (v % 4294967296).toNat = v.toNat := by
  unfold size_t_of_int
  rw [Int.emod_eq_of_lt h0 (by omega), Int.emod_eq_of_lt h0 (by omega)]
  exact ⟨rfl, rfl⟩

/-- What `Acquire` does, main build, on a map that holds no key twice: the array returned
has `size` elements and is the last array of the bucket of `size`, resized, when that
bucket is not empty; that bucket loses its last array, every other bucket and `buffers`
stay; the count of pooled arrays falls by one or stays. -/
theorem Acquire_spec (pool : PixelBufferPool) (size : Nat)
    (hnd : (pool.size_buckets.map Prod.fst).Nodup) :
    (pool.Acquire size).1.data.length = size ∧
      (pool.Acquire size).1 =
        (match (bucket_of pool.size_buckets (bucket_size_of size)).getLast? with
          | some buf => buf.resize size
          | none => ColorVector.zeros size) ∧
      (pool.Acquire size).2.buffers = pool.buffers ∧
      ((pool.Acquire size).2.size_buckets.map Prod.fst).Nodup ∧
      (∀ k, bucket_of (pool.Acquire size).2.size_buckets k =
        if k = bucket_size_of size then (bucket_of pool.size_buckets k).dropLast
        else bucket_of pool.size_buckets k) ∧
      total_buffers (pool.Acquire size).2 +
          (if bucket_of pool.size_buckets (bucket_size_of size) = [] then 0 else 1) =
        total_buffers pool := by
  unfold PixelBufferPool.Acquire
  simp only []
  cases hlast : (bucket_of pool.size_buckets (bucket_size_of size)).getLast? with
  | none =>
    have hnil : bucket_of pool.size_buckets (bucket_size_of size) = [] :=
      List.getLast?_eq_none_iff.1 hlast
    obtain ⟨t1, t2⟩ := total_set_bucket pool.buffers pool.size_buckets (bucket_size_of size)
      (bucket_of pool.size_buckets (bucket_size_of size)) hnd
    refine ⟨by simp [ColorVector.zeros], rfl, rfl, t2, ?_, ?_⟩
    · intro k
      simp only []
      rw [bucket_of_set_bucket]
      by_cases hk : k = bucket_size_of size
      · rw [if_pos hk, if_pos hk, hk, hnil]; rfl
      · rw [if_neg hk, if_neg hk]
    · rw [if_pos hnil]
      simp only []
      have : total_buffers pool = total_buffers ⟨pool.buffers, pool.size_buckets⟩ := rfl
      omega
  | some buf =>
    have hne : bucket_of pool.size_buckets (bucket_size_of size) ≠ [] := by
      intro h
      rw [h] at hlast
      exact absurd hlast (by simp)
    obtain ⟨t1, t2⟩ := total_set_bucket pool.buffers pool.size_buckets (bucket_size_of size)
      (bucket_of pool.size_buckets (bucket_size_of size)).dropLast hnd
    refine ⟨ColorVector_resize_length buf size, rfl, rfl, t2, ?_, ?_⟩
    · intro k
      simp only []
      rw [bucket_of_set_bucket]
      by_cases hk : k = bucket_size_of size
      · rw [if_pos hk, if_pos hk, hk]
      · rw [if_neg hk, if_neg hk]
    · rw [if_neg hne]
      simp only []
      have : total_buffers pool = total_buffers ⟨pool.buffers, pool.size_buckets⟩ := rfl
      have hl := List.length_dropLast (bucket_of pool.size_buckets (bucket_size_of size))
      have hpos := List.length_pos.2 hne
      omega

/-- The XP `Acquire` returns the array and leaves the buckets that the main `Acquire`
does. -/
theorem XP_Acquire_eq (pool : PixelBufferPool) (size : Nat) :
    (XP.PixelBufferPool.Acquire pool size).1 = (pool.Acquire size).1 ∧
      (XP.PixelBufferPool.Acquire pool size).2.buffers = pool.buffers ∧
      (∀ k, bucket_of (XP.PixelBufferPool.Acquire pool size).2.size_buckets k =
        bucket_of (pool.Acquire size).2.size_buckets k) ∧
      (((pool.size_buckets.map Prod.fst).Nodup) →
        ((XP.PixelBufferPool.Acquire pool size).2.size_buckets.map Prod.fst).Nodup ∧
        total_buffers (XP.PixelBufferPool.Acquire pool size).2 =
          total_buffers (pool.Acquire size).2) := by
  unfold XP.PixelBufferPool.Acquire PixelBufferPool.Acquire
  simp only []
  have hb : bucket_of pool.size_buckets (bucket_size_of size) =
      ((pool.size_buckets.find? fun kv => kv.1 == bucket_size_of size).map Prod.snd).getD [] :=
    rfl
  cases hf : pool.size_buckets.find? fun kv => kv.1 == bucket_size_of size with
  | none =>
    rw [hf] at hb
    have hnil : bucket_of pool.size_buckets (bucket_size_of size) = [] := hb
    rw [hnil]
    simp only [List.getLast?_nil]
    refine ⟨trivial, trivial, ?_, ?_⟩
    · intro k
      rw [bucket_of_set_bucket]
      by_cases hk : k = bucket_size_of size
      · rw [if_pos hk, hk, hnil]
      · rw [if_neg hk]
    · intro hnd
      obtain ⟨t1, t2⟩ := total_set_bucket pool.buffers pool.size_buckets
        (bucket_size_of size) [] hnd
      rw [hnil] at t1
      refine ⟨hnd, ?_⟩
      have : total_buffers pool = total_buffers ⟨pool.buffers, pool.size_buckets⟩ := rfl
      simp only [List.length_nil] at t1
      omega
  | some kv =>
    rw [hf] at hb
    have hkv : bucket_of pool.size_buckets (bucket_size_of size) = kv.2 := hb
    rw [hkv]
    simp only []
    cases hlast : kv.2.getLast? with
    | none =>
      have hnil : kv.2 = [] := List.getLast?_eq_none_iff.1 hlast
      refine ⟨rfl, rfl, ?_, ?_⟩
      · intro k
        simp only []
        rw [bucket_of_set_bucket]
        by_cases hk : k = bucket_size_of size
        · rw [if_pos hk, hk, hkv]
        · rw [if_neg hk]
      · intro hnd
        obtain ⟨t1, t2⟩ := total_set_bucket pool.buffers pool.size_buckets
          (bucket_size_of size) kv.2 hnd
        rw [hkv] at t1
        refine ⟨hnd, ?_⟩
        have : total_buffers pool = total_buffers ⟨pool.buffers, pool.size_buckets⟩ := rfl
        simp only []
        omega
    | some buf =>
      refine ⟨rfl, rfl, fun k => rfl, fun hnd => ⟨?_, rfl⟩⟩
      exact (total_set_bucket pool.buffers pool.size_buckets (bucket_size_of size)
        kv.2.dropLast hnd).2

/-- What `Release` does, main build, on a map that holds no key twice. -/
theorem Release_spec (B : Int) (pool : PixelBufferPool) (buffer : ColorVector)
    (h0 : 0 ≤ B) (h1 : B ≤ 2147483647) (hnd : (pool.size_buckets.map Prod.fst).Nodup) :
    ((pool.Release B buffer).size_buckets.map Prod.fst).Nodup ∧
      (pool.Release B buffer).buffers = pool.buffers ∧
      (buffer.data = [] ∨ total_buffers pool ≥ B.toNat → pool.Release B buffer = pool) ∧
      (buffer.data ≠ [] → total_buffers pool < B.toNat →
        total_buffers (pool.Release B buffer) = total_buffers pool + 1 ∧
        ∀ k, bucket_of (pool.Release B buffer).size_buckets k =
          if k = bucket_size_of buffer.capacity then bucket_of pool.size_buckets k ++ [buffer]
          else bucket_of pool.size_buckets k) := by
  unfold PixelBufferPool.Release
  rw [(size_t_of_int_eq B h0 h1).1]
  by_cases he : buffer.data = []
  · rw [if_pos he]
    exact ⟨hnd, rfl, fun _ => rfl, fun h => absurd he h⟩
  · rw [if_neg he]
    simp only []
    by_cases ht : total_buffers pool < B.toNat
    · rw [if_pos ht]
      obtain ⟨t1, t2⟩ := total_set_bucket pool.buffers pool.size_buckets
        (bucket_size_of buffer.capacity)
        (bucket_of pool.size_buckets (bucket_size_of buffer.capacity) ++ [buffer]) hnd
      refine ⟨t2, rfl, ?_, fun _ _ => ⟨?_, ?_⟩⟩
      · rintro (h | h)
        · exact absurd h he
        · omega
      · have : total_buffers pool = total_buffers ⟨pool.buffers, pool.size_buckets⟩ := rfl
        rw [List.length_append, List.length_singleton] at t1
        omega
      · intro k
        simp only []
        rw [bucket_of_set_bucket]
        by_cases hk : k = bucket_size_of buffer.capacity
        · rw [if_pos hk, if_pos hk, hk]
        · rw [if_neg hk, if_neg hk]
    · rw [if_neg ht]
      exact ⟨hnd, rfl, fun _ => rfl, fun _ h => absurd h ht⟩

/-- The XP `Release` leaves the pool that the main `Release` leaves. -/
theorem XP_Release_eq (B : Int) (pool : PixelBufferPool) (buffer : ColorVector)
    (h0 : 0 ≤ B) (h1 : B ≤ 2147483647) :
    XP.PixelBufferPool.Release B pool buffer = pool.Release B buffer := by
  unfold XP.PixelBufferPool.Release PixelBufferPool.Release
  rw [(size_t_of_int_eq B h0 h1).1, (size_t_of_int_eq B h0 h1).2]

theorem run_pool_invariant (B : Int) (h0 : 0 ≤ B) (h1 : B ≤ 2147483647)
    (calls : List PoolCall) (pool : PixelBufferPool)
    (hnd : (pool.size_buckets.map Prod.fst).Nodup) (hinit : total_buffers pool ≤ B.toNat) :
    ((run_pool B pool calls).size_buckets.map Prod.fst).Nodup ∧
      total_buffers (run_pool B pool calls) ≤ B.toNat := by
  induction calls generalizing pool with
  | nil => exact ⟨hnd, hinit⟩
  | cons call rest ih =>
    unfold run_pool
    rw [List.foldl_cons]
    cases call with
    | Acquire size =>
      obtain ⟨-, -, -, a4, -, a6⟩ := Acquire_spec pool size hnd
      refine ih (pool.Acquire size).2 a4 ?_
      split_ifs at a6 <;> omega
    | Release buffer =>
      obtain ⟨r1, -, r3, r4⟩ := Release_spec B pool buffer h0 h1 hnd
      refine ih _ r1 ?_
      by_cases hc : buffer.data ≠ [] ∧ total_buffers pool < B.toNat
      · have := (r4 hc.1 hc.2).1
        show total_buffers (pool.Release B buffer) ≤ B.toNat
        omega
      · have hsame : pool.Release B buffer = pool := by
          apply r3
          by_cases he : buffer.data = []
          · exact Or.inl he
          · exact Or.inr (not_lt.1 fun h => hc ⟨he, h⟩)
        show total_buffers (pool.Release B buffer) ≤ B.toNat
        rw [hsame]
        exact hinit

theorem XP_run_pool_invariant (B : Int) (h0 : 0 ≤ B) (h1 : B ≤ 2147483647)
    (calls : List PoolCall) (pool : PixelBufferPool)
    (hnd : (pool.size_buckets.map Prod.fst).Nodup) (hinit : total_buffers pool ≤ B.toNat) :
    ((XP.run_pool B pool calls).size_buckets.map Prod.fst).Nodup ∧
      total_buffers (XP.run_pool B pool calls) ≤ B.toNat := by
  induction calls generalizing pool with
  | nil => exact ⟨hnd, hinit⟩
  | cons call rest ih =>
    unfold XP.run_pool
    rw [List.foldl_cons]
    cases call with
    | Acquire size =>
      obtain ⟨-, -, -, -, -, a6⟩ := Acquire_spec pool size hnd
      obtain ⟨x1, x2⟩ := (XP_Acquire_eq pool size).2.2.2 hnd
      refine ih (XP.PixelBufferPool.Acquire pool size).2 x1 ?_
      split_ifs at a6 <;> omega
    | Release buffer =>
      have hx := XP_Release_eq B pool buffer h0 h1
      have hm := run_pool_invariant B h0 h1 [PoolCall.Release buffer] pool hnd hinit
      have hm2 : run_pool B pool [PoolCall.Release buffer] = pool.Release B buffer := rfl
      rw [hm2, ← hx] at hm
      exact ih _ hm.1 hm.2

/-- C21. Main build and XP build, for a bound `B` = `g_pixel_pool_size` that is a
non-negative `int` (the program only stores values from 50 to 100) and a pool whose map
holds no key twice and whose count of pooled arrays is at most `B` (such as the empty
pool): after every sequence of `Acquire` and `Release` calls the count of pooled arrays,
summed over `buffers` and all buckets, is at most `B`. `Release` of an empty array, or
when the count has reached `B`, changes nothing; otherwise it appends the array to the
bucket of its capacity rounded up to a multiple of 1024, leaves every other bucket as it
is, and raises the count by one. `Acquire(size)` returns an array of exactly `size`
elements, which is the last array of the bucket of `size` rounded up, resized, when that
bucket is not empty; it removes that array from that bucket and nothing else, so the
count falls by at most one. -/
theorem PixelBufferPool_total_bounded (B : Int) (h0 : 0 ≤ B) (h1 : B ≤ 2147483647)
    (pool : PixelBufferPool) (hnd : (pool.size_buckets.map Prod.fst).Nodup)
    (hinit : total_buffers pool ≤ B.toNat) (calls : List PoolCall) (size : Nat)
    (buffer : ColorVector) :
    (total_buffers (run_pool B pool calls) ≤ B.toNat ∧
      total_buffers (XP.run_pool B pool calls) ≤ B.toNat) ∧
    ((buffer.data = [] ∨ total_buffers pool ≥ B.toNat → pool.Release B buffer = pool) ∧
      (buffer.data ≠ [] → total_buffers pool < B.toNat →
        total_buffers (pool.Release B buffer) = total_buffers pool + 1 ∧
        (pool.Release B buffer).buffers = pool.buffers ∧
        ∀ k, bucket_of (pool.Release B buffer).size_buckets k =
          if k = (buffer.capacity + 1023) / 1024 * 1024 then
            bucket_of pool.size_buckets k ++ [buffer]
          else bucket_of pool.size_buckets k) ∧
      XP.PixelBufferPool.Release B pool buffer = pool.Release B buffer) ∧
    ((pool.Acquire size).1.data.length = size ∧
      (pool.Acquire size).1 =
        (match (bucket_of pool.size_buckets ((size + 1023) / 1024 * 1024)).getLast? with
          | some buf => buf.resize size
          | none => ColorVector.zeros size) ∧
      (pool.Acquire size).2.buffers = pool.buffers ∧
      (∀ k, bucket_of (pool.Acquire size).2.size_buckets k =
        if k = (size + 1023) / 1024 * 1024 then (bucket_of pool.size_buckets k).dropLast
        else bucket_of pool.size_buckets k) ∧
      total_buffers (pool.Acquire size).2 ≤ total_buffers pool ∧
      total_buffers pool ≤ total_buffers (pool.Acquire size).2 + 1 ∧
      (XP.PixelBufferPool.Acquire pool size).1 = (pool.Acquire size).1 ∧
      (XP.PixelBufferPool.Acquire pool size).2.buffers = pool.buffers ∧
      (∀ k, bucket_of (XP.PixelBufferPool.Acquire pool size).2.size_buckets k =
        bucket_of (pool.Acquire size).2.size_buckets k) ∧
      total_buffers (XP.PixelBufferPool.Acquire pool size).2 =
        total_buffers (pool.Acquire size).2) := by
  obtain ⟨a1, a2, a3, a4, a5, a6⟩ := Acquire_spec pool size hnd
  obtain ⟨r1, r2, r3, r4⟩ := Release_spec B pool buffer h0 h1 hnd
  obtain ⟨x1, x2, x3, x4⟩ := XP_Acquire_eq pool size
  refine ⟨⟨(run_pool_invariant B h0 h1 calls pool hnd hinit).2,
    (XP_run_pool_invariant B h0 h1 calls pool hnd hinit).2⟩,
    ⟨r3, fun he ht => ⟨(r4 he ht).1, r2, (r4 he ht).2⟩, XP_Release_eq B pool buffer h0 h1⟩,
    a1, a2, a3, a5, ?_, ?_, x1, x2, x3, (x4 hnd).2⟩
  · omega
  · split_ifs at a6 <;> omega

/-- Witness of C21: bound 2, from the empty pool; three arrays of length 1 are released,
then an array of 5 elements is acquired: the third release is discarded and the count of
pooled arrays stays within the bound. -/
theorem PixelBufferPool_total_bounded_witness :
    total_buffers (run_pool 2 PixelBufferPool.empty
        [PoolCall.Release ⟨[1], 1⟩, PoolCall.Release ⟨[2], 1⟩, PoolCall.Release ⟨[3], 1⟩,
          PoolCall.Acquire 5]) ≤ 2 ∧
      run_pool 2 PixelBufferPool.empty
        [PoolCall.Release ⟨[1], 1⟩, PoolCall.Release ⟨[2], 1⟩, PoolCall.Release ⟨[3], 1⟩,
          PoolCall.Acquire 5] = ⟨[], [(1024, [⟨[1], 1⟩])]⟩ ∧
      (PixelBufferPool.Acquire ⟨[], [(1024, [⟨[1], 1⟩, ⟨[2], 1⟩])]⟩ 5).1 =
        ⟨[2, 0, 0, 0, 0], 5⟩ :=
  ⟨(PixelBufferPool_total_bounded 2 (by decide) (by decide) PixelBufferPool.empty
      List.nodup_nil (by decide)
      [PoolCall.Release ⟨[1], 1⟩, PoolCall.Release ⟨[2], 1⟩, PoolCall.Release ⟨[3], 1⟩,
        PoolCall.Acquire 5] 0 ⟨[], 0⟩).1.1,
    by decide, by decide⟩

/-! ### The location cache during a search -/

theorem entry_of_eq_none {V : Type} (k : WString) (l : List (WString × V))
    (h : entry_of k l = none) : k ∉ l.map Prod.fst := by
  unfold entry_of at h
  rw [Option.map_eq_none', List.find?_eq_none] at h
  intro hk
  rw [List.mem_map] at hk
  obtain ⟨a, ha, hak⟩ := hk
  exact h a ha (by simpa using hak)

/-- On a consistent cache, the block of `LoadCacheForImage` that stores the entry read
from disk, run for a key that has no entry, does what `UpdateCachedLocation` does. -/
theorem LoadCacheForImage_locked_eq (c : LocationCache) (k : WString) (e : CacheEntry)
    (hc : c.Consistent) (habsent : k ∉ c.g_location_cache_lru.map Prod.fst) :
    LoadCacheForImage_locked c k e = UpdateCachedLocation c k e := by
  have hidx : c.g_location_cache_index k = none := by
    rw [hc.2.2 k]
    exact (find_key_none k _).2 habsent
  unfold LoadCacheForImage_locked UpdateCachedLocation
  rw [hidx]

/-- The cache after `LoadCacheForImage` is the cache before, or the cache before with the
entry read from disk stored by the locked block. -/
theorem LoadCacheForImage_cache (host : Host) (w : World) (k : WString) :
    (LoadCacheForImage host w k).cache = w.cache ∨
      ∃ e : CacheEntry,
        (LoadCacheForImage host w k).cache = LoadCacheForImage_locked w.cache k e := by
  unfold LoadCacheForImage
  simp only []
  split_ifs
  · exact Or.inl rfl
  · exact Or.inl rfl
  · exact Or.inl rfl
  · split
    · exact Or.inl rfl
    · split_ifs
      · split
        · exact Or.inl rfl
        · split
          · exact Or.inl rfl
          · split_ifs
            · exact Or.inr ⟨_, rfl⟩
            · exact Or.inl rfl
      · exact Or.inl rfl

/-- `LoadCacheForImage`, called for a key that has no entry, keeps the cache
consistent. -/
theorem LoadCacheForImage_consistent (host : Host) (w : World) (k : WString)
    (hc : w.cache.Consistent) (habsent : k ∉ w.cache.g_location_cache_lru.map Prod.fst) :
    (LoadCacheForImage host w k).cache.Consistent := by
  rcases LoadCacheForImage_cache host w k with h | ⟨e, h⟩
  · rw [h]; exact hc
  · rw [h, LoadCacheForImage_locked_eq _ _ _ hc habsent]
    exact (UpdateCachedLocation_spec _ _ _ hc).2

/-- The block that computes the cache key and loads its cache file keeps the cache
consistent. -/
theorem cache_preload_consistent (host : Host) (params : SearchParams) (ctx : SearchContext)
    (Target : PixelBuffer) (source_file : WString) (w : World) (hc : w.cache.Consistent) :
    (cache_preload host params ctx Target source_file w).2.cache.Consistent := by
  unfold cache_preload
  by_cases h : source_file ≠ [] ∧ params.use_cache ≠ 0
  · rw [if_pos h]
    simp only []
    obtain ⟨g1, g2, g3⟩ := GetCachedLocation_spec w.cache
      (GenerateCacheKey host ctx.Source_source source_file ctx.tolerance Target.has_alpha 1)
      host.now hc
    by_cases hs : (GetCachedLocation w.cache
        (GenerateCacheKey host ctx.Source_source source_file ctx.tolerance Target.has_alpha 1)
        host.now).1.isSome = true
    · rw [if_pos hs]
      exact g3
    · rw [if_neg hs]
      apply LoadCacheForImage_consistent _ _ _ g3
      rw [g1] at hs
      have hnone : entry_of
          (GenerateCacheKey host ctx.Source_source source_file ctx.tolerance
            Target.has_alpha 1) w.cache.g_location_cache_lru = none := by
        cases hent : entry_of
          (GenerateCacheKey host ctx.Source_source source_file ctx.tolerance
            Target.has_alpha 1) w.cache.g_location_cache_lru with
        | none => rfl
        | some e => rw [hent] at hs; exact absurd rfl hs
      have hnot := entry_of_eq_none _ _ hnone
      show _ ∉ (GetCachedLocation w.cache _ host.now).2.g_location_cache_lru.map Prod.fst
      rw [g2]
      unfold touch_key
      have hfind : w.cache.g_location_cache_lru.find? (fun item => item.1 ==
          GenerateCacheKey host ctx.Source_source source_file ctx.tolerance
            Target.has_alpha 1) = none := by
        unfold entry_of at hnone
        rwa [Option.map_eq_none'] at hnone
      rw [hfind]
      exact hnot
  · rw [if_neg h]
    exact hc

/-- The block that confirms a cached position keeps the cache consistent. -/
theorem cache_confirm_consistent (host : Host) (params : SearchParams) (ctx : SearchContext)
    (Target : PixelBuffer) (source_file cache_key : WString) (st : SearchState)
    (hc : st.world.cache.Consistent) :
    (cache_confirm host params ctx Target source_file cache_key st).2.2.world.cache.Consistent := by
  unfold cache_confirm
  by_cases h : cache_key ≠ [] ∧ params.use_cache ≠ 0
  · rw [if_pos h]
    simp only []
    obtain ⟨g1, g2, g3⟩ := GetCachedLocation_spec st.world.cache cache_key host.now hc
    cases hget : (GetCachedLocation st.world.cache cache_key host.now).1 with
    | none => exact g3
    | some cached_entry =>
      simp only []
      by_cases h1 : cached_entry.position.x ≥ ctx.capture_left ∧
          cached_entry.position.y ≥ ctx.capture_top ∧
          cached_entry.position.x + Target.width ≤ ctx.capture_right ∧
          cached_entry.position.y + Target.height ≤ ctx.capture_bottom
      · rw [if_pos h1]
        by_cases h2 : cached_entry.position.x - ctx.search_offset_x ≥ 0 ∧
            cached_entry.position.y - ctx.search_offset_y ≥ 0 ∧
            cached_entry.position.x - ctx.search_offset_x + Target.width ≤ ctx.Source.width ∧
            cached_entry.position.y - ctx.search_offset_y + Target.height ≤ ctx.Source.height
        · rw [if_pos h2]
          by_cases h3 : PixelComparison.CheckApproxMatch_Scalar ctx.Source Target
              (cached_entry.position.x - ctx.search_offset_x)
              (cached_entry.position.y - ctx.search_offset_y) Target.has_alpha
              ctx.tolerance = true
          · rw [if_pos h3]
            exact (UpdateCachedLocation_spec _ _ _ g3).2
          · rw [if_neg h3]
            simp only []
            by_cases h4 : cached_entry.miss_count + 1 ≥ CACHE_MISS_THRESHOLD
            · rw [if_pos h4]
              unfold RemoveFromCache
              rw [if_neg h.1]
              exact (RemoveFromCache_locked_spec _ _ g3).2
            · rw [if_neg h4]
              exact (UpdateCachedLocation_spec _ _ _ g3).2
        · rw [if_neg h2]
          exact g3
      · rw [if_neg h1]
        exact g3
  · rw [if_neg h]
    exact hc

theorem cache_preload_key (host : Host) (params : SearchParams) (ctx : SearchContext)
    (Target : PixelBuffer) (source_file : WString) (w : World)
    (huse : params.use_cache ≠ 0) (hfile : source_file ≠ []) :
    (cache_preload host params ctx Target source_file w).1 =
      GenerateCacheKey host ctx.Source_source source_file ctx.tolerance Target.has_alpha 1 := by
  unfold cache_preload
  rw [if_pos ⟨hfile, huse⟩]
  simp only []
  split_ifs <;> rfl

/-- The unscaled search of one target keeps the cache consistent. -/
theorem search_unscaled_consistent (host : Host) (env : SearchEnv) (params : SearchParams)
    (ctx : SearchContext) (Target : PixelBuffer) (source_file : WString) (st : SearchState)
    (hc : st.world.cache.Consistent) :
    (search_unscaled host env params ctx Target source_file st).2.world.cache.Consistent := by
  unfold search_unscaled
  simp only []
  have hp := cache_preload_consistent host params ctx Target source_file st.world hc
  have hcc := cache_confirm_consistent host params ctx Target source_file
    (cache_preload host params ctx Target source_file st.world).1
    ⟨(cache_preload host params ctx Target source_file st.world).2, st.cache_hits,
      st.cache_misses, st.backend_used, st.full_scans⟩ hp
  generalize cache_confirm host params ctx Target source_file
    (cache_preload host params ctx Target source_file st.world).1
    ⟨(cache_preload host params ctx Target source_file st.world).2, st.cache_hits,
      st.cache_misses, st.backend_used, st.full_scans⟩ = c at hcc ⊢
  generalize (cache_preload host params ctx Target source_file st.world).1 = key
  unfold full_search
  by_cases h1 : (!c.2.1 || ctx.find_all) = true
  · rw [if_pos h1]
    simp only []
    cases hs : SearchForBitmap env ctx.Source Target ctx.search_offset_x ctx.search_offset_y
        ctx.tolerance Target.has_alpha ctx.find_all 1 (String.mk source_file) with
    | nil => exact hcc
    | cons m0 rest =>
      simp only []
      by_cases h2 : params.use_cache ≠ 0 ∧ key ≠ []
      · rw [if_pos h2]
        unfold SaveCacheForImage
        simp only []
        split_ifs <;> exact (UpdateCachedLocation_spec _ _ _ hcc).2
      · rw [if_neg h2]
        exact hcc
  · rw [if_neg h1]
    exact hcc

/-- C22. For the search of one target at scale range 1.0 to 1.0 with the cache enabled,
started on a consistent location cache: whenever the full scan runs (the call of
`SearchForBitmap` is on the log) and returns a non-empty list with first match `m0`, the
location cache afterwards holds for the key of the target the entry with position
`(m0.x, m0.y)`, the reported top-left of that match, and miss counter 0, so that a lookup
of the key returns this position and counter; the last call passed to the disk writer is
`SaveCacheForImage` for that key with the same position, and when the cache-file mutex
exists and is locked the cache file of the key holds the text `x|y` of that position. -/
theorem full_scan_updates_cache (host : Host) (env : SearchEnv) (params : SearchParams)
    (ctx : SearchContext) (Target : PixelBuffer) (source_file : WString) (st : SearchState)
    (m0 : MatchResult) (rest : List MatchResult) (now : Nat)
    (huse : params.use_cache ≠ 0) (hfile : source_file ≠ [])
    (hc : st.world.cache.Consistent)
    (hscan : SearchForBitmap env ctx.Source Target ctx.search_offset_x ctx.search_offset_y
      ctx.tolerance Target.has_alpha ctx.find_all 1 (String.mk source_file) = m0 :: rest)
    (hran : (search_unscaled host env params ctx Target source_file st).2.full_scans =
      st.full_scans ++ [ScanCall.mk source_file 1]) :
    entry_of
        (GenerateCacheKey host ctx.Source_source source_file ctx.tolerance Target.has_alpha 1)
        (search_unscaled host env params ctx Target source_file
          st).2.world.cache.g_location_cache_lru =
      some ⟨⟨m0.x, m0.y⟩, 0, host.now⟩ ∧
    (GetCachedLocation
        (search_unscaled host env params ctx Target source_file st).2.world.cache
        (GenerateCacheKey host ctx.Source_source source_file ctx.tolerance Target.has_alpha 1)
        now).1 = some ⟨⟨m0.x, m0.y⟩, 0, now⟩ ∧
    (search_unscaled host env params ctx Target source_file st).2.world.disk_log.getLast? =
      some (DiskCall.SaveCacheForImage
        (GenerateCacheKey host ctx.Source_source source_file ctx.tolerance Target.has_alpha 1)
        ⟨m0.x, m0.y⟩) ∧
    (host.g_hCacheFileMutex = true → host.file_lock_IsLocked = true →
      (search_unscaled host env params ctx Target source_file st).2.world.files
          (host.GetCacheFileForImage
            (GenerateCacheKey host ctx.Source_source source_file ctx.tolerance
              Target.has_alpha 1)) =
        some (to_wstring m0.x ++ "|".toList ++ to_wstring m0.y)) := by
  have hcons := search_unscaled_consistent host env params ctx Target source_file st hc
  have hkey := cache_preload_key host params ctx Target source_file st.world huse hfile
  have hkne := GenerateCacheKey_ne_nil host ctx.Source_source source_file ctx.tolerance
    Target.has_alpha 1
  have hp := cache_preload_consistent host params ctx Target source_file st.world hc
  have hcc := cache_confirm_consistent host params ctx Target source_file
    (cache_preload host params ctx Target source_file st.world).1
    ⟨(cache_preload host params ctx Target source_file st.world).2, st.cache_hits,
      st.cache_misses, st.backend_used, st.full_scans⟩ hp
  have hsc := cache_confirm_scans host params ctx Target source_file
    (cache_preload host params ctx Target source_file st.world).1
    ⟨(cache_preload host params ctx Target source_file st.world).2, st.cache_hits,
      st.cache_misses, st.backend_used, st.full_scans⟩
  have hmain : entry_of
        (GenerateCacheKey host ctx.Source_source source_file ctx.tolerance Target.has_alpha 1)
        (search_unscaled host env params ctx Target source_file
          st).2.world.cache.g_location_cache_lru =
      some ⟨⟨m0.x, m0.y⟩, 0, host.now⟩ ∧
    (search_unscaled host env params ctx Target source_file st).2.world.disk_log.getLast? =
      some (DiskCall.SaveCacheForImage
        (GenerateCacheKey host ctx.Source_source source_file ctx.tolerance Target.has_alpha 1)
        ⟨m0.x, m0.y⟩) ∧
    (host.g_hCacheFileMutex = true → host.file_lock_IsLocked = true →
      (search_unscaled host env params ctx Target source_file st).2.world.files
          (host.GetCacheFileForImage
            (GenerateCacheKey host ctx.Source_source source_file ctx.tolerance
              Target.has_alpha 1)) =
        some (to_wstring m0.x ++ "|".toList ++ to_wstring m0.y)) := by
    unfold search_unscaled at hran ⊢
    simp only [] at hran ⊢
    unfold full_search at hran ⊢
    rw [hkey] at hran hcc hsc ⊢
    by_cases hrun : (!(cache_confirm host params ctx Target source_file
        (GenerateCacheKey host ctx.Source_source source_file ctx.tolerance Target.has_alpha 1)
        ⟨(cache_preload host params ctx Target source_file st.world).2, st.cache_hits,
          st.cache_misses, st.backend_used, st.full_scans⟩).2.1 || ctx.find_all) = true
    · rw [if_pos hrun]
      simp only [hscan]
      rw [if_pos ⟨huse, hkne⟩]
      unfold SaveCacheForImage
      simp only []
      rw [if_neg hkne]
      have hentry := entry_of_put_key MAX_CACHED_LOCATIONS
        (GenerateCacheKey host ctx.Source_source source_file ctx.tolerance Target.has_alpha 1)
        (⟨⟨m0.x, m0.y⟩, 0, host.now⟩ : CacheEntry)
        (cache_confirm host params ctx Target source_file
          (GenerateCacheKey host ctx.Source_source source_file ctx.tolerance
            Target.has_alpha 1)
          ⟨(cache_preload host params ctx Target source_file st.world).2, st.cache_hits,
            st.cache_misses, st.backend_used, st.full_scans⟩).2.2.world.cache.g_location_cache_lru
        (by decide)
      rw [← (UpdateCachedLocation_spec _ _ _ hcc).1] at hentry
      by_cases hm : host.g_hCacheFileMutex = true
      · by_cases hl : host.file_lock_IsLocked = true
        · rw [if_neg (by simp [hm]), if_neg (by simp [hl])]
          refine ⟨hentry, by simp, fun _ _ => ?_⟩
          simp only [if_true]
        · rw [if_neg (by simp [hm]), if_pos (by simpa using hl)]
          exact ⟨hentry, by simp, fun _ h => absurd h hl⟩
      · rw [if_pos (by simpa using hm)]
        exact ⟨hentry, by simp, fun h => absurd h hm⟩
    · rw [if_neg hrun] at hran
      rw [hsc] at hran
      have := congrArg List.length hran
      simp only [List.length_append, List.length_singleton] at this
      omega
  refine ⟨hmain.1, ?_, hmain.2.1, hmain.2.2⟩
  rw [(GetCachedLocation_spec _ _ now hcons).1, hmain.1]
  rfl

/-- Witness of C22: the screen search in the region (0, 0)-(2, 1) of monitor 1 for the
white target `a` on the screen black then white, cache enabled and empty: the full scan finds (1, 0); afterwards the cache holds
(1, 0) with miss counter 0 for the key and the disk writer was called with (1, 0). The
whole call `UnifiedImageSearch` leaves the same entry. -/
theorem full_scan_updates_cache_witness :
    (entry_of
        (GenerateCacheKey sample_host "Screen".toList "a".toList 0 false 1)
        (search_unscaled sample_host sample_env (screen_params 0 1 1)
          (sample_screen_context false) ⟨[sample_white], 1, 1, false, true⟩ "a".toList
          ⟨sample_world, 0, 0, [], []⟩).2.world.cache.g_location_cache_lru =
      some ⟨⟨1, 0⟩, 0, 0⟩ ∧
    (search_unscaled sample_host sample_env (screen_params 0 1 1)
        (sample_screen_context false) ⟨[sample_white], 1, 1, false, true⟩ "a".toList
        ⟨sample_world, 0, 0, [], []⟩).2.world.disk_log.getLast? =
      some (DiskCall.SaveCacheForImage
        (GenerateCacheKey sample_host "Screen".toList "a".toList 0 false 1) ⟨1, 0⟩)) ∧
    (UnifiedImageSearch_run sample_host sample_env 0 (screen_params 0 1 1) sample_world).map
        (observe_cache "Screen|a|0|0|1.0".toList) =
      some ("\x7b1\x7d[1|0|1|1]".toList, 0, 0, some (⟨1, 0⟩, 0)) := by
  have h := full_scan_updates_cache sample_host sample_env (screen_params 0 1 1)
    (sample_screen_context false) ⟨[sample_white], 1, 1, false, true⟩ "a".toList
    ⟨sample_world, 0, 0, [], []⟩ ⟨1, 0, 1, 1, 1, "a"⟩ [] 5 (by decide) (by decide)
    LocationCache_empty_consistent (by decide) (by decide)
  refine ⟨⟨h.1, h.2.2.1⟩, ?_⟩
  have hctx := search_context_eq (screen_params 0 1 1) rfl rfl rfl
  simp only [UnifiedImageSearch_run, sample_host_source, hctx]
  decide

/-! ### The order of the targets -/

/-- The unscaled search of one target in first-match mode counts one cache hit or none;
when it counts none, it reports the result of the first-match scan and logs that scan. -/
theorem search_unscaled_first_step (host : Host) (env : SearchEnv) (params : SearchParams)
    (ctx : SearchContext) (Target : PixelBuffer) (source_file : WString) (st : SearchState)
    (hfirst : ctx.find_all = false) :
    ((search_unscaled host env params ctx Target source_file st).2.cache_hits =
        st.cache_hits ∨
      (search_unscaled host env params ctx Target source_file st).2.cache_hits =
        st.cache_hits + 1) ∧
    ((search_unscaled host env params ctx Target source_file st).2.cache_hits =
        st.cache_hits →
      (search_unscaled host env params ctx Target source_file st).1 =
        first_match_scan env ctx Target source_file ∧
      (search_unscaled host env params ctx Target source_file st).2.full_scans =
        st.full_scans ++ [ScanCall.mk source_file 1]) := by
  obtain ⟨found, cached, s1, s2, s3, s4⟩ :=
    search_unscaled_spec host env params ctx Target source_file st
  cases found with
  | false =>
    obtain ⟨hc, hh⟩ := s3 rfl
    refine ⟨Or.inl hh, fun _ => ⟨?_, ?_⟩⟩
    · rw [s1, hc, hfirst]
      rfl
    · rw [s2]
      rfl
  | true =>
    obtain ⟨-, hh, -⟩ := s4 rfl
    refine ⟨Or.inr hh, fun h => ?_⟩
    rw [hh] at h
    omega

/-- The loop over the targets in first-match mode at scale range 1.0 to 1.0. The count of
cache hits does not fall. When it stays, either the futures split into earlier ones, each
of which is absent, invalid or a target whose scan finds nothing, a valid target whose
scan finds a match, and later ones, and then exactly the match of that target is reported
and the scans logged are those of the valid earlier targets and of that target; or every
future is absent, invalid or without match, and nothing is reported. -/
theorem target_loop_first_target (host : Host) (env : SearchEnv) (fuel : Nat)
    (params : SearchParams) (ctx : SearchContext) (target_files : List WString)
    (futures : List (Option PixelBuffer)) (i : Nat) (st : SearchState)
    (r : List MatchResult × SearchState) (hfirst : ctx.find_all = false)
    (hskip : ctx.skip_scaling = true)
    (h : target_loop host env fuel params ctx target_files futures i st = some r) :
    st.cache_hits ≤ r.2.cache_hits ∧
    (r.2.cache_hits = st.cache_hits →
      ((∃ (pre : List (Option PixelBuffer)) (Target : PixelBuffer)
          (post : List (Option PixelBuffer)),
          futures = pre ++ some Target :: post ∧ Target.IsValid = true ∧
          (∀ (j : Nat) (Tj : PixelBuffer), pre.get? j = some (some Tj) → Tj.IsValid = true →
            first_match_scan env ctx Tj (target_file_at target_files (i + j)) = []) ∧
          first_match_scan env ctx Target (target_file_at target_files (i + pre.length)) ≠ [] ∧
          r.1 = first_match_scan env ctx Target (target_file_at target_files (i + pre.length)) ∧
          r.2.full_scans.length ≤ st.full_scans.length + pre.length + 1 ∧
          r.2.full_scans.getLast? =
            some (ScanCall.mk (target_file_at target_files (i + pre.length)) 1)) ∨
        ((∀ (j : Nat) (Tj : PixelBuffer), futures.get? j = some (some Tj) →
            Tj.IsValid = true →
            first_match_scan env ctx Tj (target_file_at target_files (i + j)) = []) ∧
          r.1 = []))) := by
  induction futures generalizing i st r with
  | nil =>
    simp only [target_loop, Option.some.injEq] at h
    rw [← h]
    refine ⟨le_refl _, fun _ => Or.inr ⟨?_, rfl⟩⟩
    intro j Tj hj
    simp at hj
  | cons Target_opt rest ih =>
    unfold target_loop at h
    have hskipcase : ∀ r0 : List MatchResult × SearchState,
        target_loop host env fuel params ctx target_files rest (i + 1) st = some r0 →
        (∀ Tj, Target_opt = some Tj → Tj.IsValid = true → False) →
        st.cache_hits ≤ r0.2.cache_hits ∧
        (r0.2.cache_hits = st.cache_hits →
          ((∃ (pre : List (Option PixelBuffer)) (Target : PixelBuffer)
              (post : List (Option PixelBuffer)),
              Target_opt :: rest = pre ++ some Target :: post ∧ Target.IsValid = true ∧
              (∀ (j : Nat) (Tj : PixelBuffer), pre.get? j = some (some Tj) →
                Tj.IsValid = true →
                first_match_scan env ctx Tj (target_file_at target_files (i + j)) = []) ∧
              first_match_scan env ctx Target
                (target_file_at target_files (i + pre.length)) ≠ [] ∧
              r0.1 = first_match_scan env ctx Target
                (target_file_at target_files (i + pre.length)) ∧
              r0.2.full_scans.length ≤ st.full_scans.length + pre.length + 1 ∧
              r0.2.full_scans.getLast? =
                some (ScanCall.mk (target_file_at target_files (i + pre.length)) 1)) ∨
            ((∀ (j : Nat) (Tj : PixelBuffer), (Target_opt :: rest).get? j = some (some Tj) →
                Tj.IsValid = true →
                first_match_scan env ctx Tj (target_file_at target_files (i + j)) = []) ∧
              r0.1 = []))) := by
      intro r0 h0 hbad
      obtain ⟨i1, i2⟩ := ih (i + 1) st r0 h0
      refine ⟨i1, fun hh => ?_⟩
      rcases i2 hh with ⟨pre, T, post, e1, e2, e3, e4, e5, e6, e7⟩ | ⟨e1, e2⟩
      · left
        refine ⟨Target_opt :: pre, T, post, by rw [e1]; rfl, e2, ?_, ?_, ?_, ?_, ?_⟩
        · intro j Tj hj hv
          cases j with
          | zero =>
            simp only [List.get?_cons_zero, Option.some.injEq] at hj
            exact absurd (hbad Tj hj hv) id
          | succ j =>
            simp only [List.get?_cons_succ] at hj
            have := e3 j Tj hj hv
            rw [show i + (j + 1) = i + 1 + j by omega]
            exact this
        · rw [List.length_cons, show i + (pre.length + 1) = i + 1 + pre.length by omega]
          exact e4
        · rw [List.length_cons, show i + (pre.length + 1) = i + 1 + pre.length by omega]
          exact e5
        · rw [List.length_cons]; omega
        · rw [List.length_cons, show i + (pre.length + 1) = i + 1 + pre.length by omega]
          exact e7
      · right
        refine ⟨?_, e2⟩
        intro j Tj hj hv
        cases j with
        | zero =>
          simp only [List.get?_cons_zero, Option.some.injEq] at hj
          exact absurd (hbad Tj hj hv) id
        | succ j =>
          simp only [List.get?_cons_succ] at hj
          have := e1 j Tj hj hv
          rw [show i + (j + 1) = i + 1 + j by omega]
          exact this
    cases Target_opt with
    | none =>
      simp only [] at h
      exact hskipcase r h (fun Tj hT _ => by cases hT)
    | some Target =>
      simp only [] at h
      by_cases hv : Target.IsValid = true
      · rw [if_neg (by simp [hv])] at h
        simp only [search_target, if_pos hskip] at h
        have hfile : (if i < target_files.length then target_files.getD i [] else []) =
            target_file_at target_files i := rfl
        rw [hfile] at h
        obtain ⟨u1, u2⟩ := search_unscaled_first_step host env params ctx Target
          (target_file_at target_files i) st hfirst
        by_cases hne : (search_unscaled host env params ctx Target
            (target_file_at target_files i) st).1 ≠ []
        · rw [if_pos hne, if_pos (by simp [hfirst])] at h
          simp only [Option.some.injEq] at h
          rw [← h]
          refine ⟨by omega, fun hh => Or.inl ⟨[], Target, rest, rfl, hv, ?_, ?_, ?_, ?_, ?_⟩⟩
          · intro j Tj hj
            simp at hj
          · simp only [List.length_nil, Nat.add_zero]
            rw [← (u2 hh).1]; exact hne
          · simp only [List.length_nil, Nat.add_zero]
            exact (u2 hh).1
          · rw [(u2 hh).2]; simp
          · rw [(u2 hh).2]; simp
        · rw [if_neg hne] at h
          obtain ⟨i1, i2⟩ := ih (i + 1) _ r h
          refine ⟨by omega, fun hh => ?_⟩
          have hstep : (search_unscaled host env params ctx Target
              (target_file_at target_files i) st).2.cache_hits =
              st.cache_hits := by omega
          obtain ⟨v1, v2⟩ := u2 hstep
          have hempty : first_match_scan env ctx Target (target_file_at target_files i) =
              [] := by
            have := not_not.1 hne
            rw [v1] at this
            exact this
          rcases i2 (by omega) with ⟨pre, T, post, e1, e2, e3, e4, e5, e6, e7⟩ | ⟨e1, e2⟩
          · left
            refine ⟨some Target :: pre, T, post, by rw [e1]; rfl, e2, ?_, ?_, ?_, ?_, ?_⟩
            · intro j Tj hj hvj
              cases j with
              | zero =>
                simp only [List.get?_cons_zero, Option.some.injEq] at hj
                rw [← hj]
                exact hempty
              | succ j =>
                simp only [List.get?_cons_succ] at hj
                have := e3 j Tj hj hvj
                rw [show i + (j + 1) = i + 1 + j by omega]
                exact this
            · rw [List.length_cons, show i + (pre.length + 1) = i + 1 + pre.length by omega]
              exact e4
            · rw [List.length_cons, show i + (pre.length + 1) = i + 1 + pre.length by omega]
              exact e5
            · have hl : (search_unscaled host env params ctx Target
                  (target_file_at target_files i) st).2.full_scans.length =
                  st.full_scans.length + 1 := by
                rw [v2, List.length_append, List.length_singleton]
              rw [List.length_cons]
              omega
            · rw [List.length_cons, show i + (pre.length + 1) = i + 1 + pre.length by omega]
              exact e7
          · right
            refine ⟨?_, e2⟩
            intro j Tj hj hvj
            cases j with
            | zero =>
              simp only [List.get?_cons_zero, Option.some.injEq] at hj
              rw [← hj]
              exact hempty
            | succ j =>
              simp only [List.get?_cons_succ] at hj
              have := e1 j Tj hj hvj
              rw [show i + (j + 1) = i + 1 + j by omega]
              exact this
      · rw [if_pos (by simpa using hv)] at h
        exact hskipcase r h (fun Tj hT hvj => by cases hT; exact hv hvj)

/-! ### A search with the cache disabled -/

/-- The loop over the scales leaves the caches, the cache files, the log of disk calls and
the count of cache misses as they are. -/
theorem scale_loop_world (host : Host) (env : SearchEnv) (ctx : SearchContext)
    (Target : PixelBuffer) (source_file : WString) (scales : List Rat) (st : SearchState) :
    (scale_loop host env ctx Target source_file scales st).2.world = st.world ∧
      (scale_loop host env ctx Target source_file scales st).2.cache_misses =
        st.cache_misses := by
  induction scales generalizing st with
  | nil => exact ⟨rfl, rfl⟩
  | cons scale rest ih =>
    unfold scale_loop
    simp only []
    by_cases h1 : scaled_size Target.width scale ≤ 0 ∨ scaled_size Target.height scale ≤ 0 ∨
        scaled_size Target.width scale > ctx.Source.width ∨
        scaled_size Target.height scale > ctx.Source.height
    · rw [if_pos h1]; exact ih st
    · rw [if_neg h1]
      cases hsc : host.ScaleBitmap_GDI Target (scaled_size Target.width scale)
          (scaled_size Target.height scale) with
      | none => exact ih st
      | some scaled =>
        simp only []
        by_cases h2 : scaled.IsValid = true
        · rw [if_pos h2]
          by_cases h3 : SearchForBitmap env ctx.Source scaled ctx.search_offset_x
              ctx.search_offset_y ctx.tolerance Target.has_alpha ctx.find_all scale
              (String.mk source_file) ≠ []
          · rw [if_pos h3]
            by_cases h4 : (!ctx.find_all) = true
            · rw [if_pos h4]
              exact ⟨rfl, rfl⟩
            · rw [if_neg h4]
              exact ih _
          · rw [if_neg h3]; exact ih _
        · rw [if_neg h2]; exact ih st

/-- With the cache disabled the search of one target leaves the caches, the cache files
and the log of disk calls as they are and counts neither hits nor misses. -/
theorem search_target_no_cache (host : Host) (env : SearchEnv) (fuel : Nat)
    (params : SearchParams) (ctx : SearchContext) (Target : PixelBuffer)
    (source_file : WString) (st : SearchState) (r : List MatchResult × SearchState)
    (hc : params.use_cache = 0)
    (h : search_target host env fuel params ctx Target source_file st = some r) :
    r.2.world = st.world ∧ r.2.cache_hits = st.cache_hits ∧
      r.2.cache_misses = st.cache_misses := by
  unfold search_target at h
  by_cases hskip : ctx.skip_scaling = true
  · rw [if_pos hskip] at h
    simp only [Option.some.injEq] at h
    rw [← h]
    exact search_unscaled_no_cache host env params ctx Target source_file st hc
  · rw [if_neg hskip] at h
    cases hsc : build_scales ctx.max_scale ctx.scale_step fuel ctx.min_scale with
    | none => rw [hsc] at h; exact absurd h (by simp)
    | some scales =>
      rw [hsc] at h
      simp only [] at h
      split_ifs at h
      · simp only [Option.some.injEq] at h
        rw [← h]
        exact ⟨rfl, rfl, rfl⟩
      · simp only [Option.some.injEq] at h
        rw [← h]
        exact ⟨(scale_loop_world host env ctx Target source_file scales st).1,
          scale_loop_cache_hits host env ctx Target source_file scales st,
          (scale_loop_world host env ctx Target source_file scales st).2⟩

/-- With the cache disabled the loop over the targets leaves the caches, the cache files
and the log of disk calls as they are and counts neither hits nor misses. -/
theorem target_loop_no_cache (host : Host) (env : SearchEnv) (fuel : Nat)
    (params : SearchParams) (ctx : SearchContext) (target_files : List WString)
    (futures : List (Option PixelBuffer)) (i : Nat) (st : SearchState)
    (r : List MatchResult × SearchState) (hc : params.use_cache = 0)
    (h : target_loop host env fuel params ctx target_files futures i st = some r) :
    r.2.world = st.world ∧ r.2.cache_hits = st.cache_hits ∧
      r.2.cache_misses = st.cache_misses := by
  induction futures generalizing i st r with
  | nil =>
    simp only [target_loop, Option.some.injEq] at h
    rw [← h]
    exact ⟨rfl, rfl, rfl⟩
  | cons Target_opt rest ih =>
    unfold target_loop at h
    cases Target_opt with
    | none => exact ih _ _ _ h
    | some Target =>
      simp only [] at h
      by_cases hv : Target.IsValid = true
      · rw [if_neg (by simp [hv])] at h
        cases hst : search_target host env fuel params ctx Target
            (if i < target_files.length then target_files.getD i [] else []) st with
        | none => rw [hst] at h; exact absurd h (by simp)
        | some r1 =>
          rw [hst] at h
          simp only [] at h
          obtain ⟨w1, w2, w3⟩ := search_target_no_cache host env fuel params ctx Target _ st
            r1 hc hst
          split_ifs at h
          · simp only [Option.some.injEq] at h
            rw [← h]
            exact ⟨w1, w2, w3⟩
          · cases hrest : target_loop host env fuel params ctx target_files rest (i + 1)
                r1.2 with
            | none => rw [hrest] at h; exact absurd h (by simp)
            | some r2 =>
              rw [hrest] at h
              simp only [Option.map_some', Option.some.injEq] at h
              rw [← h]
              obtain ⟨x1, x2, x3⟩ := ih _ _ _ hrest
              exact ⟨x1.trans w1, x2.trans w2, x3.trans w3⟩
          · obtain ⟨x1, x2, x3⟩ := ih _ _ _ h
            exact ⟨x1.trans w1, x2.trans w2, x3.trans w3⟩
      · rw [if_pos (by simpa using hv)] at h
        exact ih _ _ _ h

theorem search_context_first_match (params : SearchParams) (info : SourceInfo)
    (Source : PixelBuffer) (h : params.max_results < 2) :
    (search_context params info Source).find_all = false := by
  simp only [search_context]
  exact decide_eq_false (by omega)

/-- C23, evaluation of the code where it departs from the claim. First: a screen search
in the region (0, 0)-(2, 1) of monitor 1 in first-match mode for the single target `a`
with tolerance 255 and the cache enabled, the cache holding the position (1, 0) for the
key of the search. The target matches at (0, 0) and at (1, 0), its first match is (0, 0);
the call confirms the cached position and reports (1, 0). The cache gets into that state
by an earlier first-match search for the same target in the region (1, 0)-(2, 1); the two
calls in a row, started with an empty cache, report (1, 0) with one cache hit and no
scan. Second: an image-in-image search
in first-match mode, cache off, tolerance 100, for the target `q` in the source `q` (both
2 by 2 pixels, the first black, the others white) over the scale range 0.5 to 1.0 with
scale step 0.5. The target itself matches the source at (0, 0), which the same search at
scale range 1.0 to 1.0 reports. Over the range the scale 0.5 is searched first: the target
scaled to one pixel is light grey (191, the mean of its pixels), which is within the
tolerance of white but not of black; its first match is (1, 0), and the call reports
(1, 0) and stops. -/
theorem UnifiedImageSearch_reports_cached_not_first :
    SearchForBitmap sample_env ⟨[sample_black, sample_white], 2, 1, false, true⟩
        ⟨[sample_white], 1, 1, false, true⟩ 0 0 255 false false 1 "a" =
      [⟨0, 0, 1, 1, 1, "a"⟩] ∧
    CheckApproxMatch_Scalar ⟨[sample_black, sample_white], 2, 1, false, true⟩
        ⟨[sample_white], 1, 1, false, true⟩ 1 0 false 255 = true ∧
    UnifiedImageSearch sample_host sample_env 0 (screen_params 255 1 1)
        (world_with_entry "Screen|a|255|0|1.0".toList 1 0) =
      some "\x7b1\x7d[1|0|1|1]".toList ∧
    ((UnifiedImageSearch_run sample_host sample_env 0 (region_params 1 0 2 1 255 1 1)
        sample_world).bind fun o1 =>
      (UnifiedImageSearch_run sample_host sample_env 0 (screen_params 255 1 1)
        o1.state.world).map
        (fun o => (o.result, o.state.cache_hits, o.state.full_scans))) =
      some ("\x7b1\x7d[1|0|1|1]".toList, 1, []) ∧
    UnifiedImageSearch scaling_host sample_env 0
        (unit_scale_params "q".toList "q".toList 100 1) sample_world =
      some "\x7b1\x7d[0|0|2|2]".toList ∧
    sample_ScaleBitmap
        ⟨[sample_black, sample_white, sample_white, sample_white], 2, 2, false, true⟩ 1 1 =
      some ⟨[4290756543], 1, 1, false, false⟩ ∧
    UnifiedImageSearch scaling_host sample_env 3
        (scale_range_params "q".toList "q".toList 100 1) sample_world =
      some "\x7b1\x7d[1|0|1|1]".toList := by
  refine ⟨by decide, by decide, ?_, ?_, ?_, by decide, ?_⟩
  · have hctx := search_context_eq (screen_params 255 1 1) rfl rfl rfl
    simp only [UnifiedImageSearch, UnifiedImageSearch_run, hctx]
    decide
  · have h1 := search_context_eq (region_params 1 0 2 1 255 1 1) rfl rfl rfl
    have h2 := search_context_eq (screen_params 255 1 1) rfl rfl rfl
    simp only [UnifiedImageSearch_run, sample_host_pixel_source, sample_host_source, h1, h2]
    decide
  · have hctx := search_context_eq (unit_scale_params "q".toList "q".toList 100 1) rfl rfl
      rfl
    simp only [UnifiedImageSearch, UnifiedImageSearch_run, hctx]
    decide
  · have hacq : acquire_source scaling_host
        (scale_range_params "q".toList "q".toList 100 1) =
        Except.ok ⟨some ⟨[sample_black, sample_white, sample_white, sample_white], 2, 2,
          false, true⟩, "q".toList, 0, 0, 0, 0, 0, 0, 0, 0⟩ := rfl
    have hvalid : (⟨[sample_black, sample_white, sample_white, sample_white], 2, 2, false,
        true⟩ : PixelBuffer).IsValid = true := by decide
    have htf : target_files_of (scale_range_params "q".toList "q".toList 100 1) =
        ["q".toList] := by decide
    have hfut : load_futures scaling_host (scale_range_params "q".toList "q".toList 100 1)
        ["q".toList] =
        [some ⟨[sample_black, sample_white, sample_white, sample_white], 2, 2, false,
          true⟩] := by
      decide
    unfold UnifiedImageSearch UnifiedImageSearch_run
    simp only [hacq, Option.filter, hvalid, if_true, htf, hfut, scale_range_context]
    rw [if_neg (by decide)]
    simp only [target_loop, search_target, scale_range_scales, scale_loop,
      scaled_size_two_half]
    decide

/-- C23, amended claim. For every call of `UnifiedImageSearch` in first-match mode
(`max_results` below 2) at scale range 1.0 to 1.0 that gets past the source and the
target list: with the cache disabled no cache hit is counted; and when the call counts no
cache hit (no cached position is confirmed), then either the decoded targets split into
earlier ones, each absent, invalid or without any match in the source, a first valid
target that has a match, and later ones, and the call reports exactly the first match of
that target (one record), its last scan is the scan of that target and it makes at most
one scan per earlier target, none for a later one; or no valid target has a match and the
payload is `{0}[]`. -/
theorem UnifiedImageSearch_first_target (host : Host) (env : SearchEnv) (fuel : Nat)
    (params : SearchParams) (w : World) (o : SearchOutcome) (info : SourceInfo)
    (Source : PixelBuffer) (hfirst : params.max_results < 2)
    (hmin : params.min_scale = 1) (hmax : params.max_scale = 1)
    (h : UnifiedImageSearch_run host env fuel params w = some o)
    (hacq : acquire_source host params = Except.ok info)
    (hsrc : info.Source_opt = some Source) (hvalid : Source.IsValid = true)
    (htf : target_files_of params ≠ []) :
    (params.use_cache = 0 → o.state.cache_hits = 0) ∧
    (o.state.cache_hits = 0 →
      ((∃ (pre : List (Option PixelBuffer)) (Target : PixelBuffer)
          (post : List (Option PixelBuffer)),
          load_futures host params (target_files_of params) = pre ++ some Target :: post ∧
          Target.IsValid = true ∧
          (∀ (j : Nat) (Tj : PixelBuffer), pre.get? j = some (some Tj) → Tj.IsValid = true →
            first_match_scan env (search_context params info Source) Tj
              (target_file_at (target_files_of params) j) = []) ∧
          first_match_scan env (search_context params info Source) Target
            (target_file_at (target_files_of params) pre.length) ≠ [] ∧
          o.all_matches = first_match_scan env (search_context params info Source) Target
            (target_file_at (target_files_of params) pre.length) ∧
          match_count o.all_matches params.max_results = 1 ∧
          o.state.full_scans.length ≤ pre.length + 1 ∧
          o.state.full_scans.getLast? =
            some (ScanCall.mk (target_file_at (target_files_of params) pre.length) 1)) ∨
        ((∀ (j : Nat) (Tj : PixelBuffer),
            (load_futures host params (target_files_of params)).get? j = some (some Tj) →
            Tj.IsValid = true →
            first_match_scan env (search_context params info Source) Tj
              (target_file_at (target_files_of params) j) = []) ∧
          o.all_matches = [] ∧
          result_payload o.all_matches params.max_results params.center_pos =
            "\x7b0\x7d[]".toList))) := by
  unfold UnifiedImageSearch_run at h
  simp only [hacq, hsrc, Option.filter, hvalid, if_true, if_neg htf] at h
  cases hl : target_loop host env fuel params (search_context params info Source)
      (target_files_of params) (load_futures host params (target_files_of params)) 0
      ⟨w, 0, 0, [], []⟩ with
  | none => rw [hl] at h; exact absurd h (by simp)
  | some r =>
    rw [hl] at h
    simp only [Option.some.injEq] at h
    have hm : o.all_matches = r.1 := by rw [← h]
    have hs : o.state = r.2 := by rw [← h]
    have hfa := search_context_first_match params info Source hfirst
    have hskip := search_context_unit_scale params info Source hmin hmax
    obtain ⟨-, t2⟩ := target_loop_first_target host env fuel params
      (search_context params info Source) (target_files_of params)
      (load_futures host params (target_files_of params)) 0 ⟨w, 0, 0, [], []⟩ r hfa hskip hl
    constructor
    · intro hc
      rw [hs]
      exact (target_loop_no_cache host env fuel params _ _ _ 0 _ r hc hl).2.1
    · intro hhit
      rw [hs] at hhit
      rcases t2 hhit with ⟨pre, T, post, e1, e2, e3, e4, e5, e6, e7⟩ | ⟨e1, e2⟩
      · left
        simp only [Nat.zero_add] at e3 e4 e5 e7
        simp only [List.length_nil, Nat.zero_add] at e6
        have hlen1 : (first_match_scan env (search_context params info Source) T
            (target_file_at (target_files_of params) pre.length)).length = 1 := by
          have hle := SearchForBitmap_first_length env (search_context params info Source).Source
            T (search_context params info Source).search_offset_x
            (search_context params info Source).search_offset_y
            (search_context params info Source).tolerance T.has_alpha 1
            (String.mk (target_file_at (target_files_of params) pre.length))
          have hpos := List.length_pos.2 e4
          unfold first_match_scan at hpos ⊢
          omega
        refine ⟨pre, T, post, e1, e2, e3, e4, by rw [hm, e5], ?_, by rw [hs]; exact e6,
          by rw [hs]; exact e7⟩
        rw [hm, e5]
        unfold match_count
        rw [hlen1]
        split_ifs with hc
        · omega
        · rfl
      · right
        simp only [Nat.zero_add] at e1
        refine ⟨e1, by rw [hm, e2], ?_⟩
        rw [hm, e2]
        unfold result_payload
        simp only []
        rw [(match_count_eq_zero [] params.max_results).2 rfl, if_neg (by decide)]

/-- Witness of the amended C23: the image-in-image search for the targets `a|b` in
first-match mode on the source black then white, cache disabled. The first target `a`
(white) has its first match at (1, 0), the second target `b` (black) would match at
(0, 0); the call reports (1, 0) and scans for `a` only. -/
theorem UnifiedImageSearch_first_target_witness :
    ∃ o : SearchOutcome,
      UnifiedImageSearch_run sample_host sample_env 0 first_match_params sample_world =
        some o ∧
      o.state.cache_hits = 0 ∧
      o.result = "\x7b1\x7d[1|0|1|1]".toList ∧
      o.state.full_scans = [ScanCall.mk "a".toList 1] := by
  have hctx := search_context_eq first_match_params rfl rfl rfl
  have hres : (UnifiedImageSearch_run sample_host sample_env 0 first_match_params
      sample_world).map (fun o => (o.result, o.state.full_scans)) =
      some ("\x7b1\x7d[1|0|1|1]".toList, [ScanCall.mk "a".toList 1]) := by
    simp only [UnifiedImageSearch_run, hctx]
    decide
  cases ho : UnifiedImageSearch_run sample_host sample_env 0 first_match_params
      sample_world with
  | none => rw [ho] at hres; exact absurd hres (by simp)
  | some o =>
    rw [ho] at hres
    simp only [Option.map_some', Option.some.injEq, Prod.mk.injEq] at hres
    have hthm := UnifiedImageSearch_first_target sample_host sample_env 0 first_match_params
      sample_world o
      ⟨some ⟨[sample_black, sample_white], 2, 1, false, true⟩, "s".toList, 0, 0, 0, 0, 0, 0, 0,
        0⟩
      ⟨[sample_black, sample_white], 2, 1, false, true⟩ (by decide) rfl rfl ho rfl rfl
      (by decide) (by decide)
    exact ⟨o, rfl, hthm.1 rfl, hres.1, hres.2⟩

/-! ### Targets that cannot be used -/

/-- The loop over the targets, when every future is absent or invalid: nothing is
reported and the state stays. -/
theorem target_loop_no_valid_target (host : Host) (env : SearchEnv) (fuel : Nat)
    (params : SearchParams) (ctx : SearchContext) (target_files : List WString)
    (futures : List (Option PixelBuffer)) (i : Nat) (st : SearchState)
    (hbad : ∀ T, some T ∈ futures → T.IsValid = false) :
    target_loop host env fuel params ctx target_files futures i st = some ([], st) := by
  induction futures generalizing i with
  | nil => rfl
  | cons Target_opt rest ih =>
    unfold target_loop
    cases Target_opt with
    | none =>
      simp only []
      exact ih (i + 1) (fun T hT => hbad T (List.mem_cons_of_mem _ hT))
    | some Target =>
      simp only []
      have hv := hbad Target (List.mem_cons_self _ _)
      rw [if_pos (by simp [hv])]
      exact ih (i + 1) (fun T hT => hbad T (List.mem_cons_of_mem _ hT))

/-- The error texts with which the first part of `UnifiedImageSearch` returns early carry
one of the codes -4, -5 and -6. -/
theorem acquire_source_error_code (host : Host) (params : SearchParams) (text : WString)
    (h : acquire_source host params = Except.error text) :
    ∃ (code : ErrorCode) (debug : WString), text = error_result params code debug ∧
      (code = ErrorCode.InvalidSearchRegion ∨ code = ErrorCode.InvalidParameters ∨
        code = ErrorCode.InvalidSourceBitmap) := by
  unfold acquire_source at h
  split at h
  · simp only [] at h
    split_ifs at h <;> (cases h; exact ⟨_, _, rfl, Or.inl rfl⟩)
  · split at h <;> (cases h <;> exact ⟨_, _, rfl, Or.inr (Or.inl rfl)⟩)
  · simp only [] at h
    split_ifs at h <;> (try split at h) <;> (try split_ifs at h) <;>
      (cases h <;> exact ⟨_, _, rfl, Or.inr (Or.inr rfl)⟩)

/-- A payload starts with an opening brace and a digit. -/
theorem result_payload_head (all_matches : List MatchResult) (max_results center_pos : Int) :
    ∃ (d : Char) (rest : WString),
      result_payload all_matches max_results center_pos = '\x7b' :: d :: rest ∧
      d.isDigit = true := by
  unfold result_payload
  simp only []
  split_ifs with hc
  · have hnn : ¬ ((match_count all_matches max_results : Nat) : Int) < 0 := by omega
    obtain ⟨hne, hd, -⟩ := toDigits_spec (match_count all_matches max_results)
    unfold to_wstring
    rw [if_neg hnn, Int.natAbs_ofNat]
    cases hdig : Nat.toDigits 10 (match_count all_matches max_results) with
    | nil => exact absurd hdig hne
    | cons d ds =>
      refine ⟨d, _, rfl, hd d ?_⟩
      rw [hdig]
      exact List.mem_cons_self _ _
  · exact ⟨'0', _, rfl, by decide⟩

/-- The string that a call of `UnifiedImageSearch` returns is either an error text with one
of the codes -3, -4, -5 and -6, or starts with an opening brace and a digit: the payload
of a match list. -/
theorem UnifiedImageSearch_result_shape (host : Host) (env : SearchEnv) (fuel : Nat)
    (params : SearchParams) (w : World) (o : SearchOutcome)
    (h : UnifiedImageSearch_run host env fuel params w = some o) :
    (∃ (code : ErrorCode) (debug : WString), o.result = error_result params code debug ∧
        (code = ErrorCode.FailedToGetScreenDC ∨ code = ErrorCode.InvalidSearchRegion ∨
          code = ErrorCode.InvalidParameters ∨ code = ErrorCode.InvalidSourceBitmap)) ∨
      ∃ (d : Char) (rest : WString), o.result = '\x7b' :: d :: rest ∧ d.isDigit = true := by
  unfold UnifiedImageSearch_run at h
  simp only [] at h
  cases hacq : acquire_source host params with
  | error text =>
    rw [hacq] at h
    simp only [Option.some.injEq] at h
    left
    rw [← h]
    obtain ⟨code, debug, h1, h2⟩ := acquire_source_error_code host params text hacq
    exact ⟨code, debug, h1, Or.inr h2⟩
  | ok info =>
    rw [hacq] at h
    simp only [] at h
    cases hsrc : info.Source_opt.filter PixelBuffer.IsValid with
    | none =>
      rw [hsrc] at h
      simp only [Option.some.injEq] at h
      left
      rw [← h]
      exact ⟨_, _, rfl, Or.inl rfl⟩
    | some Source =>
      rw [hsrc] at h
      simp only [] at h
      by_cases htf : target_files_of params = []
      · rw [if_pos htf] at h
        simp only [Option.some.injEq] at h
        left
        rw [← h]
        exact ⟨_, _, rfl, Or.inr (Or.inr (Or.inl rfl))⟩
      · rw [if_neg htf] at h
        right
        cases hloop : target_loop host env fuel params (search_context params info Source)
            (target_files_of params) (load_futures host params (target_files_of params)) 0
            ⟨w, 0, 0, [], []⟩ with
        | none => rw [hloop] at h; exact absurd h (by simp)
        | some r =>
          rw [hloop] at h
          simp only [Option.some.injEq] at h
          obtain ⟨d, rest, hp, hd⟩ := result_payload_head r.1 params.max_results
            params.center_pos
          rw [← h]
          simp only [hp]
          split_ifs
          · exact ⟨d, _, rfl, hd⟩
          · exact ⟨d, _, rfl, hd⟩

/-- The first four characters of the error texts of the codes that `UnifiedImageSearch`
emits. -/
theorem error_result_head (params : SearchParams) (code : ErrorCode) (debug : WString)
    (h : code = ErrorCode.FailedToGetScreenDC ∨ code = ErrorCode.InvalidSearchRegion ∨
      code = ErrorCode.InvalidParameters ∨ code = ErrorCode.InvalidSourceBitmap) :
    (error_result params code debug).take 4 = "\x7b-3\x7d".toList ∨
      (error_result params code debug).take 4 = "\x7b-4\x7d".toList ∨
      (error_result params code debug).take 4 = "\x7b-5\x7d".toList ∨
      (error_result params code debug).take 4 = "\x7b-6\x7d".toList := by
  unfold error_result
  rcases h with h | h | h | h <;> subst h <;> split_ifs
  · exact Or.inl rfl
  · exact Or.inl rfl
  · exact Or.inr (Or.inl rfl)
  · exact Or.inr (Or.inl rfl)
  · exact Or.inr (Or.inr (Or.inl rfl))
  · exact Or.inr (Or.inr (Or.inl rfl))
  · exact Or.inr (Or.inr (Or.inr rfl))
  · exact Or.inr (Or.inr (Or.inr rfl))

/-- C24, evaluation of the code where it departs from the claim. On the sample
surroundings the file `zz` does not decode. The image-in-image search for the target `zz`
in a valid source returns the match list `{0}[]`, and so does the HBITMAP search with a
valid source handle and a null target handle; neither returns the error string of code -2,
`{-2}[]<Failed to load image from file>`, or of code -7,
`{-7}[]<Invalid Target (target) bitmap>`. -/
theorem UnifiedImageSearch_unusable_target_no_error :
    sample_host.LoadImageFromFile_GDI "zz".toList = none ∧
      UnifiedImageSearch sample_host sample_env 0 missing_target_params sample_world =
        some "\x7b0\x7d[]".toList ∧
      null_target_params.Target_hbitmap = 0 ∧
      UnifiedImageSearch bitmap_host sample_env 0 null_target_params sample_world =
        some "\x7b0\x7d[]".toList ∧
      FormatError ErrorCode.FailedToLoadImage =
        "\x7b-2\x7d[]<Failed to load image from file>".toList ∧
      FormatError ErrorCode.InvalidTargetBitmap =
        "\x7b-7\x7d[]<Invalid Target (target) bitmap>".toList := by
  refine ⟨by decide, ?_, rfl, ?_, by decide, by decide⟩
  · have hctx := search_context_eq missing_target_params rfl rfl rfl
    simp only [UnifiedImageSearch, UnifiedImageSearch_run, hctx]
    decide
  · have hctx := search_context_eq null_target_params rfl rfl rfl
    simp only [UnifiedImageSearch, UnifiedImageSearch_run, hctx]
    decide

/-- C24, amended claim. A target that cannot be turned into a valid pixel buffer is
skipped, not reported as an error. Whenever the source is valid and the target list is not
empty, and every target is absent or invalid (a target file that does not decode, or in
HBITMAP mode a null target handle, for which no target is loaded at all), the call of
`UnifiedImageSearch` returns, reports no match and returns the match list `{0}[]`,
followed by the debug text when `return_debug` is positive. The string that any call
returns is an error text with one of the codes -3, -4, -5 and -6, or starts with an
opening brace and a digit; it never starts with `{-2}` or `{-7}`. -/
theorem UnifiedImageSearch_invalid_target_returns_empty_list :
    (∀ (host : Host) (env : SearchEnv) (fuel : Nat) (params : SearchParams) (w : World)
        (info : SourceInfo) (Source : PixelBuffer),
        acquire_source host params = Except.ok info → info.Source_opt = some Source →
        Source.IsValid = true → target_files_of params ≠ [] →
        (∀ T, some T ∈ load_futures host params (target_files_of params) →
          T.IsValid = false) →
        ∃ o : SearchOutcome,
          UnifiedImageSearch_run host env fuel params w = some o ∧ o.all_matches = [] ∧
          o.result =
            "\x7b0\x7d[]".toList ++
              (if params.return_debug > 0 then
                debug_info host env params (search_context params info Source)
                  (target_files_of params) ⟨w, 0, 0, [], []⟩
              else [])) ∧
      (∀ (host : Host) (params : SearchParams),
        params.mode = SearchMode.HBitmapSearch → params.Target_hbitmap = 0 →
        load_futures host params (target_files_of params) = []) ∧
      (∀ (host : Host) (env : SearchEnv) (fuel : Nat) (params : SearchParams) (w : World)
        (o : SearchOutcome), UnifiedImageSearch_run host env fuel params w = some o →
        ((∃ (code : ErrorCode) (debug : WString),
            o.result = error_result params code debug ∧
            (code = ErrorCode.FailedToGetScreenDC ∨ code = ErrorCode.InvalidSearchRegion ∨
              code = ErrorCode.InvalidParameters ∨ code = ErrorCode.InvalidSourceBitmap)) ∨
          ∃ (d : Char) (rest : WString), o.result = '\x7b' :: d :: rest ∧ d.isDigit = true) ∧
        o.result.take 4 ≠ "\x7b-2\x7d".toList ∧ o.result.take 4 ≠ "\x7b-7\x7d".toList) := by
  refine ⟨?_, ?_, ?_⟩
  · intro host env fuel params w info Source hacq hsrc hvalid htf hbad
    have hl := target_loop_no_valid_target host env fuel params
      (search_context params info Source) (target_files_of params)
      (load_futures host params (target_files_of params)) 0 ⟨w, 0, 0, [], []⟩ hbad
    unfold UnifiedImageSearch_run
    simp only [hacq, hsrc, Option.filter, hvalid, if_true, if_neg htf, hl]
    refine ⟨_, rfl, rfl, ?_⟩
    have hp : result_payload [] params.max_results params.center_pos =
        "\x7b0\x7d[]".toList := by
      unfold result_payload
      simp only []
      rw [(match_count_eq_zero [] params.max_results).2 rfl, if_neg (by decide)]
    simp only [hp]
    split_ifs
    · rfl
    · rw [List.append_nil]
  · intro host params hmode hnull
    unfold load_futures
    rw [hmode]
    simp only []
    rw [if_neg (by simp [hnull])]
  · intro host env fuel params w o h
    have hshape := UnifiedImageSearch_result_shape host env fuel params w o h
    refine ⟨hshape, ?_⟩
    rcases hshape with ⟨code, debug, hres, hcode⟩ | ⟨d, rest, hres, hd⟩
    · rw [hres]
      rcases error_result_head params code debug hcode with e | e | e | e <;> rw [e] <;>
        exact ⟨by decide, by decide⟩
    · rw [hres]
      constructor
      · intro heq
        have hd2 : d = '-' := by
          simp only [List.take_succ_cons] at heq
          have := List.cons.inj heq
          exact (List.cons.inj this.2).1
        rw [hd2] at hd
        exact absurd hd (by decide)
      · intro heq
        have hd2 : d = '-' := by
          simp only [List.take_succ_cons] at heq
          have := List.cons.inj heq
          exact (List.cons.inj this.2).1
        rw [hd2] at hd
        exact absurd hd (by decide)

/-- Witness of the amended C24: the general statement at the image-in-image search for the
file `zz` that does not decode. -/
theorem UnifiedImageSearch_invalid_target_returns_empty_list_witness :
    ∃ o : SearchOutcome,
      UnifiedImageSearch_run sample_host sample_env 0 missing_target_params sample_world =
        some o ∧
      o.all_matches = [] ∧ o.result = "\x7b0\x7d[]".toList := by
  obtain ⟨o, h1, h2, h3⟩ := UnifiedImageSearch_invalid_target_returns_empty_list.1 sample_host
    sample_env 0 missing_target_params sample_world
    ⟨some ⟨[sample_black, sample_white], 2, 1, false, true⟩, "s".toList, 0, 0, 0, 0, 0, 0, 0,
      0⟩
    ⟨[sample_black, sample_white], 2, 1, false, true⟩ rfl rfl (by decide) (by decide)
    (by
      have hf : load_futures sample_host missing_target_params
          (target_files_of missing_target_params) = [none] := by decide
      rw [hf]
      intro T hT
      simp at hT)
  refine ⟨o, h1, h2, ?_⟩
  rw [h3]
  rfl

/-! ### The default region of a screen search -/

/-- The number of pixels of a captured buffer. -/
theorem captured_buffer_pixels_length (desktop : Int → Int → Nat)
    (rect : Int × Int × Int × Int) :
    (captured_buffer desktop rect).pixels.length = (rect.2.2.1 * rect.2.2.2).toNat := by
  unfold captured_buffer
  simp only [List.length_map, List.length_range]

/-- A captured buffer of positive width and height is valid. -/
theorem captured_buffer_valid (desktop : Int → Int → Nat) (left top width height : Int)
    (hw : 0 < width) (hh : 0 < height) :
    (captured_buffer desktop (left, top, width, height)).IsValid = true := by
  unfold PixelBuffer.IsValid
  rw [captured_buffer_pixels_length]
  have h1 : (captured_buffer desktop (left, top, width, height)).width = width := rfl
  have h2 : (captured_buffer desktop (left, top, width, height)).height = height := rfl
  have h3 : 0 ≤ width * height := le_of_lt (mul_pos hw hh)
  rw [h1, h2]
  simp only [Int.toNat_of_nonneg h3, gt_iff_lt, hw, hh, decide_True, Bool.and_self]

/-- The pixel at index `i` of a captured buffer is the pixel of the desktop at column
`i % width` and row `i / width` of the rectangle. -/
theorem captured_buffer_at (desktop : Int → Int → Nat) (left top width height i : Int)
    (h0 : 0 ≤ i) (h1 : i < width * height) :
    (captured_buffer desktop (left, top, width, height)).at i =
      desktop (left + i % width) (top + i / width) := by
  have hp : (captured_buffer desktop (left, top, width, height)).pixels =
      (List.range (width * height).toNat).map fun k : Nat =>
        desktop (left + (k : Int) % width) (top + (k : Int) / width) := rfl
  have hlt : i.toNat < ((List.range (width * height).toNat).map fun k : Nat =>
      desktop (left + (k : Int) % width) (top + (k : Int) / width)).length := by
    rw [List.length_map, List.length_range]; omega
  unfold PixelBuffer.at
  rw [if_pos h0, hp, List.getD_eq_getElem _ _ hlt, List.getElem_map, List.getElem_range,
    Int.toNat_of_nonneg h0]

/-- The source of the sample screen search with the default region on monitor 1: the region
is resolved to the whole monitor and the capture returns its 1920 by 1080 pixels. -/
theorem default_region_source :
    acquire_source metrics_host (default_region_params 1) =
      Except.ok ⟨some (captured_buffer sample_desktop (0, 0, 1920, 1080)), "Screen".toList,
        0, 0, 0, 0, 1920, 1080, 1920, 1080⟩ := rfl

/-- With the cache disabled the unscaled search of one target reports exactly the result
of the full scan and logs that scan. -/
theorem search_unscaled_no_cache_matches (host : Host) (env : SearchEnv)
    (params : SearchParams) (ctx : SearchContext) (Target : PixelBuffer)
    (source_file : WString) (st : SearchState) (h : params.use_cache = 0) :
    (search_unscaled host env params ctx Target source_file st).1 =
        SearchForBitmap env ctx.Source Target ctx.search_offset_x ctx.search_offset_y
          ctx.tolerance Target.has_alpha ctx.find_all 1 (String.mk source_file) ∧
      (search_unscaled host env params ctx Target source_file st).2.full_scans =
        st.full_scans ++ [ScanCall.mk source_file 1] := by
  obtain ⟨found, cached, s1, s2, s3, s4⟩ :=
    search_unscaled_spec host env params ctx Target source_file st
  cases found with
  | false =>
    rw [s1, s2, (s3 rfl).1]
    exact ⟨rfl, rfl⟩
  | true => exact absurd h (s4 rfl).2.2

/-- The screen search of the one-pixel white target `a` over the whole of monitor 1 of the
sample surroundings, first match only, tolerance 0, no cache: the first match is the white
pixel of the desktop at (1, 0). -/
theorem default_region_monitor_one :
    UnifiedImageSearch metrics_host sample_env 0 (default_region_params 1) sample_world =
      some "\x7b1\x7d[1|0|1|1]".toList := by
  have hvalid := captured_buffer_valid sample_desktop 0 0 1920 1080 (by decide) (by decide)
  obtain ⟨o, ho, hm, -⟩ := UnifiedImageSearch_run_single metrics_host sample_env 0
    (default_region_params 1) sample_world _ (captured_buffer sample_desktop (0, 0, 1920, 1080))
    ⟨[sample_white], 1, 1, false, true⟩ "a".toList default_region_source rfl hvalid
    (by decide) (by decide) rfl (by decide) rfl rfl
  have hctx := search_context_eq (default_region_params 1) rfl rfl rfl
  rw [(search_unscaled_no_cache_matches metrics_host sample_env (default_region_params 1) _
    ⟨[sample_white], 1, 1, false, true⟩ "a".toList _ rfl).1, hctx] at hm
  have hacc : CheckMatch sample_env (captured_buffer sample_desktop (0, 0, 1920, 1080))
      ⟨[sample_white], 1, 1, false, true⟩ false 0 1 0 = true := by
    rw [CheckMatch_sample_env, scalar_accepts_iff]
    refine ⟨by decide, ?_⟩
    intro i j hi hiw hj hjh
    have hi0 : i = 0 := by
      have : i < 1 := hiw
      omega
    have hj0 : j = 0 := by
      have : j < 1 := hjh
      omega
    subst hi0 hj0
    rw [scalar_pixel_iff]
    right
    have hw : (captured_buffer sample_desktop (0, 0, 1920, 1080)).width = 1920 := rfl
    rw [hw, captured_buffer_at sample_desktop 0 0 1920 1080 _ (by decide) (by decide)]
    decide
  have hrej : ∀ x y : Int, 0 ≤ y →
      y ≤ (captured_buffer sample_desktop (0, 0, 1920, 1080)).height -
        (⟨[sample_white], 1, 1, false, true⟩ : PixelBuffer).height → 0 ≤ x →
      x ≤ (captured_buffer sample_desktop (0, 0, 1920, 1080)).width -
        (⟨[sample_white], 1, 1, false, true⟩ : PixelBuffer).width →
      (y < 0 ∨ (y = 0 ∧ x < 1)) →
      CheckMatch sample_env (captured_buffer sample_desktop (0, 0, 1920, 1080))
        ⟨[sample_white], 1, 1, false, true⟩ false 0 x y = false := by
    intro x y hy0 _ hx0 _ hearlier
    have hx : x = 0 := by omega
    have hy : y = 0 := by omega
    subst hx hy
    rw [CheckMatch_sample_env, ← Bool.not_eq_true, scalar_accepts_iff]
    rintro ⟨-, h⟩
    have h00 := h 0 0 (le_refl 0) (by decide) (le_refl 0) (by decide)
    rw [scalar_pixel_iff] at h00
    have hw : (captured_buffer sample_desktop (0, 0, 1920, 1080)).width = 1920 := rfl
    rw [hw, captured_buffer_at sample_desktop 0 0 1920 1080 _ (by decide) (by decide)] at h00
    revert h00
    decide
  have hscan := SearchForBitmap_first_at sample_env
    (captured_buffer sample_desktop (0, 0, 1920, 1080)) ⟨[sample_white], 1, 1, false, true⟩
    0 0 0 false 1 (String.mk "a".toList) 1 0 (by decide) (by decide) (by decide) (by decide)
    hacc hrej
  have hm2 : o.all_matches = [⟨1, 0, 1, 1, 1, String.mk "a".toList⟩] := by
    rw [hm]
    exact hscan
  rcases UnifiedImageSearch_run_cases metrics_host sample_env 0 (default_region_params 1)
    sample_world o ho with ⟨hnil, -⟩ | ⟨info, Source, -, -, -, -, -, hres⟩
  · rw [hm2] at hnil
    exact absurd hnil (by simp)
  · unfold UnifiedImageSearch
    rw [ho, Option.map_some', hres, hm2, if_neg (by decide), List.append_nil]
    decide

/-- C25, evaluation of the code. `GetScreenBounds` for `iScreen` = 0 sets width and height
to 0 whatever the screen is, so in a screen search with `iScreen` = 0 a right boundary of
0 (or -1) is resolved to 0 and a bottom boundary of 0 (or -1) to 0, not to the width and
height of the screen. Hence every such call with a right boundary of 0 or -1 and a left
boundary that is not negative returns the invalid-search-region error, code -4 (and so
does, with a bottom boundary of 0 or -1, every call with a top boundary that is not
negative). On a screen of 1920 by 1080 pixels the default region (0, 0, 0, 0) with
`iScreen` = 0 returns `{-4}[]<Invalid search region specified>`, whereas the same call
for monitor 1 resolves the region to the whole monitor, captures its 1920 by 1080 pixels
and finds the white pixel of the desktop at (1, 0). -/
theorem UnifiedImageSearch_default_region_screen_zero :
    (∀ host : Host, GetScreenBounds host 0 = (0, 0, 0, 0)) ∧
    (∀ (host : Host) (env : SearchEnv) (fuel : Nat) (params : SearchParams) (w : World),
      params.mode = SearchMode.ScreenSearch → params.screen = 0 →
      ((params.right = 0 ∨ params.right = -1) ∧ params.left ≥ 0) ∨
        ((params.bottom = 0 ∨ params.bottom = -1) ∧ params.top ≥ 0) →
      ∃ debug : WString,
        UnifiedImageSearch host env fuel params w =
          some (error_result params ErrorCode.InvalidSearchRegion debug)) ∧
    metrics_host.GetSystemMetrics SM_CXSCREEN = 1920 ∧
    metrics_host.GetSystemMetrics SM_CYSCREEN = 1080 ∧
    UnifiedImageSearch metrics_host sample_env 0 (default_region_params 0) sample_world =
      some "\x7b-4\x7d[]<Invalid search region specified>".toList ∧
    UnifiedImageSearch metrics_host sample_env 0 (default_region_params 1) sample_world =
      some "\x7b1\x7d[1|0|1|1]".toList := by
  refine ⟨fun host => rfl, ?_, rfl, rfl, ?_, ?_⟩
  · intro host env fuel params w hmode hscreen hregion
    have hacq : ∃ debug : WString, acquire_source host params =
        Except.error (error_result params ErrorCode.InvalidSearchRegion debug) := by
      unfold acquire_source
      rw [hmode]
      simp only []
      have hb : GetScreenBounds host params.screen = (0, 0, 0, 0) := by rw [hscreen]; rfl
      rw [hb]
      simp only [if_pos hscreen]
      have hcond : params.left ≥ (if params.right = 0 ∨ params.right = -1 then (0 : Int)
            else params.right) ∨
          params.top ≥ (if params.bottom = 0 ∨ params.bottom = -1 then (0 : Int)
            else params.bottom) := by
        rcases hregion with ⟨h1, h2⟩ | ⟨h1, h2⟩
        · left; rw [if_pos h1]; exact h2
        · right; rw [if_pos h1]; exact h2
      rw [if_pos hcond]
      exact ⟨_, rfl⟩
    obtain ⟨debug, hd⟩ := hacq
    refine ⟨debug, ?_⟩
    unfold UnifiedImageSearch UnifiedImageSearch_run
    simp only [hd]
    rfl
  · simp only [UnifiedImageSearch, UnifiedImageSearch_run]
    decide
  · exact default_region_monitor_one

/-- Witness of C25: the general statement at the default region on the screen of 1920 by
1080 pixels. -/
theorem UnifiedImageSearch_default_region_screen_zero_witness :
    ∃ debug : WString,
      UnifiedImageSearch metrics_host sample_env 0 (default_region_params 0) sample_world =
        some (error_result (default_region_params 0) ErrorCode.InvalidSearchRegion debug) :=
  UnifiedImageSearch_default_region_screen_zero.2.1 metrics_host sample_env 0
    (default_region_params 0) sample_world rfl rfl (Or.inl ⟨Or.inl rfl, by decide⟩)

/-- C26. For every call of `UnifiedImageSearch` with `use_cache` = 0 that returns: the
location cache (list and index), the cache files and the log of the calls of the disk
reader and writer are the same after the call as before it, and no cache hit and no cache
miss is counted. In such a call the unscaled search of each target reports exactly the
result of the full scan `SearchForBitmap` of the source for that target, and for a call
with a single target file at scale range 1.0 to 1.0 (not in HBITMAP mode) the matches
assembled by the call are exactly the result of that scan. -/
theorem UnifiedImageSearch_cache_disabled (host : Host) (env : SearchEnv) (fuel : Nat)
    (params : SearchParams) (w : World) (o : SearchOutcome) (hc : params.use_cache = 0)
    (h : UnifiedImageSearch_run host env fuel params w = some o) :
    (o.state.world = w ∧ o.state.cache_hits = 0 ∧ o.state.cache_misses = 0) ∧
    (∀ (ctx : SearchContext) (Target : PixelBuffer) (source_file : WString)
        (st : SearchState),
      (search_unscaled host env params ctx Target source_file st).1 =
        SearchForBitmap env ctx.Source Target ctx.search_offset_x ctx.search_offset_y
          ctx.tolerance Target.has_alpha ctx.find_all 1 (String.mk source_file) ∧
      (search_unscaled host env params ctx Target source_file st).2.world = st.world) ∧
    (∀ (info : SourceInfo) (Source Target : PixelBuffer) (file : WString),
      acquire_source host params = Except.ok info → info.Source_opt = some Source →
      Source.IsValid = true → target_files_of params = [file] →
      params.mode ≠ SearchMode.HBitmapSearch →
      host.LoadImageFromFile_GDI file = some Target → Target.IsValid = true →
      params.min_scale = 1 → params.max_scale = 1 →
      o.all_matches =
        SearchForBitmap env Source Target info.search_offset_x info.search_offset_y
          (clamp params.tolerance 0 255) Target.has_alpha (decide (params.max_results ≥ 2)) 1
          (String.mk file)) := by
  refine ⟨?_, ?_, ?_⟩
  · unfold UnifiedImageSearch_run at h
    simp only [] at h
    cases hacq : acquire_source host params with
    | error text =>
      rw [hacq] at h
      simp only [Option.some.injEq] at h
      rw [← h]
      exact ⟨rfl, rfl, rfl⟩
    | ok info =>
      rw [hacq] at h
      simp only [] at h
      cases hsrc : info.Source_opt.filter PixelBuffer.IsValid with
      | none =>
        rw [hsrc] at h
        simp only [Option.some.injEq] at h
        rw [← h]
        exact ⟨rfl, rfl, rfl⟩
      | some Source =>
        rw [hsrc] at h
        simp only [] at h
        by_cases htf : target_files_of params = []
        · rw [if_pos htf] at h
          simp only [Option.some.injEq] at h
          rw [← h]
          exact ⟨rfl, rfl, rfl⟩
        · rw [if_neg htf] at h
          cases hl : target_loop host env fuel params (search_context params info Source)
              (target_files_of params) (load_futures host params (target_files_of params)) 0
              ⟨w, 0, 0, [], []⟩ with
          | none => rw [hl] at h; exact absurd h (by simp)
          | some r =>
            rw [hl] at h
            simp only [Option.some.injEq] at h
            rw [← h]
            exact target_loop_no_cache host env fuel params _ _ _ 0 _ r hc hl
  · intro ctx Target source_file st
    exact ⟨(search_unscaled_no_cache_matches host env params ctx Target source_file st hc).1,
      (search_unscaled_no_cache host env params ctx Target source_file st hc).1⟩
  · intro info Source Target file hacq hsrc hvalid htf hmode hload htv hmin hmax
    obtain ⟨o2, ho2, hm, -⟩ := UnifiedImageSearch_run_single host env fuel params w info
      Source Target file hacq hsrc hvalid htf hmode hload htv hmin hmax
    rw [h] at ho2
    simp only [Option.some.injEq] at ho2
    rw [ho2, hm]
    exact (search_unscaled_no_cache_matches host env params _ Target file _ hc).1

/-- Witness of C26: the sample image-in-image search for the targets `a|b` with the cache
disabled, started with a cache that holds an entry: the entry, the cache files and the
log of disk calls are untouched and neither hit nor miss is counted. -/
theorem UnifiedImageSearch_cache_disabled_witness :
    ∃ o : SearchOutcome,
      UnifiedImageSearch_run sample_host sample_env 0 sample_params
        (world_with_entry "s|a|0|0|1.0".toList 1 0) = some o ∧
      o.state.world = world_with_entry "s|a|0|0|1.0".toList 1 0 ∧
      o.state.cache_hits = 0 ∧ o.state.cache_misses = 0 := by
  have hres : (UnifiedImageSearch_run sample_host sample_env 0 sample_params
      (world_with_entry "s|a|0|0|1.0".toList 1 0)).isSome = true := by
    simp only [UnifiedImageSearch_run, sample_context]
    decide
  obtain ⟨o, ho⟩ := Option.isSome_iff_exists.1 hres
  exact ⟨o, ho,
    (UnifiedImageSearch_cache_disabled sample_host sample_env 0 sample_params
      (world_with_entry "s|a|0|0|1.0".toList 1 0) o rfl ho).1⟩

/-! ### The cache files -/

theorem isDigit_not_special (c : Char) (h : c.isDigit = true) :
    iswspace c = false ∧ c ≠ '-' ∧ c ≠ '+' ∧ c ≠ '|' ∧ c ≠ '\n' := by
  have hne : ∀ d : Char, d.isDigit = false → c ≠ d := by
    intro d hd hcd
    rw [hcd, hd] at h
    exact absurd h (by decide)
  have h1 := hne ' ' (by decide)
  have h2 := hne '\t' (by decide)
  have h3 := hne '\n' (by decide)
  have h4 := hne '\x0b' (by decide)
  have h5 := hne '\x0c' (by decide)
  have h6 := hne '\r' (by decide)
  refine ⟨?_, hne '-' (by decide), hne '+' (by decide), hne '|' (by decide), h3⟩
  unfold iswspace
  simp [h1, h2, h3, h4, h5, h6]

theorem to_wstring_chars (v : Int) :
    ∀ c ∈ to_wstring v, c.isDigit = true ∨ c = '-' := by
  intro c hc
  unfold to_wstring at hc
  obtain ⟨-, hd, -⟩ := toDigits_spec v.natAbs
  split_ifs at hc
  · rw [List.mem_cons] at hc
    rcases hc with h | h
    · exact Or.inr h
    · exact Or.inl (hd c h)
  · exact Or.inl (hd c hc)

/-- The library function `std::stoi` reads back the decimal text of an `int`, also when
text that does not start with a digit follows. -/
theorem stoi_to_wstring (v : Int) (rest : WString) (h0 : -2147483648 ≤ v)
    (h1 : v ≤ 2147483647) (hrest : ∀ c ∈ rest.head?, c.isDigit = false) :
    stoi (to_wstring v ++ rest) = some v := by
  obtain ⟨hne, hd, hval⟩ := toDigits_spec v.natAbs
  have htake : (Nat.toDigits 10 v.natAbs ++ rest).takeWhile Char.isDigit =
      Nat.toDigits 10 v.natAbs := by
    rw [List.takeWhile_append_of_pos hd]
    cases rest with
    | nil => simp
    | cons c r =>
      have hc : c.isDigit = false := hrest c (by simp)
      simp [List.takeWhile_cons, hc]
  cases hds : Nat.toDigits 10 v.natAbs with
  | nil => exact absurd hds hne
  | cons d ds =>
    have hdd : d.isDigit = true := hd d (by rw [hds]; exact List.mem_cons_self _ _)
    obtain ⟨s1, s2, s3, -, -⟩ := isDigit_not_special d hdd
    rw [hds] at htake hval
    have htake2 : (d :: (ds ++ rest)).takeWhile Char.isDigit = d :: ds := htake
    unfold stoi to_wstring
    by_cases hneg : v < 0
    · rw [if_pos hneg, hds]
      have hdrop : ('-' :: (d :: (ds ++ rest))).dropWhile iswspace =
          '-' :: (d :: (ds ++ rest)) := by
        simp [List.dropWhile_cons, iswspace]
      simp only [List.cons_append, hdrop, List.head?_cons, true_or, if_true, List.tail_cons,
        htake2, reduceCtorEq, if_false, hval]
      rw [if_neg (by omega)]
      congr 1
      omega
    · rw [if_neg hneg, hds]
      have hdrop : (d :: (ds ++ rest)).dropWhile iswspace = d :: (ds ++ rest) := by
        simp [List.dropWhile_cons, s1]
      have hh1 : ¬ (some d = some '-' ∨ some d = some '+') := by
        simp only [Option.some.injEq]
        exact fun h => h.elim s2 s3
      have hh2 : ¬ ((some d : Option Char) = some '-') := by
        simp only [Option.some.injEq]
        exact s2
      simp only [List.cons_append, hdrop, List.head?_cons, if_neg hh1, htake2, reduceCtorEq,
        if_false, hval, if_neg hh2]
      rw [if_neg (by omega)]
      congr 1
      omega

theorem stoi_no_digit (s : WString) (h : ∀ c ∈ s, c.isDigit = false) : stoi s = none := by
  unfold stoi
  simp only []
  have hsub : ∀ c ∈ (if (s.dropWhile iswspace).head? = some '-' ∨
      (s.dropWhile iswspace).head? = some '+' then (s.dropWhile iswspace).tail
      else s.dropWhile iswspace), c.isDigit = false := by
    intro c hc
    apply h
    split_ifs at hc
    · exact (List.dropWhile_sublist _).subset (List.mem_of_mem_tail hc)
    · exact (List.dropWhile_sublist _).subset hc
  have hnil : (if (s.dropWhile iswspace).head? = some '-' ∨
      (s.dropWhile iswspace).head? = some '+' then (s.dropWhile iswspace).tail
      else s.dropWhile iswspace).takeWhile Char.isDigit = [] := by
    generalize (if (s.dropWhile iswspace).head? = some '-' ∨
      (s.dropWhile iswspace).head? = some '+' then (s.dropWhile iswspace).tail
      else s.dropWhile iswspace) = t at hsub
    cases t with
    | nil => rfl
    | cons c r =>
      have := hsub c (List.mem_cons_self _ _)
      simp [List.takeWhile_cons, this]
  rw [if_pos hnil]

/-- The record that `SaveCacheForImage` writes is split by `LoadCacheForImage` into the
decimal texts of the two coordinates. -/
theorem cache_record_split (x y : Int) :
    (to_wstring x ++ "|".toList ++ to_wstring y).takeWhile (fun c => c != '\n') =
        to_wstring x ++ "|".toList ++ to_wstring y ∧
      '|' ∈ to_wstring x ++ "|".toList ++ to_wstring y ∧
      (to_wstring x ++ "|".toList ++ to_wstring y).takeWhile (fun c => c != '|') =
        to_wstring x ∧
      ((to_wstring x ++ "|".toList ++ to_wstring y).dropWhile fun c => c != '|').tail =
        to_wstring y := by
  have hx : ∀ c ∈ to_wstring x, (c != '|') = true ∧ (c != '\n') = true := by
    intro c hc
    rcases to_wstring_chars x c hc with h | h
    · obtain ⟨-, -, -, h4, h5⟩ := isDigit_not_special c h
      simp [h4, h5]
    · rw [h]; decide
  have hy : ∀ c ∈ to_wstring y, (c != '|') = true ∧ (c != '\n') = true := by
    intro c hc
    rcases to_wstring_chars y c hc with h | h
    · obtain ⟨-, -, -, h4, h5⟩ := isDigit_not_special c h
      simp [h4, h5]
    · rw [h]; decide
  refine ⟨?_, by simp, ?_, ?_⟩
  · rw [List.takeWhile_eq_self_iff]
    intro c hc
    rw [List.mem_append, List.mem_append] at hc
    rcases hc with (h | h) | h
    · exact (hx c h).2
    · simp only [String.toList, List.mem_singleton] at h
      rw [h]; decide
    · exact (hy c h).2
  · rw [List.append_assoc, List.takeWhile_append_of_pos fun c hc => (hx c hc).1]
    simp [List.takeWhile_cons]
  · rw [List.append_assoc, List.dropWhile_append_of_pos fun c hc => (hx c hc).1]
    simp [List.dropWhile_cons]

/-- C27, evaluation of the code where it departs from the claim: a record whose first
field is not a number, `12abc|5`, is loaded as the position (12, 5), and the record
`1|2|3` as the position (1, 2): `std::stoi` converts the longest numeric prefix of a field
and ignores what follows. -/
theorem LoadCacheForImage_reads_numeric_prefix :
    entry_of "k".toList
        (LoadCacheForImage sample_host (world_with_file "k".toList "12abc|5".toList)
          "k".toList).cache.g_location_cache_lru = some ⟨⟨12, 5⟩, 0, 0⟩ ∧
      entry_of "k".toList
        (LoadCacheForImage sample_host (world_with_file "k".toList "1|2|3".toList)
          "k".toList).cache.g_location_cache_lru = some ⟨⟨1, 2⟩, 0, 0⟩ := by
  constructor <;> decide

/-- C27, amended claim. When the cache-file mutex exists and is locked and the key is not
empty: for every position (x, y) with -10000 <= x <= 50000 and -10000 <= y <= 50000,
`LoadCacheForImage` run on the record that `SaveCacheForImage` has written for the key
(the decimal x, the character `|`, the decimal y) stores for the key, at the front of the
list, the entry with exactly the position (x, y) and miss counter 0; for a position of
`int` coordinates with one outside that range the load leaves the cache as it is. For any
content of the cache file, the load leaves the cache as it is when the first line has no
`|`, and when `std::stoi` fails on one of the two fields, which it does on every field
without a digit. The load always returns. -/
theorem SaveCacheForImage_LoadCacheForImage_roundtrip (host : Host) (w : World)
    (key : WString) (pos : POINT) (content : WString) (hkey : key ≠ [])
    (hm : host.g_hCacheFileMutex = true) (hl : host.file_lock_IsLocked = true)
    (hx : -2147483648 ≤ pos.x ∧ pos.x ≤ 2147483647)
    (hy : -2147483648 ≤ pos.y ∧ pos.y ≤ 2147483647) :
    (SaveCacheForImage host w key pos).files (host.GetCacheFileForImage key) =
        some (to_wstring pos.x ++ "|".toList ++ to_wstring pos.y) ∧
    (pos.x ≥ -10000 ∧ pos.x ≤ 50000 ∧ pos.y ≥ -10000 ∧ pos.y ≤ 50000 →
      (LoadCacheForImage host (SaveCacheForImage host w key pos) key).cache =
          LoadCacheForImage_locked w.cache key ⟨pos, 0, host.now⟩ ∧
        (LoadCacheForImage host (SaveCacheForImage host w key pos)
            key).cache.g_location_cache_lru.head? = some (key, ⟨pos, 0, host.now⟩) ∧
        entry_of key (LoadCacheForImage host (SaveCacheForImage host w key pos)
            key).cache.g_location_cache_lru = some ⟨pos, 0, host.now⟩) ∧
    (¬ (pos.x ≥ -10000 ∧ pos.x ≤ 50000 ∧ pos.y ≥ -10000 ∧ pos.y ≤ 50000) →
      (LoadCacheForImage host (SaveCacheForImage host w key pos) key).cache = w.cache) ∧
    (w.files (host.GetCacheFileForImage key) = some content →
      ('|' ∉ content.takeWhile (fun c => c != '\n') ∨
          stoi ((content.takeWhile fun c => c != '\n').takeWhile fun c => c != '|') = none ∨
          stoi (((content.takeWhile fun c => c != '\n').dropWhile fun c => c != '|').tail) =
            none →
        (LoadCacheForImage host w key).cache = w.cache)) ∧
    (∀ field : WString, (∀ c ∈ field, c.isDigit = false) → stoi field = none) := by
  obtain ⟨c1, c2, c3, c4⟩ := cache_record_split pos.x pos.y
  have hsx := stoi_to_wstring pos.x [] hx.1 hx.2 (by simp)
  have hsy := stoi_to_wstring pos.y [] hy.1 hy.2 (by simp)
  rw [List.append_nil] at hsx hsy
  have hsave : (SaveCacheForImage host w key pos).files (host.GetCacheFileForImage key) =
      some (to_wstring pos.x ++ "|".toList ++ to_wstring pos.y) := by
    unfold SaveCacheForImage
    simp only []
    rw [if_neg hkey, if_neg (by simp [hm]), if_neg (by simp [hl])]
    simp only [if_true]
  have hcache : (SaveCacheForImage host w key pos).cache = w.cache := by
    unfold SaveCacheForImage
    simp only []
    rw [if_neg hkey, if_neg (by simp [hm]), if_neg (by simp [hl])]
  have hload : (LoadCacheForImage host (SaveCacheForImage host w key pos) key).cache =
      if pos.x ≥ -10000 ∧ pos.x ≤ 50000 ∧ pos.y ≥ -10000 ∧ pos.y ≤ 50000 then
        LoadCacheForImage_locked w.cache key ⟨pos, 0, host.now⟩
      else w.cache := by
    unfold LoadCacheForImage
    simp only []
    rw [if_neg hkey, if_neg (by simp [hm]), if_neg (by simp [hl]), hsave]
    simp only [c1, c3, c4, hsx, hsy]
    rw [if_pos c2]
    split_ifs
    · rw [hcache]
    · exact hcache
  refine ⟨hsave, ?_, ?_, ?_, stoi_no_digit⟩
  · intro hr
    rw [hload, if_pos hr]
    have hhead : (LoadCacheForImage_locked w.cache key
        ⟨pos, 0, host.now⟩).g_location_cache_lru.head? = some (key, ⟨pos, 0, host.now⟩) := by
      unfold LoadCacheForImage_locked
      simp only [_RebuildCacheIndex, pop_back_while_self]
      rfl
    exact ⟨rfl, hhead, (entry_of_head key _ _ hhead).1⟩
  · intro hr
    rw [hload, if_neg hr]
  · intro hfile hbad
    unfold LoadCacheForImage
    simp only []
    rw [if_neg hkey, if_neg (by simp [hm]), if_neg (by simp [hl]), hfile]
    simp only []
    by_cases hbar : '|' ∈ content.takeWhile (fun c => c != '\n')
    · rw [if_pos hbar]
      rcases hbad with h | h | h
      · exact absurd hbar h
      · rw [h]
      · cases hsx2 : stoi ((content.takeWhile fun c => c != '\n').takeWhile
            fun c => c != '|') with
        | none => rfl
        | some x => simp only [h]
    · rw [if_neg hbar]

/-- Witness of the amended C27: the position (20, 30) saved for the key `k` and loaded
again. -/
theorem SaveCacheForImage_LoadCacheForImage_roundtrip_witness :
    entry_of "k".toList
        (LoadCacheForImage sample_host
          (SaveCacheForImage sample_host sample_world "k".toList ⟨20, 30⟩)
          "k".toList).cache.g_location_cache_lru = some ⟨⟨20, 30⟩, 0, 0⟩ :=
  ((SaveCacheForImage_LoadCacheForImage_roundtrip sample_host sample_world "k".toList
    ⟨20, 30⟩ [] (by decide) rfl rfl (by decide) (by decide)).2.1 (by decide)).2.2

/-! ### The scale step -/

/-- A scale step below 0.05 is clamped to at least 0.01 and then rounded to one decimal,
which gives 0. -/
theorem search_context_step_zero (params : SearchParams) (info : SourceInfo)
    (Source : PixelBuffer) (h : params.scale_step < 1 / 20) :
    (search_context params info Source).scale_step = 0 := by
  simp only [search_context]
  have hc : clampf params.scale_step (1 / 100) 1 * 10 < 1 / 2 ∧
      0 ≤ clampf params.scale_step (1 / 100) 1 * 10 := by
    unfold clampf
    split_ifs <;> constructor <;> linarith
  have hr : std_round (clampf params.scale_step (1 / 100) 1 * 10) = 0 := by
    unfold std_round
    rw [if_pos hc.2]
    rw [Int.floor_eq_iff]
    constructor
    · push_cast; linarith [hc.2]
    · push_cast; linarith [hc.1]
  rw [hr]
  norm_num

/-- A scale step of at least 0.05 gives an effective step of at least 0.1. -/
theorem search_context_step_pos (params : SearchParams) (info : SourceInfo)
    (Source : PixelBuffer) (h : 1 / 20 ≤ params.scale_step) :
    1 / 10 ≤ (search_context params info Source).scale_step := by
  simp only [search_context]
  have hc : 1 / 2 ≤ clampf params.scale_step (1 / 100) 1 * 10 := by
    unfold clampf
    split_ifs <;> linarith
  have hr : 1 ≤ std_round (clampf params.scale_step (1 / 100) 1 * 10) := by
    unfold std_round
    rw [if_pos (by linarith)]
    rw [Int.le_floor]
    push_cast
    linarith
  have hr2 : (1 : Rat) ≤ (std_round (clampf params.scale_step (1 / 100) 1 * 10) : Rat) := by
    exact_mod_cast hr
  linarith

/-- With step 0 the loop that builds the scales does not end, however many rounds it is
given, when it starts at a scale that is not above `max_scale`. -/
theorem build_scales_step_zero (max_scale : Rat) (fuel : Nat) (scale : Rat)
    (h : scale ≤ max_scale) : build_scales max_scale 0 fuel scale = none := by
  induction fuel with
  | zero => simp [build_scales, h]
  | succ n ih =>
    unfold build_scales
    rw [if_pos h, add_zero, ih]
    rfl

/-- With a positive step the loop that builds the scales ends within `fuel` rounds as
soon as `fuel` steps lead beyond `max_scale`, and the list is not empty when the first
scale is not above `max_scale`. -/
theorem build_scales_terminates (max_scale scale_step : Rat) (fuel : Nat) (scale : Rat)
    (hfuel : max_scale < scale + fuel * scale_step) :
    ∃ scales, build_scales max_scale scale_step fuel scale = some scales ∧
      (scale ≤ max_scale → scales ≠ []) := by
  induction fuel generalizing scale with
  | zero =>
    have : ¬ scale ≤ max_scale := by
      simp only [Nat.cast_zero, zero_mul, add_zero] at hfuel
      linarith
    exact ⟨[], by simp [build_scales, this], fun h => absurd h this⟩
  | succ n ih =>
    unfold build_scales
    by_cases hle : scale ≤ max_scale
    · rw [if_pos hle]
      obtain ⟨rest, hrest, -⟩ := ih (scale + scale_step) (by push_cast at hfuel; linarith)
      rw [hrest]
      exact ⟨_, rfl, fun _ => List.cons_ne_nil _ _⟩
    · rw [if_neg hle]
      exact ⟨[], rfl, fun h => absurd h hle⟩

theorem scaled_context (info : SourceInfo) (Source : PixelBuffer) :
    search_context (scaled_params (1 / 25)) info Source =
      ⟨Source, info.Source_source, info.search_offset_x, info.search_offset_y,
        info.capture_left, info.capture_top, info.capture_right, info.capture_bottom,
        info.capture_width, info.capture_height, 0, 1 / 2, 1, 0, false, false⟩ := by
  have hstep := search_context_step_zero (scaled_params (1 / 25)) info Source
    (by simp only [scaled_params]; norm_num)
  simp only [search_context, scaled_params] at hstep ⊢
  rw [hstep]
  norm_num [clampf, clamp]
  rw [abs_of_pos (by norm_num : (0 : Rat) < 1 / 2)]
  norm_num

/-- The search of a target over a range of scales does not return when the loop that
builds the scales does not end. -/
theorem target_loop_scales_none (host : Host) (env : SearchEnv) (fuel : Nat)
    (params : SearchParams) (ctx : SearchContext) (target_files : List WString)
    (Target : PixelBuffer) (rest : List (Option PixelBuffer)) (i : Nat) (st : SearchState)
    (hv : Target.IsValid = true) (hskip : ctx.skip_scaling = false)
    (hnone : build_scales ctx.max_scale ctx.scale_step fuel ctx.min_scale = none) :
    target_loop host env fuel params ctx target_files (some Target :: rest) i st = none := by
  unfold target_loop
  simp only []
  rw [if_neg (by simp [hv])]
  simp only [search_target, hskip, Bool.false_eq_true, if_false, hnone]

/-- C28, evaluation of the code, with `float` values taken as rational numbers. A scale
step below 0.05, after the clamp to [0.01, 1.0] and the rounding to one decimal, is 0, not
positive. With step 0 the loop that builds the list of scales never ends, whatever bound
on its rounds: the sample image-in-image search over the scale range 0.5 to 1.0 with
`scale_step` = 0.04 does not return for any bound. For a scale step of at least 0.05 the
effective step is at least 0.1 and the loop ends within 50 rounds with a non-empty
list. -/
theorem UnifiedImageSearch_small_scale_step_never_returns :
    (∀ (params : SearchParams) (info : SourceInfo) (Source : PixelBuffer),
      params.scale_step < 1 / 20 → (search_context params info Source).scale_step = 0) ∧
    (∀ (max_scale : Rat) (fuel : Nat) (scale : Rat), scale ≤ max_scale →
      build_scales max_scale 0 fuel scale = none) ∧
    (∀ fuel : Nat,
      UnifiedImageSearch sample_host sample_env fuel (scaled_params (1 / 25)) sample_world =
        none) ∧
    (∀ (params : SearchParams) (info : SourceInfo) (Source : PixelBuffer),
      1 / 20 ≤ params.scale_step →
      1 / 10 ≤ (search_context params info Source).scale_step ∧
      ∃ scales,
        build_scales (search_context params info Source).max_scale
          (search_context params info Source).scale_step 50
          (search_context params info Source).min_scale = some scales ∧
        scales ≠ []) := by
  refine ⟨search_context_step_zero, build_scales_step_zero, ?_, ?_⟩
  · intro fuel
    have hacq : acquire_source sample_host (scaled_params (1 / 25)) =
        Except.ok ⟨some ⟨[sample_black, sample_white], 2, 1, false, true⟩, "s".toList, 0, 0,
          0, 0, 0, 0, 0, 0⟩ := rfl
    have hvalid : (⟨[sample_black, sample_white], 2, 1, false, true⟩ : PixelBuffer).IsValid =
        true := by decide
    have htf : target_files_of (scaled_params (1 / 25)) = ["a".toList] := by decide
    have hfut : load_futures sample_host (scaled_params (1 / 25)) ["a".toList] =
        [some ⟨[sample_white], 1, 1, false, true⟩] := by decide
    unfold UnifiedImageSearch UnifiedImageSearch_run
    simp only [hacq, Option.filter, hvalid, if_true, htf, hfut, scaled_context]
    rw [if_neg (by decide)]
    rw [target_loop_scales_none _ _ _ _ _ _ _ _ _ _ (by decide) rfl
      (build_scales_step_zero _ _ _ (by norm_num))]
    rfl
  · intro params info Source hstep
    have hpos := search_context_step_pos params info Source hstep
    refine ⟨hpos, ?_⟩
    have hmin : 1 / 10 ≤ (search_context params info Source).min_scale ∧
        (search_context params info Source).min_scale ≤
          (search_context params info Source).max_scale ∧
        (search_context params info Source).max_scale ≤ 5 := by
      simp only [search_context]
      unfold clampf
      split_ifs <;> refine ⟨?_, ?_, ?_⟩ <;> linarith
    obtain ⟨scales, h1, h2⟩ := build_scales_terminates
      (search_context params info Source).max_scale
      (search_context params info Source).scale_step 50
      (search_context params info Source).min_scale (by push_cast; linarith [hmin.1, hmin.2.2])
    exact ⟨scales, h1, h2 hmin.2.1⟩

/-- Witness of C28: the effective step of the sample call with `scale_step` = 0.04. -/
theorem UnifiedImageSearch_small_scale_step_never_returns_witness :
    (search_context (scaled_params (1 / 25))
      ⟨none, [], 0, 0, 0, 0, 0, 0, 0, 0⟩ ⟨[], 0, 0, false, false⟩).scale_step = 0 :=
  UnifiedImageSearch_small_scale_step_never_returns.1 (scaled_params (1 / 25))
    ⟨none, [], 0, 0, 0, 0, 0, 0, 0, 0⟩ ⟨[], 0, 0, false, false⟩
    (by simp only [scaled_params]; norm_num)

/-! ### The invariant of the location cache on reachable states -/

/-- Each call keeps the location cache consistent, a `LoadCacheForImage` provided its key
has no entry. -/
theorem apply_cache_call_consistent (c : LocationCache) (call : CacheCall)
    (hc : c.Consistent)
    (hload : ∀ k e, call = CacheCall.LoadCacheForImage k e →
      k ∉ c.g_location_cache_lru.map Prod.fst) :
    (apply_cache_call c call).Consistent := by
  cases call with
  | UpdateCachedLocation k e => exact (UpdateCachedLocation_spec c k e hc).2
  | GetCachedLocation k now => exact (GetCachedLocation_spec c k now hc).2.2
  | RemoveFromCache k =>
    show (if k = [] then c else RemoveFromCache_locked c k).Consistent
    split_ifs
    · exact hc
    · exact (RemoveFromCache_locked_spec c k hc).2
  | ClearCache => exact LocationCache_empty_consistent
  | LoadCacheForImage k e =>
    show (LoadCacheForImage_locked c k e).Consistent
    rw [LoadCacheForImage_locked_eq c k e hc (hload k e rfl)]
    exact (UpdateCachedLocation_spec c k e hc).2

/-- C29. Main build: every state of the in-memory location cache that is reached from a
consistent state, in particular from the empty cache, by a sequence of calls of
`UpdateCachedLocation`, `GetCachedLocation`, `RemoveFromCache`, `ImageSearch_ClearCache`
and `LoadCacheForImage`, the last only for a key that has no entry at that moment, has at
most 100 entries in the list, no key twice, and an index that maps exactly the keys of the
list, each to the position at which its entry sits (`find_key` is `none` for a key that is
not in the list). -/
theorem LocationCache_reachable_consistent (calls : List CacheCall) (c : LocationCache)
    (hc : c.Consistent) (hloads : loads_only_absent c calls = true) :
    (run_cache_calls c calls).g_location_cache_lru.length ≤ 100 ∧
      ((run_cache_calls c calls).g_location_cache_lru.map Prod.fst).Nodup ∧
      (∀ k : WString, (run_cache_calls c calls).g_location_cache_index k =
        find_key k (run_cache_calls c calls).g_location_cache_lru) ∧
      (∀ (k : WString) (j : Nat), (run_cache_calls c calls).g_location_cache_index k = some j →
        j < (run_cache_calls c calls).g_location_cache_lru.length ∧
        ((run_cache_calls c calls).g_location_cache_lru.getD j default).1 = k) ∧
      (∀ item ∈ (run_cache_calls c calls).g_location_cache_lru,
        ((run_cache_calls c calls).g_location_cache_index item.1).isSome = true) := by
  have hcons : (run_cache_calls c calls).Consistent := by
    induction calls generalizing c with
    | nil => exact hc
    | cons call rest ih =>
      unfold loads_only_absent at hloads
      rw [Bool.and_eq_true] at hloads
      unfold run_cache_calls
      rw [List.foldl_cons]
      refine ih _ (apply_cache_call_consistent c call hc ?_) hloads.2
      intro k e hcall
      have h1 := hloads.1
      rw [hcall] at h1
      simpa using h1
  obtain ⟨h1, h2, h3⟩ := hcons
  refine ⟨h1, h2, h3, ?_, ?_⟩
  · intro k j hj
    rw [h3 k] at hj
    obtain ⟨a, b, -, -⟩ := find_key_some k _ j hj
    exact ⟨a, b⟩
  · intro item hitem
    rw [h3 item.1]
    cases hf : find_key item.1 (run_cache_calls c calls).g_location_cache_lru with
    | none =>
      exact absurd (List.mem_map_of_mem Prod.fst hitem) ((find_key_none _ _).1 hf)
    | some j => rfl

/-- Witness of C29: from the empty cache, an update, a load for an absent key, a lookup, a
removal, a clear and an update. -/
theorem LocationCache_reachable_consistent_witness :
    (run_cache_calls LocationCache.empty
        [CacheCall.UpdateCachedLocation "a".toList ⟨⟨1, 2⟩, 0, 0⟩,
          CacheCall.LoadCacheForImage "b".toList ⟨⟨3, 4⟩, 0, 1⟩,
          CacheCall.GetCachedLocation "a".toList 2,
          CacheCall.RemoveFromCache "b".toList,
          CacheCall.UpdateCachedLocation "c".toList ⟨⟨5, 6⟩, 0, 3⟩]).g_location_cache_lru =
        [("c".toList, ⟨⟨5, 6⟩, 0, 3⟩), ("a".toList, ⟨⟨1, 2⟩, 0, 0⟩)] ∧
      ∀ k : WString,
        (run_cache_calls LocationCache.empty
          [CacheCall.UpdateCachedLocation "a".toList ⟨⟨1, 2⟩, 0, 0⟩,
            CacheCall.LoadCacheForImage "b".toList ⟨⟨3, 4⟩, 0, 1⟩,
            CacheCall.GetCachedLocation "a".toList 2,
            CacheCall.RemoveFromCache "b".toList,
            CacheCall.UpdateCachedLocation "c".toList ⟨⟨5, 6⟩, 0, 3⟩]).g_location_cache_index
          k =
        find_key k
          (run_cache_calls LocationCache.empty
            [CacheCall.UpdateCachedLocation "a".toList ⟨⟨1, 2⟩, 0, 0⟩,
              CacheCall.LoadCacheForImage "b".toList ⟨⟨3, 4⟩, 0, 1⟩,
              CacheCall.GetCachedLocation "a".toList 2,
              CacheCall.RemoveFromCache "b".toList,
              CacheCall.UpdateCachedLocation "c".toList
                ⟨⟨5, 6⟩, 0, 3⟩]).g_location_cache_lru :=
  ⟨by decide,
    (LocationCache_reachable_consistent
      [CacheCall.UpdateCachedLocation "a".toList ⟨⟨1, 2⟩, 0, 0⟩,
        CacheCall.LoadCacheForImage "b".toList ⟨⟨3, 4⟩, 0, 1⟩,
        CacheCall.GetCachedLocation "a".toList 2,
        CacheCall.RemoveFromCache "b".toList,
        CacheCall.UpdateCachedLocation "c".toList ⟨⟨5, 6⟩, 0, 3⟩]
      LocationCache.empty LocationCache_empty_consistent (by decide)).2.2.1⟩

/-! ### Positions reported twice -/

/-- A call for a single target at scale range 1.0 to 1.0 that counts no cache hit
assembles a list in strict order of row, then column. -/
theorem single_target_matches_sorted (host : Host) (env : SearchEnv) (fuel : Nat)
    (params : SearchParams) (w : World) (o : SearchOutcome) (hsort : env.SortContract)
    (hmin : params.min_scale = 1) (hmax : params.max_scale = 1)
    (hsingle : (target_files_of params).length = 1)
    (h : UnifiedImageSearch_run host env fuel params w = some o)
    (hhit : o.state.cache_hits = 0) :
    o.all_matches.Pairwise fun a b => a.y < b.y ∨ (a.y = b.y ∧ a.x < b.x) := by
  rcases UnifiedImageSearch_run_cases host env fuel params w o h with h1 | h1
  · rw [h1.1]
    exact List.Pairwise.nil
  · obtain ⟨info, Source, -, -, -, -, hloop, -⟩ := h1
    have hskip := search_context_unit_scale params info Source hmin hmax
    rcases target_loop_single host env fuel params _ _ _ 0 _ _
      (load_futures_single host params _ hsingle) hskip hloop with hr | ⟨Target, file, hr⟩
    · have h1 : o.all_matches = [] := congrArg Prod.fst hr
      rw [h1]
      exact List.Pairwise.nil
    · have h1 : o.all_matches = (search_unscaled host env params
          (search_context params info Source) Target file ⟨w, 0, 0, [], []⟩).1 :=
        congrArg Prod.fst hr
      have h2 : o.state = (search_unscaled host env params
          (search_context params info Source) Target file ⟨w, 0, 0, [], []⟩).2 :=
        congrArg Prod.snd hr
      obtain ⟨found, cached, s1, -, s3, s4⟩ := search_unscaled_spec host env params
        (search_context params info Source) Target file ⟨w, 0, 0, [], []⟩
      have hfound : found = false := by
        cases found with
        | false => rfl
        | true =>
          have := (s4 rfl).2.1
          rw [← h2, hhit] at this
          simp only [zero_add] at this
          exact absurd this (by decide)
      subst hfound
      rw [(s3 rfl).1] at s1
      simp only [Bool.not_false, Bool.true_or, if_true, List.nil_append] at s1
      rw [h1, s1]
      exact (SearchForBitmap_sorted_sized env _ Target _ _ _ _ _ 1 (String.mk file) hsort).1

/-- C30, evaluation of the code. A screen search in the region (0, 0)-(2, 1) of monitor 1
for all matches of the single target `a` at scale 1 with tolerance 255, cache enabled, the
cache holding the position (1, 0) for the key of the search: the target matches at (0, 0)
and (1, 0); the call confirms the cached position, puts it on the list and then appends
the result of the full scan, so the list it assembles holds the position (1, 0) twice and
three records are returned for two matches. The cache gets into that state by an earlier
first-match search for the same target in the region (1, 0)-(2, 1), which finds (1, 0) and
stores it under the same key; the two calls in a row, started with an empty cache, give
the three records. The same search with the cache disabled assembles each position once.
In general, a call for a single target at scale range 1.0 to 1.0 that confirms no cached
position assembles no position twice. -/
theorem UnifiedImageSearch_cached_match_twice :
    (UnifiedImageSearch_run sample_host sample_env 0 (screen_params 255 5 1)
        (world_with_entry "Screen|a|255|0|1.0".toList 1 0)).map
        (fun o => (o.all_matches.map fun m => (m.x, m.y), o.state.cache_hits, o.result)) =
      some ([(1, 0), (0, 0), (1, 0)], 1,
        "\x7b3\x7d[1|0|1|1,0|0|1|1,1|0|1|1]".toList) ∧
    (UnifiedImageSearch_run sample_host sample_env 0 (region_params 1 0 2 1 255 1 1)
        sample_world).map (observe_cache "Screen|a|255|0|1.0".toList) =
      some ("\x7b1\x7d[1|0|1|1]".toList, 0, 0, some (⟨1, 0⟩, 0)) ∧
    ((UnifiedImageSearch_run sample_host sample_env 0 (region_params 1 0 2 1 255 1 1)
        sample_world).bind fun o1 =>
      (UnifiedImageSearch_run sample_host sample_env 0 (screen_params 255 5 1)
        o1.state.world).map
        (fun o => (o.all_matches.map fun m => (m.x, m.y), o.state.cache_hits, o.result))) =
      some ([(1, 0), (0, 0), (1, 0)], 1,
        "\x7b3\x7d[1|0|1|1,0|0|1|1,1|0|1|1]".toList) ∧
    (UnifiedImageSearch_run sample_host sample_env 0 (screen_params 255 5 0)
        (world_with_entry "Screen|a|255|0|1.0".toList 1 0)).map
        (fun o => (o.all_matches.map fun m => (m.x, m.y), o.state.cache_hits, o.result)) =
      some ([(0, 0), (1, 0)], 0, "\x7b2\x7d[0|0|1|1,1|0|1|1]".toList) ∧
    (∀ (host : Host) (env : SearchEnv) (fuel : Nat) (params : SearchParams) (w : World)
        (o : SearchOutcome), env.SortContract → params.min_scale = 1 →
        params.max_scale = 1 → (target_files_of params).length = 1 →
        UnifiedImageSearch_run host env fuel params w = some o → o.state.cache_hits = 0 →
        (o.all_matches.map fun m => (m.x, m.y)).Nodup) := by
  have h1 := search_context_eq (region_params 1 0 2 1 255 1 1) rfl rfl rfl
  have h2 := search_context_eq (screen_params 255 5 1) rfl rfl rfl
  refine ⟨?_, ?_, ?_, ?_, ?_⟩
  · have hctx := search_context_eq (screen_params 255 5 1) rfl rfl rfl
    simp only [UnifiedImageSearch_run, hctx]
    decide
  · simp only [UnifiedImageSearch_run, sample_host_pixel_source, h1]
    decide
  · simp only [UnifiedImageSearch_run, sample_host_pixel_source, sample_host_source, h1, h2]
    decide
  · have hctx := search_context_eq (screen_params 255 5 0) rfl rfl rfl
    simp only [UnifiedImageSearch_run, hctx]
    decide
  · intro host env fuel params w o hsort hmin hmax hsingle h hhit
    have hs := single_target_matches_sorted host env fuel params w o hsort hmin hmax hsingle h
      hhit
    rw [List.Nodup, List.pairwise_map]
    refine hs.imp ?_
    intro a b hab heq
    simp only [Prod.mk.injEq] at heq
    omega

/-- Witness of C30: the general statement at the screen search for all matches in the
region (0, 0)-(2, 1) of monitor 1 with the cache disabled. -/
theorem UnifiedImageSearch_cached_match_twice_witness :
    ∃ o : SearchOutcome,
      UnifiedImageSearch_run sample_host sample_env 0 (screen_params 255 5 0) sample_world =
        some o ∧
      (o.all_matches.map fun m => (m.x, m.y)).Nodup := by
  have hctx := search_context_eq (screen_params 255 5 0) rfl rfl rfl
  have hres : (UnifiedImageSearch_run sample_host sample_env 0 (screen_params 255 5 0)
      sample_world).map (fun o => o.state.cache_hits) = some 0 := by
    simp only [UnifiedImageSearch_run, sample_host_source, hctx]
    decide
  cases ho : UnifiedImageSearch_run sample_host sample_env 0 (screen_params 255 5 0)
      sample_world with
  | none => rw [ho] at hres; exact absurd hres (by simp)
  | some o =>
    rw [ho] at hres
    exact ⟨o, rfl,
      UnifiedImageSearch_cached_match_twice.2.2.2.2 sample_host sample_env 0
        (screen_params 255 5 0) sample_world o (merge_sort_contract _ _ _ _ _) rfl rfl
        (by decide) ho (by simpa using hres)⟩

end ImageSearchDLL

